import Mathlib

/-!
# MetalRHI state cache: render-target binding and encoder switching

A shallow embedding of `FMetalStateCache`
(`Engine/Source/Runtime/Apple/MetalRHI/Private/MetalStateCache.cpp`).

Conventions of the embedding.

* Pointers are `Option`: `none` is `nullptr` / `nil`.  An RHI texture pointer is
  `Option Nat`, the number being the address of the texture object in the
  texture store `FMetalStateCache.Textures`.
* `uint32` / `uint8` / `int32` quantities are `Nat`; where the source can wrap
  (the `uint8` target masks) the reduction is written out.
* Floating-point values are never computed with by the cache, only stored and
  forwarded; they are carried as their bit patterns (`FReal`).  `CGSize` holds
  values converted from `uint32`, which a 64-bit `CGFloat` represents exactly,
  so its components are `Nat`.
* The command encoder, the swap chain and the engine macros are not part of the
  translated file; each such piece is marked where it is introduced.
* Every function that can halt the process returns the state at the halt
  together with the reason.
* `TemporalHalton2` of `Renderer/Private/PostProcess/PostProcessCircleDOF.cpp`
  is embedded at the end of the definitions; its loop takes fuel, its `int32`
  operands are `Int` with truncating division, and its float operations are
  carried out in exact rational arithmetic.
-/

namespace MetalStateCache

/-! ## RHI request types -/

/-- Bit pattern of a floating-point value that is only stored and forwarded. -/
abbrev FReal := Nat

/-- The constant `UINT_MAX` for the 32-bit `uint32`. -/
def UINT_MAX : Nat := 4294967295

inductive ERenderTargetLoadAction where
  | ENoAction
  | ELoad
  | EClear
deriving DecidableEq, Inhabited

inductive ERenderTargetStoreAction where
  | ENoAction
  | EStore
  | EMultisampleResolve
deriving DecidableEq, Inhabited

inductive ERHIResourceType where
  | RRT_Texture2D
  | RRT_Texture2DArray
  | RRT_Texture3D
  | RRT_TextureCube
  | RRT_None
deriving DecidableEq, Inhabited

inductive ERasterizerFillMode where
  | FM_Point
  | FM_Wireframe
  | FM_Solid
deriving DecidableEq, Inhabited

inductive ERasterizerCullMode where
  | CM_None
  | CM_CW
  | CM_CCW
deriving DecidableEq, Inhabited

/-- One colour slot of a render-target request (`FRHIRenderTargetView`). -/
structure FRHIRenderTargetView where
  Texture : Option Nat
  MipIndex : Nat
  ArraySliceIndex : Nat
  LoadAction : ERenderTargetLoadAction
  StoreAction : ERenderTargetStoreAction
deriving DecidableEq

/-- The default-constructed view: no texture, mip 0, slice `-1`, no actions. -/
instance : Inhabited FRHIRenderTargetView :=
  ⟨{ Texture := none, MipIndex := 0, ArraySliceIndex := 4294967295,
     LoadAction := ERenderTargetLoadAction.ENoAction,
     StoreAction := ERenderTargetStoreAction.ENoAction }⟩

/-- The two write-enable answers of `FExclusiveDepthStencil`. -/
structure FExclusiveDepthStencil where
  IsDepthWrite : Bool
  IsStencilWrite : Bool
deriving DecidableEq, Inhabited

/-- The depth/stencil slot of a request (`FRHIDepthRenderTargetView`). -/
structure FRHIDepthRenderTargetView where
  Texture : Option Nat
  DepthLoadAction : ERenderTargetLoadAction
  DepthStoreAction : ERenderTargetStoreAction
  StencilLoadAction : ERenderTargetLoadAction
  StencilStoreAction : ERenderTargetStoreAction
  DepthStencilAccess : FExclusiveDepthStencil
deriving DecidableEq, Inhabited

/-- A render-target request (`FRHISetRenderTargetsInfo`).  `ColorRenderTarget`
is the fixed array of the source; an index past the end of the list reads the
default-constructed view. -/
structure FRHISetRenderTargetsInfo where
  ColorRenderTarget : List FRHIRenderTargetView
  NumColorRenderTargets : Nat
  bClearColor : Bool
  DepthStencilRenderTarget : FRHIDepthRenderTargetView
  bClearDepth : Bool
  bClearStencil : Bool
deriving DecidableEq, Inhabited

/-- The array read `ColorRenderTarget[Index]`. -/
def FRHISetRenderTargetsInfo.Color (Info : FRHISetRenderTargetsInfo) (Index : Nat) :
    FRHIRenderTargetView :=
  Info.ColorRenderTarget.getD Index default

/-! ## Metal objects -/

inductive MTLPixelFormat where
  | Invalid
  | Depth32Float
  | Stencil8
  | Depth32Float_Stencil8
  | Depth24Unorm_Stencil8
  | Color (code : Nat)
deriving DecidableEq, Inhabited

inductive MTLLoadAction where
  | DontCare
  | Load
  | Clear
deriving DecidableEq, Inhabited

inductive MTLStoreAction where
  | DontCare
  | Store
  | MultisampleResolve
deriving DecidableEq, Inhabited

inductive MTLTriangleFillMode where
  | Fill
  | Lines
deriving DecidableEq, Inhabited

inductive MTLCullMode where
  | None
  | Front
  | Back
deriving DecidableEq, Inhabited

inductive MTLWinding where
  | Clockwise
  | CounterClockwise
deriving DecidableEq, Inhabited

/-- A driver texture object: its identity and the two properties the cache reads. -/
structure MTLTexture where
  Handle : Nat
  pixelFormat : MTLPixelFormat
  sampleCount : Nat
deriving DecidableEq, Inhabited

/-- The read `Texture.pixelFormat`; a message to `nil` answers zero. -/
def pixelFormatOf (Texture : Option MTLTexture) : MTLPixelFormat :=
  match Texture with
  | some T => T.pixelFormat
  | none => MTLPixelFormat.Invalid

/-- The read `Texture.sampleCount`; a message to `nil` answers zero. -/
def sampleCountOf (Texture : Option MTLTexture) : Nat :=
  match Texture with
  | some T => T.sampleCount
  | none => 0

structure MTLClearColor where
  red : FReal
  green : FReal
  blue : FReal
  alpha : FReal
deriving DecidableEq, Inhabited

structure FLinearColor where
  R : FReal
  G : FReal
  B : FReal
  A : FReal
deriving DecidableEq, Inhabited

inductive EClearBinding where
  | ENoneBound
  | EColorBound
  | EDepthStencilBound
deriving DecidableEq, Inhabited

/-- The clear value attached to an RHI texture (`FClearValueBinding`). -/
structure FClearValueBinding where
  ColorBinding : EClearBinding
  ClearColor : FLinearColor
  Depth : FReal
  Stencil : Nat
deriving DecidableEq, Inhabited

/-- The surface behind an RHI texture (`FMetalSurface`).  `NumFaces` is the
answer of `GetNumFaces()`, whose body is outside the translated file;
`SurfaceType` is the member `Type` of the source. -/
structure FMetalSurface where
  SurfaceType : ERHIResourceType
  FormatKey : Nat
  SizeX : Nat
  SizeY : Nat
  SizeZ : Nat
  bIsCubemap : Bool
  Texture : Option MTLTexture
  MSAATexture : Option MTLTexture
  StencilTexture : Option MTLTexture
  NumFaces : Nat
deriving DecidableEq, Inhabited

/-- Modelled from the spec: `FMetalSurface::GetNumFaces`, the face/layer count
of a surface, a `uint32`. -/
def FMetalSurface.GetNumFaces (Surface : FMetalSurface) : Nat :=
  Surface.NumFaces % 4294967296

/-- An RHI texture object: the surface `GetMetalSurfaceFromRHITexture` returns
for it and the binding `GetClearBinding` returns. -/
structure FRHITexture where
  Surface : FMetalSurface
  ClearBinding : FClearValueBinding
deriving DecidableEq, Inhabited

/-- A colour attachment of a render pass.  `clearColor` is `none` until assigned. -/
structure MTLRenderPassColorAttachmentDescriptor where
  texture : Option MTLTexture
  resolveTexture : Option MTLTexture
  level : Nat
  slice : Nat
  depthPlane : Nat
  loadAction : MTLLoadAction
  storeAction : MTLStoreAction
  clearColor : Option MTLClearColor
deriving DecidableEq

/-- The attachment `[MTLRenderPassColorAttachmentDescriptor new]` creates. -/
instance : Inhabited MTLRenderPassColorAttachmentDescriptor :=
  ⟨{ texture := none, resolveTexture := none, level := 0, slice := 0, depthPlane := 0,
     loadAction := MTLLoadAction.DontCare, storeAction := MTLStoreAction.Store,
     clearColor := none }⟩

structure MTLRenderPassDepthAttachmentDescriptor where
  texture : Option MTLTexture
  loadAction : MTLLoadAction
  storeAction : MTLStoreAction
  clearDepth : FReal
deriving DecidableEq, Inhabited

structure MTLRenderPassStencilAttachmentDescriptor where
  texture : Option MTLTexture
  loadAction : MTLLoadAction
  storeAction : MTLStoreAction
  clearStencil : Nat
deriving DecidableEq, Inhabited

/-- The render-pass description handed to `BeginRenderCommandEncoding`.  A slot
or attachment that the build never assigns is `none`; `renderTargetArrayLength`
is `none` until assigned. -/
structure MTLRenderPassDescriptor where
  colorAttachments : List (Option MTLRenderPassColorAttachmentDescriptor)
  depthAttachment : Option MTLRenderPassDepthAttachmentDescriptor
  stencilAttachment : Option MTLRenderPassStencilAttachmentDescriptor
  visibilityResultBuffer : Option Nat
  renderTargetArrayLength : Option Nat
deriving DecidableEq, Inhabited

/-! ## The command encoder -/

/-- The `ActiveEncoderState` of the data model. -/
inductive EMetalEncoderMode where
  | None
  | Render
  | Compute
  | Copy
deriving DecidableEq, Inhabited

/-- A call made on the driver through `FMetalCommandEncoder`. -/
inductive FMetalCall where
  | EndEncoding
  | BeginRenderCommandEncoding (RenderPass : MTLRenderPassDescriptor)
  | BeginComputeCommandEncoding
  | BeginBlitCommandEncoding
  | SetBlendColor (R G B A : FReal)
  | SetStencilReferenceValue (Ref : Nat)
  | SetDepthStencilState (State : Nat)
  | SetFrontFacingWinding (Winding : MTLWinding)
  | SetCullMode (Mode : MTLCullMode)
  | SetDepthBias (DepthBias SlopeScale Clamp : FReal)
  | SetTriangleFillMode (Mode : MTLTriangleFillMode)
  | SetComputePipelineState (Kernel : Nat)
  | SetVertexShaderBuffer (Buffer Offset Index : Nat)
deriving DecidableEq

/-- Modelled from the spec: `FMetalCommandEncoder`, the driver-side encoder the
cache talks to.  It is a tagged state over None, Render, Compute and Copy;
`Calls` records every call made on it, oldest first. -/
structure FMetalCommandEncoder where
  Mode : EMetalEncoderMode
  Calls : List FMetalCall
deriving DecidableEq, Inhabited

/-- Modelled from the spec: `IsRenderCommandEncoderActive`. -/
def FMetalCommandEncoder.IsRenderCommandEncoderActive (E : FMetalCommandEncoder) : Bool :=
  E.Mode == EMetalEncoderMode.Render

/-- Modelled from the spec: `IsComputeCommandEncoderActive`. -/
def FMetalCommandEncoder.IsComputeCommandEncoderActive (E : FMetalCommandEncoder) : Bool :=
  E.Mode == EMetalEncoderMode.Compute

/-- Modelled from the spec: `IsBlitCommandEncoderActive`. -/
def FMetalCommandEncoder.IsBlitCommandEncoderActive (E : FMetalCommandEncoder) : Bool :=
  E.Mode == EMetalEncoderMode.Copy

/-- Modelled from the spec: `EndEncoding` ends whichever encoder is active. -/
def FMetalCommandEncoder.EndEncoding (E : FMetalCommandEncoder) : FMetalCommandEncoder :=
  { Mode := EMetalEncoderMode.None, Calls := E.Calls ++ [FMetalCall.EndEncoding] }

/-- Modelled from the spec: `BeginRenderCommandEncoding` starts a render pass. -/
def FMetalCommandEncoder.BeginRenderCommandEncoding (E : FMetalCommandEncoder)
    (RenderPass : MTLRenderPassDescriptor) : FMetalCommandEncoder :=
  { Mode := EMetalEncoderMode.Render,
    Calls := E.Calls ++ [FMetalCall.BeginRenderCommandEncoding RenderPass] }

/-- Modelled from the spec: `BeginComputeCommandEncoding`. -/
def FMetalCommandEncoder.BeginComputeCommandEncoding (E : FMetalCommandEncoder) :
    FMetalCommandEncoder :=
  { Mode := EMetalEncoderMode.Compute,
    Calls := E.Calls ++ [FMetalCall.BeginComputeCommandEncoding] }

/-- Modelled from the spec: `BeginBlitCommandEncoding`. -/
def FMetalCommandEncoder.BeginBlitCommandEncoding (E : FMetalCommandEncoder) :
    FMetalCommandEncoder :=
  { Mode := EMetalEncoderMode.Copy,
    Calls := E.Calls ++ [FMetalCall.BeginBlitCommandEncoding] }

/-! ## Build constants and the pipeline key -/

/-- Constants, tables, build switches and one helper that the file uses and that
are declared in headers outside it.  `PLATFORM_MAC = false` is the iOS build. -/
structure FMetalPlatform where
  MaxMetalRenderTargets : Nat
  MaxMetalStreams : Nat
  METAL_API_1_1 : Bool
  PLATFORM_MAC : Bool
  NumBits_BlendState : Nat
  NumBits_RenderTargetFormat : Nat
  NumBits_DepthFormat : Nat
  NumBits_StencilFormat : Nat
  NumBits_SampleCount : Nat
  NumBits_PrimitiveTopology : Nat
  BlendBitOffsets : Nat → Nat
  RTBitOffsets : Nat → Nat
  Offset_DepthFormat : Nat
  Offset_StencilFormat : Nat
  Offset_SampleCount : Nat
  Offset_PrimitiveTopology : Nat
  GetMetalCubeFace : Nat → Nat

/-- The blend properties of a colour attachment of a pipeline descriptor
(`MTLRenderPipelineColorAttachmentDescriptor`), the enumerations as their codes. -/
structure MTLBlendProperties where
  blendingEnabled : Bool
  sourceRGBBlendFactor : Nat
  destinationRGBBlendFactor : Nat
  rgbBlendOperation : Nat
  sourceAlphaBlendFactor : Nat
  destinationAlphaBlendFactor : Nat
  alphaBlendOperation : Nat
  writeMask : Nat
deriving DecidableEq, Inhabited

/-- The pipeline descriptor with its key (`FMetalRenderPipelineDesc`).  Of the
driver-side `PipelineDescriptor` the pixel formats, the blend properties of the
colour attachments and the topology are kept. -/
structure FMetalRenderPipelineDesc where
  Hash : Nat
  SampleCount : Nat
  colorAttachmentPixelFormat : Nat → MTLPixelFormat
  colorAttachmentBlend : Nat → MTLBlendProperties
  depthAttachmentPixelFormat : MTLPixelFormat
  stencilAttachmentPixelFormat : MTLPixelFormat
  inputPrimitiveTopology : Nat

/-- Modelled from the spec: `FMetalRenderPipelineDesc::SetHashValue`, which
writes `Value`, masked to `NumBits` bits, into the key at bit `Offset` and
leaves the bits below and above the field as they are. -/
def FMetalRenderPipelineDesc.SetHashValue (Desc : FMetalRenderPipelineDesc)
    (Offset NumBits Value : Nat) : FMetalRenderPipelineDesc :=
  { Desc with
    Hash := Desc.Hash % 2 ^ Offset + (Value % 2 ^ NumBits) * 2 ^ Offset
      + Desc.Hash / 2 ^ (Offset + NumBits) * 2 ^ (Offset + NumBits) }

/-- Modelled from the spec: `GetMetalRTLoadAction`, the translation of an
engine load action. -/
def GetMetalRTLoadAction (LoadAction : ERenderTargetLoadAction) : MTLLoadAction :=
  match LoadAction with
  | ERenderTargetLoadAction.ENoAction => MTLLoadAction.DontCare
  | ERenderTargetLoadAction.ELoad => MTLLoadAction.Load
  | ERenderTargetLoadAction.EClear => MTLLoadAction.Clear

/-- Modelled from the spec: `GetMetalRTStoreAction`, the translation of an
engine store action. -/
def GetMetalRTStoreAction (StoreAction : ERenderTargetStoreAction) : MTLStoreAction :=
  match StoreAction with
  | ERenderTargetStoreAction.ENoAction => MTLStoreAction.DontCare
  | ERenderTargetStoreAction.EStore => MTLStoreAction.Store
  | ERenderTargetStoreAction.EMultisampleResolve => MTLStoreAction.MultisampleResolve

/-! ## The cache -/

/-- One entry of `FMetalBlendState::RenderTargetStates`: the blend descriptor of
the target (a pointer) and its key. -/
structure FMetalRenderTargetBlendState where
  BlendState : Option MTLBlendProperties
  BlendStateKey : Nat
deriving DecidableEq, Inhabited

structure FMetalBlendState where
  Handle : Nat
  RenderTargetStates : List FMetalRenderTargetBlendState
deriving DecidableEq, Inhabited

/-- The array read `RenderTargetStates[RenderTargetIndex]`. -/
def FMetalBlendState.Target (BlendState : FMetalBlendState) (RenderTargetIndex : Nat) :
    FMetalRenderTargetBlendState :=
  BlendState.RenderTargetStates.getD RenderTargetIndex default

structure FMetalDepthStencilState where
  State : Nat
deriving DecidableEq, Inhabited

structure FMetalRasterizerState where
  FillMode : ERasterizerFillMode
  CullMode : ERasterizerCullMode
  DepthBias : FReal
  SlopeScaleDepthBias : FReal
deriving DecidableEq, Inhabited

structure FMetalBoundShaderState where
  Handle : Nat
deriving DecidableEq, Inhabited

structure FMetalComputeShader where
  Kernel : Nat
deriving DecidableEq, Inhabited

/-- A swap-chain image; it always carries a texture. -/
structure CAMetalDrawable where
  texture : MTLTexture
deriving DecidableEq, Inhabited

structure CGSize where
  width : Nat
  height : Nat
deriving DecidableEq, Inhabited

structure MTLViewport where
  originX : FReal
  originY : FReal
  width : FReal
  height : FReal
  znear : FReal
  zfar : FReal
deriving DecidableEq, Inhabited

/-- The state of `FMetalStateCache` together with the part of its surroundings
that its functions read or change: the command encoder it refers to, the
texture objects its requests point at (`Textures`, indexed by address), and the
swap chain (`DrawableSupply` lists what the coming acquisitions will answer,
`none` for no drawable; `NumAcquired` counts the acquisitions made).
`VertexBuffers` and `VertexStrides` are the two fixed arrays of the source,
read and written by index. -/
structure FMetalStateCache where
  CommandEncoder : FMetalCommandEncoder
  BlendState : Option FMetalBlendState
  DepthStencilState : Option FMetalDepthStencilState
  RasterizerState : Option FMetalRasterizerState
  BoundShaderState : Option FMetalBoundShaderState
  ComputeShader : Option FMetalComputeShader
  StencilRef : Nat
  BlendFactor : FLinearColor
  FrameBufferSize : CGSize
  CurrentDrawable : Option CAMetalDrawable
  CurrentLayer : Option Nat
  Viewport : MTLViewport
  VertexBuffers : Nat → Option Nat
  VertexStrides : Nat → Nat
  RenderTargetsInfo : FRHISetRenderTargetsInfo
  bHasValidRenderTarget : Bool
  PipelineDesc : FMetalRenderPipelineDesc
  Textures : Nat → FRHITexture
  DrawableSupply : List (Option CAMetalDrawable)
  NumAcquired : Nat

/-- Why the process halted. -/
inductive EFatal where
  | CheckOnlyOneMRTWithMSAA
  | FatalLayeredRendering
  | CheckCurrentLayer
  | CheckVertexStreamIndex
deriving DecidableEq, Inhabited

/-- Modelled from the spec: the engine macros `check`, `checkf` and
`UE_LOG(…, Fatal, …)` halt the process when their condition fails; a function
that contains one returns either normally or with the halt. -/
inductive FMetalResult where
  | returned (Cache : FMetalStateCache)
  | fatal (Reason : EFatal) (Cache : FMetalStateCache)

/-- The surface `*GetMetalSurfaceFromRHITexture(Texture)`. -/
def FMetalStateCache.Surface (Cache : FMetalStateCache) (Texture : Nat) : FMetalSurface :=
  (Cache.Textures Texture).Surface

/-- The assignment `Surface.Texture = NewTexture` through the surface reference. -/
def FMetalStateCache.SetSurfaceTexture (Cache : FMetalStateCache) (Texture : Nat)
    (NewTexture : Option MTLTexture) : FMetalStateCache :=
  { Cache with
    Textures := Function.update Cache.Textures Texture
      { Cache.Textures Texture with
        Surface := { (Cache.Textures Texture).Surface with Texture := NewTexture } } }

/-- Modelled from the spec: the swap chain's "acquire next image", which may
answer none (`MakeDrawable` on iOS, `nextDrawable` on the Mac); the answer is
stored in `CurrentDrawable`. -/
def FMetalStateCache.AcquireDrawable (Cache : FMetalStateCache) : FMetalStateCache :=
  { Cache with
    CurrentDrawable := Cache.DrawableSupply.headD none
    DrawableSupply := Cache.DrawableSupply.tail
    NumAcquired := Cache.NumAcquired + 1 }

def SetHasValidRenderTarget (Cache : FMetalStateCache) (InHasValidRenderTarget : Bool) :
    FMetalStateCache :=
  { Cache with bHasValidRenderTarget := InHasValidRenderTarget }

def GetHasValidRenderTarget (Cache : FMetalStateCache) : Bool :=
  Cache.bHasValidRenderTarget

/-! ## Encoder switching -/

def ConditionalSwitchToRender (Cache : FMetalStateCache) : FMetalStateCache :=
  let Cache1 :=
    if Cache.CommandEncoder.IsBlitCommandEncoderActive
        || Cache.CommandEncoder.IsComputeCommandEncoderActive then
      { Cache with CommandEncoder := Cache.CommandEncoder.EndEncoding }
    else Cache
  if !Cache1.CommandEncoder.IsRenderCommandEncoderActive then
    SetHasValidRenderTarget Cache1 false
  else Cache1

def ConditionalSwitchToCompute (Cache : FMetalStateCache) : FMetalStateCache :=
  let Cache1 :=
    if Cache.CommandEncoder.IsRenderCommandEncoderActive
        || Cache.CommandEncoder.IsBlitCommandEncoderActive then
      { Cache with CommandEncoder := Cache.CommandEncoder.EndEncoding }
    else Cache
  if !Cache1.CommandEncoder.IsComputeCommandEncoderActive then
    { Cache1 with
      ComputeShader := none
      CommandEncoder := Cache1.CommandEncoder.BeginComputeCommandEncoding }
  else Cache1

def ConditionalSwitchToBlit (Cache : FMetalStateCache) : FMetalStateCache :=
  let Cache1 :=
    if Cache.CommandEncoder.IsRenderCommandEncoderActive
        || Cache.CommandEncoder.IsComputeCommandEncoderActive then
      { Cache with CommandEncoder := Cache.CommandEncoder.EndEncoding }
    else Cache
  if !Cache1.CommandEncoder.IsBlitCommandEncoderActive then
    { Cache1 with CommandEncoder := Cache1.CommandEncoder.BeginBlitCommandEncoding }
  else Cache1

def ResetCurrentDrawable (Cache : FMetalStateCache) : FMetalStateCache :=
  match Cache.CurrentDrawable with
  | some _ => { Cache with CurrentDrawable := none }
  | none => Cache

/-! ## Fixed-function state -/

def TranslateFillMode (FillMode : ERasterizerFillMode) : MTLTriangleFillMode :=
  match FillMode with
  | ERasterizerFillMode.FM_Wireframe => MTLTriangleFillMode.Lines
  | ERasterizerFillMode.FM_Point => MTLTriangleFillMode.Fill
  | _ => MTLTriangleFillMode.Fill

def TranslateCullMode (CullMode : ERasterizerCullMode) : MTLCullMode :=
  match CullMode with
  | ERasterizerCullMode.CM_CCW => MTLCullMode.Front
  | ERasterizerCullMode.CM_CW => MTLCullMode.Back
  | _ => MTLCullMode.None

/-- The bit pattern of `FLT_MAX`. -/
def FLT_MAX : FReal := 2139095039

/-- A state-setting call on the command encoder: it is recorded and leaves the
mode as it is. -/
def FMetalCommandEncoder.Issue (E : FMetalCommandEncoder) (Call : FMetalCall) :
    FMetalCommandEncoder :=
  { E with Calls := E.Calls ++ [Call] }

/-- The loop of `SetBlendState` over the render targets, from target
`RenderTargetIndex` on, `Remaining` turns: the blend properties of the target
are copied into the pipeline descriptor when the blend state has a descriptor
for it (the destination attachment of the pipeline descriptor always exists),
and the key of the target is written into its field of the pipeline key. -/
def SetBlendState.Targets (Platform : FMetalPlatform) (BlendState : FMetalBlendState) :
    (Remaining : Nat) → (RenderTargetIndex : Nat) → FMetalRenderPipelineDesc →
      FMetalRenderPipelineDesc
  | 0, _, Desc => Desc
  | Remaining + 1, RenderTargetIndex, Desc =>
    let Desc1 : FMetalRenderPipelineDesc :=
      match (BlendState.Target RenderTargetIndex).BlendState with
      | some Blend =>
        { Desc with
          colorAttachmentBlend :=
            Function.update Desc.colorAttachmentBlend RenderTargetIndex Blend }
      | none => Desc
    SetBlendState.Targets Platform BlendState Remaining (RenderTargetIndex + 1)
      (Desc1.SetHashValue (Platform.BlendBitOffsets RenderTargetIndex)
        Platform.NumBits_BlendState (BlendState.Target RenderTargetIndex).BlendStateKey)

def SetBlendState (Platform : FMetalPlatform) (Cache : FMetalStateCache)
    (InBlendState : Option FMetalBlendState) : FMetalStateCache :=
  let Cache1 := { Cache with BlendState := InBlendState }
  match InBlendState with
  | some BlendState =>
    { Cache1 with
      PipelineDesc :=
        SetBlendState.Targets Platform BlendState Platform.MaxMetalRenderTargets 0
          Cache1.PipelineDesc }
  | none => Cache1

def SetDepthStencilState (Cache : FMetalStateCache)
    (InDepthStencilState : Option FMetalDepthStencilState) : FMetalStateCache :=
  let Cache1 := { Cache with DepthStencilState := InDepthStencilState }
  match InDepthStencilState with
  | some DepthStencilState =>
    { Cache1 with
      CommandEncoder :=
        Cache1.CommandEncoder.Issue (FMetalCall.SetDepthStencilState DepthStencilState.State) }
  | none => Cache1

def SetRasterizerState (Cache : FMetalStateCache)
    (InRasterizerState : Option FMetalRasterizerState) : FMetalStateCache :=
  let Cache1 := { Cache with RasterizerState := InRasterizerState }
  match InRasterizerState with
  | some RasterizerState =>
    let Encoder1 :=
      Cache1.CommandEncoder.Issue (FMetalCall.SetFrontFacingWinding MTLWinding.CounterClockwise)
    let Encoder2 :=
      Encoder1.Issue (FMetalCall.SetCullMode (TranslateCullMode RasterizerState.CullMode))
    let Encoder3 :=
      Encoder2.Issue
        (FMetalCall.SetDepthBias RasterizerState.DepthBias RasterizerState.SlopeScaleDepthBias
          FLT_MAX)
    let Encoder4 :=
      Encoder3.Issue
        (FMetalCall.SetTriangleFillMode (TranslateFillMode RasterizerState.FillMode))
    { Cache1 with CommandEncoder := Encoder4 }
  | none => Cache1

def SetBoundShaderState (Cache : FMetalStateCache)
    (InBoundShaderState : Option FMetalBoundShaderState) : FMetalStateCache :=
  { Cache with BoundShaderState := InBoundShaderState }

def SetBlendFactor (Cache : FMetalStateCache) (InBlendFactor : FLinearColor) :
    FMetalStateCache :=
  { Cache with
    BlendFactor := InBlendFactor
    CommandEncoder :=
      Cache.CommandEncoder.Issue
        (FMetalCall.SetBlendColor InBlendFactor.R InBlendFactor.G InBlendFactor.B
          InBlendFactor.A) }

def SetStencilRef (Cache : FMetalStateCache) (InStencilRef : Nat) : FMetalStateCache :=
  { Cache with
    StencilRef := InStencilRef
    CommandEncoder :=
      Cache.CommandEncoder.Issue (FMetalCall.SetStencilReferenceValue InStencilRef) }

/-- The function `SetComputeShader`.  The source reads `ComputeShader->Kernel`
without a null test, so the argument is a shader object, not a nullable pointer. -/
def SetComputeShader (Cache : FMetalStateCache) (InComputeShader : FMetalComputeShader) :
    FMetalStateCache :=
  { Cache with
    ComputeShader := some InComputeShader
    CommandEncoder :=
      Cache.CommandEncoder.Issue (FMetalCall.SetComputePipelineState InComputeShader.Kernel) }

def SetViewport (Cache : FMetalStateCache) (InViewport : MTLViewport) : FMetalStateCache :=
  { Cache with Viewport := InViewport }

/-- The function `SetVertexBuffer`; the driver call
`SetShaderBuffer(SF_Vertex, Buffer, Offset, Index)` is recorded as
`SetVertexShaderBuffer Buffer Offset Index`. -/
def SetVertexBuffer (Platform : FMetalPlatform) (Cache : FMetalStateCache) (Index : Nat)
    (Buffer : Option Nat) (Stride Offset : Nat) : FMetalResult :=
  if Index < Platform.MaxMetalStreams then
    let Cache1 : FMetalStateCache :=
      { Cache with
        VertexBuffers := Function.update Cache.VertexBuffers Index Buffer
        VertexStrides :=
          Function.update Cache.VertexStrides Index (if Buffer.isSome then Stride else 0) }
    match Buffer with
    | some BufferObject =>
      FMetalResult.returned
        { Cache1 with
          CommandEncoder :=
            Cache1.CommandEncoder.Issue
              (FMetalCall.SetVertexShaderBuffer BufferObject Offset Index) }
    | none => FMetalResult.returned Cache1
  else FMetalResult.fatal EFatal.CheckVertexStreamIndex Cache

/-- The function `SetPrimitiveTopology` of the Mac build. -/
def SetPrimitiveTopology (Platform : FMetalPlatform) (Cache : FMetalStateCache)
    (PrimitiveType : Nat) : FMetalStateCache :=
  { Cache with
    PipelineDesc :=
      { Cache.PipelineDesc.SetHashValue Platform.Offset_PrimitiveTopology
          Platform.NumBits_PrimitiveTopology PrimitiveType with
        inputPrimitiveTopology := PrimitiveType } }

def ConditionalUpdateBackBuffer (Platform : FMetalPlatform) (Cache : FMetalStateCache)
    (Texture : Nat) : FMetalResult :=
  if (Cache.Surface Texture).Texture.isNone then
    let Acquired : FMetalResult :=
      if Cache.CurrentDrawable.isNone then
        if Platform.PLATFORM_MAC then
          if Cache.CurrentLayer.isNone then
            FMetalResult.fatal EFatal.CheckCurrentLayer Cache
          else FMetalResult.returned Cache.AcquireDrawable
        else FMetalResult.returned Cache.AcquireDrawable
      else FMetalResult.returned Cache
    match Acquired with
    | FMetalResult.fatal Reason Cache1 => FMetalResult.fatal Reason Cache1
    | FMetalResult.returned Cache1 =>
      match Cache1.CurrentDrawable with
      | some Drawable =>
        FMetalResult.returned (Cache1.SetSurfaceTexture Texture (some Drawable.texture))
      | none => FMetalResult.returned (Cache1.SetSurfaceTexture Texture none)
  else FMetalResult.returned Cache

/-! ## The reuse predicate -/

/-- The colour loop of `NeedsToSetRenderTarget`, entered with `bAllChecksPassed`
true: the value of `bAllChecksPassed` after the slots `RenderTargetIndex`,
…, `RenderTargetIndex + Remaining - 1` have been compared (a `break` ends the
loop with `false`). -/
def NeedsToSetRenderTarget.ColorLoop (RenderTargetsInfo InRenderTargetsInfo :
    FRHISetRenderTargetsInfo) : (Remaining : Nat) → (RenderTargetIndex : Nat) → Bool
  | 0, _ => true
  | Remaining + 1, RenderTargetIndex =>
    let RenderTargetView := InRenderTargetsInfo.Color RenderTargetIndex
    let PreviousRenderTargetView := RenderTargetsInfo.Color RenderTargetIndex
    if RenderTargetView.Texture != PreviousRenderTargetView.Texture
        || RenderTargetView.MipIndex != PreviousRenderTargetView.MipIndex
        || RenderTargetView.ArraySliceIndex != PreviousRenderTargetView.ArraySliceIndex then
      false
    else if RenderTargetView.LoadAction == ERenderTargetLoadAction.EClear then
      false
    else
      NeedsToSetRenderTarget.ColorLoop RenderTargetsInfo InRenderTargetsInfo Remaining
        (RenderTargetIndex + 1)

def NeedsToSetRenderTarget (Cache : FMetalStateCache)
    (InRenderTargetsInfo : FRHISetRenderTargetsInfo) : Bool :=
  let bAllChecksPassed0 :=
    GetHasValidRenderTarget Cache && Cache.CommandEncoder.IsRenderCommandEncoderActive
      && InRenderTargetsInfo.NumColorRenderTargets == Cache.RenderTargetsInfo.NumColorRenderTargets
      && (InRenderTargetsInfo.DepthStencilRenderTarget.Texture
            == Cache.RenderTargetsInfo.DepthStencilRenderTarget.Texture
          || InRenderTargetsInfo.DepthStencilRenderTarget.Texture == none)
  let bAllChecksPassed1 :=
    if bAllChecksPassed0 then
      NeedsToSetRenderTarget.ColorLoop Cache.RenderTargetsInfo InRenderTargetsInfo
        InRenderTargetsInfo.NumColorRenderTargets 0
    else bAllChecksPassed0
  let bAllChecksPassed2 :=
    if InRenderTargetsInfo.NumColorRenderTargets == 1
        && (InRenderTargetsInfo.Color 0).Texture == none
        && InRenderTargetsInfo.DepthStencilRenderTarget.Texture == none then
      true
    else bAllChecksPassed1
  bAllChecksPassed2 == false

/-! ## Building a render pass -/

/-- The local variables of `SetRenderTargetsInfo` that live across its colour loop. -/
structure FPassLocals where
  RenderPass : MTLRenderPassDescriptor
  OldCount : Nat
  ArrayTargets : Nat
  BoundTargets : Nat
  ArrayRenderLayers : Nat
  bFramebufferSizeSet : Bool

/-- What one turn of the colour loop of `SetRenderTargetsInfo` ends in: the next
turn, the early `return`, or a halt. -/
inductive FLoopStep where
  | next (Cache : FMetalStateCache) (Locals : FPassLocals)
  | abort (Cache : FMetalStateCache)
  | fatal (Reason : EFatal) (Cache : FMetalStateCache)

/-- How a call of `SetRenderTargetsInfo` ends: `reused` when
`NeedsToSetRenderTarget` answered false, `aborted` at the early `return` of the
colour loop, `built` at the end of the function body, `fatal` at a halt. -/
inductive FSetRenderTargetsResult where
  | reused (Cache : FMetalStateCache)
  | aborted (Cache : FMetalStateCache)
  | built (Cache : FMetalStateCache)
  | fatal (Reason : EFatal) (Cache : FMetalStateCache)

/-- The texture of colour slot `RenderTargetIndex` when the slot passes the test
`RenderTargetIndex < NumColorRenderTargets && Texture != nullptr`, else `none`. -/
def BoundColorTexture (Info : FRHISetRenderTargetsInfo) (RenderTargetIndex : Nat) :
    Option Nat :=
  if RenderTargetIndex < Info.NumColorRenderTargets then
    (Info.Color RenderTargetIndex).Texture
  else none

/-- The `switch (Surface.Type)` of the colour loop. -/
def SetRenderTargetsInfo.ArraySwitch (RenderTargetIndex : Nat)
    (RenderTargetView : FRHIRenderTargetView) (Surface : FMetalSurface)
    (Locals : FPassLocals) : FPassLocals :=
  match Surface.SurfaceType with
  | ERHIResourceType.RRT_Texture2DArray
  | ERHIResourceType.RRT_Texture3D
  | ERHIResourceType.RRT_TextureCube =>
    if RenderTargetView.ArraySliceIndex = 4294967295 then
      { Locals with
        ArrayTargets := (Locals.ArrayTargets ||| (1 <<< RenderTargetIndex)) % 256
        ArrayRenderLayers := min Locals.ArrayRenderLayers Surface.GetNumFaces }
    else { Locals with ArrayRenderLayers := 1 }
  | _ => { Locals with ArrayRenderLayers := 1 }

/-- The `if (!bFramebufferSizeSet) … else …` that both the colour loop and the
depth/stencil block run: the first attachment sets the extent, a later one
shrinks it by the component-wise minimum. -/
def SetRenderTargetsInfo.UpdateExtent (Cache : FMetalStateCache) (bFramebufferSizeSet : Bool)
    (Width Height : Nat) : FMetalStateCache :=
  if !bFramebufferSizeSet then
    { Cache with FrameBufferSize := { width := Width, height := Height } }
  else
    { Cache with
      FrameBufferSize :=
        { width := min Cache.FrameBufferSize.width Width
          height := min Cache.FrameBufferSize.height Height } }

/-- The colour attachment built for a slot whose surface has a texture, before
it is assigned to the render pass. -/
def SetRenderTargetsInfo.ColorAttachment (Platform : FMetalPlatform)
    (RenderTargetView : FRHIRenderTargetView) (Surface : FMetalSurface)
    (ClearValue : FClearValueBinding) : MTLRenderPassColorAttachmentDescriptor :=
  let ArraySliceIndex0 :=
    if RenderTargetView.ArraySliceIndex = 4294967295 then 0
    else RenderTargetView.ArraySliceIndex
  let ArraySliceIndex :=
    if Surface.bIsCubemap then Platform.GetMetalCubeFace ArraySliceIndex0
    else ArraySliceIndex0
  let ColorAttachment0 : MTLRenderPassColorAttachmentDescriptor := default
  let ColorAttachment1 :=
    match Surface.MSAATexture with
    | some MSAATexture =>
      { ColorAttachment0 with
        texture := some MSAATexture
        storeAction := MTLStoreAction.MultisampleResolve
        resolveTexture := Surface.Texture }
    | none =>
      { ColorAttachment0 with
        texture := Surface.Texture
        storeAction := GetMetalRTStoreAction RenderTargetView.StoreAction }
  let ColorAttachment2 := { ColorAttachment1 with level := RenderTargetView.MipIndex }
  let ColorAttachment3 :=
    if Surface.SurfaceType = ERHIResourceType.RRT_Texture3D then
      { ColorAttachment2 with depthPlane := ArraySliceIndex }
    else { ColorAttachment2 with slice := ArraySliceIndex }
  let ColorAttachment4 :=
    { ColorAttachment3 with loadAction := GetMetalRTLoadAction RenderTargetView.LoadAction }
  if ClearValue.ColorBinding = EClearBinding.EColorBound then
    { ColorAttachment4 with
      clearColor := some
        { red := ClearValue.ClearColor.R, green := ClearValue.ClearColor.G,
          blue := ClearValue.ClearColor.B, alpha := ClearValue.ClearColor.A } }
  else ColorAttachment4

/-- One turn of the colour loop of `SetRenderTargetsInfo`, for slot
`RenderTargetIndex`. -/
def SetRenderTargetsInfo.ColorTarget (Platform : FMetalPlatform) (RenderTargetIndex : Nat)
    (Cache : FMetalStateCache) (Locals : FPassLocals) : FLoopStep :=
  match BoundColorTexture Cache.RenderTargetsInfo RenderTargetIndex with
  | some Texture =>
    let RenderTargetView := Cache.RenderTargetsInfo.Color RenderTargetIndex
    let Surface0 := Cache.Surface Texture
    let FormatKey := Surface0.FormatKey
    let Width := max (Surface0.SizeX >>> RenderTargetView.MipIndex) 1
    let Height := max (Surface0.SizeY >>> RenderTargetView.MipIndex) 1
    let Cache1 := SetRenderTargetsInfo.UpdateExtent Cache Locals.bFramebufferSizeSet Width Height
    let Locals1 := { Locals with bFramebufferSizeSet := true }
    match ConditionalUpdateBackBuffer Platform Cache1 Texture with
    | FMetalResult.fatal Reason Cache2 => FLoopStep.fatal Reason Cache2
    | FMetalResult.returned Cache2 =>
      let Locals2 :=
        { Locals1 with
          BoundTargets := (Locals1.BoundTargets ||| (1 <<< RenderTargetIndex)) % 256 }
      let Surface := Cache2.Surface Texture
      if Surface.Texture.isNone then
        FLoopStep.abort
          { Cache2 with
            PipelineDesc := { Cache2.PipelineDesc with SampleCount := Locals.OldCount } }
      else
        let Locals3 :=
          SetRenderTargetsInfo.ArraySwitch RenderTargetIndex RenderTargetView Surface Locals2
        let ColorAttachment :=
          SetRenderTargetsInfo.ColorAttachment Platform RenderTargetView Surface
            (Cache2.Textures Texture).ClearBinding
        let Cache3 : FMetalStateCache :=
          { Cache2 with
            PipelineDesc :=
              { Cache2.PipelineDesc with
                SampleCount :=
                  match Surface.MSAATexture with
                  | some MSAATexture => MSAATexture.sampleCount
                  | none => 1 } }
        if Surface.MSAATexture.isSome
            && !(Cache3.RenderTargetsInfo.NumColorRenderTargets == 1) then
          FLoopStep.fatal EFatal.CheckOnlyOneMRTWithMSAA Cache3
        else
          let Locals4 :=
            { Locals3 with
              RenderPass :=
                { Locals3.RenderPass with
                  colorAttachments :=
                    Locals3.RenderPass.colorAttachments.set RenderTargetIndex
                      (some ColorAttachment) } }
          let Cache4 : FMetalStateCache :=
            { Cache3 with
              PipelineDesc :=
                { Cache3.PipelineDesc with
                  colorAttachmentPixelFormat :=
                    Function.update Cache3.PipelineDesc.colorAttachmentPixelFormat
                      RenderTargetIndex (pixelFormatOf ColorAttachment.texture) }
              bHasValidRenderTarget := true }
          FLoopStep.next
            { Cache4 with
              PipelineDesc :=
                Cache4.PipelineDesc.SetHashValue (Platform.RTBitOffsets RenderTargetIndex)
                  Platform.NumBits_RenderTargetFormat FormatKey }
            Locals4
  | none =>
    let Cache1 : FMetalStateCache :=
      { Cache with
        PipelineDesc :=
          { Cache.PipelineDesc with
            colorAttachmentPixelFormat :=
              Function.update Cache.PipelineDesc.colorAttachmentPixelFormat
                RenderTargetIndex MTLPixelFormat.Invalid } }
    FLoopStep.next
      { Cache1 with
        PipelineDesc :=
          Cache1.PipelineDesc.SetHashValue (Platform.RTBitOffsets RenderTargetIndex)
            Platform.NumBits_RenderTargetFormat 0 }
      Locals

/-- The colour loop of `SetRenderTargetsInfo` from slot `RenderTargetIndex` on,
`Remaining` turns. -/
def SetRenderTargetsInfo.ColorTargets (Platform : FMetalPlatform) :
    (Remaining : Nat) → (RenderTargetIndex : Nat) → FMetalStateCache → FPassLocals → FLoopStep
  | 0, _, Cache, Locals => FLoopStep.next Cache Locals
  | Remaining + 1, RenderTargetIndex, Cache, Locals =>
    match SetRenderTargetsInfo.ColorTarget Platform RenderTargetIndex Cache Locals with
    | FLoopStep.next Cache1 Locals1 =>
      SetRenderTargetsInfo.ColorTargets Platform Remaining (RenderTargetIndex + 1)
        Cache1 Locals1
    | FLoopStep.abort Cache1 => FLoopStep.abort Cache1
    | FLoopStep.fatal Reason Cache1 => FLoopStep.fatal Reason Cache1

/-- The layered-rendering block after the colour loop (`METAL_API_1_1 &&
PLATFORM_MAC`): the locals with the array length assigned, or `none` at the
fatal log. -/
def SetRenderTargetsInfo.LayeredCheck (Platform : FMetalPlatform) (Locals : FPassLocals) :
    Option FPassLocals :=
  if Platform.METAL_API_1_1 && Platform.PLATFORM_MAC then
    if Locals.ArrayTargets != 0 then
      if Locals.ArrayTargets == Locals.BoundTargets then
        some
          { Locals with
            RenderPass :=
              { Locals.RenderPass with
                renderTargetArrayLength := some Locals.ArrayRenderLayers } }
      else none
    else some Locals
  else some Locals

/-- The `switch (DepthStencilFormat)`: the pair `(bHasDepth, bHasStencil)`. -/
def SetRenderTargetsInfo.ClassifyDepthStencil (Platform : FMetalPlatform)
    (DepthStencilFormat : MTLPixelFormat) : Bool × Bool :=
  match DepthStencilFormat with
  | MTLPixelFormat.Depth32Float => (true, false)
  | MTLPixelFormat.Stencil8 => (false, true)
  | MTLPixelFormat.Depth32Float_Stencil8 =>
    if Platform.METAL_API_1_1 then (true, true) else (false, false)
  | MTLPixelFormat.Depth24Unorm_Stencil8 =>
    if Platform.METAL_API_1_1 && Platform.PLATFORM_MAC then (true, true) else (false, false)
  | _ => (false, false)

/-- The values the depth/stencil block leaves behind for the key update. -/
structure FDepthStencilKeys where
  DepthFormatKey : Nat
  StencilFormatKey : Nat

/-- The depth/stencil block of `SetRenderTargetsInfo`. -/
def SetRenderTargetsInfo.DepthStencil (Platform : FMetalPlatform) (Cache : FMetalStateCache)
    (Locals : FPassLocals) : FMetalStateCache × FPassLocals × FDepthStencilKeys :=
  let Cache0 : FMetalStateCache :=
    { Cache with
      PipelineDesc :=
        { Cache.PipelineDesc with
          depthAttachmentPixelFormat := MTLPixelFormat.Invalid
          stencilAttachmentPixelFormat := MTLPixelFormat.Invalid } }
  match Cache0.RenderTargetsInfo.DepthStencilRenderTarget.Texture with
  | none => (Cache0, Locals, { DepthFormatKey := 0, StencilFormatKey := 0 })
  | some Texture =>
    let View := Cache0.RenderTargetsInfo.DepthStencilRenderTarget
    let Surface := Cache0.Surface Texture
    let Cache1 :=
      SetRenderTargetsInfo.UpdateExtent Cache0 Locals.bFramebufferSizeSet Surface.SizeX
        Surface.SizeY
    let Locals1 := { Locals with bFramebufferSizeSet := true }
    let DepthStencilFormat :=
      match Surface.Texture with
      | some T => T.pixelFormat
      | none => MTLPixelFormat.Invalid
    let bHasDepth := (SetRenderTargetsInfo.ClassifyDepthStencil Platform DepthStencilFormat).1
    let bHasStencil := (SetRenderTargetsInfo.ClassifyDepthStencil Platform DepthStencilFormat).2
    let ClearValue := (Cache0.Textures Texture).ClearBinding
    let DepthClearValue : FReal :=
      if ClearValue.ColorBinding = EClearBinding.EDepthStencilBound then ClearValue.Depth else 0
    let StencilClearValue : Nat :=
      if ClearValue.ColorBinding = EClearBinding.EDepthStencilBound then ClearValue.Stencil
      else 0
    let DepthAttachment : MTLRenderPassDepthAttachmentDescriptor :=
      { texture := Surface.Texture
        loadAction := GetMetalRTLoadAction View.DepthLoadAction
        storeAction :=
          if Platform.PLATFORM_MAC then
            if View.DepthStencilAccess.IsDepthWrite then
              GetMetalRTStoreAction View.DepthStoreAction
            else MTLStoreAction.DontCare
          else GetMetalRTStoreAction View.DepthStoreAction
        clearDepth := DepthClearValue }
    let Cache2 : FMetalStateCache :=
      if bHasDepth then
        { Cache1 with
          PipelineDesc :=
            { Cache1.PipelineDesc with
              depthAttachmentPixelFormat := pixelFormatOf DepthAttachment.texture
              SampleCount :=
                if Cache1.PipelineDesc.SampleCount == 0 then
                  sampleCountOf DepthAttachment.texture
                else Cache1.PipelineDesc.SampleCount } }
      else Cache1
    let Locals2 :=
      if bHasDepth then
        { Locals1 with
          RenderPass := { Locals1.RenderPass with depthAttachment := some DepthAttachment } }
      else Locals1
    let StencilAttachment : MTLRenderPassStencilAttachmentDescriptor :=
      { texture := Surface.StencilTexture
        loadAction := GetMetalRTLoadAction View.StencilLoadAction
        storeAction :=
          if Platform.PLATFORM_MAC then
            if View.DepthStencilAccess.IsStencilWrite then
              GetMetalRTStoreAction View.StencilStoreAction
            else MTLStoreAction.DontCare
          else GetMetalRTStoreAction View.StencilStoreAction
        clearStencil := StencilClearValue }
    let Cache3 : FMetalStateCache :=
      if bHasStencil then
        { Cache2 with
          PipelineDesc :=
            { Cache2.PipelineDesc with
              stencilAttachmentPixelFormat := pixelFormatOf StencilAttachment.texture
              SampleCount :=
                if Cache2.PipelineDesc.SampleCount == 0 then
                  sampleCountOf StencilAttachment.texture
                else Cache2.PipelineDesc.SampleCount } }
      else Cache2
    let Locals3 :=
      if bHasStencil then
        { Locals2 with
          RenderPass := { Locals2.RenderPass with stencilAttachment := some StencilAttachment } }
      else Locals2
    (Cache3, Locals3,
      { DepthFormatKey := if bHasDepth then Surface.FormatKey else 0
        StencilFormatKey := if bHasStencil then Surface.FormatKey else 0 })

/-- The end of `SetRenderTargetsInfo`: the key update for depth, stencil and
sample count, the end of the old pass, the start of the new one and the release
of the four cached state objects. -/
def SetRenderTargetsInfo.Commit (Platform : FMetalPlatform) (Cache : FMetalStateCache)
    (Locals : FPassLocals) (Keys : FDepthStencilKeys) : FMetalStateCache :=
  let Desc1 :=
    Cache.PipelineDesc.SetHashValue Platform.Offset_DepthFormat Platform.NumBits_DepthFormat
      Keys.DepthFormatKey
  let Desc2 :=
    Desc1.SetHashValue Platform.Offset_StencilFormat Platform.NumBits_StencilFormat
      Keys.StencilFormatKey
  let Desc3 :=
    Desc2.SetHashValue Platform.Offset_SampleCount Platform.NumBits_SampleCount
      Desc2.SampleCount
  let Encoder1 :=
    if Cache.CommandEncoder.IsRenderCommandEncoderActive then Cache.CommandEncoder.EndEncoding
    else Cache.CommandEncoder
  let Encoder2 := Encoder1.BeginRenderCommandEncoding Locals.RenderPass
  { Cache with
    PipelineDesc := Desc3
    CommandEncoder := Encoder2
    DepthStencilState := none
    RasterizerState := none
    BlendState := none
    BoundShaderState := none }

/-- The state and locals with which the colour loop is entered: the request is
stored, the sample count, the valid flag and the extent are reset. -/
def SetRenderTargetsInfo.Enter (Platform : FMetalPlatform) (Cache : FMetalStateCache)
    (InRenderTargets : FRHISetRenderTargetsInfo) (QueryBuffer : Option Nat) :
    FMetalStateCache × FPassLocals :=
  ({ Cache with
      RenderTargetsInfo := InRenderTargets
      PipelineDesc := { Cache.PipelineDesc with SampleCount := 0 }
      bHasValidRenderTarget := false
      FrameBufferSize := { width := 0, height := 0 } },
   { RenderPass :=
      { colorAttachments := List.replicate Platform.MaxMetalRenderTargets none
        depthAttachment := none
        stencilAttachment := none
        visibilityResultBuffer := QueryBuffer
        renderTargetArrayLength := none }
     OldCount := Cache.PipelineDesc.SampleCount
     ArrayTargets := 0
     BoundTargets := 0
     ArrayRenderLayers := UINT_MAX
     bFramebufferSizeSet := false })

/-- The body of the `if (NeedsToSetRenderTarget(InRenderTargets))` of
`SetRenderTargetsInfo`. -/
def SetRenderTargetsInfo.Build (Platform : FMetalPlatform) (Cache : FMetalStateCache)
    (InRenderTargets : FRHISetRenderTargetsInfo) (QueryBuffer : Option Nat) :
    FSetRenderTargetsResult :=
  let Entered := SetRenderTargetsInfo.Enter Platform Cache InRenderTargets QueryBuffer
  match SetRenderTargetsInfo.ColorTargets Platform Platform.MaxMetalRenderTargets 0
      Entered.1 Entered.2 with
  | FLoopStep.abort Cache1 => FSetRenderTargetsResult.aborted Cache1
  | FLoopStep.fatal Reason Cache1 => FSetRenderTargetsResult.fatal Reason Cache1
  | FLoopStep.next Cache1 Locals1 =>
    match SetRenderTargetsInfo.LayeredCheck Platform Locals1 with
    | none => FSetRenderTargetsResult.fatal EFatal.FatalLayeredRendering Cache1
    | some Locals2 =>
      let Depth := SetRenderTargetsInfo.DepthStencil Platform Cache1 Locals2
      FSetRenderTargetsResult.built
        (SetRenderTargetsInfo.Commit Platform Depth.1 Depth.2.1 Depth.2.2)

def SetRenderTargetsInfo (Platform : FMetalPlatform) (Cache : FMetalStateCache)
    (InRenderTargets : FRHISetRenderTargetsInfo) (QueryBuffer : Option Nat) :
    FSetRenderTargetsResult :=
  let Cache1 := ConditionalSwitchToRender Cache
  if NeedsToSetRenderTarget Cache1 InRenderTargets then
    SetRenderTargetsInfo.Build Platform Cache1 InRenderTargets QueryBuffer
  else FSetRenderTargetsResult.reused Cache1

/-- The cache with which a call of `SetRenderTargetsInfo` ended or halted. -/
def FSetRenderTargetsResult.Cache : FSetRenderTargetsResult → FMetalStateCache
  | FSetRenderTargetsResult.reused Cache => Cache
  | FSetRenderTargetsResult.aborted Cache => Cache
  | FSetRenderTargetsResult.built Cache => Cache
  | FSetRenderTargetsResult.fatal _ Cache => Cache

/-! ## Sample inputs -/

/-- A Mac build with six render targets and a sample layout of the key. -/
def SampleMac : FMetalPlatform :=
  { MaxMetalRenderTargets := 6
    MaxMetalStreams := 16
    METAL_API_1_1 := true
    PLATFORM_MAC := true
    NumBits_BlendState := 5
    NumBits_RenderTargetFormat := 5
    NumBits_DepthFormat := 3
    NumBits_StencilFormat := 3
    NumBits_SampleCount := 3
    NumBits_PrimitiveTopology := 2
    BlendBitOffsets := fun Index => 5 * Index
    RTBitOffsets := fun Index => 30 + 5 * Index
    Offset_DepthFormat := 60
    Offset_StencilFormat := 63
    Offset_SampleCount := 66
    Offset_PrimitiveTopology := 69
    GetMetalCubeFace := fun Face => Face }

/-- The trivial unbind: one colour slot without texture, no depth/stencil. -/
def UnbindRequest : FRHISetRenderTargetsInfo :=
  { ColorRenderTarget :=
      [{ Texture := none, MipIndex := 0, ArraySliceIndex := 4294967295,
         LoadAction := ERenderTargetLoadAction.ELoad,
         StoreAction := ERenderTargetStoreAction.EStore }]
    NumColorRenderTargets := 1
    bClearColor := false
    DepthStencilRenderTarget := default
    bClearDepth := false
    bClearStencil := false }

/-- A 2D colour surface of the given size with a driver texture. -/
def SampleSurface (SizeX SizeY Handle : Nat) : FMetalSurface :=
  { SurfaceType := ERHIResourceType.RRT_Texture2D
    FormatKey := 1
    SizeX := SizeX
    SizeY := SizeY
    SizeZ := 1
    bIsCubemap := false
    Texture := some { Handle := Handle, pixelFormat := MTLPixelFormat.Color 80, sampleCount := 1 }
    MSAATexture := none
    StencilTexture := none
    NumFaces := 1 }

/-- A texture store: address 0 is an 800x600 colour target, address 1 a 400x300
colour target, address 2 a 1024x1024 depth target, address 3 a back buffer that
has no driver texture yet, address 4 a multisample colour target, address 5 a
cube map, address 6 a second surface without driver texture; every other
address is an 800x600 colour target. -/
def SampleTextures : Nat → FRHITexture := fun Address =>
  match Address with
  | 1 => { Surface := SampleSurface 400 300 11, ClearBinding := default }
  | 2 =>
    { Surface :=
        { SampleSurface 1024 1024 12 with
          FormatKey := 2
          Texture :=
            some { Handle := 12, pixelFormat := MTLPixelFormat.Depth32Float, sampleCount := 1 } }
      ClearBinding := default }
  | 3 => { Surface := { SampleSurface 800 600 13 with Texture := none }, ClearBinding := default }
  | 6 => { Surface := { SampleSurface 800 600 16 with Texture := none }, ClearBinding := default }
  | 4 =>
    { Surface :=
        { SampleSurface 800 600 14 with
          MSAATexture :=
            some { Handle := 24, pixelFormat := MTLPixelFormat.Color 80, sampleCount := 4 } }
      ClearBinding := default }
  | 5 =>
    { Surface :=
        { SampleSurface 256 256 15 with
          SurfaceType := ERHIResourceType.RRT_TextureCube
          bIsCubemap := true
          NumFaces := 6 }
      ClearBinding := default }
  | _ => { Surface := SampleSurface 800 600 10, ClearBinding := default }

/-- A colour view of the texture at `Address`, mip 0, default slice, load, store. -/
def SampleView (Address : Nat) : FRHIRenderTargetView :=
  { Texture := some Address, MipIndex := 0, ArraySliceIndex := 4294967295,
    LoadAction := ERenderTargetLoadAction.ELoad,
    StoreAction := ERenderTargetStoreAction.EStore }

/-- A request binding the colour textures at the given addresses and no depth. -/
def ColorRequest (Addresses : List Nat) : FRHISetRenderTargetsInfo :=
  { ColorRenderTarget := Addresses.map SampleView
    NumColorRenderTargets := Addresses.length
    bClearColor := false
    DepthStencilRenderTarget := default
    bClearDepth := false
    bClearStencil := false }

/-- A cache between passes: no encoder active, nothing bound, the swap chain
with a layer but without a drawable to hand out. -/
def IdleCache : FMetalStateCache :=
  { CommandEncoder := { Mode := EMetalEncoderMode.None, Calls := [] }
    BlendState := none
    DepthStencilState := none
    RasterizerState := none
    BoundShaderState := none
    ComputeShader := none
    StencilRef := 0
    BlendFactor := default
    FrameBufferSize := { width := 0, height := 0 }
    CurrentDrawable := none
    CurrentLayer := some 1
    Viewport := default
    VertexBuffers := fun _ => none
    VertexStrides := fun _ => 0
    RenderTargetsInfo := ColorRequest []
    bHasValidRenderTarget := false
    PipelineDesc :=
      { Hash := 0
        SampleCount := 0
        colorAttachmentPixelFormat := fun _ => MTLPixelFormat.Invalid
        colorAttachmentBlend := fun _ => default
        depthAttachmentPixelFormat := MTLPixelFormat.Invalid
        stencilAttachmentPixelFormat := MTLPixelFormat.Invalid
        inputPrimitiveTopology := 0 }
    Textures := SampleTextures
    DrawableSupply := []
    NumAcquired := 0 }

/-- A cache inside a render pass: the idle cache after a pass on the colour
target at address 0 has been begun and the four fixed-function objects set. -/
def RenderingCache : FMetalStateCache :=
  { (SetRenderTargetsInfo SampleMac IdleCache (ColorRequest [0]) none).Cache with
    BlendState := some { Handle := 1, RenderTargetStates := [] }
    DepthStencilState := some { State := 2 }
    RasterizerState := some default
    BoundShaderState := some { Handle := 4 } }

/-- The render pass of the last call made on the command encoder, when that
call is `BeginRenderCommandEncoding`. -/
def LastRenderPass (Cache : FMetalStateCache) : Option MTLRenderPassDescriptor :=
  match Cache.CommandEncoder.Calls.getLast? with
  | some (FMetalCall.BeginRenderCommandEncoding RenderPass) => some RenderPass
  | _ => none

/-- A request binding only the depth target at address 2. -/
def DepthOnlyRequest : FRHISetRenderTargetsInfo :=
  { ColorRenderTarget := []
    NumColorRenderTargets := 0
    bClearColor := false
    DepthStencilRenderTarget :=
      { Texture := some 2
        DepthLoadAction := ERenderTargetLoadAction.ELoad
        DepthStoreAction := ERenderTargetStoreAction.EStore
        StencilLoadAction := ERenderTargetLoadAction.ELoad
        StencilStoreAction := ERenderTargetStoreAction.EStore
        DepthStencilAccess := { IsDepthWrite := true, IsStencilWrite := true } }
    bClearDepth := false
    bClearStencil := false }

/-! ## Notions used in the statements -/

/-- The request `In` equals the stored bindings `Stored` except that colour slot
0 asks for load action Clear. -/
def SameExceptClearAtSlot0 (Stored In : FRHISetRenderTargetsInfo) : Prop :=
  In.NumColorRenderTargets = Stored.NumColorRenderTargets
    ∧ In.DepthStencilRenderTarget = Stored.DepthStencilRenderTarget
    ∧ In.Color 0 = { Stored.Color 0 with LoadAction := ERenderTargetLoadAction.EClear }
    ∧ ∀ Index, Index ≠ 0 → In.Color Index = Stored.Color Index

/-- The request is the trivial unbind: exactly one colour slot, its texture
null, and a null depth/stencil texture. -/
def IsTrivialUnbind (In : FRHISetRenderTargetsInfo) : Prop :=
  In.NumColorRenderTargets = 1 ∧ (In.Color 0).Texture = none
    ∧ In.DepthStencilRenderTarget.Texture = none

/-- The cache with which the call returned, `none` when it halted. -/
def FSetRenderTargetsResult.Returned : FSetRenderTargetsResult → Option FMetalStateCache
  | FSetRenderTargetsResult.reused Cache => some Cache
  | FSetRenderTargetsResult.aborted Cache => some Cache
  | FSetRenderTargetsResult.built Cache => some Cache
  | FSetRenderTargetsResult.fatal _ _ => none

/-- The reason of the halt, `none` when the call returned. -/
def FSetRenderTargetsResult.Halt : FSetRenderTargetsResult → Option EFatal
  | FSetRenderTargetsResult.fatal Reason _ => some Reason
  | _ => none

/-- A request binding the colour target at address 0 with load action Clear. -/
def ClearRequest : FRHISetRenderTargetsInfo :=
  { ColorRequest [0] with
    ColorRenderTarget :=
      [{ SampleView 0 with LoadAction := ERenderTargetLoadAction.EClear }] }

/-- The call ended at the end of the function body, with a new pass begun. -/
def FSetRenderTargetsResult.IsBuilt : FSetRenderTargetsResult → Bool
  | FSetRenderTargetsResult.built _ => true
  | _ => false

/-- The call ended at the early `return` of the colour loop. -/
def FSetRenderTargetsResult.IsAborted : FSetRenderTargetsResult → Bool
  | FSetRenderTargetsResult.aborted _ => true
  | _ => false

/-- The call took the reuse path. -/
def FSetRenderTargetsResult.IsReused : FSetRenderTargetsResult → Bool
  | FSetRenderTargetsResult.reused _ => true
  | _ => false

/-- A drawable is at hand for a surface without driver texture: one is cached in
`CurrentDrawable`, or the swap chain can be asked (on the Mac this needs
`CurrentLayer`) and its next answer is a drawable. -/
def DrawableAvailable (Platform : FMetalPlatform) (Cache : FMetalStateCache) : Bool :=
  Cache.CurrentDrawable.isSome
    || ((!Platform.PLATFORM_MAC || Cache.CurrentLayer.isSome)
        && (Cache.DrawableSupply.headD none).isSome)

/-- The texture at `Texture` has a usable driver texture handle: its surface
has one, or `ConditionalUpdateBackBuffer` will give it one. -/
def UsableTexture (Platform : FMetalPlatform) (Cache : FMetalStateCache) (Texture : Nat) :
    Bool :=
  (Cache.Surface Texture).Texture.isSome || DrawableAvailable Platform Cache

/-- The surface without its driver texture handle, the one member the cache
ever assigns. -/
def FMetalSurface.Static (Surface : FMetalSurface) : FMetalSurface :=
  { Surface with Texture := none }

/-- What the colour loop of `SetRenderTargetsInfo` keeps from one turn to the
next: the stored request, the command encoder, the four cached state objects,
every surface apart from its driver texture handle, every clear binding, and
which textures are usable. -/
structure LoopFrame (Platform : FMetalPlatform) (Before After : FMetalStateCache) : Prop where
  info : After.RenderTargetsInfo = Before.RenderTargetsInfo
  encoder : After.CommandEncoder = Before.CommandEncoder
  blend : After.BlendState = Before.BlendState
  depthStencil : After.DepthStencilState = Before.DepthStencilState
  rasterizer : After.RasterizerState = Before.RasterizerState
  boundShader : After.BoundShaderState = Before.BoundShaderState
  static : ∀ Texture, (After.Surface Texture).Static = (Before.Surface Texture).Static
  clear : ∀ Texture, (After.Textures Texture).ClearBinding = (Before.Textures Texture).ClearBinding
  usable : ∀ Texture, UsableTexture Platform After Texture = UsableTexture Platform Before Texture

/-- The colour slot is layered: its surface is a 2D-array, 3D or cube texture
and its slice index is the unspecified sentinel `0xFFFFFFFF`. -/
def IsLayered (RenderTargetView : FRHIRenderTargetView) (Surface : FMetalSurface) : Bool :=
  (Surface.SurfaceType == ERHIResourceType.RRT_Texture2DArray
      || Surface.SurfaceType == ERHIResourceType.RRT_Texture3D
      || Surface.SurfaceType == ERHIResourceType.RRT_TextureCube)
    && RenderTargetView.ArraySliceIndex == 4294967295

/-- What a turn of the colour loop that goes on to the next slot has done, for a
slot bound to `Texture`. -/
structure BoundTurn (Platform : FMetalPlatform) (RenderTargetIndex : Nat)
    (Cache : FMetalStateCache) (Locals : FPassLocals) (Texture : Nat)
    (Cache1 : FMetalStateCache) (Locals1 : FPassLocals) : Prop where
  frame : LoopFrame Platform Cache Cache1
  size : Cache1.FrameBufferSize
    = (SetRenderTargetsInfo.UpdateExtent Cache Locals.bFramebufferSizeSet
        (max ((Cache.Surface Texture).SizeX
          >>> (Cache.RenderTargetsInfo.Color RenderTargetIndex).MipIndex) 1)
        (max ((Cache.Surface Texture).SizeY
          >>> (Cache.RenderTargetsInfo.Color RenderTargetIndex).MipIndex) 1)).FrameBufferSize
  sizeSet : Locals1.bFramebufferSizeSet = true
  bound : Locals1.BoundTargets = (Locals.BoundTargets ||| (1 <<< RenderTargetIndex)) % 256
  array : Locals1.ArrayTargets
    = if IsLayered (Cache.RenderTargetsInfo.Color RenderTargetIndex) (Cache.Surface Texture)
      then (Locals.ArrayTargets ||| (1 <<< RenderTargetIndex)) % 256
      else Locals.ArrayTargets
  layers : Locals1.ArrayRenderLayers
    = if IsLayered (Cache.RenderTargetsInfo.Color RenderTargetIndex) (Cache.Surface Texture)
      then min Locals.ArrayRenderLayers (Cache.Surface Texture).GetNumFaces
      else 1
  length : Locals1.RenderPass.renderTargetArrayLength
    = Locals.RenderPass.renderTargetArrayLength
  valid : Cache1.bHasValidRenderTarget = true

/-- The surface bound to the slot has a multisample texture while the request
does not have exactly one colour target: the condition under which the
`checkf` of the colour loop fails. -/
def MSAACheckFails (Cache : FMetalStateCache) (In : FRHISetRenderTargetsInfo)
    (Texture : Nat) : Bool :=
  (Cache.Surface Texture).MSAATexture.isSome && !(In.NumColorRenderTargets == 1)

/-- The colour loop gets past slot `Index`: the slot is not bound, or its
texture is usable and the multisample check holds. -/
def SlotPasses (Platform : FMetalPlatform) (Cache : FMetalStateCache)
    (In : FRHISetRenderTargetsInfo) (Index : Nat) : Bool :=
  match BoundColorTexture In Index with
  | none => true
  | some Texture => UsableTexture Platform Cache Texture && !MSAACheckFails Cache In Texture

/-- The colour loop halts on the multisample check at slot `Index`: the slot is
bound, its texture is usable and the multisample check fails. -/
def SlotRaisesMSAA (Platform : FMetalPlatform) (Cache : FMetalStateCache)
    (In : FRHISetRenderTargetsInfo) (Index : Nat) : Bool :=
  match BoundColorTexture In Index with
  | none => false
  | some Texture => UsableTexture Platform Cache Texture && MSAACheckFails Cache In Texture

/-- The width and height a bound colour slot contributes to the extent:
`max(1, SizeX >> mip)` and `max(1, SizeY >> mip)`; `none` for a slot that is
not bound. -/
def ColorExtent (Cache : FMetalStateCache) (In : FRHISetRenderTargetsInfo) (Index : Nat) :
    Option (Nat × Nat) :=
  match BoundColorTexture In Index with
  | some Texture =>
    some (max ((Cache.Surface Texture).SizeX >>> (In.Color Index).MipIndex) 1,
      max ((Cache.Surface Texture).SizeY >>> (In.Color Index).MipIndex) 1)
  | none => none

/-- The contributions of the bound colour slots below `Count`, in slot order. -/
def ColorExtents (Cache : FMetalStateCache) (In : FRHISetRenderTargetsInfo) (Count : Nat) :
    List (Nat × Nat) :=
  (List.range Count).filterMap (ColorExtent Cache In)

/-- The width and height a bound depth/stencil attachment contributes:
`SizeX` and `SizeY` of its surface. -/
def DepthExtent (Cache : FMetalStateCache) (In : FRHISetRenderTargetsInfo) :
    Option (Nat × Nat) :=
  match In.DepthStencilRenderTarget.Texture with
  | some Texture => some ((Cache.Surface Texture).SizeX, (Cache.Surface Texture).SizeY)
  | none => none

/-- The contributions of all bound attachments of a request: the bound colour
slots in slot order, then the depth/stencil attachment. -/
def BoundExtents (Platform : FMetalPlatform) (Cache : FMetalStateCache)
    (In : FRHISetRenderTargetsInfo) : List (Nat × Nat) :=
  ColorExtents Cache In Platform.MaxMetalRenderTargets ++ (DepthExtent Cache In).toList

/-- The component-wise minimum of an extent and a contribution. -/
def ShrinkTo (Size : CGSize) (Extent : Nat × Nat) : CGSize :=
  { width := min Size.width Extent.1, height := min Size.height Extent.2 }

/-- The first contribution sets the extent and each later one shrinks it; with
no contribution the extent is (0, 0). -/
def MinExtent : List (Nat × Nat) → CGSize
  | [] => { width := 0, height := 0 }
  | Extent :: Extents => Extents.foldl ShrinkTo { width := Extent.1, height := Extent.2 }

/-- The extent and its flag after the colour loop has handled the slots below
`k`, for a loop entered with cache `Entry`. -/
def ExtentInvariant (Platform : FMetalPlatform) (Entry : FMetalStateCache) (k : Nat)
    (Cache : FMetalStateCache) (Locals : FPassLocals) : Prop :=
  LoopFrame Platform Entry Cache
    ∧ Locals.bFramebufferSizeSet = !(ColorExtents Entry Entry.RenderTargetsInfo k).isEmpty
    ∧ Cache.FrameBufferSize = MinExtent (ColorExtents Entry Entry.RenderTargetsInfo k)

/-- The colour slot `Index` of the request is bound. -/
def SlotIsBound (In : FRHISetRenderTargetsInfo) (Index : Nat) : Bool :=
  (BoundColorTexture In Index).isSome

/-- The colour slot `Index` is bound and layered. -/
def LayeredSlot (Cache : FMetalStateCache) (In : FRHISetRenderTargetsInfo) (Index : Nat) :
    Bool :=
  match BoundColorTexture In Index with
  | some Texture => IsLayered (In.Color Index) (Cache.Surface Texture)
  | none => false

/-- The colour slot `Index` is bound and not layered. -/
def PlainSlot (Cache : FMetalStateCache) (In : FRHISetRenderTargetsInfo) (Index : Nat) :
    Bool :=
  match BoundColorTexture In Index with
  | some Texture => !IsLayered (In.Color Index) (Cache.Surface Texture)
  | none => false

/-- The target masks, the layer count and the array length after the colour
loop has handled the slots below `k`, for a loop entered with cache `Entry`;
the masks are `uint8`, so the statement is for `k ≤ 8`. -/
def MaskInvariant (Platform : FMetalPlatform) (Entry : FMetalStateCache) (k : Nat)
    (Cache : FMetalStateCache) (Locals : FPassLocals) : Prop :=
  k ≤ 8 →
    LoopFrame Platform Entry Cache
      ∧ (∀ j, Locals.BoundTargets.testBit j
          = (decide (j < k) && SlotIsBound Entry.RenderTargetsInfo j))
      ∧ (∀ j, Locals.ArrayTargets.testBit j
          = (decide (j < k) && LayeredSlot Entry Entry.RenderTargetsInfo j))
      ∧ ((∀ j, j < k → PlainSlot Entry Entry.RenderTargetsInfo j = false) →
          (∀ j, j < k → ∀ T, BoundColorTexture Entry.RenderTargetsInfo j = some T →
              Locals.ArrayRenderLayers ≤ (Entry.Surface T).GetNumFaces)
            ∧ (Locals.ArrayRenderLayers = UINT_MAX
                ∨ ∃ j, j < k ∧ ∃ T, BoundColorTexture Entry.RenderTargetsInfo j = some T
                    ∧ Locals.ArrayRenderLayers = (Entry.Surface T).GetNumFaces))
      ∧ Locals.RenderPass.renderTargetArrayLength = none

/-! ## Sequences of calls on the cache -/

/-- A call of one of the four functions that switch encoders. -/
inductive FCacheCall where
  | SwitchToRender
  | SwitchToCompute
  | SwitchToBlit
  | SetRenderTargets (InRenderTargets : FRHISetRenderTargetsInfo) (QueryBuffer : Option Nat)

/-- One call made on the cache: the cache after it, or the halt. -/
def FCacheCall.Run (Platform : FMetalPlatform) (Cache : FMetalStateCache) :
    FCacheCall → FMetalResult
  | FCacheCall.SwitchToRender => FMetalResult.returned (ConditionalSwitchToRender Cache)
  | FCacheCall.SwitchToCompute => FMetalResult.returned (ConditionalSwitchToCompute Cache)
  | FCacheCall.SwitchToBlit => FMetalResult.returned (ConditionalSwitchToBlit Cache)
  | FCacheCall.SetRenderTargets InRenderTargets QueryBuffer =>
    match SetRenderTargetsInfo Platform Cache InRenderTargets QueryBuffer with
    | FSetRenderTargetsResult.fatal Reason Cache1 => FMetalResult.fatal Reason Cache1
    | FSetRenderTargetsResult.reused Cache1 => FMetalResult.returned Cache1
    | FSetRenderTargetsResult.aborted Cache1 => FMetalResult.returned Cache1
    | FSetRenderTargetsResult.built Cache1 => FMetalResult.returned Cache1

/-- A sequence of calls made one after the other; a halt ends the sequence. -/
def RunCalls (Platform : FMetalPlatform) : List FCacheCall → FMetalStateCache → FMetalResult
  | [], Cache => FMetalResult.returned Cache
  | Call :: Calls, Cache =>
    match Call.Run Platform Cache with
    | FMetalResult.returned Cache1 => RunCalls Platform Calls Cache1
    | FMetalResult.fatal Reason Cache1 => FMetalResult.fatal Reason Cache1

/-- The cache with which a call or a sequence ended or halted. -/
def FMetalResult.Cache : FMetalResult → FMetalStateCache
  | FMetalResult.returned Cache => Cache
  | FMetalResult.fatal _ Cache => Cache

/-- The encoder mode after one driver call made in mode `Mode`, or `none` when
the call breaks the nesting rule: an encoder is begun only while none is
active, and `EndEncoding` is called only while one is active. -/
def ModeAfterCall (Mode : EMetalEncoderMode) : FMetalCall → Option EMetalEncoderMode
  | FMetalCall.EndEncoding =>
    if Mode = EMetalEncoderMode.None then none else some EMetalEncoderMode.None
  | FMetalCall.BeginRenderCommandEncoding _ =>
    if Mode = EMetalEncoderMode.None then some EMetalEncoderMode.Render else none
  | FMetalCall.BeginComputeCommandEncoding =>
    if Mode = EMetalEncoderMode.None then some EMetalEncoderMode.Compute else none
  | FMetalCall.BeginBlitCommandEncoding =>
    if Mode = EMetalEncoderMode.None then some EMetalEncoderMode.Copy else none
  | _ => some Mode

/-- The encoder mode after a list of driver calls made from mode `Mode`, or
`none` when one of them breaks the nesting rule. -/
def ModeAfterCalls : List FMetalCall → EMetalEncoderMode → Option EMetalEncoderMode
  | [], Mode => some Mode
  | Call :: Calls, Mode =>
    match ModeAfterCall Mode Call with
    | some Mode1 => ModeAfterCalls Calls Mode1
    | none => none

/-- The cache with which a turn of the colour loop, or the loop, ended. -/
def FLoopStep.Cache : FLoopStep → FMetalStateCache
  | FLoopStep.next Cache _ => Cache
  | FLoopStep.abort Cache => Cache
  | FLoopStep.fatal _ Cache => Cache

/-- The driver calls made so far respect the nesting rule and lead to the mode
the command encoder is in. -/
def NestingInvariant (Cache : FMetalStateCache) : Prop :=
  ModeAfterCalls Cache.CommandEncoder.Calls EMetalEncoderMode.None
    = some Cache.CommandEncoder.Mode

/-- A drawable of the swap chain, for the sample inputs. -/
def SampleDrawable : CAMetalDrawable :=
  { texture := { Handle := 100, pixelFormat := MTLPixelFormat.Color 80, sampleCount := 1 } }

/-- The idle cache at the start of a frame in which the swap chain has one
drawable to hand out. -/
def FrameStartCache : FMetalStateCache :=
  { IdleCache with DrawableSupply := [some SampleDrawable] }

/-- The idle cache as constructed, before `SetCurrentLayer` has been called. -/
def NoLayerCache : FMetalStateCache :=
  { FrameStartCache with CurrentLayer := none }

/-- A run of `ConditionalUpdateBackBuffer` calls on the surfaces at the given
addresses, one after the other; a halt ends the run. -/
def UpdateBackBuffers (Platform : FMetalPlatform) :
    List Nat → FMetalStateCache → FMetalResult
  | [], Cache => FMetalResult.returned Cache
  | Texture :: Textures, Cache =>
    match ConditionalUpdateBackBuffer Platform Cache Texture with
    | FMetalResult.returned Cache1 => UpdateBackBuffers Platform Textures Cache1
    | FMetalResult.fatal Reason Cache1 => FMetalResult.fatal Reason Cache1

/-- The reason of the halt, `none` when the call or the run returned. -/
def FMetalResult.Halt : FMetalResult → Option EFatal
  | FMetalResult.fatal Reason _ => some Reason
  | FMetalResult.returned _ => none

/-- A second drawable of the swap chain, for the sample inputs. -/
def NextDrawable : CAMetalDrawable :=
  { texture := { Handle := 101, pixelFormat := MTLPixelFormat.Color 80, sampleCount := 1 } }

/-- The idle cache with a swap chain that has two drawables to hand out, after
the first frame has resolved the back buffer at address 3. -/
def SecondFrameCache : FMetalStateCache :=
  (ConditionalUpdateBackBuffer SampleMac
    { IdleCache with DrawableSupply := [some SampleDrawable, some NextDrawable] } 3).Cache

/-! ## Fields of the pipeline key -/

/-- The field of the key at bit `Offset` of width `NumBits`, as a number: the
bits `Offset`, …, `Offset + NumBits - 1`. -/
def GetHashValue (Hash Offset NumBits : Nat) : Nat :=
  (Hash / 2 ^ Offset) % 2 ^ NumBits

/-- Two fields, each given as (offset, width), share no bit. -/
def FieldsDisjoint (A B : Nat × Nat) : Prop :=
  A.1 + A.2 ≤ B.1 ∨ B.1 + B.2 ≤ A.1

instance (A B : Nat × Nat) : Decidable (FieldsDisjoint A B) := by
  unfold FieldsDisjoint
  exact inferInstance

/-- A list of field writes, each a field (offset, width) with its value, made
one after the other with `SetHashValue`. -/
def WriteFields : List ((Nat × Nat) × Nat) → FMetalRenderPipelineDesc →
    FMetalRenderPipelineDesc
  | [], Desc => Desc
  | Write :: Writes, Desc =>
    WriteFields Writes (Desc.SetHashValue Write.1.1 Write.1.2 Write.2)

/-- The facets of a pipeline configuration that go into the key. -/
structure FPipelineFacets where
  BlendKey : Nat → Nat
  RenderTargetFormatKey : Nat → Nat
  DepthFormatKey : Nat
  StencilFormatKey : Nat
  SampleCount : Nat
  PrimitiveTopology : Nat

/-- The fields of the key, each as (offset, width): the blend fields and the
render-target format fields of the targets, then depth format, stencil format,
sample count and primitive topology. -/
def PipelineFields (Platform : FMetalPlatform) : List (Nat × Nat) :=
  (List.range Platform.MaxMetalRenderTargets).map
      (fun Index => (Platform.BlendBitOffsets Index, Platform.NumBits_BlendState))
    ++ (List.range Platform.MaxMetalRenderTargets).map
      (fun Index => (Platform.RTBitOffsets Index, Platform.NumBits_RenderTargetFormat))
    ++ [(Platform.Offset_DepthFormat, Platform.NumBits_DepthFormat),
        (Platform.Offset_StencilFormat, Platform.NumBits_StencilFormat),
        (Platform.Offset_SampleCount, Platform.NumBits_SampleCount),
        (Platform.Offset_PrimitiveTopology, Platform.NumBits_PrimitiveTopology)]

/-- The writes that put each facet into its own field. -/
def PipelineWrites (Platform : FMetalPlatform) (Facets : FPipelineFacets) :
    List ((Nat × Nat) × Nat) :=
  (List.range Platform.MaxMetalRenderTargets).map
      (fun Index =>
        ((Platform.BlendBitOffsets Index, Platform.NumBits_BlendState), Facets.BlendKey Index))
    ++ (List.range Platform.MaxMetalRenderTargets).map
      (fun Index =>
        ((Platform.RTBitOffsets Index, Platform.NumBits_RenderTargetFormat),
          Facets.RenderTargetFormatKey Index))
    ++ [((Platform.Offset_DepthFormat, Platform.NumBits_DepthFormat), Facets.DepthFormatKey),
        ((Platform.Offset_StencilFormat, Platform.NumBits_StencilFormat),
          Facets.StencilFormatKey),
        ((Platform.Offset_SampleCount, Platform.NumBits_SampleCount), Facets.SampleCount),
        ((Platform.Offset_PrimitiveTopology, Platform.NumBits_PrimitiveTopology),
          Facets.PrimitiveTopology)]

/-- Modelled from the spec: the pipeline key, built from `Desc` by writing each
facet into its own field of the key with `SetHashValue`. -/
def PipelineKey (Platform : FMetalPlatform) (Facets : FPipelineFacets)
    (Desc : FMetalRenderPipelineDesc) : Nat :=
  (WriteFields (PipelineWrites Platform Facets) Desc).Hash

/-- Every facet value fits the width of its field. -/
def FacetsFit (Platform : FMetalPlatform) (Facets : FPipelineFacets) : Prop :=
  (∀ Index, Index < Platform.MaxMetalRenderTargets →
      Facets.BlendKey Index < 2 ^ Platform.NumBits_BlendState)
    ∧ (∀ Index, Index < Platform.MaxMetalRenderTargets →
        Facets.RenderTargetFormatKey Index < 2 ^ Platform.NumBits_RenderTargetFormat)
    ∧ Facets.DepthFormatKey < 2 ^ Platform.NumBits_DepthFormat
    ∧ Facets.StencilFormatKey < 2 ^ Platform.NumBits_StencilFormat
    ∧ Facets.SampleCount < 2 ^ Platform.NumBits_SampleCount
    ∧ Facets.PrimitiveTopology < 2 ^ Platform.NumBits_PrimitiveTopology

/-- Two facet tuples are the same: they agree on every target's blend key and
render-target format key and on the four single facets. -/
def SameFacets (Platform : FMetalPlatform) (F G : FPipelineFacets) : Prop :=
  (∀ Index, Index < Platform.MaxMetalRenderTargets → F.BlendKey Index = G.BlendKey Index)
    ∧ (∀ Index, Index < Platform.MaxMetalRenderTargets →
        F.RenderTargetFormatKey Index = G.RenderTargetFormatKey Index)
    ∧ F.DepthFormatKey = G.DepthFormatKey
    ∧ F.StencilFormatKey = G.StencilFormatKey
    ∧ F.SampleCount = G.SampleCount
    ∧ F.PrimitiveTopology = G.PrimitiveTopology

/-- A facet tuple for the sample inputs. -/
def SampleFacets : FPipelineFacets :=
  { BlendKey := fun Index => Index + 1
    RenderTargetFormatKey := fun _ => 7
    DepthFormatKey := 2
    StencilFormatKey := 0
    SampleCount := 4
    PrimitiveTopology := 1 }

/-- A pipeline descriptor for the sample inputs, its key zero. -/
def SampleDesc : FMetalRenderPipelineDesc := IdleCache.PipelineDesc

/-- A second facet tuple for the sample inputs: it differs from `SampleFacets`
in the sample count only. -/
def OtherFacets : FPipelineFacets :=
  { SampleFacets with SampleCount := 1 }

/-- The blend fields of the key, each as (offset, width). -/
def BlendFields (Platform : FMetalPlatform) : List (Nat × Nat) :=
  (List.range' 0 Platform.MaxMetalRenderTargets).map
    (fun Index => (Platform.BlendBitOffsets Index, Platform.NumBits_BlendState))

/-- The writes of the keys of `BlendState` into the blend fields of the targets
`RenderTargetIndex`, …, `RenderTargetIndex + Remaining - 1`. -/
def BlendWrites (Platform : FMetalPlatform) (BlendState : FMetalBlendState)
    (RenderTargetIndex Remaining : Nat) : List ((Nat × Nat) × Nat) :=
  (List.range' RenderTargetIndex Remaining).map
    (fun Index =>
      ((Platform.BlendBitOffsets Index, Platform.NumBits_BlendState),
        (BlendState.Target Index).BlendStateKey))

/-- Bit `Bit` of the key lies in no blend field. -/
def OutsideBlendFields (Platform : FMetalPlatform) (Bit : Nat) : Prop :=
  ∀ Index, Index < Platform.MaxMetalRenderTargets →
    ¬ (Platform.BlendBitOffsets Index ≤ Bit
      ∧ Bit < Platform.BlendBitOffsets Index + Platform.NumBits_BlendState)

/-- A blend state with one key for each of six targets and no blend descriptor. -/
def SampleBlendState : FMetalBlendState :=
  { Handle := 7
    RenderTargetStates :=
      [{ BlendState := none, BlendStateKey := 3 }, { BlendState := none, BlendStateKey := 1 },
       { BlendState := none, BlendStateKey := 0 }, { BlendState := none, BlendStateKey := 0 },
       { BlendState := none, BlendStateKey := 0 }, { BlendState := none, BlendStateKey := 9 }] }

/-- A viewport for the sample inputs. -/
def SampleViewport : MTLViewport :=
  { originX := 0, originY := 0, width := 800, height := 600, znear := 0, zfar := 1 }

/-- A compute shader for the sample inputs. -/
def SampleComputeShader : FMetalComputeShader := { Kernel := 9 }

/-! ## What the reuse predicate does not look at -/

/-- Two requests differ at most in the store actions of their colour slots. -/
def SameExceptColorStore (A B : FRHISetRenderTargetsInfo) : Prop :=
  A.NumColorRenderTargets = B.NumColorRenderTargets
    ∧ A.DepthStencilRenderTarget = B.DepthStencilRenderTarget
    ∧ A.bClearColor = B.bClearColor ∧ A.bClearDepth = B.bClearDepth
    ∧ A.bClearStencil = B.bClearStencil
    ∧ ∀ Index, { A.Color Index with StoreAction := (B.Color Index).StoreAction } = B.Color Index

/-- Two cache states differ at most in the store actions of the stored colour
slots. -/
def SameExceptStoredColorStore (A B : FMetalStateCache) : Prop :=
  B = { A with RenderTargetsInfo := B.RenderTargetsInfo }
    ∧ SameExceptColorStore A.RenderTargetsInfo B.RenderTargetsInfo

/-- Two requests differ at most in the depth/stencil slot, and there in
anything but the texture: load actions, store actions, write-access flags. -/
def SameExceptDepthActions (A B : FRHISetRenderTargetsInfo) : Prop :=
  B = { A with DepthStencilRenderTarget := B.DepthStencilRenderTarget }
    ∧ A.DepthStencilRenderTarget.Texture = B.DepthStencilRenderTarget.Texture

/-- A request binding the colour target at address 0 and the depth target at
address 2, with the given depth load action. -/
def ColorDepthRequest (DepthLoadAction : ERenderTargetLoadAction) : FRHISetRenderTargetsInfo :=
  { ColorRequest [0] with
    DepthStencilRenderTarget :=
      { DepthOnlyRequest.DepthStencilRenderTarget with DepthLoadAction := DepthLoadAction } }

/-- The cache inside the pass built for colour target 0 and depth target 2. -/
def ColorDepthCache : FMetalStateCache :=
  (SetRenderTargetsInfo SampleMac IdleCache (ColorDepthRequest ERenderTargetLoadAction.ELoad)
    none).Cache

/-- The request for colour target 0 with store action `ENoAction`. -/
def NoStoreRequest : FRHISetRenderTargetsInfo :=
  { ColorRequest [0] with
    ColorRenderTarget := [{ SampleView 0 with StoreAction := ERenderTargetStoreAction.ENoAction }] }

/-! ## The Halton sequence of the circle depth-of-field pass -/

/-- The `while (Index > 0)` loop of `TemporalHalton2`, with the float
operations carried out in exact rational arithmetic and `/`, `%` on `int32` as
truncating division; `none` when `Fuel` turns do not end the loop. -/
def TemporalHalton2.Loop (Base : Int) (InvBase : ℚ) :
    (Fuel : Nat) → (Index : Int) → (Result Fraction : ℚ) → Option ℚ
  | 0, _, _, _ => none
  | Fuel + 1, Index, Result, Fraction =>
    if Index > 0 then
      TemporalHalton2.Loop Base InvBase Fuel (Index.tdiv Base)
        (Result + ((Index.tmod Base : Int) : ℚ) * Fraction) (Fraction * InvBase)
    else some Result

/-- The function `TemporalHalton2` of `PostProcessCircleDOF.cpp`. -/
def TemporalHalton2 (Fuel : Nat) (Index Base : Int) : Option ℚ :=
  let Result : ℚ := 0
  let InvBase : ℚ := 1 / (Base : ℚ)
  let Fraction : ℚ := InvBase
  TemporalHalton2.Loop Base InvBase Fuel Index Result Fraction

/-- The radical inverse of `Index` in base `Base`: the sum over `k` of
`d_k * Base^-(k+1)`, where `d_k` are the digits of `Index` in base `Base`, the
least significant first. -/
def RadicalInverse (Base Index : Nat) : ℚ :=
  ∑ k ∈ Finset.range (Nat.digits Base Index).length,
    ((Nat.digits Base Index).getD k 0 : ℚ) / (Base : ℚ) ^ (k + 1)

/-- The value of a digit list, least significant digit first, read behind the
point: `(d_0 + (d_1 + …) / B) / B`. -/
def DigitsValue (B : ℚ) : List Nat → ℚ
  | [] => 0
  | Digit :: Digits => ((Digit : ℚ) + DigitsValue B Digits) / B

/-! ## What a completed build leaves in the pipeline descriptor and the pass -/

/-- The format key the colour loop writes for slot `Index`: the key of the
surface of a bound slot, 0 for a slot that is not bound (null, unused or past
the requested count). -/
def SlotFormatKey (Cache : FMetalStateCache) (In : FRHISetRenderTargetsInfo) (Index : Nat) :
    Nat :=
  match BoundColorTexture In Index with
  | some Texture => (Cache.Surface Texture).FormatKey
  | none => 0

/-- The sample count a bound colour slot sets: the sample count of the
multisample texture of its surface when it has one, else 1. -/
def SurfaceSampleCount (Surface : FMetalSurface) : Nat :=
  match Surface.MSAATexture with
  | some MSAATexture => MSAATexture.sampleCount
  | none => 1

/-- The sample count after the colour loop, entered with sample count `Start`,
has handled the slots below `Count`: that of the highest bound slot below
`Count`, and `Start` when none is bound. -/
def ColorSampleCount (Cache : FMetalStateCache) (In : FRHISetRenderTargetsInfo) (Start : Nat) :
    (Count : Nat) → Nat
  | 0 => Start
  | Count + 1 =>
    match BoundColorTexture In Count with
    | some Texture => SurfaceSampleCount (Cache.Surface Texture)
    | none => ColorSampleCount Cache In Start Count

/-- The writes of the colour loop into the render-target format fields of the
key for the slots below `Count`, in slot order. -/
def FormatWrites (Platform : FMetalPlatform) (Cache : FMetalStateCache)
    (In : FRHISetRenderTargetsInfo) (Count : Nat) : List ((Nat × Nat) × Nat) :=
  (List.range Count).map (fun Index =>
    ((Platform.RTBitOffsets Index, Platform.NumBits_RenderTargetFormat),
      SlotFormatKey Cache In Index))

/-- What the colour loop has done to the pipeline descriptor and to the
depth/stencil part of the render pass after the slots below `k`, for a loop
entered with cache `Entry`. -/
def DescInvariant (Platform : FMetalPlatform) (Entry : FMetalStateCache) (k : Nat)
    (Cache : FMetalStateCache) (Locals : FPassLocals) : Prop :=
  LoopFrame Platform Entry Cache
    ∧ Cache.PipelineDesc.SampleCount
        = ColorSampleCount Entry Entry.RenderTargetsInfo Entry.PipelineDesc.SampleCount k
    ∧ Cache.PipelineDesc.Hash
        = (WriteFields (FormatWrites Platform Entry Entry.RenderTargetsInfo k)
            Entry.PipelineDesc).Hash
    ∧ Locals.RenderPass.depthAttachment = none
    ∧ Locals.RenderPass.stencilAttachment = none

/-- The pair `(bHasDepth, bHasStencil)` for the depth/stencil texture at
`Texture`: the classification of the pixel format of its surface's driver
texture, `Invalid` when the surface has none. -/
def DepthStencilHalves (Platform : FMetalPlatform) (Cache : FMetalStateCache) (Texture : Nat) :
    Bool × Bool :=
  SetRenderTargetsInfo.ClassifyDepthStencil Platform
    (pixelFormatOf (Cache.Surface Texture).Texture)

/-- The store action of the depth attachment as the depth/stencil block decides
it: on the Mac `DontCare` for a read-only depth access, otherwise the
translation of the requested store action. -/
def DepthStoreActionOf (Platform : FMetalPlatform) (View : FRHIDepthRenderTargetView) :
    MTLStoreAction :=
  if Platform.PLATFORM_MAC = true ∧ View.DepthStencilAccess.IsDepthWrite = false then
    MTLStoreAction.DontCare
  else GetMetalRTStoreAction View.DepthStoreAction

/-- The store action of the stencil attachment, decided likewise from the
stencil access. -/
def StencilStoreActionOf (Platform : FMetalPlatform) (View : FRHIDepthRenderTargetView) :
    MTLStoreAction :=
  if Platform.PLATFORM_MAC = true ∧ View.DepthStencilAccess.IsStencilWrite = false then
    MTLStoreAction.DontCare
  else GetMetalRTStoreAction View.StencilStoreAction

/-- The sample count after the depth/stencil block for a pipeline that enters
it with sample count `Count`: a count of 0 is replaced by the sample count of
the depth texture when a depth attachment is built, and a count still 0 by that
of the stencil texture when a stencil attachment is built. -/
def DepthSampleCount (Halves : Bool × Bool) (Surface : FMetalSurface) (Count : Nat) : Nat :=
  let Count1 :=
    if Halves.1 then (if Count = 0 then sampleCountOf Surface.Texture else Count) else Count
  if Halves.2 then (if Count1 = 0 then sampleCountOf Surface.StencilTexture else Count1)
  else Count1

/-- The three writes at the end of a build: depth format key, stencil format
key and sample count, each into its field of the pipeline key. -/
def CommitWrites (Platform : FMetalPlatform) (DepthFormatKey StencilFormatKey SampleCount : Nat) :
    List ((Nat × Nat) × Nat) :=
  [((Platform.Offset_DepthFormat, Platform.NumBits_DepthFormat), DepthFormatKey),
   ((Platform.Offset_StencilFormat, Platform.NumBits_StencilFormat), StencilFormatKey),
   ((Platform.Offset_SampleCount, Platform.NumBits_SampleCount), SampleCount)]

/-- The pair `(bHasDepth, bHasStencil)` of a request on a cache: that of its
depth/stencil texture, and neither half when there is none. -/
def RequestHalves (Platform : FMetalPlatform) (Cache : FMetalStateCache)
    (In : FRHISetRenderTargetsInfo) : Bool × Bool :=
  match In.DepthStencilRenderTarget.Texture with
  | some Texture => DepthStencilHalves Platform Cache Texture
  | none => (false, false)

/-- The depth format key written at the end of a build. -/
def DepthKeyOf (Platform : FMetalPlatform) (Cache : FMetalStateCache)
    (In : FRHISetRenderTargetsInfo) : Nat :=
  match In.DepthStencilRenderTarget.Texture with
  | some Texture =>
    if (DepthStencilHalves Platform Cache Texture).1 then (Cache.Surface Texture).FormatKey
    else 0
  | none => 0

/-- The stencil format key written at the end of a build. -/
def StencilKeyOf (Platform : FMetalPlatform) (Cache : FMetalStateCache)
    (In : FRHISetRenderTargetsInfo) : Nat :=
  match In.DepthStencilRenderTarget.Texture with
  | some Texture =>
    if (DepthStencilHalves Platform Cache Texture).2 then (Cache.Surface Texture).FormatKey
    else 0
  | none => 0

/-- The sample count a completed build leaves: the count of the colour loop,
passed through the depth/stencil block when a depth/stencil texture is bound. -/
def BuiltSampleCount (Platform : FMetalPlatform) (Cache : FMetalStateCache)
    (In : FRHISetRenderTargetsInfo) : Nat :=
  match In.DepthStencilRenderTarget.Texture with
  | some Texture =>
    DepthSampleCount (DepthStencilHalves Platform Cache Texture) (Cache.Surface Texture)
      (ColorSampleCount Cache In 0 Platform.MaxMetalRenderTargets)
  | none => ColorSampleCount Cache In 0 Platform.MaxMetalRenderTargets

/-- A build that is not the Mac build (iOS), otherwise as `SampleMac`. -/
def SampleIOS : FMetalPlatform :=
  { SampleMac with PLATFORM_MAC := false }

/-- A request binding only the depth target at address 2, with depth and
stencil read-only and store action Store for both. -/
def ReadOnlyDepthRequest : FRHISetRenderTargetsInfo :=
  { DepthOnlyRequest with
    DepthStencilRenderTarget :=
      { DepthOnlyRequest.DepthStencilRenderTarget with
        DepthStencilAccess := { IsDepthWrite := false, IsStencilWrite := false } } }

/-- The store action of the depth attachment of the render pass begun last. -/
def LastDepthStoreAction (Cache : FMetalStateCache) : Option MTLStoreAction :=
  match LastRenderPass Cache with
  | some RenderPass =>
    match RenderPass.depthAttachment with
    | some DepthAttachment => some DepthAttachment.storeAction
    | none => none
  | none => none

/-- Every multisample texture of a bound colour slot and the driver texture of
the depth/stencil slot have a sample count of at least 1, as every driver
texture has. -/
def PositiveSampleCounts (Cache : FMetalStateCache) (In : FRHISetRenderTargetsInfo) : Prop :=
  (∀ Index Texture X, BoundColorTexture In Index = some Texture →
      (Cache.Surface Texture).MSAATexture = some X → 0 < X.sampleCount)
    ∧ (∀ Texture X, In.DepthStencilRenderTarget.Texture = some Texture →
        (Cache.Surface Texture).Texture = some X → 0 < X.sampleCount)

/-- A request binding the colour target at address 0 in slot 0, nothing in
slot 1, and the depth target at address 2. -/
def GapRequest : FRHISetRenderTargetsInfo :=
  { ColorRenderTarget := [SampleView 0, { SampleView 0 with Texture := none }]
    NumColorRenderTargets := 2
    bClearColor := false
    DepthStencilRenderTarget := DepthOnlyRequest.DepthStencilRenderTarget
    bClearDepth := false
    bClearStencil := false }

/-! ## The states the cache can be in -/

/-- The function `SetCurrentLayer` of the Mac build.  Its two `check`s test the
layer for null, so the argument is a layer object, not a nullable pointer. -/
def SetCurrentLayer (Cache : FMetalStateCache) (NewLayer : Nat) : FMetalStateCache :=
  { Cache with CurrentLayer := some NewLayer }

/-- A colour view with every member zero, as `FMemory::Memzero` leaves it (the
first enumerator of each action enumeration is the one with value 0). -/
def ZeroedView : FRHIRenderTargetView :=
  { Texture := none, MipIndex := 0, ArraySliceIndex := 0,
    LoadAction := ERenderTargetLoadAction.ENoAction,
    StoreAction := ERenderTargetStoreAction.ENoAction }

/-- The member `RenderTargetsInfo` after `FMemory::Memzero(RenderTargetsInfo)`:
no colour target, every view zero.  `Slots` is the length of the array of
colour views, which is declared outside the file. -/
def ZeroedRenderTargetsInfo (Slots : Nat) : FRHISetRenderTargetsInfo :=
  { ColorRenderTarget := List.replicate Slots ZeroedView
    NumColorRenderTargets := 0
    bClearColor := false
    DepthStencilRenderTarget :=
      { Texture := none
        DepthLoadAction := ERenderTargetLoadAction.ENoAction
        DepthStoreAction := ERenderTargetStoreAction.ENoAction
        StencilLoadAction := ERenderTargetLoadAction.ENoAction
        StencilStoreAction := ERenderTargetStoreAction.ENoAction
        DepthStencilAccess := { IsDepthWrite := false, IsStencilWrite := false } }
    bClearDepth := false
    bClearStencil := false }

/-- The cache as the constructor `FMetalStateCache::FMetalStateCache` leaves
it.  The command encoder is the one it is given; the pipeline descriptor is a
default-constructed member whose constructor is outside the file; the texture
store and the swap chain are the surroundings it finds. -/
def FMetalStateCache.Constructed (InCommandEncoder : FMetalCommandEncoder)
    (PipelineDesc : FMetalRenderPipelineDesc) (Slots : Nat) (Textures : Nat → FRHITexture)
    (DrawableSupply : List (Option CAMetalDrawable)) (NumAcquired : Nat) : FMetalStateCache :=
  { CommandEncoder := InCommandEncoder
    BlendState := none
    DepthStencilState := none
    RasterizerState := none
    BoundShaderState := none
    ComputeShader := none
    StencilRef := 0
    BlendFactor := { R := 0, G := 0, B := 0, A := 0 }
    FrameBufferSize := { width := 0, height := 0 }
    CurrentDrawable := none
    CurrentLayer := none
    Viewport := { originX := 0, originY := 0, width := 0, height := 0, znear := 0, zfar := 0 }
    VertexBuffers := fun _ => none
    VertexStrides := fun _ => 0
    RenderTargetsInfo := ZeroedRenderTargetsInfo Slots
    bHasValidRenderTarget := false
    PipelineDesc := PipelineDesc
    Textures := Textures
    DrawableSupply := DrawableSupply
    NumAcquired := NumAcquired }

/-- The states the cache can be in: the state the constructor leaves, and every
state that a call of a function of the cache leads to from such a state (the
state at a halt is counted too).  Between two calls the surroundings may change
in any way: the command encoder, which the cache holds by reference, the
texture objects and the swap chain. -/
inductive Reachable (Platform : FMetalPlatform) : FMetalStateCache → Prop where
  | constructed (InCommandEncoder : FMetalCommandEncoder)
      (PipelineDesc : FMetalRenderPipelineDesc) (Slots : Nat) (Textures : Nat → FRHITexture)
      (DrawableSupply : List (Option CAMetalDrawable)) (NumAcquired : Nat) :
      Reachable Platform
        (FMetalStateCache.Constructed InCommandEncoder PipelineDesc Slots Textures
          DrawableSupply NumAcquired)
  | surroundings {Cache : FMetalStateCache} (CommandEncoder : FMetalCommandEncoder)
      (Textures : Nat → FRHITexture) (DrawableSupply : List (Option CAMetalDrawable))
      (NumAcquired : Nat) :
      Reachable Platform Cache →
      Reachable Platform
        { Cache with
          CommandEncoder := CommandEncoder
          Textures := Textures
          DrawableSupply := DrawableSupply
          NumAcquired := NumAcquired }
  | setBlendFactor {Cache : FMetalStateCache} (InBlendFactor : FLinearColor) :
      Reachable Platform Cache → Reachable Platform (SetBlendFactor Cache InBlendFactor)
  | setStencilRef {Cache : FMetalStateCache} (InStencilRef : Nat) :
      Reachable Platform Cache → Reachable Platform (SetStencilRef Cache InStencilRef)
  | setBlendState {Cache : FMetalStateCache} (InBlendState : Option FMetalBlendState) :
      Reachable Platform Cache → Reachable Platform (SetBlendState Platform Cache InBlendState)
  | setDepthStencilState {Cache : FMetalStateCache}
      (InDepthStencilState : Option FMetalDepthStencilState) :
      Reachable Platform Cache →
      Reachable Platform (SetDepthStencilState Cache InDepthStencilState)
  | setRasterizerState {Cache : FMetalStateCache}
      (InRasterizerState : Option FMetalRasterizerState) :
      Reachable Platform Cache → Reachable Platform (SetRasterizerState Cache InRasterizerState)
  | setBoundShaderState {Cache : FMetalStateCache}
      (InBoundShaderState : Option FMetalBoundShaderState) :
      Reachable Platform Cache →
      Reachable Platform (SetBoundShaderState Cache InBoundShaderState)
  | setComputeShader {Cache : FMetalStateCache} (InComputeShader : FMetalComputeShader) :
      Reachable Platform Cache → Reachable Platform (SetComputeShader Cache InComputeShader)
  | setRenderTargetsInfo {Cache : FMetalStateCache} (InRenderTargets : FRHISetRenderTargetsInfo)
      (QueryBuffer : Option Nat) :
      Reachable Platform Cache →
      Reachable Platform (SetRenderTargetsInfo Platform Cache InRenderTargets QueryBuffer).Cache
  | setHasValidRenderTarget {Cache : FMetalStateCache} (InHasValidRenderTarget : Bool) :
      Reachable Platform Cache →
      Reachable Platform (SetHasValidRenderTarget Cache InHasValidRenderTarget)
  | setViewport {Cache : FMetalStateCache} (InViewport : MTLViewport) :
      Reachable Platform Cache → Reachable Platform (SetViewport Cache InViewport)
  | setVertexBuffer {Cache : FMetalStateCache} (Index : Nat) (Buffer : Option Nat)
      (Stride Offset : Nat) :
      Reachable Platform Cache →
      Reachable Platform (SetVertexBuffer Platform Cache Index Buffer Stride Offset).Cache
  | setCurrentLayer {Cache : FMetalStateCache} (NewLayer : Nat) :
      Reachable Platform Cache → Reachable Platform (SetCurrentLayer Cache NewLayer)
  | setPrimitiveTopology {Cache : FMetalStateCache} (PrimitiveType : Nat) :
      Reachable Platform Cache →
      Reachable Platform (SetPrimitiveTopology Platform Cache PrimitiveType)
  | conditionalSwitchToRender {Cache : FMetalStateCache} :
      Reachable Platform Cache → Reachable Platform (ConditionalSwitchToRender Cache)
  | conditionalSwitchToCompute {Cache : FMetalStateCache} :
      Reachable Platform Cache → Reachable Platform (ConditionalSwitchToCompute Cache)
  | conditionalSwitchToBlit {Cache : FMetalStateCache} :
      Reachable Platform Cache → Reachable Platform (ConditionalSwitchToBlit Cache)
  | resetCurrentDrawable {Cache : FMetalStateCache} :
      Reachable Platform Cache → Reachable Platform (ResetCurrentDrawable Cache)
  | conditionalUpdateBackBuffer {Cache : FMetalStateCache} (Texture : Nat) :
      Reachable Platform Cache →
      Reachable Platform (ConditionalUpdateBackBuffer Platform Cache Texture).Cache

/-- The cache as constructed on the sample texture store, with the layer set
and a pass begun on the colour target at address 0. -/
def FirstPassCache : FMetalStateCache :=
  (SetRenderTargetsInfo SampleMac
    (SetCurrentLayer
      (FMetalStateCache.Constructed { Mode := EMetalEncoderMode.None, Calls := [] }
        IdleCache.PipelineDesc 8 SampleTextures [] 0) 1)
    (ColorRequest [0]) none).Cache

/-! # Properties -/

/-! ## The reuse predicate -/

theorem ColorLoop_eq_true_iff (Stored In : FRHISetRenderTargetsInfo) (Remaining : Nat) :
    ∀ Start : Nat,
      NeedsToSetRenderTarget.ColorLoop Stored In Remaining Start = true ↔
        ∀ Index, Start ≤ Index → Index < Start + Remaining →
          (In.Color Index).Texture = (Stored.Color Index).Texture
            ∧ (In.Color Index).MipIndex = (Stored.Color Index).MipIndex
            ∧ (In.Color Index).ArraySliceIndex = (Stored.Color Index).ArraySliceIndex
            ∧ (In.Color Index).LoadAction ≠ ERenderTargetLoadAction.EClear := by
  induction Remaining with
  | zero =>
    intro Start
    simp only [NeedsToSetRenderTarget.ColorLoop, true_iff]
    intro Index h1 h2
    omega
  | succ n ih =>
    intro Start
    simp only [NeedsToSetRenderTarget.ColorLoop]
    by_cases hT : (In.Color Start).Texture = (Stored.Color Start).Texture
    · by_cases hM : (In.Color Start).MipIndex = (Stored.Color Start).MipIndex
      · by_cases hA : (In.Color Start).ArraySliceIndex = (Stored.Color Start).ArraySliceIndex
        · by_cases hL : (In.Color Start).LoadAction = ERenderTargetLoadAction.EClear
          · simp only [hT, hM, hA, hL, bne_self_eq_false, Bool.or_self, Bool.false_eq_true,
              if_false, beq_self_eq_true, if_true, false_iff]
            intro h
            exact (h Start (le_refl _) (by omega)).2.2.2 hL
          · have hL2 : ((In.Color Start).LoadAction == ERenderTargetLoadAction.EClear) = false := by
              simpa using hL
            simp only [hT, hM, hA, hL2, bne_self_eq_false, Bool.or_self, Bool.false_eq_true,
              if_false]
            rw [ih (Start + 1)]
            constructor
            · intro h Index h1 h2
              by_cases hI : Index = Start
              · subst hI
                exact ⟨hT, hM, hA, hL⟩
              · exact h Index (by omega) (by omega)
            · intro h Index h1 h2
              exact h Index (by omega) (by omega)
        · have hA2 : ((In.Color Start).ArraySliceIndex != (Stored.Color Start).ArraySliceIndex)
              = true := by simpa using hA
          simp only [hA2, Bool.or_true, if_true, Bool.false_eq_true, false_iff]
          intro h
          exact hA (h Start (le_refl _) (by omega)).2.2.1
      · have hM2 : ((In.Color Start).MipIndex != (Stored.Color Start).MipIndex) = true := by
          simpa using hM
        simp only [hM2, Bool.or_true, Bool.true_or, if_true, Bool.false_eq_true, false_iff]
        intro h
        exact hM (h Start (le_refl _) (by omega)).2.1
    · have hT2 : ((In.Color Start).Texture != (Stored.Color Start).Texture) = true := by
        simpa using hT
      simp only [hT2, Bool.true_or, if_true, Bool.false_eq_true, false_iff]
      intro h
      exact hT (h Start (le_refl _) (by omega)).1

/-- The reuse conditions on state and request, apart from the trivial unbind. -/
theorem needs_false_iff (Cache : FMetalStateCache) (In : FRHISetRenderTargetsInfo) :
    NeedsToSetRenderTarget Cache In = false ↔
      (Cache.bHasValidRenderTarget = true
        ∧ Cache.CommandEncoder.IsRenderCommandEncoderActive = true
        ∧ In.NumColorRenderTargets = Cache.RenderTargetsInfo.NumColorRenderTargets
        ∧ (In.DepthStencilRenderTarget.Texture
              = Cache.RenderTargetsInfo.DepthStencilRenderTarget.Texture
            ∨ In.DepthStencilRenderTarget.Texture = none)
        ∧ ∀ Index, Index < In.NumColorRenderTargets →
            (In.Color Index).Texture = (Cache.RenderTargetsInfo.Color Index).Texture
              ∧ (In.Color Index).MipIndex = (Cache.RenderTargetsInfo.Color Index).MipIndex
              ∧ (In.Color Index).ArraySliceIndex
                  = (Cache.RenderTargetsInfo.Color Index).ArraySliceIndex
              ∧ (In.Color Index).LoadAction ≠ ERenderTargetLoadAction.EClear)
      ∨ IsTrivialUnbind In := by
  have hloop := ColorLoop_eq_true_iff Cache.RenderTargetsInfo In In.NumColorRenderTargets 0
  simp only [Nat.zero_le, forall_true_left, Nat.zero_add] at hloop
  unfold NeedsToSetRenderTarget IsTrivialUnbind GetHasValidRenderTarget
  by_cases hU : In.NumColorRenderTargets = 1 ∧ (In.Color 0).Texture = none
      ∧ In.DepthStencilRenderTarget.Texture = none
  · obtain ⟨h1, h2, h3⟩ := hU
    simp [h1, h2, h3]
  · have hU2 : (In.NumColorRenderTargets == 1 && (In.Color 0).Texture == none
        && In.DepthStencilRenderTarget.Texture == none) = false := by
      rw [Bool.eq_false_iff]
      intro h
      simp only [Bool.and_eq_true, beq_iff_eq] at h
      exact hU ⟨h.1.1, h.1.2, h.2⟩
    simp only [hU2, Bool.false_eq_true, if_false, hU, or_false]
    by_cases h0 : (Cache.bHasValidRenderTarget
        && Cache.CommandEncoder.IsRenderCommandEncoderActive
        && In.NumColorRenderTargets == Cache.RenderTargetsInfo.NumColorRenderTargets
        && (In.DepthStencilRenderTarget.Texture
              == Cache.RenderTargetsInfo.DepthStencilRenderTarget.Texture
            || In.DepthStencilRenderTarget.Texture == none)) = true
    · simp only [h0, if_true, beq_eq_false_iff_ne, ne_eq, Bool.not_eq_false, hloop]
      simp only [Bool.and_eq_true, Bool.or_eq_true, beq_iff_eq] at h0
      constructor
      · intro h
        exact ⟨h0.1.1.1, h0.1.1.2, h0.1.2, h0.2, h⟩
      · intro h
        exact h.2.2.2.2
    · have h0f := Bool.eq_false_iff.mpr h0
      simp only [h0f, Bool.false_eq_true, if_false, beq_self_eq_true]
      constructor
      · intro h
        exact absurd h (by decide)
      intro h
      apply absurd _ h0
      simp only [Bool.and_eq_true, Bool.or_eq_true, beq_iff_eq]
      exact ⟨⟨⟨h.1, h.2.1⟩, h.2.2.1⟩, h.2.2.2.1⟩

/-- C1: `NeedsToSetRenderTarget` answers false (reuse) exactly when either the
valid flag is set, a render encoder is active, the colour-target counts agree,
the requested depth/stencil texture is the stored one or null, and every colour
slot below the requested count has the stored texture, mip index and raw slice
index and does not ask for load action Clear; or the request is the trivial
unbind.  In every other case it answers true. -/
theorem NeedsToSetRenderTarget_reuse_exactly (Cache : FMetalStateCache)
    (In : FRHISetRenderTargetsInfo) :
    (NeedsToSetRenderTarget Cache In = false ↔
      (Cache.bHasValidRenderTarget = true
        ∧ Cache.CommandEncoder.IsRenderCommandEncoderActive = true
        ∧ In.NumColorRenderTargets = Cache.RenderTargetsInfo.NumColorRenderTargets
        ∧ (In.DepthStencilRenderTarget.Texture
              = Cache.RenderTargetsInfo.DepthStencilRenderTarget.Texture
            ∨ In.DepthStencilRenderTarget.Texture = none)
        ∧ ∀ Index, Index < In.NumColorRenderTargets →
            (In.Color Index).Texture = (Cache.RenderTargetsInfo.Color Index).Texture
              ∧ (In.Color Index).MipIndex = (Cache.RenderTargetsInfo.Color Index).MipIndex
              ∧ (In.Color Index).ArraySliceIndex
                  = (Cache.RenderTargetsInfo.Color Index).ArraySliceIndex
              ∧ (In.Color Index).LoadAction ≠ ERenderTargetLoadAction.EClear)
      ∨ (In.NumColorRenderTargets = 1 ∧ (In.Color 0).Texture = none
          ∧ In.DepthStencilRenderTarget.Texture = none))
    ∧ (NeedsToSetRenderTarget Cache In = true ↔
      ¬ ((Cache.bHasValidRenderTarget = true
        ∧ Cache.CommandEncoder.IsRenderCommandEncoderActive = true
        ∧ In.NumColorRenderTargets = Cache.RenderTargetsInfo.NumColorRenderTargets
        ∧ (In.DepthStencilRenderTarget.Texture
              = Cache.RenderTargetsInfo.DepthStencilRenderTarget.Texture
            ∨ In.DepthStencilRenderTarget.Texture = none)
        ∧ ∀ Index, Index < In.NumColorRenderTargets →
            (In.Color Index).Texture = (Cache.RenderTargetsInfo.Color Index).Texture
              ∧ (In.Color Index).MipIndex = (Cache.RenderTargetsInfo.Color Index).MipIndex
              ∧ (In.Color Index).ArraySliceIndex
                  = (Cache.RenderTargetsInfo.Color Index).ArraySliceIndex
              ∧ (In.Color Index).LoadAction ≠ ERenderTargetLoadAction.EClear)
      ∨ (In.NumColorRenderTargets = 1 ∧ (In.Color 0).Texture = none
          ∧ In.DepthStencilRenderTarget.Texture = none))) := by
  have h := needs_false_iff Cache In
  unfold IsTrivialUnbind at h
  refine ⟨h, ?_⟩
  rw [← h]
  cases NeedsToSetRenderTarget Cache In <;> simp

theorem needs_true_of_not_false {Cache : FMetalStateCache} {In : FRHISetRenderTargetsInfo}
    (h : ¬ NeedsToSetRenderTarget Cache In = false) : NeedsToSetRenderTarget Cache In = true := by
  cases hN : NeedsToSetRenderTarget Cache In
  · exact absurd hN h
  · rfl

/-- A request whose colour slot 0 asks for Clear is reused only as the trivial unbind. -/
theorem needs_true_of_clear (Cache : FMetalStateCache) (In : FRHISetRenderTargetsInfo)
    (hN : 1 ≤ In.NumColorRenderTargets)
    (hC : (In.Color 0).LoadAction = ERenderTargetLoadAction.EClear)
    (hU : ¬ IsTrivialUnbind In) : NeedsToSetRenderTarget Cache In = true := by
  apply needs_true_of_not_false
  rw [needs_false_iff]
  rintro (h | h)
  · exact (h.2.2.2.2 0 (by omega)).2.2.2 hC
  · exact hU h

/-- Without the valid flag only the trivial unbind is reused. -/
theorem needs_true_of_invalid (Cache : FMetalStateCache) (In : FRHISetRenderTargetsInfo)
    (hV : Cache.bHasValidRenderTarget = false)
    (hU : ¬ IsTrivialUnbind In) : NeedsToSetRenderTarget Cache In = true := by
  apply needs_true_of_not_false
  rw [needs_false_iff]
  rintro (h | h)
  · rw [hV] at h
    exact absurd h.1 (by decide)
  · exact hU h

theorem needs_false_of_unbind (Cache : FMetalStateCache) (In : FRHISetRenderTargetsInfo)
    (hU : IsTrivialUnbind In) : NeedsToSetRenderTarget Cache In = false :=
  (needs_false_iff Cache In).mpr (Or.inr hU)

/-! ## Encoder switching -/

theorem switchToRender_of_render (Cache : FMetalStateCache)
    (hR : Cache.CommandEncoder.IsRenderCommandEncoderActive = true) :
    ConditionalSwitchToRender Cache = Cache := by
  have hM : Cache.CommandEncoder.Mode = EMetalEncoderMode.Render := by
    simpa [FMetalCommandEncoder.IsRenderCommandEncoderActive] using hR
  simp [ConditionalSwitchToRender, FMetalCommandEncoder.IsRenderCommandEncoderActive,
    FMetalCommandEncoder.IsBlitCommandEncoderActive,
    FMetalCommandEncoder.IsComputeCommandEncoderActive, hM]

/-- C3: in every cache state with a render encoder active, `SetRenderTargetsInfo`
with the trivial unbind (one colour slot, null texture, null depth/stencil
texture) is a no-op: `NeedsToSetRenderTarget` answers false and the call returns
on the reuse path with the cache it was given, so the encoder stays in render
mode, no call is made on the command encoder, and the stored bindings, valid
flag, extent, pipeline descriptor and cached state objects are unchanged. -/
theorem trivial_unbind_is_noop (Platform : FMetalPlatform) (Cache : FMetalStateCache)
    (In : FRHISetRenderTargetsInfo) (QueryBuffer : Option Nat)
    (hR : Cache.CommandEncoder.IsRenderCommandEncoderActive = true)
    (hN : In.NumColorRenderTargets = 1) (hC : (In.Color 0).Texture = none)
    (hD : In.DepthStencilRenderTarget.Texture = none) :
    NeedsToSetRenderTarget (ConditionalSwitchToRender Cache) In = false
      ∧ SetRenderTargetsInfo Platform Cache In QueryBuffer
          = FSetRenderTargetsResult.reused Cache
      ∧ (SetRenderTargetsInfo Platform Cache In QueryBuffer).Cache.CommandEncoder.Mode
          = EMetalEncoderMode.Render
      ∧ (SetRenderTargetsInfo Platform Cache In QueryBuffer).Cache.CommandEncoder.Calls
          = Cache.CommandEncoder.Calls := by
  have hS := switchToRender_of_render Cache hR
  have hF := needs_false_of_unbind Cache In ⟨hN, hC, hD⟩
  have hE : SetRenderTargetsInfo Platform Cache In QueryBuffer
      = FSetRenderTargetsResult.reused Cache := by
    simp [SetRenderTargetsInfo, hS, hF]
  refine ⟨by rw [hS]; exact hF, hE, ?_, ?_⟩
  · rw [hE]
    simpa [FMetalCommandEncoder.IsRenderCommandEncoderActive] using hR
  · rw [hE]
    rfl

theorem trivial_unbind_is_noop_witness :
    SetRenderTargetsInfo SampleMac RenderingCache UnbindRequest none
      = FSetRenderTargetsResult.reused RenderingCache :=
  (trivial_unbind_is_noop SampleMac RenderingCache UnbindRequest none
    (by decide) (by decide) (by decide) (by decide)).2.1

/-- C9: whatever the state before, after `ConditionalSwitchToCompute` the
compute encoder is active and the render and copy encoders are not, and after
`ConditionalSwitchToBlit` the copy encoder is active and the render and compute
encoders are not. -/
theorem switch_mode_exclusive (Cache : FMetalStateCache) :
    ((ConditionalSwitchToCompute Cache).CommandEncoder.IsComputeCommandEncoderActive = true
      ∧ (ConditionalSwitchToCompute Cache).CommandEncoder.IsRenderCommandEncoderActive = false
      ∧ (ConditionalSwitchToCompute Cache).CommandEncoder.IsBlitCommandEncoderActive = false)
    ∧ ((ConditionalSwitchToBlit Cache).CommandEncoder.IsBlitCommandEncoderActive = true
      ∧ (ConditionalSwitchToBlit Cache).CommandEncoder.IsRenderCommandEncoderActive = false
      ∧ (ConditionalSwitchToBlit Cache).CommandEncoder.IsComputeCommandEncoderActive = false) := by
  cases hM : Cache.CommandEncoder.Mode <;>
    simp [ConditionalSwitchToCompute, ConditionalSwitchToBlit,
      FMetalCommandEncoder.IsRenderCommandEncoderActive,
      FMetalCommandEncoder.IsBlitCommandEncoderActive,
      FMetalCommandEncoder.IsComputeCommandEncoderActive,
      FMetalCommandEncoder.EndEncoding, FMetalCommandEncoder.BeginComputeCommandEncoding,
      FMetalCommandEncoder.BeginBlitCommandEncoding, hM]

/-- C10: `ConditionalSwitchToRender` called while the mode is Compute, Copy or
None leaves no encoder active, makes the one call `EndEncoding` exactly when the
mode was Compute or Copy, and clears the valid flag, so that
`NeedsToSetRenderTarget` then answers true for every request but the trivial
unbind; called while the mode is Render it returns the cache unchanged (no call,
same valid flag). -/
theorem switchToRender_effect (Cache : FMetalStateCache) :
    (Cache.CommandEncoder.Mode ≠ EMetalEncoderMode.Render →
      (ConditionalSwitchToRender Cache).CommandEncoder.Mode = EMetalEncoderMode.None
        ∧ (ConditionalSwitchToRender Cache).CommandEncoder.Calls
            = Cache.CommandEncoder.Calls
                ++ (if Cache.CommandEncoder.Mode = EMetalEncoderMode.Compute
                      ∨ Cache.CommandEncoder.Mode = EMetalEncoderMode.Copy
                    then [FMetalCall.EndEncoding] else [])
        ∧ (ConditionalSwitchToRender Cache).bHasValidRenderTarget = false
        ∧ ∀ In : FRHISetRenderTargetsInfo,
            ¬ (In.NumColorRenderTargets = 1 ∧ (In.Color 0).Texture = none
                ∧ In.DepthStencilRenderTarget.Texture = none) →
            NeedsToSetRenderTarget (ConditionalSwitchToRender Cache) In = true)
    ∧ (Cache.CommandEncoder.Mode = EMetalEncoderMode.Render →
      ConditionalSwitchToRender Cache = Cache
        ∧ (ConditionalSwitchToRender Cache).CommandEncoder.Calls = Cache.CommandEncoder.Calls
        ∧ (ConditionalSwitchToRender Cache).bHasValidRenderTarget
            = Cache.bHasValidRenderTarget) := by
  constructor
  · intro hM
    have hV : (ConditionalSwitchToRender Cache).bHasValidRenderTarget = false := by
      cases hM2 : Cache.CommandEncoder.Mode <;>
        simp_all [ConditionalSwitchToRender, SetHasValidRenderTarget,
          FMetalCommandEncoder.IsRenderCommandEncoderActive,
          FMetalCommandEncoder.IsBlitCommandEncoderActive,
          FMetalCommandEncoder.IsComputeCommandEncoderActive,
          FMetalCommandEncoder.EndEncoding]
    refine ⟨?_, ?_, hV, fun In hU => needs_true_of_invalid _ In hV hU⟩
    · cases hM2 : Cache.CommandEncoder.Mode <;>
        simp_all [ConditionalSwitchToRender, SetHasValidRenderTarget,
          FMetalCommandEncoder.IsRenderCommandEncoderActive,
          FMetalCommandEncoder.IsBlitCommandEncoderActive,
          FMetalCommandEncoder.IsComputeCommandEncoderActive,
          FMetalCommandEncoder.EndEncoding]
    · cases hM2 : Cache.CommandEncoder.Mode <;>
        simp_all [ConditionalSwitchToRender, SetHasValidRenderTarget,
          FMetalCommandEncoder.IsRenderCommandEncoderActive,
          FMetalCommandEncoder.IsBlitCommandEncoderActive,
          FMetalCommandEncoder.IsComputeCommandEncoderActive,
          FMetalCommandEncoder.EndEncoding]
  · intro hM
    have hS : ConditionalSwitchToRender Cache = Cache :=
      switchToRender_of_render Cache
        (by simp [FMetalCommandEncoder.IsRenderCommandEncoderActive, hM])
    exact ⟨hS, by rw [hS], by rw [hS]⟩

/-! ## Building a pass: what the end of the function leaves -/

theorem build_built (Platform : FMetalPlatform) (Cache Cache1 : FMetalStateCache)
    (In : FRHISetRenderTargetsInfo) (QueryBuffer : Option Nat)
    (h : SetRenderTargetsInfo.Build Platform Cache In QueryBuffer
      = FSetRenderTargetsResult.built Cache1) :
    ∃ Cache2 Locals2 Locals3,
      SetRenderTargetsInfo.ColorTargets Platform Platform.MaxMetalRenderTargets 0
          (SetRenderTargetsInfo.Enter Platform Cache In QueryBuffer).1
          (SetRenderTargetsInfo.Enter Platform Cache In QueryBuffer).2
        = FLoopStep.next Cache2 Locals2
      ∧ SetRenderTargetsInfo.LayeredCheck Platform Locals2 = some Locals3
      ∧ Cache1 = SetRenderTargetsInfo.Commit Platform
          (SetRenderTargetsInfo.DepthStencil Platform Cache2 Locals3).1
          (SetRenderTargetsInfo.DepthStencil Platform Cache2 Locals3).2.1
          (SetRenderTargetsInfo.DepthStencil Platform Cache2 Locals3).2.2 := by
  unfold SetRenderTargetsInfo.Build at h
  simp only at h
  split at h
  · exact absurd h (by simp)
  · exact absurd h (by simp)
  · rename_i Cache2 Locals2 hLoop
    split at h
    · exact absurd h (by simp)
    · rename_i Locals3 hLay
      refine ⟨Cache2, Locals2, Locals3, hLoop, hLay, ?_⟩
      injection h with h
      exact h.symm

theorem setRenderTargetsInfo_built (Platform : FMetalPlatform) (Cache Cache1 : FMetalStateCache)
    (In : FRHISetRenderTargetsInfo) (QueryBuffer : Option Nat)
    (h : SetRenderTargetsInfo Platform Cache In QueryBuffer
      = FSetRenderTargetsResult.built Cache1) :
    NeedsToSetRenderTarget (ConditionalSwitchToRender Cache) In = true
      ∧ SetRenderTargetsInfo.Build Platform (ConditionalSwitchToRender Cache) In QueryBuffer
          = FSetRenderTargetsResult.built Cache1 := by
  unfold SetRenderTargetsInfo at h
  simp only at h
  split at h
  · rename_i hN
    exact ⟨hN, h⟩
  · exact absurd h (by simp)

/-- C4 (as stated, refuted): the cache is inside a render pass with the four
state objects set; the request binds the back buffer, which has no driver
texture, and the swap chain hands out no drawable.  `NeedsToSetRenderTarget`
answers true, the call returns, and the four state objects are still set. -/
theorem states_kept_on_aborted_build :
    NeedsToSetRenderTarget (ConditionalSwitchToRender RenderingCache) (ColorRequest [3]) = true
      ∧ (SetRenderTargetsInfo SampleMac RenderingCache (ColorRequest [3]) none).IsAborted = true
      ∧ ((SetRenderTargetsInfo SampleMac RenderingCache (ColorRequest [3]) none).Returned.map
          fun Cache => (Cache.BlendState, Cache.DepthStencilState, Cache.RasterizerState,
            Cache.BoundShaderState))
        = some (RenderingCache.BlendState, RenderingCache.DepthStencilState,
            RenderingCache.RasterizerState, RenderingCache.BoundShaderState)
      ∧ RenderingCache.BlendState ≠ none ∧ RenderingCache.DepthStencilState ≠ none
      ∧ RenderingCache.RasterizerState ≠ none ∧ RenderingCache.BoundShaderState ≠ none := by
  refine ⟨by decide, by rfl, by rfl, by decide, by decide, by decide, by decide⟩

/-- C4 (amended): for every cache state and request for which
`NeedsToSetRenderTarget` answers true inside `SetRenderTargetsInfo` and the
build is not ended by the early return for a colour attachment without usable
texture, once `SetRenderTargetsInfo` has returned the cached blend,
depth-stencil, rasterizer and bound shader states are all null. -/
theorem states_reset_after_new_pass (Platform : FMetalPlatform)
    (Cache Cache1 : FMetalStateCache) (In : FRHISetRenderTargetsInfo)
    (QueryBuffer : Option Nat)
    (hN : NeedsToSetRenderTarget (ConditionalSwitchToRender Cache) In = true)
    (hR : (SetRenderTargetsInfo Platform Cache In QueryBuffer).Returned = some Cache1)
    (hA : (SetRenderTargetsInfo Platform Cache In QueryBuffer).IsAborted = false) :
    Cache1.BlendState = none ∧ Cache1.DepthStencilState = none
      ∧ Cache1.RasterizerState = none ∧ Cache1.BoundShaderState = none := by
  have hB : SetRenderTargetsInfo.Build Platform (ConditionalSwitchToRender Cache) In QueryBuffer
      = FSetRenderTargetsResult.built Cache1 := by
    have hE : SetRenderTargetsInfo Platform Cache In QueryBuffer
        = SetRenderTargetsInfo.Build Platform (ConditionalSwitchToRender Cache) In
            QueryBuffer := by
      simp [SetRenderTargetsInfo, hN]
    rw [hE] at hR hA
    cases hX : SetRenderTargetsInfo.Build Platform (ConditionalSwitchToRender Cache) In
        QueryBuffer with
    | reused c =>
      rw [hX] at hR
      simp only [FSetRenderTargetsResult.Returned, Option.some.injEq] at hR
      unfold SetRenderTargetsInfo.Build at hX
      simp only at hX
      split at hX
      · exact absurd hX (by simp)
      · exact absurd hX (by simp)
      · split at hX
        · exact absurd hX (by simp)
        · exact absurd hX (by simp)
    | aborted c =>
      rw [hX] at hA
      exact absurd hA (by simp [FSetRenderTargetsResult.IsAborted])
    | built c =>
      rw [hX] at hR
      simp only [FSetRenderTargetsResult.Returned, Option.some.injEq] at hR
      rw [hR]
    | fatal r c =>
      rw [hX] at hR
      exact absurd hR (by simp [FSetRenderTargetsResult.Returned])
  obtain ⟨Cache2, Locals2, Locals3, _, _, hC⟩ := build_built Platform _ _ In QueryBuffer hB
  rw [hC]
  exact ⟨rfl, rfl, rfl, rfl⟩

theorem states_reset_after_new_pass_witness :
    (SetRenderTargetsInfo SampleMac RenderingCache (ColorRequest [1]) none).Cache.BlendState
        = none
      ∧ (SetRenderTargetsInfo SampleMac RenderingCache (ColorRequest [1])
          none).Cache.DepthStencilState = none
      ∧ (SetRenderTargetsInfo SampleMac RenderingCache (ColorRequest [1])
          none).Cache.RasterizerState = none
      ∧ (SetRenderTargetsInfo SampleMac RenderingCache (ColorRequest [1])
          none).Cache.BoundShaderState = none :=
  states_reset_after_new_pass SampleMac RenderingCache
    (SetRenderTargetsInfo SampleMac RenderingCache (ColorRequest [1]) none).Cache
    (ColorRequest [1]) none (by decide) (by rfl) (by rfl)

/-- C5 (the code at the failing input): the request binds only the depth target
at address 2, which has a driver texture, and no colour slot, so none asks for
Clear.  The first `SetRenderTargetsInfo` begins a render pass and leaves the
valid flag false; the same request again finds `NeedsToSetRenderTarget` true,
ends the pass just begun and begins another one. -/
theorem depth_only_bind_is_reissued :
    DepthOnlyRequest.NumColorRenderTargets = 0
      ∧ ((IdleCache.Surface 2).Texture.isSome = true)
      ∧ (SetRenderTargetsInfo SampleMac IdleCache DepthOnlyRequest none).IsBuilt = true
      ∧ (SetRenderTargetsInfo SampleMac IdleCache DepthOnlyRequest none).Cache.CommandEncoder.Mode
          = EMetalEncoderMode.Render
      ∧ (SetRenderTargetsInfo SampleMac IdleCache DepthOnlyRequest
          none).Cache.bHasValidRenderTarget = false
      ∧ NeedsToSetRenderTarget
          (ConditionalSwitchToRender
            (SetRenderTargetsInfo SampleMac IdleCache DepthOnlyRequest none).Cache)
          DepthOnlyRequest = true
      ∧ (SetRenderTargetsInfo SampleMac
          (SetRenderTargetsInfo SampleMac IdleCache DepthOnlyRequest none).Cache
          DepthOnlyRequest none).IsBuilt = true
      ∧ ∃ RenderPass,
          (SetRenderTargetsInfo SampleMac
            (SetRenderTargetsInfo SampleMac IdleCache DepthOnlyRequest none).Cache
            DepthOnlyRequest none).Cache.CommandEncoder.Calls
          = (SetRenderTargetsInfo SampleMac IdleCache DepthOnlyRequest
              none).Cache.CommandEncoder.Calls
            ++ [FMetalCall.EndEncoding, FMetalCall.BeginRenderCommandEncoding RenderPass] := by
  refine ⟨rfl, by rfl, by rfl, by rfl, by rfl, by rfl, by rfl, ⟨_, by rfl⟩⟩

/-! ## The colour loop, one turn -/

theorem LoopFrame.refl (Platform : FMetalPlatform) (Cache : FMetalStateCache) :
    LoopFrame Platform Cache Cache :=
  ⟨rfl, rfl, rfl, rfl, rfl, rfl, fun _ => rfl, fun _ => rfl, fun _ => rfl⟩

theorem LoopFrame.trans {Platform : FMetalPlatform} {A B C : FMetalStateCache}
    (h1 : LoopFrame Platform A B) (h2 : LoopFrame Platform B C) : LoopFrame Platform A C :=
  ⟨h2.info.trans h1.info, h2.encoder.trans h1.encoder, h2.blend.trans h1.blend,
    h2.depthStencil.trans h1.depthStencil, h2.rasterizer.trans h1.rasterizer,
    h2.boundShader.trans h1.boundShader,
    fun T => (h2.static T).trans (h1.static T), fun T => (h2.clear T).trans (h1.clear T),
    fun T => (h2.usable T).trans (h1.usable T)⟩

theorem static_fields {A B : FMetalSurface} (h : A.Static = B.Static) :
    A.SurfaceType = B.SurfaceType ∧ A.FormatKey = B.FormatKey ∧ A.SizeX = B.SizeX
      ∧ A.SizeY = B.SizeY ∧ A.bIsCubemap = B.bIsCubemap ∧ A.MSAATexture = B.MSAATexture
      ∧ A.StencilTexture = B.StencilTexture ∧ A.GetNumFaces = B.GetNumFaces := by
  have h1 := congrArg FMetalSurface.SurfaceType h
  have h2 := congrArg FMetalSurface.FormatKey h
  have h3 := congrArg FMetalSurface.SizeX h
  have h4 := congrArg FMetalSurface.SizeY h
  have h5 := congrArg FMetalSurface.bIsCubemap h
  have h6 := congrArg FMetalSurface.MSAATexture h
  have h7 := congrArg FMetalSurface.StencilTexture h
  have h8 := congrArg FMetalSurface.NumFaces h
  simp only [FMetalSurface.Static] at h1 h2 h3 h4 h5 h6 h7 h8
  exact ⟨h1, h2, h3, h4, h5, h6, h7, by simp [FMetalSurface.GetNumFaces, h8]⟩

/-- What `ConditionalUpdateBackBuffer` does: it halts on the Mac when it has to ask
the swap chain and there is no layer; otherwise it returns, the surface has a
driver texture afterwards exactly when the texture was usable, and nothing but
the surface's texture handle and the swap chain has changed. -/
theorem updateBackBuffer_spec (Platform : FMetalPlatform) (Cache : FMetalStateCache)
    (Texture : Nat) :
    (∃ Cache1, ConditionalUpdateBackBuffer Platform Cache Texture = FMetalResult.returned Cache1
        ∧ Cache1.RenderTargetsInfo = Cache.RenderTargetsInfo
        ∧ Cache1.CommandEncoder = Cache.CommandEncoder
        ∧ Cache1.BlendState = Cache.BlendState
        ∧ Cache1.DepthStencilState = Cache.DepthStencilState
        ∧ Cache1.RasterizerState = Cache.RasterizerState
        ∧ Cache1.BoundShaderState = Cache.BoundShaderState
        ∧ Cache1.PipelineDesc = Cache.PipelineDesc
        ∧ Cache1.FrameBufferSize = Cache.FrameBufferSize
        ∧ Cache1.bHasValidRenderTarget = Cache.bHasValidRenderTarget
        ∧ (∀ T, (Cache1.Surface T).Static = (Cache.Surface T).Static)
        ∧ (∀ T, (Cache1.Textures T).ClearBinding = (Cache.Textures T).ClearBinding)
        ∧ (Cache1.Surface Texture).Texture.isSome = UsableTexture Platform Cache Texture
        ∧ (UsableTexture Platform Cache Texture = true →
            ∀ T, UsableTexture Platform Cache1 T = UsableTexture Platform Cache T))
    ∨ (ConditionalUpdateBackBuffer Platform Cache Texture
          = FMetalResult.fatal EFatal.CheckCurrentLayer Cache
        ∧ UsableTexture Platform Cache Texture = false) := by
  unfold ConditionalUpdateBackBuffer
  cases hT : (Cache.Surface Texture).Texture with
  | some Tex =>
    left
    refine ⟨Cache, by simp, rfl, rfl, rfl, rfl, rfl, rfl, rfl, rfl, rfl, fun _ => rfl,
      fun _ => rfl, ?_, fun _ _ => rfl⟩
    simp [UsableTexture, hT]
  | none =>
    simp only [Option.isNone_none, if_true]
    cases hD : Cache.CurrentDrawable with
    | some Drawable =>
      left
      simp only [Option.isNone_some, Bool.false_eq_true, if_false, hD]
      refine ⟨_, rfl, rfl, rfl, rfl, rfl, rfl, rfl, rfl, rfl, rfl, ?_, ?_, ?_, ?_⟩
      · intro T
        by_cases hTT : T = Texture
        · subst hTT
          simp [FMetalStateCache.Surface, FMetalStateCache.SetSurfaceTexture,
            FMetalSurface.Static]
        · simp [FMetalStateCache.Surface, FMetalStateCache.SetSurfaceTexture,
            Function.update_noteq hTT]
      · intro T
        by_cases hTT : T = Texture
        · subst hTT
          simp [FMetalStateCache.SetSurfaceTexture]
        · simp [FMetalStateCache.SetSurfaceTexture, Function.update_noteq hTT]
      · simp [UsableTexture, DrawableAvailable, hD, FMetalStateCache.Surface,
          FMetalStateCache.SetSurfaceTexture]
      · intro _ T
        simp [UsableTexture, DrawableAvailable, hD, FMetalStateCache.SetSurfaceTexture]
    | none =>
      simp only [Option.isNone_none, if_true]
      by_cases hL : (Platform.PLATFORM_MAC = true ∧ Cache.CurrentLayer.isNone = true)
      · right
        obtain ⟨hL1, hL2⟩ := hL
        have hL3 : Cache.CurrentLayer.isSome = false := by
          cases hC : Cache.CurrentLayer with
          | none => rfl
          | some x => rw [hC] at hL2; exact absurd hL2 (by simp)
        simp [hL1, hL2, UsableTexture, DrawableAvailable, hT, hD, hL3]
      · have hAcq : (if Platform.PLATFORM_MAC = true then
              if Cache.CurrentLayer.isNone = true then
                FMetalResult.fatal EFatal.CheckCurrentLayer Cache
              else FMetalResult.returned Cache.AcquireDrawable
            else FMetalResult.returned Cache.AcquireDrawable)
            = FMetalResult.returned Cache.AcquireDrawable := by
          by_cases hP : Platform.PLATFORM_MAC = true
          · have hL2 : ¬ Cache.CurrentLayer.isNone = true := fun h => hL ⟨hP, h⟩
            simp [hP, hL2]
          · simp [hP]
        have hLayer : (!Platform.PLATFORM_MAC || Cache.CurrentLayer.isSome) = true := by
          by_cases hP : Platform.PLATFORM_MAC = true
          · have hL2 : ¬ Cache.CurrentLayer.isNone = true := fun h => hL ⟨hP, h⟩
            cases hC : Cache.CurrentLayer with
            | none => rw [hC] at hL2; exact absurd rfl hL2
            | some x => simp
          · simp [hP]
        left
        rw [hAcq]
        simp only
        have hT2 : (Cache.Textures Texture).Surface.Texture = none := hT
        cases hS : Cache.DrawableSupply.headD none with
        | none =>
          have hCD : Cache.AcquireDrawable.CurrentDrawable = none := hS
          have hS2 : Cache.DrawableSupply.head?.getD none = none := by simpa using hS
          simp only [hCD]
          refine ⟨_, rfl, rfl, rfl, rfl, rfl, rfl, rfl, rfl, rfl, rfl, ?_, ?_, ?_, ?_⟩
          · intro T
            by_cases hTT : T = Texture
            · subst hTT
              simp [FMetalStateCache.Surface, FMetalStateCache.SetSurfaceTexture,
                FMetalSurface.Static, FMetalStateCache.AcquireDrawable]
            · simp [FMetalStateCache.Surface, FMetalStateCache.SetSurfaceTexture,
                Function.update_noteq hTT, FMetalStateCache.AcquireDrawable]
          · intro T
            by_cases hTT : T = Texture
            · subst hTT
              simp [FMetalStateCache.SetSurfaceTexture, FMetalStateCache.AcquireDrawable]
            · simp [FMetalStateCache.SetSurfaceTexture, Function.update_noteq hTT,
                FMetalStateCache.AcquireDrawable]
          · simp [UsableTexture, DrawableAvailable, hD, hT2, hS2, FMetalStateCache.Surface,
              FMetalStateCache.SetSurfaceTexture]
          · intro hU
            simp [UsableTexture, DrawableAvailable, hD, hT2, hS2, FMetalStateCache.Surface] at hU
        | some Drawable =>
          have hCD : Cache.AcquireDrawable.CurrentDrawable = some Drawable := hS
          have hS2 : Cache.DrawableSupply.head?.getD none = some Drawable := by simpa using hS
          simp only [hCD]
          refine ⟨_, rfl, rfl, rfl, rfl, rfl, rfl, rfl, rfl, rfl, rfl, ?_, ?_, ?_, ?_⟩
          · intro T
            by_cases hTT : T = Texture
            · subst hTT
              simp [FMetalStateCache.Surface, FMetalStateCache.SetSurfaceTexture,
                FMetalSurface.Static, FMetalStateCache.AcquireDrawable]
            · simp [FMetalStateCache.Surface, FMetalStateCache.SetSurfaceTexture,
                Function.update_noteq hTT, FMetalStateCache.AcquireDrawable]
          · intro T
            by_cases hTT : T = Texture
            · subst hTT
              simp [FMetalStateCache.SetSurfaceTexture, FMetalStateCache.AcquireDrawable]
            · simp [FMetalStateCache.SetSurfaceTexture, Function.update_noteq hTT,
                FMetalStateCache.AcquireDrawable]
          · simp [UsableTexture, DrawableAvailable, hD, hT2, hS2, hLayer,
              FMetalStateCache.Surface, FMetalStateCache.SetSurfaceTexture]
          · intro _ T
            have hU1 : UsableTexture Platform Cache T = true := by
              simp only [UsableTexture, DrawableAvailable, hLayer, hS, Option.isSome_some,
                Bool.and_self, Bool.or_true]
            have hU2 : UsableTexture Platform
                (Cache.AcquireDrawable.SetSurfaceTexture Texture (some Drawable.texture)) T
                = true := by
              have hCD2 : (Cache.AcquireDrawable.SetSurfaceTexture Texture
                  (some Drawable.texture)).CurrentDrawable = some Drawable := hCD
              simp only [UsableTexture, DrawableAvailable, hCD2, Option.isSome_some,
                Bool.true_or, Bool.or_true]
            rw [hU1, hU2]

theorem updateExtent_frame (Platform : FMetalPlatform) (Cache : FMetalStateCache)
    (bSet : Bool) (Width Height : Nat) :
    LoopFrame Platform Cache (SetRenderTargetsInfo.UpdateExtent Cache bSet Width Height)
      ∧ (SetRenderTargetsInfo.UpdateExtent Cache bSet Width Height).PipelineDesc
          = Cache.PipelineDesc
      ∧ (SetRenderTargetsInfo.UpdateExtent Cache bSet Width Height).bHasValidRenderTarget
          = Cache.bHasValidRenderTarget
      ∧ (SetRenderTargetsInfo.UpdateExtent Cache bSet Width Height).Textures = Cache.Textures := by
  cases bSet <;>
    exact ⟨⟨rfl, rfl, rfl, rfl, rfl, rfl, fun _ => rfl, fun _ => rfl, fun _ => rfl⟩, rfl, rfl, rfl⟩

theorem arraySwitch_spec (Index : Nat) (View : FRHIRenderTargetView) (Surface : FMetalSurface)
    (Locals : FPassLocals) :
    (SetRenderTargetsInfo.ArraySwitch Index View Surface Locals).ArrayTargets
        = (if IsLayered View Surface then (Locals.ArrayTargets ||| (1 <<< Index)) % 256
          else Locals.ArrayTargets)
      ∧ (SetRenderTargetsInfo.ArraySwitch Index View Surface Locals).ArrayRenderLayers
        = (if IsLayered View Surface then min Locals.ArrayRenderLayers Surface.GetNumFaces
          else 1)
      ∧ (SetRenderTargetsInfo.ArraySwitch Index View Surface Locals).BoundTargets
        = Locals.BoundTargets
      ∧ (SetRenderTargetsInfo.ArraySwitch Index View Surface Locals).bFramebufferSizeSet
        = Locals.bFramebufferSizeSet
      ∧ (SetRenderTargetsInfo.ArraySwitch Index View Surface Locals).RenderPass
        = Locals.RenderPass := by
  unfold SetRenderTargetsInfo.ArraySwitch IsLayered
  by_cases hS : View.ArraySliceIndex = 4294967295 <;>
    cases hT : Surface.SurfaceType <;> simp [hS]

theorem isLayered_static {A B : FMetalSurface} (View : FRHIRenderTargetView)
    (h : A.Static = B.Static) : IsLayered View A = IsLayered View B := by
  unfold IsLayered
  rw [(static_fields h).1]

/-- A turn of the colour loop for a slot that is not bound. -/
theorem colorTarget_unbound (Platform : FMetalPlatform) (Index : Nat)
    (Cache : FMetalStateCache) (Locals : FPassLocals)
    (hB : BoundColorTexture Cache.RenderTargetsInfo Index = none) :
    ∃ Cache1, SetRenderTargetsInfo.ColorTarget Platform Index Cache Locals
        = FLoopStep.next Cache1 Locals
      ∧ LoopFrame Platform Cache Cache1
      ∧ Cache1.FrameBufferSize = Cache.FrameBufferSize
      ∧ Cache1.bHasValidRenderTarget = Cache.bHasValidRenderTarget := by
  unfold SetRenderTargetsInfo.ColorTarget
  rw [hB]
  exact ⟨_, rfl, ⟨rfl, rfl, rfl, rfl, rfl, rfl, fun _ => rfl, fun _ => rfl, fun _ => rfl⟩,
    rfl, rfl⟩

/-- A turn of the colour loop for a slot bound to `Texture`. -/
theorem colorTarget_bound (Platform : FMetalPlatform) (Index : Nat)
    (Cache : FMetalStateCache) (Locals : FPassLocals) (Texture : Nat)
    (hB : BoundColorTexture Cache.RenderTargetsInfo Index = some Texture) :
    (UsableTexture Platform Cache Texture = false →
        (∃ Cache1, SetRenderTargetsInfo.ColorTarget Platform Index Cache Locals
            = FLoopStep.abort Cache1 ∧ Cache1.CommandEncoder = Cache.CommandEncoder)
        ∨ (∃ Cache1, SetRenderTargetsInfo.ColorTarget Platform Index Cache Locals
            = FLoopStep.fatal EFatal.CheckCurrentLayer Cache1
              ∧ Cache1.CommandEncoder = Cache.CommandEncoder))
    ∧ (UsableTexture Platform Cache Texture = true →
        ((Cache.Surface Texture).MSAATexture.isSome = true
          ∧ Cache.RenderTargetsInfo.NumColorRenderTargets ≠ 1) →
        ∃ Cache1, SetRenderTargetsInfo.ColorTarget Platform Index Cache Locals
            = FLoopStep.fatal EFatal.CheckOnlyOneMRTWithMSAA Cache1
          ∧ Cache1.CommandEncoder = Cache.CommandEncoder)
    ∧ (UsableTexture Platform Cache Texture = true →
        ¬ ((Cache.Surface Texture).MSAATexture.isSome = true
          ∧ Cache.RenderTargetsInfo.NumColorRenderTargets ≠ 1) →
        ∃ Cache1 Locals1, SetRenderTargetsInfo.ColorTarget Platform Index Cache Locals
            = FLoopStep.next Cache1 Locals1
          ∧ BoundTurn Platform Index Cache Locals Texture Cache1 Locals1) := by
  obtain ⟨hF, hP, hV, hTx⟩ := updateExtent_frame Platform Cache Locals.bFramebufferSizeSet
    (max ((Cache.Surface Texture).SizeX >>> (Cache.RenderTargetsInfo.Color Index).MipIndex) 1)
    (max ((Cache.Surface Texture).SizeY >>> (Cache.RenderTargetsInfo.Color Index).MipIndex) 1)
  have hUse := hF.usable Texture
  unfold SetRenderTargetsInfo.ColorTarget
  rw [hB]
  simp only
  rcases updateBackBuffer_spec Platform
    (SetRenderTargetsInfo.UpdateExtent Cache Locals.bFramebufferSizeSet
      (max ((Cache.Surface Texture).SizeX >>> (Cache.RenderTargetsInfo.Color Index).MipIndex) 1)
      (max ((Cache.Surface Texture).SizeY >>> (Cache.RenderTargetsInfo.Color Index).MipIndex) 1))
    Texture with
    ⟨Cache2, hEq, hInfo, hEnc, hBl, hDs, hRa, hBs, hPd, hFs, hVa, hSt, hCl, hSome, hUs⟩
      | ⟨hEq, hNo⟩
  · rw [hEq]
    simp only
    rw [hUse] at hSome hUs
    refine ⟨?_, ?_, ?_⟩
    · intro hU
      left
      rw [hU] at hSome
      have hNone : (Cache2.Surface Texture).Texture.isNone = true := by
        cases hX : (Cache2.Surface Texture).Texture with
        | none => rfl
        | some x => rw [hX] at hSome; exact absurd hSome (by simp)
      simp only [hNone, if_true]
      exact ⟨_, rfl, hEnc.trans hF.encoder⟩
    · intro hU hM
      rw [hU] at hSome
      have hNone : (Cache2.Surface Texture).Texture.isNone = false := by
        cases hX : (Cache2.Surface Texture).Texture with
        | none => rw [hX] at hSome; exact absurd hSome (by simp)
        | some x => rfl
      have hMS : (Cache2.Surface Texture).MSAATexture = (Cache.Surface Texture).MSAATexture :=
        ((static_fields (hSt Texture)).2.2.2.2.2.1).trans
          (static_fields (hF.static Texture)).2.2.2.2.2.1
      have hNum : (Cache2.RenderTargetsInfo.NumColorRenderTargets == 1) = false := by
        rw [hInfo, hF.info]
        simpa using hM.2
      simp only [hNone, Bool.false_eq_true, if_false, hMS, hM.1, hNum, Bool.not_false,
        Bool.and_self, if_true]
      exact ⟨_, rfl, hEnc.trans hF.encoder⟩
    · intro hU hM
      rw [hU] at hSome
      have hNone : (Cache2.Surface Texture).Texture.isNone = false := by
        cases hX : (Cache2.Surface Texture).Texture with
        | none => rw [hX] at hSome; exact absurd hSome (by simp)
        | some x => rfl
      have hMS : (Cache2.Surface Texture).MSAATexture = (Cache.Surface Texture).MSAATexture :=
        ((static_fields (hSt Texture)).2.2.2.2.2.1).trans
          (static_fields (hF.static Texture)).2.2.2.2.2.1
      have hCond : ((Cache.Surface Texture).MSAATexture.isSome
          && !(Cache2.RenderTargetsInfo.NumColorRenderTargets == 1)) = false := by
        rw [hInfo, hF.info]
        rw [Bool.eq_false_iff]
        intro hc
        simp only [Bool.and_eq_true, Bool.not_eq_true', beq_eq_false_iff_ne, ne_eq] at hc
        exact hM hc
      simp only [hNone, Bool.false_eq_true, if_false, hMS, hCond]
      refine ⟨_, _, rfl, ?_⟩
      have hStat : ∀ T, (Cache2.Surface T).Static = (Cache.Surface T).Static :=
        fun T => (hSt T).trans (hF.static T)
      have hLay : IsLayered (Cache.RenderTargetsInfo.Color Index) (Cache2.Surface Texture)
          = IsLayered (Cache.RenderTargetsInfo.Color Index) (Cache.Surface Texture) :=
        isLayered_static _ (hStat Texture)
      have hFaces : (Cache2.Surface Texture).GetNumFaces = (Cache.Surface Texture).GetNumFaces :=
        (static_fields (hStat Texture)).2.2.2.2.2.2.2
      refine ⟨⟨hInfo.trans hF.info, hEnc.trans hF.encoder, hBl.trans hF.blend,
          hDs.trans hF.depthStencil, hRa.trans hF.rasterizer, hBs.trans hF.boundShader,
          hStat, fun T => (hCl T).trans (hF.clear T),
          fun T => (hUs hU T).trans (hF.usable T)⟩, hFs, ?_, ?_, ?_, ?_, ?_, rfl⟩
      · simp only [(arraySwitch_spec _ _ _ _).2.2.2.1]
      · simp only [(arraySwitch_spec _ _ _ _).2.2.1]
      · simp only [(arraySwitch_spec _ _ _ _).1, hLay]
      · simp only [(arraySwitch_spec _ _ _ _).2.1, hLay, hFaces]
      · simp only [(arraySwitch_spec _ _ _ _).2.2.2.2]
  · rw [hEq]
    simp only
    rw [hUse] at hNo
    refine ⟨?_, ?_, ?_⟩
    · intro _
      right
      exact ⟨_, rfl, hF.encoder⟩
    · intro hU
      rw [hNo] at hU
      exact absurd hU (by simp)
    · intro hU
      rw [hNo] at hU
      exact absurd hU (by simp)

/-! ## The colour loop as a whole -/

/-- Either every index of a range satisfies `p`, or there is a first one that
does not. -/
theorem first_failure (p : Nat → Bool) : ∀ (n i : Nat),
    (∀ k, i ≤ k → k < i + n → p k = true)
      ∨ ∃ k, i ≤ k ∧ k < i + n ∧ p k = false ∧ ∀ j, i ≤ j → j < k → p j = true := by
  intro n
  induction n with
  | zero =>
    intro i
    left
    intro k h1 h2
    omega
  | succ n ih =>
    intro i
    cases hp : p i with
    | false => exact Or.inr ⟨i, le_refl _, by omega, hp, fun j h1 h2 => by omega⟩
    | true =>
      rcases ih (i + 1) with h | ⟨k, h1, h2, h3, h4⟩
      · left
        intro k h1 h2
        by_cases hk : k = i
        · rw [hk]; exact hp
        · exact h k (by omega) (by omega)
      · right
        refine ⟨k, by omega, by omega, h3, ?_⟩
        intro j hj1 hj2
        by_cases hj : j = i
        · rw [hj]; exact hp
        · exact h4 j (by omega) hj2

theorem frame_slot {Platform : FMetalPlatform} {A B : FMetalStateCache}
    (h : LoopFrame Platform A B) (In : FRHISetRenderTargetsInfo) (Index : Nat) :
    SlotPasses Platform B In Index = SlotPasses Platform A In Index
      ∧ SlotRaisesMSAA Platform B In Index = SlotRaisesMSAA Platform A In Index := by
  unfold SlotPasses SlotRaisesMSAA MSAACheckFails
  cases BoundColorTexture In Index with
  | none => exact ⟨rfl, rfl⟩
  | some T =>
    simp only
    rw [h.usable T, (static_fields (h.static T)).2.2.2.2.2.1]
    exact ⟨rfl, rfl⟩

/-- An invariant of the turns that go on holds when the colour loop has run to
its end. -/
theorem colorTargets_invariant (Platform : FMetalPlatform)
    (Inv : Nat → FMetalStateCache → FPassLocals → Prop)
    (hStep : ∀ k Cache Locals Cache1 Locals1, Inv k Cache Locals →
      SetRenderTargetsInfo.ColorTarget Platform k Cache Locals = FLoopStep.next Cache1 Locals1 →
      Inv (k + 1) Cache1 Locals1) :
    ∀ (n i : Nat) (Cache : FMetalStateCache) (Locals : FPassLocals)
      (Cache1 : FMetalStateCache) (Locals1 : FPassLocals),
      Inv i Cache Locals →
      SetRenderTargetsInfo.ColorTargets Platform n i Cache Locals
        = FLoopStep.next Cache1 Locals1 →
      Inv (i + n) Cache1 Locals1 := by
  intro n
  induction n with
  | zero =>
    intro i Cache Locals Cache1 Locals1 hI hL
    simp only [SetRenderTargetsInfo.ColorTargets, FLoopStep.next.injEq] at hL
    rw [← hL.1, ← hL.2]
    exact hI
  | succ n ih =>
    intro i Cache Locals Cache1 Locals1 hI hL
    simp only [SetRenderTargetsInfo.ColorTargets] at hL
    split at hL
    · rename_i Cache2 Locals2 hT
      have := ih (i + 1) Cache2 Locals2 Cache1 Locals1 (hStep i _ _ _ _ hI hT) hL
      rw [show i + (n + 1) = i + 1 + n by omega]
      exact this
    · exact absurd hL (by simp)
    · exact absurd hL (by simp)

/-- One turn of the colour loop, by the kind of its slot, for a cache whose
stored request is `In`. -/
theorem colorTarget_by_kind (Platform : FMetalPlatform) (Index : Nat)
    (Cache : FMetalStateCache) (Locals : FPassLocals) :
    (SlotPasses Platform Cache Cache.RenderTargetsInfo Index = true →
        ∃ Cache1 Locals1, SetRenderTargetsInfo.ColorTarget Platform Index Cache Locals
            = FLoopStep.next Cache1 Locals1 ∧ LoopFrame Platform Cache Cache1)
    ∧ (SlotRaisesMSAA Platform Cache Cache.RenderTargetsInfo Index = true →
        ∃ Cache1, SetRenderTargetsInfo.ColorTarget Platform Index Cache Locals
            = FLoopStep.fatal EFatal.CheckOnlyOneMRTWithMSAA Cache1
          ∧ Cache1.CommandEncoder = Cache.CommandEncoder)
    ∧ (SlotPasses Platform Cache Cache.RenderTargetsInfo Index = false →
        SlotRaisesMSAA Platform Cache Cache.RenderTargetsInfo Index = false →
        (∃ Cache1, SetRenderTargetsInfo.ColorTarget Platform Index Cache Locals
            = FLoopStep.abort Cache1 ∧ Cache1.CommandEncoder = Cache.CommandEncoder)
        ∨ (∃ Cache1, SetRenderTargetsInfo.ColorTarget Platform Index Cache Locals
            = FLoopStep.fatal EFatal.CheckCurrentLayer Cache1
              ∧ Cache1.CommandEncoder = Cache.CommandEncoder)) := by
  cases hB : BoundColorTexture Cache.RenderTargetsInfo Index with
  | none =>
    obtain ⟨Cache1, hE, hF, _, _⟩ := colorTarget_unbound Platform Index Cache Locals hB
    simp only [SlotPasses, SlotRaisesMSAA, hB]
    exact ⟨fun _ => ⟨Cache1, Locals, hE, hF⟩, fun h => absurd h (by simp),
      fun h => absurd h (by simp)⟩
  | some T =>
    obtain ⟨h1, h2, h3⟩ := colorTarget_bound Platform Index Cache Locals T hB
    simp only [SlotPasses, SlotRaisesMSAA, hB, MSAACheckFails]
    refine ⟨?_, ?_, ?_⟩
    · intro h
      simp only [Bool.and_eq_true, Bool.not_eq_true', Bool.and_eq_false_imp,
        Bool.not_eq_false'] at h
      obtain ⟨Cache1, Locals1, hE, hT⟩ := h3 h.1 (by
        rintro ⟨hm, hn⟩
        have := h.2 hm
        simp only [beq_iff_eq] at this
        exact hn this)
      exact ⟨Cache1, Locals1, hE, hT.frame⟩
    · intro h
      simp only [Bool.and_eq_true, Bool.not_eq_true', beq_eq_false_iff_ne, ne_eq] at h
      exact h2 h.1 ⟨h.2.1, h.2.2⟩
    · intro hp hm
      cases hU : UsableTexture Platform Cache T with
      | false => exact h1 hU
      | true =>
        rw [hU] at hp hm
        simp only [Bool.true_and] at hp hm
        rw [hm] at hp
        exact absurd hp (by simp)

/-- How the colour loop ends, by the kinds of its slots. -/
theorem colorTargets_by_kind (Platform : FMetalPlatform) :
    ∀ (n i : Nat) (Cache : FMetalStateCache) (Locals : FPassLocals),
      ((∀ k, i ≤ k → k < i + n → SlotPasses Platform Cache Cache.RenderTargetsInfo k = true) →
        ∃ Cache1 Locals1, SetRenderTargetsInfo.ColorTargets Platform n i Cache Locals
            = FLoopStep.next Cache1 Locals1 ∧ LoopFrame Platform Cache Cache1)
      ∧ (∀ k, i ≤ k → k < i + n →
          (∀ j, i ≤ j → j < k → SlotPasses Platform Cache Cache.RenderTargetsInfo j = true) →
          SlotPasses Platform Cache Cache.RenderTargetsInfo k = false →
          (SlotRaisesMSAA Platform Cache Cache.RenderTargetsInfo k = true →
            ∃ Cache1, SetRenderTargetsInfo.ColorTargets Platform n i Cache Locals
                = FLoopStep.fatal EFatal.CheckOnlyOneMRTWithMSAA Cache1
              ∧ Cache1.CommandEncoder = Cache.CommandEncoder)
          ∧ (SlotRaisesMSAA Platform Cache Cache.RenderTargetsInfo k = false →
            (∃ Cache1, SetRenderTargetsInfo.ColorTargets Platform n i Cache Locals
                = FLoopStep.abort Cache1 ∧ Cache1.CommandEncoder = Cache.CommandEncoder)
            ∨ (∃ Cache1, SetRenderTargetsInfo.ColorTargets Platform n i Cache Locals
                = FLoopStep.fatal EFatal.CheckCurrentLayer Cache1
                  ∧ Cache1.CommandEncoder = Cache.CommandEncoder))) := by
  intro n
  induction n with
  | zero =>
    intro i Cache Locals
    refine ⟨fun _ => ⟨Cache, Locals, rfl, LoopFrame.refl _ _⟩, ?_⟩
    intro k h1 h2
    omega
  | succ n ih =>
    intro i Cache Locals
    obtain ⟨hPass, hMSAA, hStop⟩ := colorTarget_by_kind Platform i Cache Locals
    cases hp : SlotPasses Platform Cache Cache.RenderTargetsInfo i with
    | true =>
      obtain ⟨Cache2, Locals2, hE, hF⟩ := hPass hp
      obtain ⟨ih1, ih2⟩ := ih (i + 1) Cache2 Locals2
      have hSlot : ∀ k, SlotPasses Platform Cache2 Cache2.RenderTargetsInfo k
            = SlotPasses Platform Cache Cache.RenderTargetsInfo k
          ∧ SlotRaisesMSAA Platform Cache2 Cache2.RenderTargetsInfo k
            = SlotRaisesMSAA Platform Cache Cache.RenderTargetsInfo k := by
        intro k
        rw [hF.info]
        exact frame_slot hF _ k
      have hUnf : SetRenderTargetsInfo.ColorTargets Platform (n + 1) i Cache Locals
          = SetRenderTargetsInfo.ColorTargets Platform n (i + 1) Cache2 Locals2 := by
        simp only [SetRenderTargetsInfo.ColorTargets, hE]
      rw [hUnf]
      refine ⟨?_, ?_⟩
      · intro hAll
        obtain ⟨Cache1, Locals1, hE1, hF1⟩ := ih1 (fun k h1 h2 => by
          rw [(hSlot k).1]
          exact hAll k (by omega) (by omega))
        exact ⟨Cache1, Locals1, hE1, hF.trans hF1⟩
      · intro k h1 h2 hBefore hk
        have hki : k ≠ i := by
          intro hki
          rw [hki, hp] at hk
          exact absurd hk (by simp)
        obtain ⟨r1, r2⟩ := ih2 k (by omega) (by omega)
          (fun j hj1 hj2 => by
            rw [(hSlot j).1]
            exact hBefore j (by omega) hj2)
          (by rw [(hSlot k).1]; exact hk)
        rw [(hSlot k).2, hF.encoder] at r1 r2
        exact ⟨r1, r2⟩
    | false =>
      refine ⟨?_, ?_⟩
      · intro hAll
        have := hAll i (le_refl _) (by omega)
        rw [hp] at this
        exact absurd this (by simp)
      · intro k h1 h2 hBefore hk
        have hki : k = i := by
          by_contra hne
          have := hBefore i (le_refl _) (by omega)
          rw [hp] at this
          exact absurd this (by simp)
        subst hki
        refine ⟨?_, ?_⟩
        · intro hm
          obtain ⟨Cache1, hE, hC⟩ := hMSAA hm
          exact ⟨Cache1, by simp only [SetRenderTargetsInfo.ColorTargets, hE], hC⟩
        · intro hm
          rcases hStop hp hm with ⟨Cache1, hE, hC⟩ | ⟨Cache1, hE, hC⟩
          · exact Or.inl ⟨Cache1, by simp only [SetRenderTargetsInfo.ColorTargets, hE], hC⟩
          · exact Or.inr ⟨Cache1, by simp only [SetRenderTargetsInfo.ColorTargets, hE], hC⟩

/-! ## From the entry of the build to its colour loop -/

theorem switchToRender_surroundings (Cache : FMetalStateCache) :
    (ConditionalSwitchToRender Cache).Textures = Cache.Textures
      ∧ (ConditionalSwitchToRender Cache).CurrentDrawable = Cache.CurrentDrawable
      ∧ (ConditionalSwitchToRender Cache).CurrentLayer = Cache.CurrentLayer
      ∧ (ConditionalSwitchToRender Cache).DrawableSupply = Cache.DrawableSupply := by
  unfold ConditionalSwitchToRender SetHasValidRenderTarget
  simp only
  split <;> split <;> exact ⟨rfl, rfl, rfl, rfl⟩

theorem usable_congr (Platform : FMetalPlatform) {A B : FMetalStateCache}
    (hT : B.Textures = A.Textures) (hD : B.CurrentDrawable = A.CurrentDrawable)
    (hL : B.CurrentLayer = A.CurrentLayer) (hS : B.DrawableSupply = A.DrawableSupply)
    (Texture : Nat) : UsableTexture Platform B Texture = UsableTexture Platform A Texture := by
  simp only [UsableTexture, DrawableAvailable, FMetalStateCache.Surface, hT, hD, hL, hS]

/-- The cache with which the colour loop is entered, seen from the cache the
call was made on. -/
theorem enter_spec (Platform : FMetalPlatform) (Cache : FMetalStateCache)
    (In : FRHISetRenderTargetsInfo) (QueryBuffer : Option Nat) :
    (SetRenderTargetsInfo.Enter Platform (ConditionalSwitchToRender Cache) In
        QueryBuffer).1.RenderTargetsInfo = In
      ∧ (SetRenderTargetsInfo.Enter Platform (ConditionalSwitchToRender Cache) In
          QueryBuffer).1.CommandEncoder = (ConditionalSwitchToRender Cache).CommandEncoder
      ∧ (SetRenderTargetsInfo.Enter Platform (ConditionalSwitchToRender Cache) In
          QueryBuffer).1.Textures = Cache.Textures
      ∧ (∀ T, UsableTexture Platform
          (SetRenderTargetsInfo.Enter Platform (ConditionalSwitchToRender Cache) In
            QueryBuffer).1 T = UsableTexture Platform Cache T)
      ∧ (∀ k, SlotPasses Platform
            (SetRenderTargetsInfo.Enter Platform (ConditionalSwitchToRender Cache) In
              QueryBuffer).1 In k = SlotPasses Platform Cache In k)
      ∧ (∀ k, SlotRaisesMSAA Platform
            (SetRenderTargetsInfo.Enter Platform (ConditionalSwitchToRender Cache) In
              QueryBuffer).1 In k = SlotRaisesMSAA Platform Cache In k) := by
  obtain ⟨h1, h2, h3, h4⟩ := switchToRender_surroundings Cache
  have hU : ∀ T, UsableTexture Platform
      (SetRenderTargetsInfo.Enter Platform (ConditionalSwitchToRender Cache) In
        QueryBuffer).1 T = UsableTexture Platform Cache T :=
    fun T => usable_congr Platform (A := Cache)
      (B := (SetRenderTargetsInfo.Enter Platform (ConditionalSwitchToRender Cache) In
        QueryBuffer).1) h1 h2 h3 h4 T
  have hS : ∀ T, (SetRenderTargetsInfo.Enter Platform (ConditionalSwitchToRender Cache) In
      QueryBuffer).1.Surface T = Cache.Surface T := by
    intro T
    show ((ConditionalSwitchToRender Cache).Textures T).Surface = (Cache.Textures T).Surface
    rw [h1]
  refine ⟨rfl, rfl, h1, hU, ?_, ?_⟩
  · intro k
    unfold SlotPasses MSAACheckFails
    cases BoundColorTexture In k with
    | none => rfl
    | some T =>
      simp only
      rw [hU T, hS T]
  · intro k
    unfold SlotRaisesMSAA MSAACheckFails
    cases BoundColorTexture In k with
    | none => rfl
    | some T =>
      simp only
      rw [hU T, hS T]

theorem slotRaisesMSAA_iff (Platform : FMetalPlatform) (Cache : FMetalStateCache)
    (In : FRHISetRenderTargetsInfo) (k : Nat) :
    SlotRaisesMSAA Platform Cache In k = true ↔
      ∃ T, BoundColorTexture In k = some T ∧ UsableTexture Platform Cache T = true
        ∧ (Cache.Surface T).MSAATexture.isSome = true ∧ In.NumColorRenderTargets ≠ 1 := by
  unfold SlotRaisesMSAA MSAACheckFails
  cases BoundColorTexture In k with
  | none => simp
  | some T => simp

theorem slotPasses_usable (Platform : FMetalPlatform) (Cache : FMetalStateCache)
    (In : FRHISetRenderTargetsInfo) (k : Nat)
    (h : SlotPasses Platform Cache In k = true) (T : Nat)
    (hB : BoundColorTexture In k = some T) : UsableTexture Platform Cache T = true := by
  unfold SlotPasses at h
  rw [hB] at h
  simp only [Bool.and_eq_true] at h
  exact h.1

theorem slot_stops (Platform : FMetalPlatform) (Cache : FMetalStateCache)
    (In : FRHISetRenderTargetsInfo) (k : Nat)
    (h1 : SlotPasses Platform Cache In k = false)
    (h2 : SlotRaisesMSAA Platform Cache In k = false) :
    ∃ T, BoundColorTexture In k = some T ∧ UsableTexture Platform Cache T = false := by
  unfold SlotPasses at h1
  unfold SlotRaisesMSAA at h2
  cases hB : BoundColorTexture In k with
  | none =>
    rw [hB] at h1
    exact absurd h1 (by simp)
  | some T =>
    rw [hB] at h1 h2
    refine ⟨T, rfl, ?_⟩
    cases hU : UsableTexture Platform Cache T with
    | false => rfl
    | true =>
      simp only [hU, Bool.true_and] at h1 h2
      rw [h2] at h1
      exact absurd h1 (by simp)

/-- How the colour loop of a build ends, by the slots of the request and the
cache the call was made on. -/
theorem build_loop_by_kind (Platform : FMetalPlatform) (Cache : FMetalStateCache)
    (In : FRHISetRenderTargetsInfo) (QueryBuffer : Option Nat) :
    ((∀ k, k < Platform.MaxMetalRenderTargets → SlotPasses Platform Cache In k = true) →
        ∃ Cache1 Locals1,
          SetRenderTargetsInfo.ColorTargets Platform Platform.MaxMetalRenderTargets 0
              (SetRenderTargetsInfo.Enter Platform (ConditionalSwitchToRender Cache) In
                QueryBuffer).1
              (SetRenderTargetsInfo.Enter Platform (ConditionalSwitchToRender Cache) In
                QueryBuffer).2
            = FLoopStep.next Cache1 Locals1
          ∧ LoopFrame Platform
              (SetRenderTargetsInfo.Enter Platform (ConditionalSwitchToRender Cache) In
                QueryBuffer).1 Cache1)
      ∧ (∀ k, k < Platform.MaxMetalRenderTargets →
          (∀ j, j < k → SlotPasses Platform Cache In j = true) →
          SlotPasses Platform Cache In k = false →
          (SlotRaisesMSAA Platform Cache In k = true →
            ∃ Cache1,
              SetRenderTargetsInfo.ColorTargets Platform Platform.MaxMetalRenderTargets 0
                  (SetRenderTargetsInfo.Enter Platform (ConditionalSwitchToRender Cache) In
                    QueryBuffer).1
                  (SetRenderTargetsInfo.Enter Platform (ConditionalSwitchToRender Cache) In
                    QueryBuffer).2
                = FLoopStep.fatal EFatal.CheckOnlyOneMRTWithMSAA Cache1
              ∧ Cache1.CommandEncoder = (ConditionalSwitchToRender Cache).CommandEncoder)
          ∧ (SlotRaisesMSAA Platform Cache In k = false →
            (∃ Cache1,
              SetRenderTargetsInfo.ColorTargets Platform Platform.MaxMetalRenderTargets 0
                  (SetRenderTargetsInfo.Enter Platform (ConditionalSwitchToRender Cache) In
                    QueryBuffer).1
                  (SetRenderTargetsInfo.Enter Platform (ConditionalSwitchToRender Cache) In
                    QueryBuffer).2
                = FLoopStep.abort Cache1
              ∧ Cache1.CommandEncoder = (ConditionalSwitchToRender Cache).CommandEncoder)
            ∨ (∃ Cache1,
              SetRenderTargetsInfo.ColorTargets Platform Platform.MaxMetalRenderTargets 0
                  (SetRenderTargetsInfo.Enter Platform (ConditionalSwitchToRender Cache) In
                    QueryBuffer).1
                  (SetRenderTargetsInfo.Enter Platform (ConditionalSwitchToRender Cache) In
                    QueryBuffer).2
                = FLoopStep.fatal EFatal.CheckCurrentLayer Cache1
              ∧ Cache1.CommandEncoder = (ConditionalSwitchToRender Cache).CommandEncoder))) := by
  obtain ⟨hInfo, hEnc, _, _, hP, hM⟩ := enter_spec Platform Cache In QueryBuffer
  obtain ⟨h1, h2⟩ := colorTargets_by_kind Platform Platform.MaxMetalRenderTargets 0
    (SetRenderTargetsInfo.Enter Platform (ConditionalSwitchToRender Cache) In QueryBuffer).1
    (SetRenderTargetsInfo.Enter Platform (ConditionalSwitchToRender Cache) In QueryBuffer).2
  rw [hInfo] at h1 h2
  simp only [hP, hM, hEnc, Nat.zero_le, forall_true_left, Nat.zero_add] at h1 h2
  exact ⟨h1, h2⟩

/-! ## The multisample check -/

theorem setRenderTargetsInfo_of_needs (Platform : FMetalPlatform) (Cache : FMetalStateCache)
    (In : FRHISetRenderTargetsInfo) (QueryBuffer : Option Nat)
    (hN : NeedsToSetRenderTarget (ConditionalSwitchToRender Cache) In = true) :
    SetRenderTargetsInfo Platform Cache In QueryBuffer
      = SetRenderTargetsInfo.Build Platform (ConditionalSwitchToRender Cache) In QueryBuffer := by
  simp [SetRenderTargetsInfo, hN]

/-- The build halts on the multisample check exactly when its colour loop does. -/
theorem build_halt_msaa (Platform : FMetalPlatform) (Cache : FMetalStateCache)
    (In : FRHISetRenderTargetsInfo) (QueryBuffer : Option Nat) :
    (SetRenderTargetsInfo.Build Platform Cache In QueryBuffer).Halt
        = some EFatal.CheckOnlyOneMRTWithMSAA ↔
      ∃ Cache1,
        SetRenderTargetsInfo.ColorTargets Platform Platform.MaxMetalRenderTargets 0
            (SetRenderTargetsInfo.Enter Platform Cache In QueryBuffer).1
            (SetRenderTargetsInfo.Enter Platform Cache In QueryBuffer).2
          = FLoopStep.fatal EFatal.CheckOnlyOneMRTWithMSAA Cache1
        ∧ (SetRenderTargetsInfo.Build Platform Cache In QueryBuffer).Cache = Cache1 := by
  unfold SetRenderTargetsInfo.Build
  simp only
  cases hL : SetRenderTargetsInfo.ColorTargets Platform Platform.MaxMetalRenderTargets 0
      (SetRenderTargetsInfo.Enter Platform Cache In QueryBuffer).1
      (SetRenderTargetsInfo.Enter Platform Cache In QueryBuffer).2 with
  | next Cache1 Locals1 =>
    simp only
    cases SetRenderTargetsInfo.LayeredCheck Platform Locals1 <;>
      simp [FSetRenderTargetsResult.Halt]
  | abort Cache1 => simp [FSetRenderTargetsResult.Halt]
  | fatal Reason Cache1 =>
    simp only [FSetRenderTargetsResult.Halt, Option.some.injEq, FLoopStep.fatal.injEq,
      FSetRenderTargetsResult.Cache]
    constructor
    · intro h
      exact ⟨Cache1, ⟨h, rfl⟩, rfl⟩
    · rintro ⟨c, ⟨h, _⟩, _⟩
      exact h

/-- C7 (as stated, refuted): the request has two colour slots; slot 0 is the
back buffer, which has no driver texture and gets none because the swap chain
hands out no drawable; slot 1 is bound to a surface with a usable texture and a
multisample texture.  The build returns early at slot 0 and no check is raised. -/
theorem msaa_check_not_reached_after_abort :
    NeedsToSetRenderTarget (ConditionalSwitchToRender IdleCache) (ColorRequest [3, 4]) = true
      ∧ (ColorRequest [3, 4]).NumColorRenderTargets = 2
      ∧ 1 < SampleMac.MaxMetalRenderTargets
      ∧ BoundColorTexture (ColorRequest [3, 4]) 1 = some 4
      ∧ UsableTexture SampleMac IdleCache 4 = true
      ∧ (IdleCache.Surface 4).MSAATexture.isSome = true
      ∧ (SetRenderTargetsInfo SampleMac IdleCache (ColorRequest [3, 4]) none).Halt = none
      ∧ (SetRenderTargetsInfo SampleMac IdleCache (ColorRequest [3, 4]) none).IsAborted = true := by
  refine ⟨by decide, rfl, by decide, by rfl, by rfl, by rfl, by rfl, by rfl⟩

/-- C7 (amended): during a new-pass build the multisample check is raised
exactly when some bound colour slot with a usable texture has a multisample
texture, the request's colour-target count is not 1, and every bound colour
slot before it has a usable texture (so that the build has not returned early
before reaching it); when it is raised no call has been made on the command
encoder since the entry switch, so `BeginRenderCommandEncoding` has not been
called. -/
theorem msaa_check_raised_exactly (Platform : FMetalPlatform) (Cache : FMetalStateCache)
    (In : FRHISetRenderTargetsInfo) (QueryBuffer : Option Nat)
    (hN : NeedsToSetRenderTarget (ConditionalSwitchToRender Cache) In = true) :
    ((SetRenderTargetsInfo Platform Cache In QueryBuffer).Halt
        = some EFatal.CheckOnlyOneMRTWithMSAA ↔
      ∃ i, i < Platform.MaxMetalRenderTargets ∧ ∃ T, BoundColorTexture In i = some T
        ∧ UsableTexture Platform Cache T = true
        ∧ (Cache.Surface T).MSAATexture.isSome = true
        ∧ In.NumColorRenderTargets ≠ 1
        ∧ ∀ j, j < i → ∀ T1, BoundColorTexture In j = some T1 →
            UsableTexture Platform Cache T1 = true)
    ∧ ((SetRenderTargetsInfo Platform Cache In QueryBuffer).Halt
        = some EFatal.CheckOnlyOneMRTWithMSAA →
      (SetRenderTargetsInfo Platform Cache In QueryBuffer).Cache.CommandEncoder.Calls
        = (ConditionalSwitchToRender Cache).CommandEncoder.Calls) := by
  rw [setRenderTargetsInfo_of_needs Platform Cache In QueryBuffer hN]
  obtain ⟨hAll, hFirst⟩ := build_loop_by_kind Platform Cache In QueryBuffer
  have hKey : ∀ k, k < Platform.MaxMetalRenderTargets →
      (∀ j, j < k → SlotPasses Platform Cache In j = true) →
      SlotRaisesMSAA Platform Cache In k = true →
      (SetRenderTargetsInfo.Build Platform (ConditionalSwitchToRender Cache) In
          QueryBuffer).Halt = some EFatal.CheckOnlyOneMRTWithMSAA := by
    intro k hk hBefore hM
    have hP : SlotPasses Platform Cache In k = false := by
      obtain ⟨T, hB, hU, hMS, hNum⟩ := (slotRaisesMSAA_iff Platform Cache In k).mp hM
      unfold SlotPasses MSAACheckFails
      rw [hB]
      simp [hU, hMS, hNum]
    obtain ⟨Cache1, hE, _⟩ := (hFirst k hk hBefore hP).1 hM
    rw [build_halt_msaa]
    refine ⟨Cache1, hE, ?_⟩
    unfold SetRenderTargetsInfo.Build
    simp only [hE, FSetRenderTargetsResult.Cache]
  refine ⟨⟨?_, ?_⟩, ?_⟩
  · intro hH
    obtain ⟨Cache1, hE, _⟩ := (build_halt_msaa _ _ _ _).mp hH
    rcases first_failure (SlotPasses Platform Cache In) Platform.MaxMetalRenderTargets 0 with
      hA | ⟨k, _, hk, hP, hBefore⟩
    · obtain ⟨c, l, hE2, _⟩ := hAll (fun k hk => hA k (Nat.zero_le _) (by omega))
      rw [hE2] at hE
      exact absurd hE (by simp)
    · have hk2 : k < Platform.MaxMetalRenderTargets := by omega
      have hB2 : ∀ j, j < k → SlotPasses Platform Cache In j = true :=
        fun j hj => hBefore j (Nat.zero_le _) hj
      cases hM : SlotRaisesMSAA Platform Cache In k with
      | true =>
        obtain ⟨T, hB, hU, hMS, hNum⟩ := (slotRaisesMSAA_iff Platform Cache In k).mp hM
        exact ⟨k, hk2, T, hB, hU, hMS, hNum,
          fun j hj T1 hT1 => slotPasses_usable Platform Cache In j (hB2 j hj) T1 hT1⟩
      | false =>
        rcases (hFirst k hk2 hB2 hP).2 hM with ⟨c, hE2, _⟩ | ⟨c, hE2, _⟩
        · rw [hE2] at hE
          exact absurd hE (by simp)
        · rw [hE2] at hE
          exact absurd hE (by simp)
  · rintro ⟨i, hi, T, hB, hU, hMS, hNum, hBefore⟩
    have hMi : SlotRaisesMSAA Platform Cache In i = true :=
      (slotRaisesMSAA_iff Platform Cache In i).mpr ⟨T, hB, hU, hMS, hNum⟩
    rcases first_failure (SlotPasses Platform Cache In) i 0 with hA | ⟨k, _, hk, hP, hB2⟩
    · exact hKey i hi (fun j hj => hA j (Nat.zero_le _) (by omega)) hMi
    · have hk2 : k < i := by omega
      cases hM : SlotRaisesMSAA Platform Cache In k with
      | true => exact hKey k (by omega) (fun j hj => hB2 j (Nat.zero_le _) hj) hM
      | false =>
        obtain ⟨T1, hT1, hU1⟩ := slot_stops Platform Cache In k hP hM
        rw [hBefore k hk2 T1 hT1] at hU1
        exact absurd hU1 (by simp)
  · intro hH
    obtain ⟨Cache1, hE, hC⟩ := (build_halt_msaa _ _ _ _).mp hH
    rw [hC]
    rcases first_failure (SlotPasses Platform Cache In) Platform.MaxMetalRenderTargets 0 with
      hA | ⟨k, _, hk, hP, hBefore⟩
    · obtain ⟨c, l, hE2, _⟩ := hAll (fun k hk => hA k (Nat.zero_le _) (by omega))
      rw [hE2] at hE
      exact absurd hE (by simp)
    · have hk2 : k < Platform.MaxMetalRenderTargets := by omega
      have hB2 : ∀ j, j < k → SlotPasses Platform Cache In j = true :=
        fun j hj => hBefore j (Nat.zero_le _) hj
      cases hM : SlotRaisesMSAA Platform Cache In k with
      | true =>
        obtain ⟨c, hE2, hEnc⟩ := (hFirst k hk2 hB2 hP).1 hM
        rw [hE2] at hE
        simp only [FLoopStep.fatal.injEq, true_and] at hE
        rw [← hE, hEnc]
      | false =>
        rcases (hFirst k hk2 hB2 hP).2 hM with ⟨c, hE2, _⟩ | ⟨c, hE2, _⟩
        · rw [hE2] at hE
          exact absurd hE (by simp)
        · rw [hE2] at hE
          exact absurd hE (by simp)

theorem msaa_check_raised_exactly_witness :
    (SetRenderTargetsInfo SampleMac IdleCache (ColorRequest [4, 4]) none).Halt
        = some EFatal.CheckOnlyOneMRTWithMSAA
      ∧ (SetRenderTargetsInfo SampleMac IdleCache (ColorRequest [4, 4])
          none).Cache.CommandEncoder.Calls = []
      ∧ (SetRenderTargetsInfo SampleMac IdleCache (ColorRequest [4]) none).IsBuilt = true :=
  ⟨(msaa_check_raised_exactly SampleMac IdleCache (ColorRequest [4, 4]) none (by decide)).1.mpr
      ⟨0, by decide, 4, by rfl, by rfl, by rfl, by decide,
        fun j hj => absurd hj (Nat.not_lt_zero j)⟩,
    by rfl, by rfl⟩

/-! ## The frame-buffer extent -/

theorem minExtent_snoc (l : List (Nat × Nat)) (e : Nat × Nat) :
    MinExtent (l ++ [e])
      = if l.isEmpty then { width := e.1, height := e.2 } else ShrinkTo (MinExtent l) e := by
  cases l with
  | nil => rfl
  | cons a as => simp [MinExtent, List.foldl_append]

theorem foldl_shrink_bounds (es : List (Nat × Nat)) : ∀ a : CGSize,
    ((es.foldl ShrinkTo a).width ≤ a.width ∧ (es.foldl ShrinkTo a).height ≤ a.height)
      ∧ (∀ e ∈ es, (es.foldl ShrinkTo a).width ≤ e.1 ∧ (es.foldl ShrinkTo a).height ≤ e.2)
      ∧ ((es.foldl ShrinkTo a).width = a.width ∨ ∃ e ∈ es, (es.foldl ShrinkTo a).width = e.1)
      ∧ ((es.foldl ShrinkTo a).height = a.height
          ∨ ∃ e ∈ es, (es.foldl ShrinkTo a).height = e.2) := by
  induction es with
  | nil =>
    intro a
    simp
  | cons x xs ih =>
    intro a
    obtain ⟨⟨h1, h2⟩, h3, h4, h5⟩ := ih (ShrinkTo a x)
    simp only [List.foldl_cons, List.mem_cons, forall_eq_or_imp, exists_eq_or_imp]
    have hw : (ShrinkTo a x).width = min a.width x.1 := rfl
    have hh : (ShrinkTo a x).height = min a.height x.2 := rfl
    rw [hw] at h1 h4
    rw [hh] at h2 h5
    refine ⟨⟨le_trans h1 (min_le_left _ _), le_trans h2 (min_le_left _ _)⟩,
      ⟨⟨le_trans h1 (min_le_right _ _), le_trans h2 (min_le_right _ _)⟩, h3⟩, ?_, ?_⟩
    · rcases h4 with h | h
      · rcases min_choice a.width x.1 with hm | hm
        · left; rw [h, hm]
        · right; left; rw [h, hm]
      · right; right; exact h
    · rcases h5 with h | h
      · rcases min_choice a.height x.2 with hm | hm
        · left; rw [h, hm]
        · right; left; rw [h, hm]
      · right; right; exact h

/-- The value `MinExtent` is the component-wise minimum of the contributions. -/
theorem minExtent_is_minimum (l : List (Nat × Nat)) :
    (l = [] → MinExtent l = { width := 0, height := 0 })
      ∧ (∀ e ∈ l, (MinExtent l).width ≤ e.1 ∧ (MinExtent l).height ≤ e.2)
      ∧ (l ≠ [] → (∃ e ∈ l, (MinExtent l).width = e.1)
          ∧ ∃ e ∈ l, (MinExtent l).height = e.2) := by
  cases l with
  | nil => simp [MinExtent]
  | cons a as =>
    obtain ⟨⟨h1, h2⟩, h3, h4, h5⟩ := foldl_shrink_bounds as { width := a.1, height := a.2 }
    simp only [MinExtent, List.mem_cons, forall_eq_or_imp, exists_eq_or_imp, ne_eq,
      not_false_eq_true, forall_true_left, false_implies, true_and, reduceCtorEq]
    exact ⟨⟨⟨h1, h2⟩, h3⟩, h4, h5⟩

theorem colorExtents_succ (Cache : FMetalStateCache) (In : FRHISetRenderTargetsInfo)
    (k : Nat) :
    ColorExtents Cache In (k + 1)
      = ColorExtents Cache In k ++ (ColorExtent Cache In k).toList := by
  unfold ColorExtents
  rw [List.range_succ, List.filterMap_append]
  cases h : ColorExtent Cache In k <;> simp [List.filterMap, h]

/-- A turn of the colour loop that goes on, for a slot that is not bound. -/
theorem colorTarget_next_unbound (Platform : FMetalPlatform) (Index : Nat)
    (Cache Cache1 : FMetalStateCache) (Locals Locals1 : FPassLocals)
    (hB : BoundColorTexture Cache.RenderTargetsInfo Index = none)
    (hE : SetRenderTargetsInfo.ColorTarget Platform Index Cache Locals
      = FLoopStep.next Cache1 Locals1) :
    Locals1 = Locals ∧ LoopFrame Platform Cache Cache1
      ∧ Cache1.FrameBufferSize = Cache.FrameBufferSize
      ∧ Cache1.bHasValidRenderTarget = Cache.bHasValidRenderTarget := by
  obtain ⟨c, hE2, hF, hS, hV⟩ := colorTarget_unbound Platform Index Cache Locals hB
  rw [hE2] at hE
  simp only [FLoopStep.next.injEq] at hE
  rw [← hE.1, ← hE.2]
  exact ⟨rfl, hF, hS, hV⟩

/-- A turn of the colour loop that goes on, for a slot bound to `Texture`. -/
theorem colorTarget_next_bound (Platform : FMetalPlatform) (Index : Nat)
    (Cache Cache1 : FMetalStateCache) (Locals Locals1 : FPassLocals) (Texture : Nat)
    (hB : BoundColorTexture Cache.RenderTargetsInfo Index = some Texture)
    (hE : SetRenderTargetsInfo.ColorTarget Platform Index Cache Locals
      = FLoopStep.next Cache1 Locals1) :
    BoundTurn Platform Index Cache Locals Texture Cache1 Locals1 := by
  obtain ⟨h1, h2, h3⟩ := colorTarget_bound Platform Index Cache Locals Texture hB
  cases hU : UsableTexture Platform Cache Texture with
  | false =>
    rcases h1 hU with ⟨c, hE2, _⟩ | ⟨c, hE2, _⟩
    · rw [hE2] at hE
      exact absurd hE (by simp)
    · rw [hE2] at hE
      exact absurd hE (by simp)
  | true =>
    by_cases hM : (Cache.Surface Texture).MSAATexture.isSome = true
        ∧ Cache.RenderTargetsInfo.NumColorRenderTargets ≠ 1
    · obtain ⟨c, hE2, _⟩ := h2 hU hM
      rw [hE2] at hE
      exact absurd hE (by simp)
    · obtain ⟨c, l, hE2, hT⟩ := h3 hU hM
      rw [hE2] at hE
      simp only [FLoopStep.next.injEq] at hE
      rw [← hE.1, ← hE.2]
      exact hT

theorem updateExtent_size (Cache : FMetalStateCache) (bSet : Bool) (Width Height : Nat) :
    (SetRenderTargetsInfo.UpdateExtent Cache bSet Width Height).FrameBufferSize
      = if bSet then ShrinkTo Cache.FrameBufferSize (Width, Height)
        else { width := Width, height := Height } := by
  cases bSet <;> rfl

theorem extentInvariant_step (Platform : FMetalPlatform) (Entry : FMetalStateCache)
    (k : Nat) (Cache : FMetalStateCache) (Locals : FPassLocals)
    (Cache1 : FMetalStateCache) (Locals1 : FPassLocals)
    (hI : ExtentInvariant Platform Entry k Cache Locals)
    (hE : SetRenderTargetsInfo.ColorTarget Platform k Cache Locals
      = FLoopStep.next Cache1 Locals1) :
    ExtentInvariant Platform Entry (k + 1) Cache1 Locals1 := by
  obtain ⟨hF, hSet, hSize⟩ := hI
  unfold ExtentInvariant
  rw [colorExtents_succ]
  cases hB : BoundColorTexture Entry.RenderTargetsInfo k with
  | none =>
    have hB2 : BoundColorTexture Cache.RenderTargetsInfo k = none := by rw [hF.info]; exact hB
    obtain ⟨hL, hF1, hS1, _⟩ := colorTarget_next_unbound Platform k _ _ _ _ hB2 hE
    have hCE : ColorExtent Entry Entry.RenderTargetsInfo k = none := by
      simp only [ColorExtent, hB]
    rw [hCE, hL]
    simp only [Option.toList_none, List.append_nil]
    exact ⟨hF.trans hF1, hSet, hS1.trans hSize⟩
  | some T =>
    have hB2 : BoundColorTexture Cache.RenderTargetsInfo k = some T := by
      rw [hF.info]; exact hB
    have hT := colorTarget_next_bound Platform k _ _ _ _ T hB2 hE
    have hCE : ColorExtent Entry Entry.RenderTargetsInfo k
        = some (max ((Entry.Surface T).SizeX >>> (Entry.RenderTargetsInfo.Color k).MipIndex) 1,
            max ((Entry.Surface T).SizeY >>> (Entry.RenderTargetsInfo.Color k).MipIndex) 1) := by
      simp only [ColorExtent, hB]
    rw [hCE]
    simp only [Option.toList_some]
    refine ⟨hF.trans hT.frame, ?_, ?_⟩
    · rw [hT.sizeSet]
      simp
    · rw [hT.size, updateExtent_size, minExtent_snoc, hSet, hSize, hF.info,
        (static_fields (hF.static T)).2.2.1, (static_fields (hF.static T)).2.2.2.1]
      cases (ColorExtents Entry Entry.RenderTargetsInfo k).isEmpty <;> rfl

theorem layeredCheck_keeps (Platform : FMetalPlatform) (Locals Locals1 : FPassLocals)
    (h : SetRenderTargetsInfo.LayeredCheck Platform Locals = some Locals1) :
    Locals1.bFramebufferSizeSet = Locals.bFramebufferSizeSet
      ∧ Locals1.ArrayTargets = Locals.ArrayTargets
      ∧ Locals1.BoundTargets = Locals.BoundTargets
      ∧ Locals1.ArrayRenderLayers = Locals.ArrayRenderLayers := by
  unfold SetRenderTargetsInfo.LayeredCheck at h
  split at h
  · split at h
    · split at h
      · simp only [Option.some.injEq] at h
        rw [← h]
        exact ⟨rfl, rfl, rfl, rfl⟩
      · exact absurd h (by simp)
    · simp only [Option.some.injEq] at h
      rw [← h]
      exact ⟨rfl, rfl, rfl, rfl⟩
  · simp only [Option.some.injEq] at h
    rw [← h]
    exact ⟨rfl, rfl, rfl, rfl⟩

theorem depthStencil_size (Platform : FMetalPlatform) (Cache : FMetalStateCache)
    (Locals : FPassLocals) :
    (SetRenderTargetsInfo.DepthStencil Platform Cache Locals).1.FrameBufferSize
      = match Cache.RenderTargetsInfo.DepthStencilRenderTarget.Texture with
        | none => Cache.FrameBufferSize
        | some T =>
          if Locals.bFramebufferSizeSet then
            ShrinkTo Cache.FrameBufferSize ((Cache.Surface T).SizeX, (Cache.Surface T).SizeY)
          else { width := (Cache.Surface T).SizeX, height := (Cache.Surface T).SizeY } := by
  unfold SetRenderTargetsInfo.DepthStencil
  simp only
  cases hT : Cache.RenderTargetsInfo.DepthStencilRenderTarget.Texture with
  | none => rfl
  | some T =>
    simp only
    split_ifs <;> first | rfl | (simp only [updateExtent_size, *]; rfl)

theorem colorExtents_congr {A B : FMetalStateCache} (h : B.Textures = A.Textures)
    (In : FRHISetRenderTargetsInfo) (n : Nat) : ColorExtents B In n = ColorExtents A In n := by
  have hE : ColorExtent B In = ColorExtent A In := by
    funext k
    simp only [ColorExtent, FMetalStateCache.Surface, h]
  simp only [ColorExtents, hE]

/-- The extent with which a completed build leaves the cache. -/
theorem built_extent (Platform : FMetalPlatform) (Cache Cache1 : FMetalStateCache)
    (In : FRHISetRenderTargetsInfo) (QueryBuffer : Option Nat)
    (hB : SetRenderTargetsInfo Platform Cache In QueryBuffer
      = FSetRenderTargetsResult.built Cache1) :
    Cache1.FrameBufferSize = MinExtent (BoundExtents Platform Cache In) := by
  obtain ⟨_, hB1⟩ := setRenderTargetsInfo_built Platform Cache Cache1 In QueryBuffer hB
  obtain ⟨Cache2, Locals2, Locals3, hLoop, hLay, hC⟩ := build_built Platform _ _ In QueryBuffer hB1
  obtain ⟨hInfo, _, hTex, _, _, _⟩ := enter_spec Platform Cache In QueryBuffer
  have hI0 : ExtentInvariant Platform
      (SetRenderTargetsInfo.Enter Platform (ConditionalSwitchToRender Cache) In QueryBuffer).1 0
      (SetRenderTargetsInfo.Enter Platform (ConditionalSwitchToRender Cache) In QueryBuffer).1
      (SetRenderTargetsInfo.Enter Platform (ConditionalSwitchToRender Cache) In QueryBuffer).2 :=
    ⟨LoopFrame.refl _ _, rfl, rfl⟩
  have hI := colorTargets_invariant Platform
    (ExtentInvariant Platform
      (SetRenderTargetsInfo.Enter Platform (ConditionalSwitchToRender Cache) In QueryBuffer).1)
    (extentInvariant_step Platform _) Platform.MaxMetalRenderTargets 0 _ _ _ _ hI0 hLoop
  obtain ⟨hF, hSet, hSize⟩ := hI
  rw [Nat.zero_add, hInfo, colorExtents_congr hTex] at hSet hSize
  have hSet3 := (layeredCheck_keeps Platform _ _ hLay).1
  rw [hC]
  show (SetRenderTargetsInfo.DepthStencil Platform Cache2 Locals3).1.FrameBufferSize = _
  rw [depthStencil_size, hF.info, hInfo, hSet3, hSet, hSize]
  unfold BoundExtents DepthExtent
  cases hD : In.DepthStencilRenderTarget.Texture with
  | none => simp
  | some T =>
    have hS : (Cache2.Surface T).SizeX = (Cache.Surface T).SizeX
        ∧ (Cache2.Surface T).SizeY = (Cache.Surface T).SizeY := by
      have h1 := static_fields (hF.static T)
      have h2 : (SetRenderTargetsInfo.Enter Platform (ConditionalSwitchToRender Cache) In
          QueryBuffer).1.Surface T = Cache.Surface T := by
        show ((SetRenderTargetsInfo.Enter Platform (ConditionalSwitchToRender Cache) In
          QueryBuffer).1.Textures T).Surface = (Cache.Textures T).Surface
        rw [hTex]
      rw [h2] at h1
      exact ⟨h1.2.2.1, h1.2.2.2.1⟩
    simp only [Option.toList_some, minExtent_snoc, hS.1, hS.2]
    cases (ColorExtents Cache In Platform.MaxMetalRenderTargets).isEmpty <;> rfl

/-- C6: after `SetRenderTargetsInfo` has completed a new-pass build, the
frame-buffer extent is the component-wise minimum of width and height over all
bound attachments, a bound colour attachment contributing
`(max(1, SizeX >> mip), max(1, SizeY >> mip))` and a bound depth/stencil
attachment `(SizeX, SizeY)`: the first bound attachment sets the extent and each
later one shrinks it, and with no attachment bound the extent is (0, 0). -/
theorem frame_buffer_extent_is_minimum (Platform : FMetalPlatform)
    (Cache Cache1 : FMetalStateCache) (In : FRHISetRenderTargetsInfo)
    (QueryBuffer : Option Nat)
    (hB : SetRenderTargetsInfo Platform Cache In QueryBuffer
      = FSetRenderTargetsResult.built Cache1) :
    Cache1.FrameBufferSize = MinExtent (BoundExtents Platform Cache In)
      ∧ (BoundExtents Platform Cache In = [] →
          Cache1.FrameBufferSize = { width := 0, height := 0 })
      ∧ (∀ Extent ∈ BoundExtents Platform Cache In,
          Cache1.FrameBufferSize.width ≤ Extent.1 ∧ Cache1.FrameBufferSize.height ≤ Extent.2)
      ∧ (BoundExtents Platform Cache In ≠ [] →
          (∃ Extent ∈ BoundExtents Platform Cache In, Cache1.FrameBufferSize.width = Extent.1)
            ∧ ∃ Extent ∈ BoundExtents Platform Cache In,
                Cache1.FrameBufferSize.height = Extent.2) := by
  have h := built_extent Platform Cache Cache1 In QueryBuffer hB
  rw [h]
  exact ⟨rfl, minExtent_is_minimum _⟩

theorem frame_buffer_extent_is_minimum_witness :
    BoundExtents SampleMac IdleCache (ColorRequest [0, 1]) = [(800, 600), (400, 300)]
      ∧ (SetRenderTargetsInfo SampleMac IdleCache (ColorRequest [0, 1])
          none).Cache.FrameBufferSize = { width := 400, height := 300 }
      ∧ BoundExtents SampleMac RenderingCache (ColorRequest []) = []
      ∧ (SetRenderTargetsInfo SampleMac RenderingCache (ColorRequest [])
          none).Cache.FrameBufferSize = { width := 0, height := 0 } :=
  ⟨by rfl,
    (frame_buffer_extent_is_minimum SampleMac IdleCache
      (SetRenderTargetsInfo SampleMac IdleCache (ColorRequest [0, 1]) none).Cache
      (ColorRequest [0, 1]) none (by rfl)).1.trans (by rfl),
    by rfl,
    (frame_buffer_extent_is_minimum SampleMac RenderingCache
      (SetRenderTargetsInfo SampleMac RenderingCache (ColorRequest []) none).Cache
      (ColorRequest []) none (by rfl)).2.1 (by rfl)⟩

/-! ## Layered rendering -/

theorem testBit_or_shift_mod (m k j : Nat) :
    ((m ||| (1 <<< k)) % 256).testBit j
      = (decide (j < 8) && (m.testBit j || decide (k = j))) := by
  rw [show (256 : Nat) = 2 ^ 8 by norm_num, Nat.testBit_mod_two_pow, Nat.testBit_or,
    Nat.one_shiftLeft, Nat.testBit_two_pow]

theorem maskInvariant_step (Platform : FMetalPlatform) (Entry : FMetalStateCache)
    (k : Nat) (Cache : FMetalStateCache) (Locals : FPassLocals)
    (Cache1 : FMetalStateCache) (Locals1 : FPassLocals)
    (hI : MaskInvariant Platform Entry k Cache Locals)
    (hE : SetRenderTargetsInfo.ColorTarget Platform k Cache Locals
      = FLoopStep.next Cache1 Locals1) :
    MaskInvariant Platform Entry (k + 1) Cache1 Locals1 := by
  intro hk
  obtain ⟨hF, hBT, hAT, hARL, hLen⟩ := hI (by omega)
  have hk8 : k < 8 := by omega
  cases hB : BoundColorTexture Entry.RenderTargetsInfo k with
  | none =>
    have hB2 : BoundColorTexture Cache.RenderTargetsInfo k = none := by rw [hF.info]; exact hB
    obtain ⟨hL, hF1, _, _⟩ := colorTarget_next_unbound Platform k _ _ _ _ hB2 hE
    rw [hL]
    have hSB : SlotIsBound Entry.RenderTargetsInfo k = false := by
      simp only [SlotIsBound, hB, Option.isSome_none]
    have hLS : LayeredSlot Entry Entry.RenderTargetsInfo k = false := by
      simp only [LayeredSlot, hB]
    refine ⟨hF.trans hF1, ?_, ?_, ?_, hLen⟩
    · intro j
      rw [hBT j]
      by_cases hj : j = k
      · subst hj
        simp [hSB]
      · have : (decide (j < k + 1)) = decide (j < k) := by
          simp only [decide_eq_decide]
          omega
        rw [this]
    · intro j
      rw [hAT j]
      by_cases hj : j = k
      · subst hj
        simp [hLS]
      · have : (decide (j < k + 1)) = decide (j < k) := by
          simp only [decide_eq_decide]
          omega
        rw [this]
    · intro hPlain
      obtain ⟨h1, h2⟩ := hARL (fun j hj => hPlain j (by omega))
      refine ⟨?_, ?_⟩
      · intro j hj T hT
        by_cases hjk : j = k
        · subst hjk
          rw [hB] at hT
          exact absurd hT (by simp)
        · exact h1 j (by omega) T hT
      · rcases h2 with h | ⟨j, hj, T, hT, hQ⟩
        · exact Or.inl h
        · exact Or.inr ⟨j, by omega, T, hT, hQ⟩
  | some T =>
    have hB2 : BoundColorTexture Cache.RenderTargetsInfo k = some T := by
      rw [hF.info]; exact hB
    have hT := colorTarget_next_bound Platform k _ _ _ _ T hB2 hE
    have hLayEq : IsLayered (Cache.RenderTargetsInfo.Color k) (Cache.Surface T)
        = IsLayered (Entry.RenderTargetsInfo.Color k) (Entry.Surface T) := by
      rw [hF.info]
      exact isLayered_static _ (hF.static T)
    have hFaces : (Cache.Surface T).GetNumFaces = (Entry.Surface T).GetNumFaces :=
      (static_fields (hF.static T)).2.2.2.2.2.2.2
    have hSB : SlotIsBound Entry.RenderTargetsInfo k = true := by
      simp only [SlotIsBound, hB, Option.isSome_some]
    have hLS : LayeredSlot Entry Entry.RenderTargetsInfo k
        = IsLayered (Entry.RenderTargetsInfo.Color k) (Entry.Surface T) := by
      simp only [LayeredSlot, hB]
    have hPS : PlainSlot Entry Entry.RenderTargetsInfo k
        = !IsLayered (Entry.RenderTargetsInfo.Color k) (Entry.Surface T) := by
      simp only [PlainSlot, hB]
    have hBits : ∀ (m j : Nat) (q : Nat → Bool), q k = true →
        m.testBit j = (decide (j < k) && q j) →
        ((m ||| (1 <<< k)) % 256).testBit j = (decide (j < k + 1) && q j) := by
      intro m j q hq hm
      rw [testBit_or_shift_mod, hm]
      rcases Nat.lt_trichotomy j k with hjk | hjk | hjk
      · have e1 : decide (j < 8) = true := by simp; omega
        have e2 : decide (j < k) = true := by simp; omega
        have e3 : decide (j < k + 1) = true := by simp; omega
        have e4 : decide (k = j) = false := by simp; omega
        rw [e1, e2, e3, e4]
        simp
      · subst hjk
        have e1 : decide (j < 8) = true := by simp; omega
        have e3 : decide (j < j + 1) = true := by simp
        rw [e1, e3, hq]
        simp
      · have e2 : decide (j < k) = false := by simp; omega
        have e3 : decide (j < k + 1) = false := by simp; omega
        have e4 : decide (k = j) = false := by simp; omega
        rw [e2, e3, e4]
        simp
    have hKeep : ∀ (m j : Nat) (q : Nat → Bool), q k = false →
        m.testBit j = (decide (j < k) && q j) →
        m.testBit j = (decide (j < k + 1) && q j) := by
      intro m j q hq hm
      rw [hm]
      by_cases hj : j = k
      · subst hj
        simp [hq]
      · have : (decide (j < k + 1)) = decide (j < k) := by
          simp only [decide_eq_decide]
          omega
        rw [this]
    refine ⟨hF.trans hT.frame, ?_, ?_, ?_, ?_⟩
    · intro j
      rw [hT.bound]
      exact hBits _ j _ hSB (hBT j)
    · intro j
      rw [hT.array, hLayEq]
      cases hLay : IsLayered (Entry.RenderTargetsInfo.Color k) (Entry.Surface T) with
      | true =>
        simp only [if_true]
        exact hBits _ j _ (by rw [hLS, hLay]) (hAT j)
      | false =>
        simp only [Bool.false_eq_true, if_false]
        exact hKeep _ j _ (by rw [hLS, hLay]) (hAT j)
    · intro hPlain
      have hLay : IsLayered (Entry.RenderTargetsInfo.Color k) (Entry.Surface T) = true := by
        have := hPlain k (by omega)
        rw [hPS] at this
        simpa using this
      obtain ⟨h1, h2⟩ := hARL (fun j hj => hPlain j (by omega))
      rw [hT.layers, hLayEq, hLay, hFaces]
      simp only [if_true]
      refine ⟨?_, ?_⟩
      · intro j hj T1 hT1
        by_cases hjk : j = k
        · subst hjk
          rw [hB] at hT1
          simp only [Option.some.injEq] at hT1
          rw [← hT1]
          exact min_le_right _ _
        · exact le_trans (min_le_left _ _) (h1 j (by omega) T1 hT1)
      · rcases min_choice Locals.ArrayRenderLayers (Entry.Surface T).GetNumFaces with hm | hm
        · rw [hm]
          rcases h2 with h | ⟨j, hj, T1, hT1, hQ⟩
          · exact Or.inl h
          · exact Or.inr ⟨j, by omega, T1, hT1, hQ⟩
        · rw [hm]
          exact Or.inr ⟨k, by omega, T, hB, rfl⟩
    · rw [hT.length]
      exact hLen

theorem layeredSlot_isBound (Cache : FMetalStateCache) (In : FRHISetRenderTargetsInfo)
    (j : Nat) (h : LayeredSlot Cache In j = true) : SlotIsBound In j = true := by
  unfold LayeredSlot at h
  unfold SlotIsBound
  cases hB : BoundColorTexture In j with
  | none => rw [hB] at h; exact absurd h (by simp)
  | some T => rfl

/-- The two masks at the end of the colour loop, read as sets of slots. -/
theorem masks_as_sets (Cache : FMetalStateCache) (In : FRHISetRenderTargetsInfo)
    (n ArrayTargets BoundTargets : Nat)
    (hBT : ∀ j, BoundTargets.testBit j = (decide (j < n) && SlotIsBound In j))
    (hAT : ∀ j, ArrayTargets.testBit j = (decide (j < n) && LayeredSlot Cache In j)) :
    (ArrayTargets ≠ 0 ↔ ∃ j, j < n ∧ LayeredSlot Cache In j = true)
      ∧ (ArrayTargets = BoundTargets ↔
          ∀ j, j < n → SlotIsBound In j = true → LayeredSlot Cache In j = true) := by
  refine ⟨⟨?_, ?_⟩, ⟨?_, ?_⟩⟩
  · intro h
    obtain ⟨j, hj⟩ := Nat.ne_zero_implies_bit_true h
    rw [hAT j] at hj
    simp only [Bool.and_eq_true, decide_eq_true_eq] at hj
    exact ⟨j, hj.1, hj.2⟩
  · rintro ⟨j, hj, hL⟩ h0
    have := hAT j
    rw [h0, Nat.zero_testBit, hL] at this
    simp only [Bool.and_true] at this
    have h2 : decide (j < n) = true := by simpa using hj
    rw [h2] at this
    exact absurd this (by simp)
  · intro hEq j hj hSB
    have h1 := hAT j
    rw [hEq, hBT j, hSB] at h1
    have h2 : decide (j < n) = true := by simpa using hj
    rw [h2] at h1
    simpa using h1.symm
  · intro hAll
    apply Nat.eq_of_testBit_eq
    intro j
    rw [hAT j, hBT j]
    by_cases hj : j < n
    · have h2 : decide (j < n) = true := by simpa using hj
      rw [h2]
      simp only [Bool.true_and]
      cases hSB : SlotIsBound In j with
      | true => exact hAll j hj hSB
      | false =>
        cases hL : LayeredSlot Cache In j with
        | false => rfl
        | true =>
          rw [layeredSlot_isBound Cache In j hL] at hSB
          exact absurd hSB (by simp)
    · have h2 : decide (j < n) = false := by simpa using hj
      rw [h2]
      simp

theorem layeredCheck_spec (Platform : FMetalPlatform) (Locals : FPassLocals)
    (hAPI : Platform.METAL_API_1_1 = true) (hMac : Platform.PLATFORM_MAC = true) :
    SetRenderTargetsInfo.LayeredCheck Platform Locals
      = if Locals.ArrayTargets = 0 then some Locals
        else if Locals.ArrayTargets = Locals.BoundTargets then
          some { Locals with
            RenderPass :=
              { Locals.RenderPass with
                renderTargetArrayLength := some Locals.ArrayRenderLayers } }
        else none := by
  unfold SetRenderTargetsInfo.LayeredCheck
  simp only [hAPI, hMac, Bool.and_self, if_true]
  by_cases h0 : Locals.ArrayTargets = 0
  · simp [h0]
  · by_cases h1 : Locals.ArrayTargets = Locals.BoundTargets
    · simp [h0, h1]
    · simp [h0, h1]

theorem depthStencil_renderPass_length (Platform : FMetalPlatform) (Cache : FMetalStateCache)
    (Locals : FPassLocals) :
    (SetRenderTargetsInfo.DepthStencil Platform Cache Locals).2.1.RenderPass.renderTargetArrayLength
      = Locals.RenderPass.renderTargetArrayLength := by
  unfold SetRenderTargetsInfo.DepthStencil
  simp only
  cases hT : Cache.RenderTargetsInfo.DepthStencilRenderTarget.Texture with
  | none => rfl
  | some T =>
    simp only
    split_ifs <;> rfl

theorem commit_last_call (Platform : FMetalPlatform) (Cache : FMetalStateCache)
    (Locals : FPassLocals) (Keys : FDepthStencilKeys) :
    (SetRenderTargetsInfo.Commit Platform Cache Locals Keys).CommandEncoder.Calls.getLast?
      = some (FMetalCall.BeginRenderCommandEncoding Locals.RenderPass) := by
  simp [SetRenderTargetsInfo.Commit, FMetalCommandEncoder.BeginRenderCommandEncoding]

theorem slotPasses_iff (Platform : FMetalPlatform) (Cache : FMetalStateCache)
    (In : FRHISetRenderTargetsInfo) (k : Nat) :
    SlotPasses Platform Cache In k = true ↔
      ∀ T, BoundColorTexture In k = some T →
        UsableTexture Platform Cache T = true
          ∧ ¬ ((Cache.Surface T).MSAATexture.isSome = true ∧ In.NumColorRenderTargets ≠ 1) := by
  unfold SlotPasses MSAACheckFails
  cases BoundColorTexture In k with
  | none => simp
  | some T =>
    cases hM : (Cache.Surface T).MSAATexture <;> simp [hM]

theorem layeredSlot_iff (Cache : FMetalStateCache) (In : FRHISetRenderTargetsInfo) (k : Nat) :
    LayeredSlot Cache In k = true ↔
      ∃ T, BoundColorTexture In k = some T
        ∧ IsLayered (In.Color k) (Cache.Surface T) = true := by
  unfold LayeredSlot
  cases BoundColorTexture In k with
  | none => simp
  | some T => simp

theorem plainSlot_iff (Cache : FMetalStateCache) (In : FRHISetRenderTargetsInfo) (k : Nat) :
    PlainSlot Cache In k = true ↔
      ∃ T, BoundColorTexture In k = some T
        ∧ IsLayered (In.Color k) (Cache.Surface T) = false := by
  unfold PlainSlot
  cases BoundColorTexture In k with
  | none => simp
  | some T => simp

theorem maskInvariant_congr {Entry Cache : FMetalStateCache}
    (hT : Entry.Textures = Cache.Textures) (In : FRHISetRenderTargetsInfo) :
    (∀ j, LayeredSlot Entry In j = LayeredSlot Cache In j)
      ∧ (∀ j, PlainSlot Entry In j = PlainSlot Cache In j)
      ∧ (∀ T, Entry.Surface T = Cache.Surface T) := by
  have hS : ∀ T, Entry.Surface T = Cache.Surface T := by
    intro T
    show (Entry.Textures T).Surface = (Cache.Textures T).Surface
    rw [hT]
  refine ⟨?_, ?_, hS⟩
  · intro j
    unfold LayeredSlot
    cases BoundColorTexture In j with
    | none => rfl
    | some T => simp only [hS T]
  · intro j
    unfold PlainSlot
    cases BoundColorTexture In j with
    | none => rfl
    | some T => simp only [hS T]

/-- The locals with which the colour loop of a build ends, when it runs to its
end: the masks as sets of slots of the request, and the layer count. -/
theorem build_loop_masks (Platform : FMetalPlatform) (Cache : FMetalStateCache)
    (In : FRHISetRenderTargetsInfo) (QueryBuffer : Option Nat)
    (hMax : Platform.MaxMetalRenderTargets ≤ 8)
    (Cache2 : FMetalStateCache) (Locals2 : FPassLocals)
    (hLoop : SetRenderTargetsInfo.ColorTargets Platform Platform.MaxMetalRenderTargets 0
        (SetRenderTargetsInfo.Enter Platform (ConditionalSwitchToRender Cache) In QueryBuffer).1
        (SetRenderTargetsInfo.Enter Platform (ConditionalSwitchToRender Cache) In QueryBuffer).2
      = FLoopStep.next Cache2 Locals2) :
    (Locals2.ArrayTargets ≠ 0 ↔
        ∃ j, j < Platform.MaxMetalRenderTargets ∧ LayeredSlot Cache In j = true)
      ∧ (Locals2.ArrayTargets = Locals2.BoundTargets ↔
          ∀ j, j < Platform.MaxMetalRenderTargets → PlainSlot Cache In j = false)
      ∧ ((∀ j, j < Platform.MaxMetalRenderTargets → PlainSlot Cache In j = false) →
          (∀ j, j < Platform.MaxMetalRenderTargets → ∀ T, BoundColorTexture In j = some T →
              Locals2.ArrayRenderLayers ≤ (Cache.Surface T).GetNumFaces)
            ∧ (Locals2.ArrayRenderLayers = UINT_MAX
                ∨ ∃ j, j < Platform.MaxMetalRenderTargets ∧ ∃ T,
                    BoundColorTexture In j = some T
                      ∧ Locals2.ArrayRenderLayers = (Cache.Surface T).GetNumFaces))
      ∧ Locals2.RenderPass.renderTargetArrayLength = none := by
  obtain ⟨hInfo, _, hTex, _, _, _⟩ := enter_spec Platform Cache In QueryBuffer
  have hI0 : MaskInvariant Platform
      (SetRenderTargetsInfo.Enter Platform (ConditionalSwitchToRender Cache) In QueryBuffer).1 0
      (SetRenderTargetsInfo.Enter Platform (ConditionalSwitchToRender Cache) In QueryBuffer).1
      (SetRenderTargetsInfo.Enter Platform (ConditionalSwitchToRender Cache) In QueryBuffer).2 := by
    intro _
    refine ⟨LoopFrame.refl _ _, ?_, ?_, ?_, rfl⟩
    · intro j
      show Nat.testBit 0 j = _
      simp
    · intro j
      show Nat.testBit 0 j = _
      simp
    · intro _
      exact ⟨fun j hj => absurd hj (Nat.not_lt_zero j), Or.inl rfl⟩
  have hI := colorTargets_invariant Platform
    (MaskInvariant Platform
      (SetRenderTargetsInfo.Enter Platform (ConditionalSwitchToRender Cache) In QueryBuffer).1)
    (maskInvariant_step Platform _) Platform.MaxMetalRenderTargets 0 _ _ _ _ hI0 hLoop
  rw [Nat.zero_add] at hI
  obtain ⟨_, hBT, hAT, hARL, hLen⟩ := hI hMax
  rw [hInfo] at hBT hAT hARL
  obtain ⟨hLS, hPS, hSurf⟩ := maskInvariant_congr hTex In
  simp only [hLS, hPS, hSurf] at hAT hARL
  obtain ⟨hNe, hEq⟩ := masks_as_sets Cache In _ _ _ hBT hAT
  have hPlainIff : (∀ j, j < Platform.MaxMetalRenderTargets → SlotIsBound In j = true →
        LayeredSlot Cache In j = true)
      ↔ ∀ j, j < Platform.MaxMetalRenderTargets → PlainSlot Cache In j = false := by
    constructor
    · intro h j hj
      unfold PlainSlot
      cases hB : BoundColorTexture In j with
      | none => rfl
      | some T =>
        have := h j hj (by simp only [SlotIsBound, hB, Option.isSome_some])
        simp only [LayeredSlot, hB] at this
        simp only [this, Bool.not_true]
    · intro h j hj hSB
      have hp := h j hj
      unfold PlainSlot at hp
      unfold LayeredSlot
      unfold SlotIsBound at hSB
      cases hB : BoundColorTexture In j with
      | none => rw [hB] at hSB; exact absurd hSB (by simp)
      | some T =>
        rw [hB] at hp
        simpa using hp
  exact ⟨hNe, hEq.trans hPlainIff, hARL, hLen⟩

/-- The colour loop of a build runs to its end exactly when every slot passes. -/
theorem build_loop_cases (Platform : FMetalPlatform) (Cache : FMetalStateCache)
    (In : FRHISetRenderTargetsInfo) (QueryBuffer : Option Nat) :
    ((∀ k, k < Platform.MaxMetalRenderTargets → SlotPasses Platform Cache In k = true)
        ∧ ∃ Cache1 Locals1,
          SetRenderTargetsInfo.ColorTargets Platform Platform.MaxMetalRenderTargets 0
              (SetRenderTargetsInfo.Enter Platform (ConditionalSwitchToRender Cache) In
                QueryBuffer).1
              (SetRenderTargetsInfo.Enter Platform (ConditionalSwitchToRender Cache) In
                QueryBuffer).2
            = FLoopStep.next Cache1 Locals1)
      ∨ ((¬ ∀ k, k < Platform.MaxMetalRenderTargets → SlotPasses Platform Cache In k = true)
        ∧ ∃ Cache1,
          SetRenderTargetsInfo.ColorTargets Platform Platform.MaxMetalRenderTargets 0
              (SetRenderTargetsInfo.Enter Platform (ConditionalSwitchToRender Cache) In
                QueryBuffer).1
              (SetRenderTargetsInfo.Enter Platform (ConditionalSwitchToRender Cache) In
                QueryBuffer).2
            = FLoopStep.fatal EFatal.CheckOnlyOneMRTWithMSAA Cache1
          ∨ SetRenderTargetsInfo.ColorTargets Platform Platform.MaxMetalRenderTargets 0
              (SetRenderTargetsInfo.Enter Platform (ConditionalSwitchToRender Cache) In
                QueryBuffer).1
              (SetRenderTargetsInfo.Enter Platform (ConditionalSwitchToRender Cache) In
                QueryBuffer).2
            = FLoopStep.abort Cache1
          ∨ SetRenderTargetsInfo.ColorTargets Platform Platform.MaxMetalRenderTargets 0
              (SetRenderTargetsInfo.Enter Platform (ConditionalSwitchToRender Cache) In
                QueryBuffer).1
              (SetRenderTargetsInfo.Enter Platform (ConditionalSwitchToRender Cache) In
                QueryBuffer).2
            = FLoopStep.fatal EFatal.CheckCurrentLayer Cache1) := by
  obtain ⟨hAll, hFirst⟩ := build_loop_by_kind Platform Cache In QueryBuffer
  rcases first_failure (SlotPasses Platform Cache In) Platform.MaxMetalRenderTargets 0 with
    hA | ⟨k, _, hk, hP, hBefore⟩
  · left
    have hA2 : ∀ k, k < Platform.MaxMetalRenderTargets → SlotPasses Platform Cache In k = true :=
      fun k hk => hA k (Nat.zero_le _) (by omega)
    obtain ⟨c, l, hE, _⟩ := hAll hA2
    exact ⟨hA2, c, l, hE⟩
  · right
    have hk2 : k < Platform.MaxMetalRenderTargets := by omega
    refine ⟨fun h => ?_, ?_⟩
    · rw [h k hk2] at hP
      exact absurd hP (by simp)
    · have hB2 : ∀ j, j < k → SlotPasses Platform Cache In j = true :=
        fun j hj => hBefore j (Nat.zero_le _) hj
      cases hM : SlotRaisesMSAA Platform Cache In k with
      | true =>
        obtain ⟨c, hE, _⟩ := (hFirst k hk2 hB2 hP).1 hM
        exact ⟨c, Or.inl hE⟩
      | false =>
        rcases (hFirst k hk2 hB2 hP).2 hM with ⟨c, hE, _⟩ | ⟨c, hE, _⟩
        · exact ⟨c, Or.inr (Or.inl hE)⟩
        · exact ⟨c, Or.inr (Or.inr hE)⟩

/-- C8 (as stated, refuted): on the layered-rendering platform the request
binds a cube map with the unspecified slice in slot 0, which is layered, and the
back buffer in slot 1, a 2D surface, which is not; the back buffer has no
driver texture and the swap chain hands out no drawable.  The build returns
early at slot 1 and no error is raised. -/
theorem layered_check_not_reached_after_abort :
    SampleMac.METAL_API_1_1 = true ∧ SampleMac.PLATFORM_MAC = true
      ∧ NeedsToSetRenderTarget (ConditionalSwitchToRender IdleCache) (ColorRequest [5, 3]) = true
      ∧ LayeredSlot IdleCache (ColorRequest [5, 3]) 0 = true
      ∧ PlainSlot IdleCache (ColorRequest [5, 3]) 1 = true
      ∧ (SetRenderTargetsInfo SampleMac IdleCache (ColorRequest [5, 3]) none).Halt = none
      ∧ (SetRenderTargetsInfo SampleMac IdleCache (ColorRequest [5, 3]) none).IsAborted = true := by
  refine ⟨rfl, rfl, by decide, by rfl, by rfl, by rfl, by rfl⟩

/-- C8 (amended): during a new-pass build on the layered-rendering platform
(with at most 8 render targets, the width of the masks), a bound colour slot
being layered when its surface is a 2D-array, 3D or cube texture and its slice
index is `0xFFFFFFFF`: the build raises the fatal configuration error exactly
when the colour loop runs to its end (every bound colour slot has a usable
texture and passes the multisample check), at least one bound colour slot is
layered and at least one is not.  In a build that completes, when every bound
colour slot is layered and there is one, the render pass's array length is the
minimum of `GetNumFaces` over the bound colour slots; when none is layered, no
array length is set. -/
theorem layered_check_raised_exactly (Platform : FMetalPlatform) (Cache : FMetalStateCache)
    (In : FRHISetRenderTargetsInfo) (QueryBuffer : Option Nat)
    (hAPI : Platform.METAL_API_1_1 = true) (hMac : Platform.PLATFORM_MAC = true)
    (hMax : Platform.MaxMetalRenderTargets ≤ 8)
    (hN : NeedsToSetRenderTarget (ConditionalSwitchToRender Cache) In = true) :
    ((SetRenderTargetsInfo Platform Cache In QueryBuffer).Halt
        = some EFatal.FatalLayeredRendering ↔
      (∀ k, k < Platform.MaxMetalRenderTargets → ∀ T, BoundColorTexture In k = some T →
          UsableTexture Platform Cache T = true
            ∧ ¬ ((Cache.Surface T).MSAATexture.isSome = true ∧ In.NumColorRenderTargets ≠ 1))
        ∧ (∃ i, i < Platform.MaxMetalRenderTargets ∧ ∃ T, BoundColorTexture In i = some T
            ∧ IsLayered (In.Color i) (Cache.Surface T) = true)
        ∧ (∃ i, i < Platform.MaxMetalRenderTargets ∧ ∃ T, BoundColorTexture In i = some T
            ∧ IsLayered (In.Color i) (Cache.Surface T) = false))
    ∧ (∀ Cache1, SetRenderTargetsInfo Platform Cache In QueryBuffer
          = FSetRenderTargetsResult.built Cache1 →
        ∃ RenderPass, Cache1.CommandEncoder.Calls.getLast?
            = some (FMetalCall.BeginRenderCommandEncoding RenderPass)
          ∧ ((∀ i, i < Platform.MaxMetalRenderTargets → ∀ T, BoundColorTexture In i = some T →
                IsLayered (In.Color i) (Cache.Surface T) = true) →
              (∃ i, i < Platform.MaxMetalRenderTargets ∧ ∃ T, BoundColorTexture In i = some T) →
              ∃ Length, RenderPass.renderTargetArrayLength = some Length
                ∧ (∀ i, i < Platform.MaxMetalRenderTargets → ∀ T,
                    BoundColorTexture In i = some T → Length ≤ (Cache.Surface T).GetNumFaces)
                ∧ ∃ i, i < Platform.MaxMetalRenderTargets ∧ ∃ T,
                    BoundColorTexture In i = some T ∧ Length = (Cache.Surface T).GetNumFaces)
          ∧ ((∀ i, i < Platform.MaxMetalRenderTargets → ∀ T, BoundColorTexture In i = some T →
                IsLayered (In.Color i) (Cache.Surface T) = false) →
              RenderPass.renderTargetArrayLength = none)) := by
  have hLayIff : (∃ i, i < Platform.MaxMetalRenderTargets ∧ ∃ T, BoundColorTexture In i = some T
        ∧ IsLayered (In.Color i) (Cache.Surface T) = true)
      ↔ ∃ j, j < Platform.MaxMetalRenderTargets ∧ LayeredSlot Cache In j = true := by
    constructor
    · rintro ⟨i, hi, h⟩
      exact ⟨i, hi, (layeredSlot_iff Cache In i).mpr h⟩
    · rintro ⟨i, hi, h⟩
      exact ⟨i, hi, (layeredSlot_iff Cache In i).mp h⟩
  have hPlainIff : (∃ i, i < Platform.MaxMetalRenderTargets ∧ ∃ T, BoundColorTexture In i = some T
        ∧ IsLayered (In.Color i) (Cache.Surface T) = false)
      ↔ ¬ ∀ j, j < Platform.MaxMetalRenderTargets → PlainSlot Cache In j = false := by
    constructor
    · rintro ⟨i, hi, h⟩ hAll
      have := (plainSlot_iff Cache In i).mpr h
      rw [hAll i hi] at this
      exact absurd this (by simp)
    · intro h
      by_contra hNo
      apply h
      intro j hj
      cases hP : PlainSlot Cache In j with
      | false => rfl
      | true => exact absurd ⟨j, hj, (plainSlot_iff Cache In j).mp hP⟩ hNo
  have hPassIff : (∀ k, k < Platform.MaxMetalRenderTargets → ∀ T, BoundColorTexture In k = some T →
          UsableTexture Platform Cache T = true
            ∧ ¬ ((Cache.Surface T).MSAATexture.isSome = true ∧ In.NumColorRenderTargets ≠ 1))
      ↔ ∀ k, k < Platform.MaxMetalRenderTargets → SlotPasses Platform Cache In k = true := by
    constructor
    · intro h k hk
      exact (slotPasses_iff Platform Cache In k).mpr (h k hk)
    · intro h k hk
      exact (slotPasses_iff Platform Cache In k).mp (h k hk)
  rw [setRenderTargetsInfo_of_needs Platform Cache In QueryBuffer hN, hLayIff, hPlainIff, hPassIff]
  refine ⟨?_, ?_⟩
  · rcases build_loop_cases Platform Cache In QueryBuffer with
      ⟨hA, Cache2, Locals2, hLoop⟩ | ⟨hNA, Cache2, hLoop⟩
    · obtain ⟨hNe, hEq, _, _⟩ := build_loop_masks Platform Cache In QueryBuffer hMax _ _ hLoop
      have hLC := layeredCheck_spec Platform Locals2 hAPI hMac
      unfold SetRenderTargetsInfo.Build
      simp only [hLoop]
      by_cases h0 : Locals2.ArrayTargets = 0
      · rw [hLC, if_pos h0]
        simp only [FSetRenderTargetsResult.Halt, reduceCtorEq, false_iff, not_and]
        intro _ hL
        exact absurd h0 (hNe.mpr hL)
      · by_cases h1 : Locals2.ArrayTargets = Locals2.BoundTargets
        · rw [hLC, if_neg h0, if_pos h1]
          simp only [FSetRenderTargetsResult.Halt, reduceCtorEq, false_iff, not_and]
          intro _ _ hP
          exact hP (hEq.mp h1)
        · rw [hLC, if_neg h0, if_neg h1]
          simp only [FSetRenderTargetsResult.Halt, true_iff]
          exact ⟨hA, hNe.mp h0, fun hP => h1 (hEq.mpr hP)⟩
    · unfold SetRenderTargetsInfo.Build
      rcases hLoop with hLoop | hLoop | hLoop
      · simp only [hLoop, FSetRenderTargetsResult.Halt, Option.some.injEq, reduceCtorEq,
          false_iff, not_and]
        intro hA
        exact absurd hA hNA
      · simp only [hLoop, FSetRenderTargetsResult.Halt, reduceCtorEq, false_iff, not_and]
        intro hA
        exact absurd hA hNA
      · simp only [hLoop, FSetRenderTargetsResult.Halt, Option.some.injEq, reduceCtorEq,
          false_iff, not_and]
        intro hA
        exact absurd hA hNA
  · intro Cache1 hB
    obtain ⟨Cache2, Locals2, Locals3, hLoop, hLay, hC⟩ :=
      build_built Platform _ _ In QueryBuffer hB
    obtain ⟨hNe, hEq, hARL, hLen⟩ :=
      build_loop_masks Platform Cache In QueryBuffer hMax _ _ hLoop
    refine ⟨(SetRenderTargetsInfo.DepthStencil Platform Cache2 Locals3).2.1.RenderPass, ?_, ?_, ?_⟩
    · rw [hC]
      exact commit_last_call Platform _ _ _
    · intro hAllLay hSome
      rw [depthStencil_renderPass_length]
      have hPlain : ∀ j, j < Platform.MaxMetalRenderTargets → PlainSlot Cache In j = false := by
        intro j hj
        unfold PlainSlot
        cases hBj : BoundColorTexture In j with
        | none => rfl
        | some T => simp only [hAllLay j hj T hBj, Bool.not_true]
      obtain ⟨i0, hi0, T0, hT0⟩ := hSome
      have hNe0 : Locals2.ArrayTargets ≠ 0 :=
        hNe.mpr ⟨i0, hi0, (layeredSlot_iff Cache In i0).mpr ⟨T0, hT0, hAllLay i0 hi0 T0 hT0⟩⟩
      have hEq1 : Locals2.ArrayTargets = Locals2.BoundTargets := hEq.mpr hPlain
      rw [layeredCheck_spec Platform Locals2 hAPI hMac, if_neg hNe0, if_pos hEq1] at hLay
      simp only [Option.some.injEq] at hLay
      rw [← hLay]
      obtain ⟨hLe, hAtt⟩ := hARL hPlain
      refine ⟨Locals2.ArrayRenderLayers, rfl, hLe, ?_⟩
      rcases hAtt with hU | hW
      · refine ⟨i0, hi0, T0, hT0, ?_⟩
        have h1 := hLe i0 hi0 T0 hT0
        have h2 : (Cache.Surface T0).GetNumFaces ≤ UINT_MAX := by
          unfold FMetalSurface.GetNumFaces UINT_MAX
          omega
        rw [hU] at h1 ⊢
        exact le_antisymm h1 h2
      · exact hW
    · intro hNoLay
      rw [depthStencil_renderPass_length]
      have h0 : Locals2.ArrayTargets = 0 := by
        by_contra hne
        obtain ⟨j, hj, hL⟩ := hNe.mp hne
        obtain ⟨T, hT, hLT⟩ := (layeredSlot_iff Cache In j).mp hL
        rw [hNoLay j hj T hT] at hLT
        exact absurd hLT (by simp)
      rw [layeredCheck_spec Platform Locals2 hAPI hMac, if_pos h0] at hLay
      simp only [Option.some.injEq] at hLay
      rw [← hLay]
      exact hLen

theorem layered_check_raised_exactly_witness :
    (SetRenderTargetsInfo SampleMac IdleCache (ColorRequest [5, 0]) none).Halt
        = some EFatal.FatalLayeredRendering
      ∧ ((LastRenderPass
            (SetRenderTargetsInfo SampleMac IdleCache (ColorRequest [5, 5]) none).Cache).map
          fun RenderPass => RenderPass.renderTargetArrayLength) = some (some 6)
      ∧ ((LastRenderPass
            (SetRenderTargetsInfo SampleMac IdleCache (ColorRequest [0, 1]) none).Cache).map
          fun RenderPass => RenderPass.renderTargetArrayLength) = some none :=
  ⟨(layered_check_raised_exactly SampleMac IdleCache (ColorRequest [5, 0]) none rfl rfl
      (by decide) (by decide)).1.mpr
      ⟨by
        intro k hk T hT
        have hk6 : k < 6 := hk
        interval_cases k
        · have : T = 5 := by
            have h5 : BoundColorTexture (ColorRequest [5, 0]) 0 = some 5 := by rfl
            rw [h5] at hT
            exact (Option.some.inj hT).symm
          subst this
          exact ⟨by rfl, by decide⟩
        · have : T = 0 := by
            have h0 : BoundColorTexture (ColorRequest [5, 0]) 1 = some 0 := by rfl
            rw [h0] at hT
            exact (Option.some.inj hT).symm
          subst this
          exact ⟨by rfl, by decide⟩
        · exact absurd ((show BoundColorTexture (ColorRequest [5, 0]) 2 = none by rfl) ▸ hT)
            (by simp)
        · exact absurd ((show BoundColorTexture (ColorRequest [5, 0]) 3 = none by rfl) ▸ hT)
            (by simp)
        · exact absurd ((show BoundColorTexture (ColorRequest [5, 0]) 4 = none by rfl) ▸ hT)
            (by simp)
        · exact absurd ((show BoundColorTexture (ColorRequest [5, 0]) 5 = none by rfl) ▸ hT)
            (by simp),
      ⟨0, by decide, 5, by rfl, by rfl⟩, ⟨1, by decide, 0, by rfl, by rfl⟩⟩,
    by rfl, by rfl⟩

/-! ## Switching to compute -/

/-- C11: `ConditionalSwitchToCompute` called while the mode is not Compute makes
the call `EndEncoding` exactly when the mode was Render or Copy, then clears the
cached compute shader and makes the one call `BeginComputeCommandEncoding`;
called while the mode is Compute it returns the cache unchanged (no driver
call, same compute shader); calling it twice equals calling it once. -/
theorem switchToCompute_effect (Cache : FMetalStateCache) :
    (Cache.CommandEncoder.Mode ≠ EMetalEncoderMode.Compute →
      (ConditionalSwitchToCompute Cache).CommandEncoder.Calls
          = Cache.CommandEncoder.Calls
              ++ (if Cache.CommandEncoder.Mode = EMetalEncoderMode.Render
                    ∨ Cache.CommandEncoder.Mode = EMetalEncoderMode.Copy
                  then [FMetalCall.EndEncoding] else [])
              ++ [FMetalCall.BeginComputeCommandEncoding]
        ∧ (ConditionalSwitchToCompute Cache).ComputeShader = none
        ∧ (ConditionalSwitchToCompute Cache).CommandEncoder.Mode = EMetalEncoderMode.Compute)
    ∧ (Cache.CommandEncoder.Mode = EMetalEncoderMode.Compute →
      ConditionalSwitchToCompute Cache = Cache
        ∧ (ConditionalSwitchToCompute Cache).CommandEncoder.Calls = Cache.CommandEncoder.Calls
        ∧ (ConditionalSwitchToCompute Cache).ComputeShader = Cache.ComputeShader)
    ∧ ConditionalSwitchToCompute (ConditionalSwitchToCompute Cache)
        = ConditionalSwitchToCompute Cache := by
  have hSame : ∀ C : FMetalStateCache, C.CommandEncoder.Mode = EMetalEncoderMode.Compute →
      ConditionalSwitchToCompute C = C := by
    intro C hM
    simp [ConditionalSwitchToCompute, FMetalCommandEncoder.IsRenderCommandEncoderActive,
      FMetalCommandEncoder.IsBlitCommandEncoderActive,
      FMetalCommandEncoder.IsComputeCommandEncoderActive, hM]
  have hMode : (ConditionalSwitchToCompute Cache).CommandEncoder.Mode
      = EMetalEncoderMode.Compute := by
    cases hM : Cache.CommandEncoder.Mode <;>
      simp [ConditionalSwitchToCompute, FMetalCommandEncoder.IsRenderCommandEncoderActive,
        FMetalCommandEncoder.IsBlitCommandEncoderActive,
        FMetalCommandEncoder.IsComputeCommandEncoderActive,
        FMetalCommandEncoder.EndEncoding, FMetalCommandEncoder.BeginComputeCommandEncoding, hM]
  refine ⟨?_, ?_, hSame _ hMode⟩
  · intro hM
    refine ⟨?_, ?_, hMode⟩
    · cases hM2 : Cache.CommandEncoder.Mode <;>
        simp_all [ConditionalSwitchToCompute, FMetalCommandEncoder.IsRenderCommandEncoderActive,
          FMetalCommandEncoder.IsBlitCommandEncoderActive,
          FMetalCommandEncoder.IsComputeCommandEncoderActive,
          FMetalCommandEncoder.EndEncoding, FMetalCommandEncoder.BeginComputeCommandEncoding]
    · cases hM2 : Cache.CommandEncoder.Mode <;>
        simp_all [ConditionalSwitchToCompute, FMetalCommandEncoder.IsRenderCommandEncoderActive,
          FMetalCommandEncoder.IsBlitCommandEncoderActive,
          FMetalCommandEncoder.IsComputeCommandEncoderActive,
          FMetalCommandEncoder.EndEncoding, FMetalCommandEncoder.BeginComputeCommandEncoding]
  · intro hM
    have hS := hSame Cache hM
    exact ⟨hS, by rw [hS], by rw [hS]⟩

/-! ## Encoders are not nested -/

theorem modeAfterCalls_append (A B : List FMetalCall) : ∀ Mode : EMetalEncoderMode,
    ModeAfterCalls (A ++ B) Mode
      = match ModeAfterCalls A Mode with
        | some Mode1 => ModeAfterCalls B Mode1
        | none => none := by
  induction A with
  | nil => intro Mode; rfl
  | cons a as ih =>
    intro Mode
    simp only [List.cons_append, ModeAfterCalls]
    cases ModeAfterCall Mode a with
    | none => rfl
    | some m => exact ih m

theorem colorTarget_encoder (Platform : FMetalPlatform) (Index : Nat)
    (Cache : FMetalStateCache) (Locals : FPassLocals) :
    (SetRenderTargetsInfo.ColorTarget Platform Index Cache Locals).Cache.CommandEncoder
      = Cache.CommandEncoder := by
  cases hB : BoundColorTexture Cache.RenderTargetsInfo Index with
  | none =>
    obtain ⟨c, hE, hF, _, _⟩ := colorTarget_unbound Platform Index Cache Locals hB
    rw [hE]
    exact hF.encoder
  | some T =>
    obtain ⟨h1, h2, h3⟩ := colorTarget_bound Platform Index Cache Locals T hB
    cases hU : UsableTexture Platform Cache T with
    | false =>
      rcases h1 hU with ⟨c, hE, hC⟩ | ⟨c, hE, hC⟩
      · rw [hE]; exact hC
      · rw [hE]; exact hC
    | true =>
      by_cases hM : (Cache.Surface T).MSAATexture.isSome = true
          ∧ Cache.RenderTargetsInfo.NumColorRenderTargets ≠ 1
      · obtain ⟨c, hE, hC⟩ := h2 hU hM
        rw [hE]; exact hC
      · obtain ⟨c, l, hE, hT⟩ := h3 hU hM
        rw [hE]; exact hT.frame.encoder

theorem colorTargets_encoder (Platform : FMetalPlatform) :
    ∀ (n i : Nat) (Cache : FMetalStateCache) (Locals : FPassLocals),
      (SetRenderTargetsInfo.ColorTargets Platform n i Cache Locals).Cache.CommandEncoder
        = Cache.CommandEncoder := by
  intro n
  induction n with
  | zero => intro i Cache Locals; rfl
  | succ n ih =>
    intro i Cache Locals
    have h := colorTarget_encoder Platform i Cache Locals
    simp only [SetRenderTargetsInfo.ColorTargets]
    cases hS : SetRenderTargetsInfo.ColorTarget Platform i Cache Locals with
    | next c l =>
      rw [hS] at h
      simp only
      rw [ih (i + 1) c l]
      exact h
    | abort c => rw [hS] at h; exact h
    | fatal r c => rw [hS] at h; exact h

theorem depthStencil_encoder (Platform : FMetalPlatform) (Cache : FMetalStateCache)
    (Locals : FPassLocals) :
    (SetRenderTargetsInfo.DepthStencil Platform Cache Locals).1.CommandEncoder
      = Cache.CommandEncoder := by
  unfold SetRenderTargetsInfo.DepthStencil
  simp only
  cases hT : Cache.RenderTargetsInfo.DepthStencilRenderTarget.Texture with
  | none => rfl
  | some T =>
    simp only
    have hU : ∀ (C : FMetalStateCache) (b : Bool) (w h : Nat),
        (SetRenderTargetsInfo.UpdateExtent C b w h).CommandEncoder = C.CommandEncoder := by
      intro C b w h
      cases b <;> rfl
    split_ifs <;> first | rfl | exact hU _ _ _ _

/-- The command encoder after `SetRenderTargetsInfo`, however it ends: left as
the entry switch left it, or, at the end of a completed build, after the end
of an active render pass and the start of the new one. -/
theorem setRenderTargetsInfo_encoder (Platform : FMetalPlatform) (Cache : FMetalStateCache)
    (In : FRHISetRenderTargetsInfo) (QueryBuffer : Option Nat) :
    (SetRenderTargetsInfo Platform Cache In QueryBuffer).Cache.CommandEncoder
        = (ConditionalSwitchToRender Cache).CommandEncoder
      ∨ ∃ RenderPass,
        (SetRenderTargetsInfo Platform Cache In QueryBuffer).Cache.CommandEncoder
          = (if (ConditionalSwitchToRender Cache).CommandEncoder.IsRenderCommandEncoderActive
              then (ConditionalSwitchToRender Cache).CommandEncoder.EndEncoding
              else (ConditionalSwitchToRender Cache).CommandEncoder).BeginRenderCommandEncoding
              RenderPass := by
  unfold SetRenderTargetsInfo
  simp only
  split
  · unfold SetRenderTargetsInfo.Build
    simp only
    have hL := colorTargets_encoder Platform Platform.MaxMetalRenderTargets 0
      (SetRenderTargetsInfo.Enter Platform (ConditionalSwitchToRender Cache) In QueryBuffer).1
      (SetRenderTargetsInfo.Enter Platform (ConditionalSwitchToRender Cache) In QueryBuffer).2
    have hEnter : (SetRenderTargetsInfo.Enter Platform (ConditionalSwitchToRender Cache) In
        QueryBuffer).1.CommandEncoder = (ConditionalSwitchToRender Cache).CommandEncoder := rfl
    rw [hEnter] at hL
    cases hS : SetRenderTargetsInfo.ColorTargets Platform Platform.MaxMetalRenderTargets 0
        (SetRenderTargetsInfo.Enter Platform (ConditionalSwitchToRender Cache) In QueryBuffer).1
        (SetRenderTargetsInfo.Enter Platform (ConditionalSwitchToRender Cache) In
          QueryBuffer).2 with
    | abort c => rw [hS] at hL; exact Or.inl hL
    | fatal r c => rw [hS] at hL; exact Or.inl hL
    | next c l =>
      rw [hS] at hL
      simp only
      cases hLC : SetRenderTargetsInfo.LayeredCheck Platform l with
      | none => exact Or.inl hL
      | some l2 =>
        right
        refine ⟨(SetRenderTargetsInfo.DepthStencil Platform c l2).2.1.RenderPass, ?_⟩
        have hD := depthStencil_encoder Platform c l2
        simp only [FLoopStep.Cache] at hL
        simp only [FSetRenderTargetsResult.Cache, SetRenderTargetsInfo.Commit, hD, hL]
  · exact Or.inl rfl

theorem nesting_switchToRender (Cache : FMetalStateCache) (h : NestingInvariant Cache) :
    NestingInvariant (ConditionalSwitchToRender Cache) := by
  unfold NestingInvariant at h ⊢
  cases hM : Cache.CommandEncoder.Mode <;>
    simp_all [ConditionalSwitchToRender, SetHasValidRenderTarget,
      FMetalCommandEncoder.IsRenderCommandEncoderActive,
      FMetalCommandEncoder.IsBlitCommandEncoderActive,
      FMetalCommandEncoder.IsComputeCommandEncoderActive,
      FMetalCommandEncoder.EndEncoding, modeAfterCalls_append, ModeAfterCalls, ModeAfterCall]

theorem nesting_switchToCompute (Cache : FMetalStateCache) (h : NestingInvariant Cache) :
    NestingInvariant (ConditionalSwitchToCompute Cache) := by
  unfold NestingInvariant at h ⊢
  cases hM : Cache.CommandEncoder.Mode <;>
    simp_all [ConditionalSwitchToCompute,
      FMetalCommandEncoder.IsRenderCommandEncoderActive,
      FMetalCommandEncoder.IsBlitCommandEncoderActive,
      FMetalCommandEncoder.IsComputeCommandEncoderActive,
      FMetalCommandEncoder.EndEncoding, FMetalCommandEncoder.BeginComputeCommandEncoding,
      modeAfterCalls_append, ModeAfterCalls, ModeAfterCall]

theorem nesting_switchToBlit (Cache : FMetalStateCache) (h : NestingInvariant Cache) :
    NestingInvariant (ConditionalSwitchToBlit Cache) := by
  unfold NestingInvariant at h ⊢
  cases hM : Cache.CommandEncoder.Mode <;>
    simp_all [ConditionalSwitchToBlit,
      FMetalCommandEncoder.IsRenderCommandEncoderActive,
      FMetalCommandEncoder.IsBlitCommandEncoderActive,
      FMetalCommandEncoder.IsComputeCommandEncoderActive,
      FMetalCommandEncoder.EndEncoding, FMetalCommandEncoder.BeginBlitCommandEncoding,
      modeAfterCalls_append, ModeAfterCalls, ModeAfterCall]

theorem switchToRender_mode (Cache : FMetalStateCache) :
    (ConditionalSwitchToRender Cache).CommandEncoder.Mode = EMetalEncoderMode.None
      ∨ (ConditionalSwitchToRender Cache).CommandEncoder.Mode = EMetalEncoderMode.Render := by
  cases hM : Cache.CommandEncoder.Mode <;>
    simp [ConditionalSwitchToRender, SetHasValidRenderTarget,
      FMetalCommandEncoder.IsRenderCommandEncoderActive,
      FMetalCommandEncoder.IsBlitCommandEncoderActive,
      FMetalCommandEncoder.IsComputeCommandEncoderActive,
      FMetalCommandEncoder.EndEncoding, hM]

theorem nesting_setRenderTargetsInfo (Platform : FMetalPlatform) (Cache : FMetalStateCache)
    (In : FRHISetRenderTargetsInfo) (QueryBuffer : Option Nat) (h : NestingInvariant Cache) :
    NestingInvariant (SetRenderTargetsInfo Platform Cache In QueryBuffer).Cache := by
  have hS := nesting_switchToRender Cache h
  unfold NestingInvariant at hS ⊢
  rcases setRenderTargetsInfo_encoder Platform Cache In QueryBuffer with hE | ⟨rp, hE⟩
  · rw [hE]
    exact hS
  · rw [hE]
    rcases switchToRender_mode Cache with hM | hM <;>
      simp_all [FMetalCommandEncoder.IsRenderCommandEncoderActive,
        FMetalCommandEncoder.EndEncoding, FMetalCommandEncoder.BeginRenderCommandEncoding,
        modeAfterCalls_append, ModeAfterCalls, ModeAfterCall]

theorem nesting_runCalls (Platform : FMetalPlatform) (Calls : List FCacheCall) :
    ∀ Cache : FMetalStateCache, NestingInvariant Cache →
      NestingInvariant (RunCalls Platform Calls Cache).Cache := by
  induction Calls with
  | nil => intro Cache h; exact h
  | cons Call Rest ih =>
    intro Cache h
    simp only [RunCalls]
    cases Call with
    | SwitchToRender => exact ih _ (nesting_switchToRender Cache h)
    | SwitchToCompute => exact ih _ (nesting_switchToCompute Cache h)
    | SwitchToBlit => exact ih _ (nesting_switchToBlit Cache h)
    | SetRenderTargets In QueryBuffer =>
      have hN := nesting_setRenderTargetsInfo Platform Cache In QueryBuffer h
      simp only [FCacheCall.Run]
      cases hR : SetRenderTargetsInfo Platform Cache In QueryBuffer with
      | fatal r c => rw [hR] at hN; exact hN
      | reused c => rw [hR] at hN; exact ih _ hN
      | aborted c => rw [hR] at hN; exact ih _ hN
      | built c => rw [hR] at hN; exact ih _ hN

/-- C12: in every sequence of `ConditionalSwitchToRender`,
`ConditionalSwitchToCompute`, `ConditionalSwitchToBlit` and
`SetRenderTargetsInfo` calls made from mode None with no driver call made yet,
the driver calls respect the nesting rule: each `BeginRenderCommandEncoding`,
`BeginComputeCommandEncoding` and `BeginBlitCommandEncoding` is made while no
encoder is active and each `EndEncoding` while one is active; replaying the
calls gives the mode the command encoder ends in. -/
theorem encoders_never_nested (Platform : FMetalPlatform) (Calls : List FCacheCall)
    (Cache : FMetalStateCache)
    (hM : Cache.CommandEncoder.Mode = EMetalEncoderMode.None)
    (hC : Cache.CommandEncoder.Calls = []) :
    ModeAfterCalls (RunCalls Platform Calls Cache).Cache.CommandEncoder.Calls
        EMetalEncoderMode.None
      = some (RunCalls Platform Calls Cache).Cache.CommandEncoder.Mode := by
  apply nesting_runCalls Platform Calls Cache
  unfold NestingInvariant
  rw [hC, hM]
  rfl

theorem encoders_never_nested_witness :
    ModeAfterCalls
        (RunCalls SampleMac
          [FCacheCall.SwitchToCompute, FCacheCall.SetRenderTargets (ColorRequest [0]) none,
            FCacheCall.SetRenderTargets (ColorRequest [1]) none, FCacheCall.SwitchToBlit,
            FCacheCall.SwitchToRender]
          IdleCache).Cache.CommandEncoder.Calls EMetalEncoderMode.None
        = some EMetalEncoderMode.None
      ∧ (RunCalls SampleMac
          [FCacheCall.SwitchToCompute, FCacheCall.SetRenderTargets (ColorRequest [0]) none,
            FCacheCall.SetRenderTargets (ColorRequest [1]) none, FCacheCall.SwitchToBlit,
            FCacheCall.SwitchToRender]
          IdleCache).Cache.CommandEncoder.Calls.length = 8 :=
  ⟨(encoders_never_nested SampleMac
      [FCacheCall.SwitchToCompute, FCacheCall.SetRenderTargets (ColorRequest [0]) none,
        FCacheCall.SetRenderTargets (ColorRequest [1]) none, FCacheCall.SwitchToBlit,
        FCacheCall.SwitchToRender]
      IdleCache rfl rfl).trans (by rfl), by rfl⟩

/-! ## The lazy back buffer -/

/-- `ConditionalUpdateBackBuffer` on a surface that has a driver texture. -/
theorem updateBackBuffer_has_texture (Platform : FMetalPlatform) (Cache : FMetalStateCache)
    (Texture : Nat) (h : (Cache.Surface Texture).Texture.isSome = true) :
    ConditionalUpdateBackBuffer Platform Cache Texture = FMetalResult.returned Cache := by
  unfold ConditionalUpdateBackBuffer
  cases hT : (Cache.Surface Texture).Texture with
  | none => rw [hT] at h; exact absurd h (by simp)
  | some x => simp

/-- `ConditionalUpdateBackBuffer` on a surface without driver texture while a
drawable is cached. -/
theorem updateBackBuffer_cached (Platform : FMetalPlatform) (Cache : FMetalStateCache)
    (Texture : Nat) (Drawable : CAMetalDrawable)
    (hT : (Cache.Surface Texture).Texture = none)
    (hD : Cache.CurrentDrawable = some Drawable) :
    ConditionalUpdateBackBuffer Platform Cache Texture
      = FMetalResult.returned (Cache.SetSurfaceTexture Texture (some Drawable.texture)) := by
  unfold ConditionalUpdateBackBuffer
  simp [hT, hD]

/-- `ConditionalUpdateBackBuffer` on a surface without driver texture while no
drawable is cached and the swap chain can be asked. -/
theorem updateBackBuffer_acquires (Platform : FMetalPlatform) (Cache : FMetalStateCache)
    (Texture : Nat) (hT : (Cache.Surface Texture).Texture = none)
    (hD : Cache.CurrentDrawable = none)
    (hL : Platform.PLATFORM_MAC = true → Cache.CurrentLayer.isSome = true) :
    ConditionalUpdateBackBuffer Platform Cache Texture
      = FMetalResult.returned
          (Cache.AcquireDrawable.SetSurfaceTexture Texture
            ((Cache.DrawableSupply.headD none).map fun Drawable => Drawable.texture)) := by
  unfold ConditionalUpdateBackBuffer
  have hAcq : (if Platform.PLATFORM_MAC = true then
        if Cache.CurrentLayer.isNone = true then
          FMetalResult.fatal EFatal.CheckCurrentLayer Cache
        else FMetalResult.returned Cache.AcquireDrawable
      else FMetalResult.returned Cache.AcquireDrawable)
      = FMetalResult.returned Cache.AcquireDrawable := by
    by_cases hP : Platform.PLATFORM_MAC = true
    · have h2 := hL hP
      cases hC : Cache.CurrentLayer with
      | none => rw [hC] at h2; exact absurd h2 (by simp)
      | some x => simp [hP]
    · simp [hP]
  simp only [hT, hD, Option.isNone_none, if_true, hAcq]
  have hCD : Cache.AcquireDrawable.CurrentDrawable = Cache.DrawableSupply.headD none := rfl
  cases hS : Cache.DrawableSupply.headD none with
  | none => simp only [hCD, hS, Option.map_none']
  | some d => simp only [hCD, hS, Option.map_some']

/-- `ConditionalUpdateBackBuffer` on the Mac on a surface without driver texture
while no drawable is cached and no layer is set. -/
theorem updateBackBuffer_no_layer (Platform : FMetalPlatform) (Cache : FMetalStateCache)
    (Texture : Nat) (hT : (Cache.Surface Texture).Texture = none)
    (hD : Cache.CurrentDrawable = none) (hP : Platform.PLATFORM_MAC = true)
    (hL : Cache.CurrentLayer = none) :
    ConditionalUpdateBackBuffer Platform Cache Texture
      = FMetalResult.fatal EFatal.CheckCurrentLayer Cache := by
  unfold ConditionalUpdateBackBuffer
  simp [hT, hD, hP, hL]

theorem surface_setSurfaceTexture (Cache : FMetalStateCache) (Texture : Nat)
    (New : Option MTLTexture) :
    ((Cache.SetSurfaceTexture Texture New).Surface Texture).Texture = New := by
  simp [FMetalStateCache.Surface, FMetalStateCache.SetSurfaceTexture]

/-- A run of further calls while a drawable is cached asks the swap chain for
nothing and keeps the cached drawable. -/
theorem updateBackBuffers_cached (Platform : FMetalPlatform) (Drawable : CAMetalDrawable)
    (Textures : List Nat) : ∀ Cache : FMetalStateCache,
    Cache.CurrentDrawable = some Drawable →
    ∃ Cache1, UpdateBackBuffers Platform Textures Cache = FMetalResult.returned Cache1
      ∧ Cache1.NumAcquired = Cache.NumAcquired
      ∧ Cache1.DrawableSupply = Cache.DrawableSupply
      ∧ Cache1.CurrentDrawable = some Drawable := by
  induction Textures with
  | nil => intro Cache hD; exact ⟨Cache, rfl, rfl, rfl, hD⟩
  | cons T Ts ih =>
    intro Cache hD
    simp only [UpdateBackBuffers]
    cases hT : (Cache.Surface T).Texture with
    | some x =>
      rw [updateBackBuffer_has_texture Platform Cache T (by rw [hT]; rfl)]
      exact ih Cache hD
    | none =>
      rw [updateBackBuffer_cached Platform Cache T Drawable hT hD]
      simp only
      obtain ⟨c, hE, h1, h2, h3⟩ :=
        ih (Cache.SetSurfaceTexture T (some Drawable.texture)) hD
      exact ⟨c, hE, h1, h2, h3⟩

/-- C13: `ConditionalUpdateBackBuffer` on a surface whose texture handle is set
changes nothing and acquires nothing; on a surface with no handle and no cached
drawable, when the acquisition succeeds, it acquires exactly one drawable,
caches it and sets the surface's texture to the drawable's texture; while a
drawable is cached (until `ResetCurrentDrawable`) every further call, and every
run of further calls, acquires nothing, and for a surface with no handle it
assigns the cached drawable's texture. -/
theorem lazy_backbuffer_resolve (Platform : FMetalPlatform) (Cache : FMetalStateCache)
    (Texture : Nat) :
    ((Cache.Surface Texture).Texture.isSome = true →
        ConditionalUpdateBackBuffer Platform Cache Texture = FMetalResult.returned Cache)
    ∧ (∀ Drawable, (Cache.Surface Texture).Texture = none → Cache.CurrentDrawable = none →
        (Platform.PLATFORM_MAC = true → Cache.CurrentLayer.isSome = true) →
        Cache.DrawableSupply.headD none = some Drawable →
        ∃ Cache1, ConditionalUpdateBackBuffer Platform Cache Texture
            = FMetalResult.returned Cache1
          ∧ Cache1.NumAcquired = Cache.NumAcquired + 1
          ∧ Cache1.DrawableSupply = Cache.DrawableSupply.tail
          ∧ Cache1.CurrentDrawable = some Drawable
          ∧ (Cache1.Surface Texture).Texture = some Drawable.texture)
    ∧ (∀ Drawable, Cache.CurrentDrawable = some Drawable →
        ∃ Cache1, ConditionalUpdateBackBuffer Platform Cache Texture
            = FMetalResult.returned Cache1
          ∧ Cache1.NumAcquired = Cache.NumAcquired
          ∧ Cache1.DrawableSupply = Cache.DrawableSupply
          ∧ Cache1.CurrentDrawable = some Drawable
          ∧ ((Cache.Surface Texture).Texture = none →
              (Cache1.Surface Texture).Texture = some Drawable.texture))
    ∧ (∀ Drawable (Textures : List Nat), Cache.CurrentDrawable = some Drawable →
        ∃ Cache1, UpdateBackBuffers Platform Textures Cache = FMetalResult.returned Cache1
          ∧ Cache1.NumAcquired = Cache.NumAcquired
          ∧ Cache1.CurrentDrawable = some Drawable) := by
  refine ⟨updateBackBuffer_has_texture Platform Cache Texture, ?_, ?_, ?_⟩
  · intro Drawable hT hD hL hS
    refine ⟨_, updateBackBuffer_acquires Platform Cache Texture hT hD hL, rfl, rfl, hS, ?_⟩
    rw [surface_setSurfaceTexture, hS]
    rfl
  · intro Drawable hD
    cases hT : (Cache.Surface Texture).Texture with
    | some x =>
      refine ⟨Cache, updateBackBuffer_has_texture Platform Cache Texture (by rw [hT]; rfl),
        rfl, rfl, hD, ?_⟩
      intro h
      exact absurd h (by simp)
    | none =>
      refine ⟨_, updateBackBuffer_cached Platform Cache Texture Drawable hT hD, rfl, rfl, hD,
        fun _ => surface_setSurfaceTexture _ _ _⟩
  · intro Drawable Textures hD
    obtain ⟨c, hE, h1, _, h3⟩ := updateBackBuffers_cached Platform Drawable Textures Cache hD
    exact ⟨c, hE, h1, h3⟩

theorem lazy_backbuffer_resolve_witness :
    (ConditionalUpdateBackBuffer SampleMac FrameStartCache 3).Cache.NumAcquired = 1
      ∧ ((ConditionalUpdateBackBuffer SampleMac FrameStartCache 3).Cache.Surface 3).Texture
          = some SampleDrawable.texture
      ∧ (UpdateBackBuffers SampleMac [3, 3, 6] FrameStartCache).Cache.NumAcquired = 1
      ∧ ((UpdateBackBuffers SampleMac [3, 3, 6] FrameStartCache).Cache.Surface 6).Texture
          = some SampleDrawable.texture := by
  obtain ⟨c, hE, h1, _, _, h4⟩ :=
    (lazy_backbuffer_resolve SampleMac FrameStartCache 3).2.1 SampleDrawable (by rfl) (by rfl)
      (fun _ => by rfl) (by rfl)
  rw [hE]
  exact ⟨h1, h4, by rfl, by rfl⟩

theorem resetCurrentDrawable_eq (Cache : FMetalStateCache) :
    ResetCurrentDrawable Cache = { Cache with CurrentDrawable := none } := by
  unfold ResetCurrentDrawable
  cases hD : Cache.CurrentDrawable with
  | some d => rfl
  | none =>
    simp only
    cases Cache
    simp_all

/-- C15 (as stated, refuted): on the Mac, in the cache as constructed (no layer
set yet), after `ResetCurrentDrawable` the next `ConditionalUpdateBackBuffer`
on the back buffer, which has no texture handle, stops at `check(CurrentLayer)`
and asks the swap chain for nothing, although it has a drawable to hand out. -/
theorem fresh_acquisition_needs_layer :
    SampleMac.PLATFORM_MAC = true
      ∧ ((ResetCurrentDrawable NoLayerCache).Surface 3).Texture = none
      ∧ (ResetCurrentDrawable NoLayerCache).CurrentDrawable = none
      ∧ (ResetCurrentDrawable NoLayerCache).DrawableSupply = [some SampleDrawable]
      ∧ (ConditionalUpdateBackBuffer SampleMac (ResetCurrentDrawable NoLayerCache) 3).Halt
          = some EFatal.CheckCurrentLayer
      ∧ (ConditionalUpdateBackBuffer SampleMac (ResetCurrentDrawable NoLayerCache)
          3).Cache.NumAcquired = NoLayerCache.NumAcquired
      ∧ (ConditionalUpdateBackBuffer SampleMac (ResetCurrentDrawable NoLayerCache)
          3).Cache.CurrentDrawable = none := by
  refine ⟨rfl, by rfl, by rfl, by rfl, by rfl, by rfl, by rfl⟩

/-- C15 (amended): `ResetCurrentDrawable` always leaves the cached drawable
empty, changes no other cache state, and calling it twice equals calling it
once; the next `ConditionalUpdateBackBuffer` on a surface with no texture
handle asks the swap chain anew and takes its answer, not the drawable cached
before, provided that on the Mac a layer is set; on the Mac without a layer it
stops at `check(CurrentLayer)`. -/
theorem reset_then_fresh_acquisition (Platform : FMetalPlatform) (Cache : FMetalStateCache)
    (Texture : Nat) :
    (ResetCurrentDrawable Cache).CurrentDrawable = none
      ∧ ResetCurrentDrawable Cache = { Cache with CurrentDrawable := none }
      ∧ ResetCurrentDrawable (ResetCurrentDrawable Cache) = ResetCurrentDrawable Cache
      ∧ ((Cache.Surface Texture).Texture = none →
          (Platform.PLATFORM_MAC = true → Cache.CurrentLayer.isSome = true) →
          ∃ Cache1, ConditionalUpdateBackBuffer Platform (ResetCurrentDrawable Cache) Texture
              = FMetalResult.returned Cache1
            ∧ Cache1.NumAcquired = Cache.NumAcquired + 1
            ∧ Cache1.DrawableSupply = Cache.DrawableSupply.tail
            ∧ Cache1.CurrentDrawable = Cache.DrawableSupply.headD none
            ∧ (Cache1.Surface Texture).Texture
                = (Cache.DrawableSupply.headD none).map fun Drawable => Drawable.texture)
      ∧ ((Cache.Surface Texture).Texture = none → Platform.PLATFORM_MAC = true →
          Cache.CurrentLayer = none →
          ConditionalUpdateBackBuffer Platform (ResetCurrentDrawable Cache) Texture
            = FMetalResult.fatal EFatal.CheckCurrentLayer (ResetCurrentDrawable Cache)) := by
  have hE := resetCurrentDrawable_eq Cache
  refine ⟨by rw [hE], hE, ?_, ?_, ?_⟩
  · rw [resetCurrentDrawable_eq (ResetCurrentDrawable Cache), hE]
  · intro hT hL
    rw [hE]
    exact ⟨_, updateBackBuffer_acquires Platform _ Texture hT rfl hL, rfl, rfl, rfl,
      surface_setSurfaceTexture _ _ _⟩
  · intro hT hP hL
    rw [hE]
    exact updateBackBuffer_no_layer Platform _ Texture hT rfl hP hL

theorem reset_then_fresh_acquisition_witness :
    SecondFrameCache.CurrentDrawable = some SampleDrawable
      ∧ (ConditionalUpdateBackBuffer SampleMac (ResetCurrentDrawable SecondFrameCache)
          6).Cache.CurrentDrawable = some NextDrawable
      ∧ ((ConditionalUpdateBackBuffer SampleMac (ResetCurrentDrawable SecondFrameCache)
          6).Cache.Surface 6).Texture = some NextDrawable.texture
      ∧ (ConditionalUpdateBackBuffer SampleMac (ResetCurrentDrawable SecondFrameCache)
          6).Cache.NumAcquired = 2 := by
  obtain ⟨c, hE, h1, _, h3, h4⟩ :=
    (reset_then_fresh_acquisition SampleMac SecondFrameCache 6).2.2.2.1 (by rfl)
      (fun _ => by rfl)
  rw [hE]
  exact ⟨by rfl, h3.trans (by rfl), h4.trans (by rfl), h1.trans (by rfl)⟩

/-! ## A failed acquisition -/

theorem updateExtent_surroundings (Cache : FMetalStateCache) (bSet : Bool)
    (Width Height : Nat) :
    (SetRenderTargetsInfo.UpdateExtent Cache bSet Width Height).Textures = Cache.Textures
      ∧ (SetRenderTargetsInfo.UpdateExtent Cache bSet Width Height).CurrentDrawable
          = Cache.CurrentDrawable
      ∧ (SetRenderTargetsInfo.UpdateExtent Cache bSet Width Height).CurrentLayer
          = Cache.CurrentLayer
      ∧ (SetRenderTargetsInfo.UpdateExtent Cache bSet Width Height).DrawableSupply
          = Cache.DrawableSupply
      ∧ (SetRenderTargetsInfo.UpdateExtent Cache bSet Width Height).NumAcquired
          = Cache.NumAcquired
      ∧ (SetRenderTargetsInfo.UpdateExtent Cache bSet Width Height).RenderTargetsInfo
          = Cache.RenderTargetsInfo := by
  cases bSet <;> exact ⟨rfl, rfl, rfl, rfl, rfl, rfl⟩

/-- The swap chain as `ConditionalUpdateBackBuffer` leaves it: when the call
returns with a texture on the surface while the swap chain had no drawable to
hand out, it has not been asked; when the call halts, it has not been asked. -/
theorem updateBackBuffer_swapchain (Platform : FMetalPlatform) (Cache : FMetalStateCache)
    (Texture : Nat) :
    (∀ Cache1, ConditionalUpdateBackBuffer Platform Cache Texture
          = FMetalResult.returned Cache1 →
        Cache1.RenderTargetsInfo = Cache.RenderTargetsInfo
          ∧ (Cache.DrawableSupply.headD none = none →
              (Cache1.Surface Texture).Texture.isSome = true →
              Cache1.NumAcquired = Cache.NumAcquired
                ∧ Cache1.DrawableSupply = Cache.DrawableSupply))
      ∧ (∀ Reason Cache1, ConditionalUpdateBackBuffer Platform Cache Texture
          = FMetalResult.fatal Reason Cache1 → Cache1 = Cache) := by
  cases hT : (Cache.Surface Texture).Texture with
  | some x =>
    rw [updateBackBuffer_has_texture Platform Cache Texture (by rw [hT]; rfl)]
    refine ⟨?_, ?_⟩
    · intro c hc
      injection hc with hc
      rw [← hc]
      exact ⟨rfl, fun _ _ => ⟨rfl, rfl⟩⟩
    · intro r c hc
      exact absurd hc (by simp)
  | none =>
    cases hD : Cache.CurrentDrawable with
    | some d =>
      rw [updateBackBuffer_cached Platform Cache Texture d hT hD]
      refine ⟨?_, ?_⟩
      · intro c hc
        injection hc with hc
        rw [← hc]
        exact ⟨rfl, fun _ _ => ⟨rfl, rfl⟩⟩
      · intro r c hc
        exact absurd hc (by simp)
    | none =>
      by_cases hL : Platform.PLATFORM_MAC = true → Cache.CurrentLayer.isSome = true
      · rw [updateBackBuffer_acquires Platform Cache Texture hT hD hL]
        refine ⟨?_, ?_⟩
        · intro c hc
          injection hc with hc
          rw [← hc]
          refine ⟨rfl, ?_⟩
          intro hS hSome
          rw [surface_setSurfaceTexture, hS] at hSome
          exact absurd hSome (by simp)
        · intro r c hc
          exact absurd hc (by simp)
      · have hP : Platform.PLATFORM_MAC = true := by
          by_contra h
          exact hL (fun hp => absurd hp h)
        have hLn : Cache.CurrentLayer = none := by
          cases hC : Cache.CurrentLayer with
          | none => rfl
          | some x => exact absurd (fun _ => by rw [hC]; rfl) hL
        rw [updateBackBuffer_no_layer Platform Cache Texture hT hD hP hLn]
        refine ⟨?_, ?_⟩
        · intro c hc
          exact absurd hc (by simp)
        · intro r c hc
          injection hc with _ hc
          exact hc.symm

/-- One turn of the colour loop and the swap chain: a turn that returns early
leaves a bound surface without texture; with nothing to hand out, a turn that
goes on or halts has not asked the swap chain. -/
theorem colorTarget_acquisition (Platform : FMetalPlatform) (Index : Nat)
    (Cache : FMetalStateCache) (Locals : FPassLocals) :
    (∀ Cache1, SetRenderTargetsInfo.ColorTarget Platform Index Cache Locals
          = FLoopStep.abort Cache1 →
        ∃ T, BoundColorTexture Cache.RenderTargetsInfo Index = some T
          ∧ (Cache1.Surface T).Texture = none
          ∧ Cache1.RenderTargetsInfo = Cache.RenderTargetsInfo)
      ∧ (Cache.DrawableSupply.headD none = none →
          ∀ Cache1 Locals1, SetRenderTargetsInfo.ColorTarget Platform Index Cache Locals
            = FLoopStep.next Cache1 Locals1 →
          Cache1.NumAcquired = Cache.NumAcquired
            ∧ Cache1.DrawableSupply = Cache.DrawableSupply)
      ∧ (Cache.DrawableSupply.headD none = none →
          ∀ Reason Cache1, SetRenderTargetsInfo.ColorTarget Platform Index Cache Locals
            = FLoopStep.fatal Reason Cache1 →
          Cache1.NumAcquired = Cache.NumAcquired) := by
  cases hB : BoundColorTexture Cache.RenderTargetsInfo Index with
  | none =>
    obtain ⟨c, hE, _, _, _⟩ := colorTarget_unbound Platform Index Cache Locals hB
    have hE2 : SetRenderTargetsInfo.ColorTarget Platform Index Cache Locals
        = FLoopStep.next c Locals := hE
    have hc : c.NumAcquired = Cache.NumAcquired ∧ c.DrawableSupply = Cache.DrawableSupply := by
      unfold SetRenderTargetsInfo.ColorTarget at hE
      rw [hB] at hE
      simp only [FLoopStep.next.injEq, and_true] at hE
      rw [← hE]
      exact ⟨rfl, rfl⟩
    rw [hE2]
    refine ⟨fun c1 h => absurd h (by simp), fun _ c1 l1 h => ?_, fun _ r c1 h => absurd h (by simp)⟩
    simp only [FLoopStep.next.injEq] at h
    rw [← h.1]
    exact hc
  | some T =>
    obtain ⟨hTx, hCD, hCL, hDS, hNA, hRI⟩ := updateExtent_surroundings Cache
      Locals.bFramebufferSizeSet
      (max ((Cache.Surface T).SizeX >>> (Cache.RenderTargetsInfo.Color Index).MipIndex) 1)
      (max ((Cache.Surface T).SizeY >>> (Cache.RenderTargetsInfo.Color Index).MipIndex) 1)
    obtain ⟨hRet, hFat⟩ := updateBackBuffer_swapchain Platform
      (SetRenderTargetsInfo.UpdateExtent Cache Locals.bFramebufferSizeSet
        (max ((Cache.Surface T).SizeX >>> (Cache.RenderTargetsInfo.Color Index).MipIndex) 1)
        (max ((Cache.Surface T).SizeY >>> (Cache.RenderTargetsInfo.Color Index).MipIndex) 1)) T
    rw [hDS, hNA, hRI] at hRet
    unfold SetRenderTargetsInfo.ColorTarget
    rw [hB]
    simp only
    cases hU : ConditionalUpdateBackBuffer Platform
        (SetRenderTargetsInfo.UpdateExtent Cache Locals.bFramebufferSizeSet
          (max ((Cache.Surface T).SizeX >>> (Cache.RenderTargetsInfo.Color Index).MipIndex) 1)
          (max ((Cache.Surface T).SizeY >>> (Cache.RenderTargetsInfo.Color Index).MipIndex) 1))
        T with
    | fatal r c2 =>
      have h2 := hFat r c2 hU
      simp only
      refine ⟨fun c1 h => absurd h (by simp), fun _ c1 l1 h => absurd h (by simp), ?_⟩
      intro _ r1 c1 h
      simp only [FLoopStep.fatal.injEq] at h
      rw [← h.2, h2, hNA]
    | returned c2 =>
      obtain ⟨hInfo, hSwap⟩ := hRet c2 hU
      simp only
      cases hTex : (c2.Surface T).Texture with
      | none =>
        simp only [Option.isNone_none, if_true]
        refine ⟨?_, fun _ c1 l1 h => absurd h (by simp), fun _ r c1 h => absurd h (by simp)⟩
        intro c1 h
        simp only [FLoopStep.abort.injEq] at h
        rw [← h]
        exact ⟨T, rfl, hTex, hInfo⟩
      | some x =>
        simp only [Option.isNone_some, Bool.false_eq_true, if_false]
        refine ⟨?_, ?_, ?_⟩
        · intro c1 h
          split at h
          · exact absurd h (by simp)
          · exact absurd h (by simp)
        · intro hS c1 l1 h
          obtain ⟨hN, hD⟩ := hSwap hS (by rw [hTex]; rfl)
          split at h
          · exact absurd h (by simp)
          · simp only [FLoopStep.next.injEq] at h
            rw [← h.1]
            exact ⟨hN, hD⟩
        · intro hS r c1 h
          obtain ⟨hN, hD⟩ := hSwap hS (by rw [hTex]; rfl)
          split at h
          · simp only [FLoopStep.fatal.injEq] at h
            rw [← h.2]
            exact hN
          · exact absurd h (by simp)

/-- The colour loop and the swap chain: a loop that returns early leaves a
bound surface without texture; with nothing to hand out, a loop that runs to
its end or halts has not asked the swap chain. -/
theorem colorTargets_acquisition (Platform : FMetalPlatform) :
    ∀ (n i : Nat) (Cache : FMetalStateCache) (Locals : FPassLocals),
      (∀ Cache1, SetRenderTargetsInfo.ColorTargets Platform n i Cache Locals
            = FLoopStep.abort Cache1 →
          ∃ k T, i ≤ k ∧ k < i + n ∧ BoundColorTexture Cache.RenderTargetsInfo k = some T
            ∧ (Cache1.Surface T).Texture = none)
        ∧ (Cache.DrawableSupply.headD none = none →
            ∀ Cache1 Locals1, SetRenderTargetsInfo.ColorTargets Platform n i Cache Locals
              = FLoopStep.next Cache1 Locals1 →
            Cache1.NumAcquired = Cache.NumAcquired)
        ∧ (Cache.DrawableSupply.headD none = none →
            ∀ Reason Cache1, SetRenderTargetsInfo.ColorTargets Platform n i Cache Locals
              = FLoopStep.fatal Reason Cache1 →
            Cache1.NumAcquired = Cache.NumAcquired) := by
  intro n
  induction n with
  | zero =>
    intro i Cache Locals
    simp only [SetRenderTargetsInfo.ColorTargets]
    refine ⟨fun c h => absurd h (by simp), fun _ c l h => ?_, fun _ r c h => absurd h (by simp)⟩
    simp only [FLoopStep.next.injEq] at h
    rw [← h.1]
  | succ n ih =>
    intro i Cache Locals
    obtain ⟨hA, hN, hF⟩ := colorTarget_acquisition Platform i Cache Locals
    simp only [SetRenderTargetsInfo.ColorTargets]
    cases hS : SetRenderTargetsInfo.ColorTarget Platform i Cache Locals with
    | abort c =>
      obtain ⟨T, hB, hT, _⟩ := hA c hS
      simp only
      refine ⟨?_, fun _ c1 l1 h => absurd h (by simp), fun _ r c1 h => absurd h (by simp)⟩
      intro c1 h
      simp only [FLoopStep.abort.injEq] at h
      rw [← h]
      exact ⟨i, T, le_refl _, by omega, hB, hT⟩
    | fatal r c =>
      simp only
      refine ⟨fun c1 h => absurd h (by simp), fun _ c1 l1 h => absurd h (by simp), ?_⟩
      intro hHead r1 c1 h
      simp only [FLoopStep.fatal.injEq] at h
      rw [← h.2]
      exact hF hHead r c hS
    | next c l =>
      simp only
      obtain ⟨ihA, ihN, ihF⟩ := ih (i + 1) c l
      have hInfo : c.RenderTargetsInfo = Cache.RenderTargetsInfo := by
        cases hB : BoundColorTexture Cache.RenderTargetsInfo i with
        | none => exact (colorTarget_next_unbound Platform i _ _ _ _ hB hS).2.1.info
        | some T => exact (colorTarget_next_bound Platform i _ _ _ _ T hB hS).frame.info
      refine ⟨?_, ?_, ?_⟩
      · intro c1 h
        obtain ⟨k, T, h1, h2, hB, hT⟩ := ihA c1 h
        rw [hInfo] at hB
        exact ⟨k, T, by omega, by omega, hB, hT⟩
      · intro hHead c1 l1 h
        obtain ⟨h1, h2⟩ := hN hHead c l hS
        rw [ihN (by rw [h2]; exact hHead) c1 l1 h, h1]
      · intro hHead r c1 h
        obtain ⟨h1, h2⟩ := hN hHead c l hS
        rw [ihF (by rw [h2]; exact hHead) r c1 h, h1]

theorem switchToRender_numAcquired (Cache : FMetalStateCache) :
    (ConditionalSwitchToRender Cache).NumAcquired = Cache.NumAcquired := by
  unfold ConditionalSwitchToRender SetHasValidRenderTarget
  simp only
  split <;> split <;> rfl

theorem depthStencil_numAcquired (Platform : FMetalPlatform) (Cache : FMetalStateCache)
    (Locals : FPassLocals) :
    (SetRenderTargetsInfo.DepthStencil Platform Cache Locals).1.NumAcquired
      = Cache.NumAcquired := by
  unfold SetRenderTargetsInfo.DepthStencil
  simp only
  cases hT : Cache.RenderTargetsInfo.DepthStencilRenderTarget.Texture with
  | none => rfl
  | some T =>
    simp only
    have hU : ∀ (C : FMetalStateCache) (b : Bool) (w h : Nat),
        (SetRenderTargetsInfo.UpdateExtent C b w h).NumAcquired = C.NumAcquired := by
      intro C b w h
      cases b <;> rfl
    split_ifs <;> first | rfl | exact hU _ _ _ _

/-- C14: when the swap chain has no drawable to hand out and is asked, the
surface's handle stays unset: `ConditionalUpdateBackBuffer` on a surface with no
texture handle returns with the handle still unset, and a `SetRenderTargetsInfo`
during which the swap chain is asked returns at the early return, with no halt,
with a bound colour slot whose surface has no texture, and with the command
encoder as the entry switch left it: no `BeginRenderCommandEncoding`, and a
render encoder that was active on entry is not ended. -/
theorem acquisition_failure_tolerated (Platform : FMetalPlatform) (Cache : FMetalStateCache)
    (In : FRHISetRenderTargetsInfo) (QueryBuffer : Option Nat)
    (hHead : Cache.DrawableSupply.headD none = none) :
    (∀ T, (Cache.Surface T).Texture = none → Cache.CurrentDrawable = none →
        (Platform.PLATFORM_MAC = true → Cache.CurrentLayer.isSome = true) →
        ∃ Cache1, ConditionalUpdateBackBuffer Platform Cache T = FMetalResult.returned Cache1
          ∧ Cache1.NumAcquired = Cache.NumAcquired + 1
          ∧ (Cache1.Surface T).Texture = none)
    ∧ ((SetRenderTargetsInfo Platform Cache In QueryBuffer).Cache.NumAcquired
          ≠ Cache.NumAcquired →
        (SetRenderTargetsInfo Platform Cache In QueryBuffer).IsAborted = true
          ∧ (SetRenderTargetsInfo Platform Cache In QueryBuffer).Halt = none
          ∧ (∃ i T, i < Platform.MaxMetalRenderTargets ∧ BoundColorTexture In i = some T
              ∧ ((SetRenderTargetsInfo Platform Cache In QueryBuffer).Cache.Surface T).Texture
                  = none)
          ∧ (SetRenderTargetsInfo Platform Cache In QueryBuffer).Cache.CommandEncoder
              = (ConditionalSwitchToRender Cache).CommandEncoder
          ∧ (Cache.CommandEncoder.Mode = EMetalEncoderMode.Render →
              (SetRenderTargetsInfo Platform Cache In QueryBuffer).Cache.CommandEncoder
                = Cache.CommandEncoder)) := by
  refine ⟨?_, ?_⟩
  · intro T hT hD hL
    refine ⟨_, updateBackBuffer_acquires Platform Cache T hT hD hL, rfl, ?_⟩
    rw [surface_setSurfaceTexture, hHead]
    rfl
  · intro hAcq
    have hNA := switchToRender_numAcquired Cache
    obtain ⟨_, _, _, hDS⟩ := switchToRender_surroundings Cache
    have hEnterHead : (SetRenderTargetsInfo.Enter Platform (ConditionalSwitchToRender Cache) In
        QueryBuffer).1.DrawableSupply.headD none = none := by
      show (ConditionalSwitchToRender Cache).DrawableSupply.headD none = none
      rw [hDS]
      exact hHead
    have hEnterNA : (SetRenderTargetsInfo.Enter Platform (ConditionalSwitchToRender Cache) In
        QueryBuffer).1.NumAcquired = Cache.NumAcquired := hNA
    obtain ⟨hA, hN, hF⟩ := colorTargets_acquisition Platform Platform.MaxMetalRenderTargets 0
      (SetRenderTargetsInfo.Enter Platform (ConditionalSwitchToRender Cache) In QueryBuffer).1
      (SetRenderTargetsInfo.Enter Platform (ConditionalSwitchToRender Cache) In QueryBuffer).2
    have hEnc := colorTargets_encoder Platform Platform.MaxMetalRenderTargets 0
      (SetRenderTargetsInfo.Enter Platform (ConditionalSwitchToRender Cache) In QueryBuffer).1
      (SetRenderTargetsInfo.Enter Platform (ConditionalSwitchToRender Cache) In QueryBuffer).2
    have hRes : ∀ c, SetRenderTargetsInfo Platform Cache In QueryBuffer
        = FSetRenderTargetsResult.aborted c →
        SetRenderTargetsInfo.ColorTargets Platform Platform.MaxMetalRenderTargets 0
          (SetRenderTargetsInfo.Enter Platform (ConditionalSwitchToRender Cache) In QueryBuffer).1
          (SetRenderTargetsInfo.Enter Platform (ConditionalSwitchToRender Cache) In QueryBuffer).2
          = FLoopStep.abort c := by
      intro c hc
      unfold SetRenderTargetsInfo at hc
      simp only at hc
      split at hc
      · unfold SetRenderTargetsInfo.Build at hc
        simp only at hc
        split at hc
        · rename_i c1 hL
          injection hc with hc
          rw [← hc]
          exact hL
        · exact absurd hc (by simp)
        · split at hc
          · exact absurd hc (by simp)
          · exact absurd hc (by simp)
      · exact absurd hc (by simp)
    cases hR : SetRenderTargetsInfo Platform Cache In QueryBuffer with
    | reused c =>
      exfalso
      apply hAcq
      rw [hR]
      unfold SetRenderTargetsInfo at hR
      simp only at hR
      split at hR
      · unfold SetRenderTargetsInfo.Build at hR
        simp only at hR
        split at hR
        · exact absurd hR (by simp)
        · exact absurd hR (by simp)
        · split at hR
          · exact absurd hR (by simp)
          · exact absurd hR (by simp)
      · injection hR with hR
        rw [← hR]
        exact hNA
    | aborted c =>
      have hL := hRes c hR
      obtain ⟨k, T, _, hk, hB, hT⟩ := hA c hL
      rw [hL] at hEnc
      have hE2 : c.CommandEncoder = (ConditionalSwitchToRender Cache).CommandEncoder := hEnc
      refine ⟨rfl, rfl, ⟨k, T, by omega, hB, hT⟩, hE2, ?_⟩
      intro hM
      show c.CommandEncoder = Cache.CommandEncoder
      rw [hE2, switchToRender_of_render Cache
        (by simp [FMetalCommandEncoder.IsRenderCommandEncoderActive, hM])]
    | built c =>
      exfalso
      apply hAcq
      rw [hR]
      obtain ⟨_, hB1⟩ := setRenderTargetsInfo_built Platform Cache c In QueryBuffer hR
      obtain ⟨c2, l2, l3, hLoop, _, hC⟩ := build_built Platform _ _ In QueryBuffer hB1
      rw [hC]
      show (SetRenderTargetsInfo.DepthStencil Platform c2 l3).1.NumAcquired = _
      rw [depthStencil_numAcquired, hN hEnterHead c2 l2 hLoop, hEnterNA]
    | fatal r c =>
      exfalso
      apply hAcq
      rw [hR]
      unfold SetRenderTargetsInfo at hR
      simp only at hR
      split at hR
      · unfold SetRenderTargetsInfo.Build at hR
        simp only at hR
        split at hR
        · exact absurd hR (by simp)
        · rename_i r1 c1 hL
          injection hR with _ hR
          rw [← hR]
          exact (hF hEnterHead r1 c1 hL).trans hEnterNA
        · rename_i c1 l1 hL
          split at hR
          · injection hR with _ hR
            rw [← hR]
            exact (hN hEnterHead c1 l1 hL).trans hEnterNA
          · exact absurd hR (by simp)
      · exact absurd hR (by simp)

theorem acquisition_failure_tolerated_witness :
    (SetRenderTargetsInfo SampleMac RenderingCache (ColorRequest [0, 3]) none).Cache.NumAcquired
        = 1
      ∧ (SetRenderTargetsInfo SampleMac RenderingCache (ColorRequest [0, 3]) none).IsAborted
          = true
      ∧ (SetRenderTargetsInfo SampleMac RenderingCache (ColorRequest [0, 3])
          none).Cache.CommandEncoder = RenderingCache.CommandEncoder :=
  ⟨by rfl,
    ((acquisition_failure_tolerated SampleMac RenderingCache (ColorRequest [0, 3]) none
      (by rfl)).2 (by decide)).1,
    ((acquisition_failure_tolerated SampleMac RenderingCache (ColorRequest [0, 3]) none
      (by rfl)).2 (by decide)).2.2.2.2 (by rfl)⟩

/-! ## The pipeline key -/

theorem hash_testBit (h o w v i : Nat) :
    (h % 2 ^ o + (v % 2 ^ w) * 2 ^ o + h / 2 ^ (o + w) * 2 ^ (o + w)).testBit i
      = if o ≤ i ∧ i < o + w then (v % 2 ^ w).testBit (i - o) else h.testBit i := by
  have e : h % 2 ^ o + (v % 2 ^ w) * 2 ^ o + h / 2 ^ (o + w) * 2 ^ (o + w)
      = 2 ^ o * (2 ^ w * (h / 2 ^ (o + w)) + v % 2 ^ w) + h % 2 ^ o := by
    rw [pow_add]; ring
  rw [e, Nat.testBit_mul_pow_two_add _ (Nat.mod_lt _ (Nat.two_pow_pos o))]
  by_cases h1 : i < o
  · have : ¬ (o ≤ i ∧ i < o + w) := by omega
    simp [h1, this, Nat.testBit_mod_two_pow]
  · rw [if_neg h1, Nat.testBit_mul_pow_two_add _ (Nat.mod_lt _ (Nat.two_pow_pos w))]
    by_cases h2 : i - o < w
    · have : o ≤ i ∧ i < o + w := by omega
      simp [h2, this]
    · have : ¬ (o ≤ i ∧ i < o + w) := by omega
      rw [if_neg h2, if_neg this, ← Nat.shiftRight_eq_div_pow, Nat.testBit_shiftRight]
      congr 1
      omega

/-- The bits of the key after `SetHashValue`. -/
theorem setHashValue_testBit (Desc : FMetalRenderPipelineDesc) (Offset NumBits Value i : Nat) :
    (Desc.SetHashValue Offset NumBits Value).Hash.testBit i
      = if Offset ≤ i ∧ i < Offset + NumBits then (Value % 2 ^ NumBits).testBit (i - Offset)
        else Desc.Hash.testBit i :=
  hash_testBit Desc.Hash Offset NumBits Value i

theorem getHashValue_testBit (Hash Offset NumBits k : Nat) :
    (GetHashValue Hash Offset NumBits).testBit k
      = (decide (k < NumBits) && Hash.testBit (Offset + k)) := by
  unfold GetHashValue
  rw [Nat.testBit_mod_two_pow, ← Nat.shiftRight_eq_div_pow, Nat.testBit_shiftRight]

theorem setHashValue_ext (A B : FMetalRenderPipelineDesc) (O1 N1 V1 O2 N2 V2 : Nat)
    (hAB : A = B)
    (h : ∀ i, (A.SetHashValue O1 N1 V1).Hash.testBit i = (B.SetHashValue O2 N2 V2).Hash.testBit i) :
    A.SetHashValue O1 N1 V1 = B.SetHashValue O2 N2 V2 := by
  subst hAB
  have hH := Nat.eq_of_testBit_eq h
  unfold FMetalRenderPipelineDesc.SetHashValue at hH ⊢
  simp only at hH
  rw [hH]

theorem setHashValue_read (Desc : FMetalRenderPipelineDesc) (Offset NumBits Value : Nat) :
    GetHashValue (Desc.SetHashValue Offset NumBits Value).Hash Offset NumBits
      = Value % 2 ^ NumBits := by
  apply Nat.eq_of_testBit_eq
  intro k
  rw [getHashValue_testBit, setHashValue_testBit]
  by_cases hk : k < NumBits
  · have h1 : Offset ≤ Offset + k ∧ Offset + k < Offset + NumBits := by omega
    rw [if_pos h1]
    simp [hk]
  · have h2 : (Value % 2 ^ NumBits).testBit k = false := by
      rw [Nat.testBit_mod_two_pow]
      simp [hk]
    simp [hk, h2]

theorem setHashValue_read_disjoint (Desc : FMetalRenderPipelineDesc)
    (Offset NumBits Value O N : Nat) (hD : FieldsDisjoint (O, N) (Offset, NumBits)) :
    GetHashValue (Desc.SetHashValue Offset NumBits Value).Hash O N
      = GetHashValue Desc.Hash O N := by
  apply Nat.eq_of_testBit_eq
  intro k
  rw [getHashValue_testBit, getHashValue_testBit, setHashValue_testBit]
  by_cases hk : k < N
  · have h1 : ¬ (Offset ≤ O + k ∧ O + k < Offset + NumBits) := by
      unfold FieldsDisjoint at hD
      simp only at hD
      omega
    rw [if_neg h1]
  · simp [hk]

theorem setHashValue_hash_only (Desc : FMetalRenderPipelineDesc) (Offset NumBits Value : Nat) :
    (Desc.SetHashValue Offset NumBits Value).SampleCount = Desc.SampleCount
      ∧ (Desc.SetHashValue Offset NumBits Value).colorAttachmentPixelFormat
          = Desc.colorAttachmentPixelFormat
      ∧ (Desc.SetHashValue Offset NumBits Value).colorAttachmentBlend
          = Desc.colorAttachmentBlend
      ∧ (Desc.SetHashValue Offset NumBits Value).depthAttachmentPixelFormat
          = Desc.depthAttachmentPixelFormat
      ∧ (Desc.SetHashValue Offset NumBits Value).stencilAttachmentPixelFormat
          = Desc.stencilAttachmentPixelFormat
      ∧ (Desc.SetHashValue Offset NumBits Value).inputPrimitiveTopology
          = Desc.inputPrimitiveTopology :=
  ⟨rfl, rfl, rfl, rfl, rfl, rfl⟩

/-- C17: `SetHashValue(Offset, NumBits, Value)` makes the bits
`[Offset, Offset + NumBits)` of the key equal to `Value mod 2^NumBits` and
leaves every bit outside that range unchanged; writing the same field twice
keeps only the second value, and writes to two disjoint fields commute. -/
theorem setHashValue_writes_field (Desc : FMetalRenderPipelineDesc)
    (Offset NumBits Value : Nat) :
    (∀ i, (Desc.SetHashValue Offset NumBits Value).Hash.testBit i
        = if Offset ≤ i ∧ i < Offset + NumBits
          then (Value % 2 ^ NumBits).testBit (i - Offset)
          else Desc.Hash.testBit i)
    ∧ GetHashValue (Desc.SetHashValue Offset NumBits Value).Hash Offset NumBits
        = Value % 2 ^ NumBits
    ∧ (∀ First, (Desc.SetHashValue Offset NumBits First).SetHashValue Offset NumBits Value
        = Desc.SetHashValue Offset NumBits Value)
    ∧ (∀ Offset2 NumBits2 Value2,
        FieldsDisjoint (Offset, NumBits) (Offset2, NumBits2) →
        (Desc.SetHashValue Offset NumBits Value).SetHashValue Offset2 NumBits2 Value2
          = (Desc.SetHashValue Offset2 NumBits2 Value2).SetHashValue Offset NumBits Value) := by
  refine ⟨setHashValue_testBit Desc Offset NumBits Value,
    setHashValue_read Desc Offset NumBits Value, ?_, ?_⟩
  · intro First
    have hH : ((Desc.SetHashValue Offset NumBits First).SetHashValue Offset NumBits Value).Hash
        = (Desc.SetHashValue Offset NumBits Value).Hash := by
      apply Nat.eq_of_testBit_eq
      intro i
      rw [setHashValue_testBit, setHashValue_testBit, setHashValue_testBit]
      by_cases h : Offset ≤ i ∧ i < Offset + NumBits
      · rw [if_pos h, if_pos h]
      · rw [if_neg h, if_neg h, if_neg h]
    unfold FMetalRenderPipelineDesc.SetHashValue at hH ⊢
    simp only at hH ⊢
    rw [hH]
  · intro Offset2 NumBits2 Value2 hD
    have hH : ((Desc.SetHashValue Offset NumBits Value).SetHashValue Offset2 NumBits2
          Value2).Hash
        = ((Desc.SetHashValue Offset2 NumBits2 Value2).SetHashValue Offset NumBits Value).Hash := by
      apply Nat.eq_of_testBit_eq
      intro i
      rw [setHashValue_testBit, setHashValue_testBit, setHashValue_testBit,
        setHashValue_testBit]
      unfold FieldsDisjoint at hD
      simp only at hD
      by_cases h1 : Offset ≤ i ∧ i < Offset + NumBits
      · have h2 : ¬ (Offset2 ≤ i ∧ i < Offset2 + NumBits2) := by omega
        simp only [if_pos h1, if_neg h2]
      · simp only [if_neg h1]
    unfold FMetalRenderPipelineDesc.SetHashValue at hH ⊢
    simp only at hH ⊢
    rw [hH]

/-- A field that shares no bit with the fields written is read as before. -/
theorem writeFields_read_disjoint (Field : Nat × Nat) :
    ∀ (Writes : List ((Nat × Nat) × Nat)) (Desc : FMetalRenderPipelineDesc),
      (∀ W ∈ Writes, FieldsDisjoint Field W.1) →
      GetHashValue (WriteFields Writes Desc).Hash Field.1 Field.2
        = GetHashValue Desc.Hash Field.1 Field.2
  | [], _, _ => rfl
  | W :: Writes, Desc, h => by
    show GetHashValue (WriteFields Writes (Desc.SetHashValue W.1.1 W.1.2 W.2)).Hash _ _ = _
    rw [writeFields_read_disjoint Field Writes _
      (fun V hV => h V (List.mem_cons_of_mem _ hV))]
    exact setHashValue_read_disjoint Desc W.1.1 W.1.2 W.2 Field.1 Field.2
      (h W (List.mem_cons_self _ _))

/-- After writes to pairwise disjoint fields each field holds the value written
to it, masked to the width of the field. -/
theorem writeFields_read :
    ∀ (Writes : List ((Nat × Nat) × Nat)) (Desc : FMetalRenderPipelineDesc),
      (Writes.map Prod.fst).Pairwise FieldsDisjoint →
      ∀ W ∈ Writes,
        GetHashValue (WriteFields Writes Desc).Hash W.1.1 W.1.2 = W.2 % 2 ^ W.1.2
  | [], _, _, W, hW => by cases hW
  | V :: Writes, Desc, hP, W, hW => by
    rw [List.map_cons, List.pairwise_cons] at hP
    show GetHashValue (WriteFields Writes (Desc.SetHashValue V.1.1 V.1.2 V.2)).Hash _ _ = _
    rcases List.mem_cons.1 hW with hEq | hIn
    · subst hEq
      rw [writeFields_read_disjoint W.1 Writes _
        (fun U hU => hP.1 U.1 (List.mem_map_of_mem Prod.fst hU))]
      exact setHashValue_read Desc W.1.1 W.1.2 W.2
    · exact writeFields_read Writes _ hP.2 W hIn

theorem pipelineWrites_fields (Platform : FMetalPlatform) (Facets : FPipelineFacets) :
    (PipelineWrites Platform Facets).map Prod.fst = PipelineFields Platform := by
  simp only [PipelineWrites, PipelineFields, List.map_append, List.map_map, List.map_cons,
    List.map_nil, List.append_assoc]
  rfl

/-- What the key holds in each field when the fields are pairwise disjoint. -/
theorem pipelineKey_fields (Platform : FMetalPlatform) (Facets : FPipelineFacets)
    (Desc : FMetalRenderPipelineDesc)
    (hFields : (PipelineFields Platform).Pairwise FieldsDisjoint) :
    (∀ Index, Index < Platform.MaxMetalRenderTargets →
        GetHashValue (PipelineKey Platform Facets Desc) (Platform.BlendBitOffsets Index)
            Platform.NumBits_BlendState
          = Facets.BlendKey Index % 2 ^ Platform.NumBits_BlendState)
      ∧ (∀ Index, Index < Platform.MaxMetalRenderTargets →
        GetHashValue (PipelineKey Platform Facets Desc) (Platform.RTBitOffsets Index)
            Platform.NumBits_RenderTargetFormat
          = Facets.RenderTargetFormatKey Index % 2 ^ Platform.NumBits_RenderTargetFormat)
      ∧ GetHashValue (PipelineKey Platform Facets Desc) Platform.Offset_DepthFormat
            Platform.NumBits_DepthFormat
          = Facets.DepthFormatKey % 2 ^ Platform.NumBits_DepthFormat
      ∧ GetHashValue (PipelineKey Platform Facets Desc) Platform.Offset_StencilFormat
            Platform.NumBits_StencilFormat
          = Facets.StencilFormatKey % 2 ^ Platform.NumBits_StencilFormat
      ∧ GetHashValue (PipelineKey Platform Facets Desc) Platform.Offset_SampleCount
            Platform.NumBits_SampleCount
          = Facets.SampleCount % 2 ^ Platform.NumBits_SampleCount
      ∧ GetHashValue (PipelineKey Platform Facets Desc) Platform.Offset_PrimitiveTopology
            Platform.NumBits_PrimitiveTopology
          = Facets.PrimitiveTopology % 2 ^ Platform.NumBits_PrimitiveTopology := by
  have hP : ((PipelineWrites Platform Facets).map Prod.fst).Pairwise FieldsDisjoint := by
    rw [pipelineWrites_fields]; exact hFields
  have hR := writeFields_read (PipelineWrites Platform Facets) Desc hP
  refine ⟨?_, ?_, ?_, ?_, ?_, ?_⟩
  · intro Index hI
    exact hR ((Platform.BlendBitOffsets Index, Platform.NumBits_BlendState),
      Facets.BlendKey Index) (by
        unfold PipelineWrites
        refine List.mem_append_left _ (List.mem_append_left _ ?_)
        exact List.mem_map.2 ⟨Index, List.mem_range.2 hI, rfl⟩)
  · intro Index hI
    exact hR ((Platform.RTBitOffsets Index, Platform.NumBits_RenderTargetFormat),
      Facets.RenderTargetFormatKey Index) (by
        unfold PipelineWrites
        refine List.mem_append_left _ (List.mem_append_right _ ?_)
        exact List.mem_map.2 ⟨Index, List.mem_range.2 hI, rfl⟩)
  · exact hR ((Platform.Offset_DepthFormat, Platform.NumBits_DepthFormat),
      Facets.DepthFormatKey) (by
        unfold PipelineWrites
        refine List.mem_append_right _ ?_
        simp)
  · exact hR ((Platform.Offset_StencilFormat, Platform.NumBits_StencilFormat),
      Facets.StencilFormatKey) (by
        unfold PipelineWrites
        refine List.mem_append_right _ ?_
        simp)
  · exact hR ((Platform.Offset_SampleCount, Platform.NumBits_SampleCount),
      Facets.SampleCount) (by
        unfold PipelineWrites
        refine List.mem_append_right _ ?_
        simp)
  · exact hR ((Platform.Offset_PrimitiveTopology, Platform.NumBits_PrimitiveTopology),
      Facets.PrimitiveTopology) (by
        unfold PipelineWrites
        refine List.mem_append_right _ ?_
        simp)

theorem pipelineWrites_congr (Platform : FMetalPlatform) (F G : FPipelineFacets)
    (h : SameFacets Platform F G) : PipelineWrites Platform F = PipelineWrites Platform G := by
  obtain ⟨h1, h2, h3, h4, h5, h6⟩ := h
  unfold PipelineWrites
  rw [h3, h4, h5, h6]
  congr 2
  · apply List.map_congr_left
    intro Index hI
    rw [h1 Index (List.mem_range.1 hI)]
  · apply List.map_congr_left
    intro Index hI
    rw [h2 Index (List.mem_range.1 hI)]

/-- C16: with pairwise disjoint fields and every facet value fitting the width
of its field, the keys built from two facet tuples (on the same descriptor) are
equal exactly when the tuples are the same: distinct tuples give different
keys, identical tuples give identical keys. -/
theorem pipelineKey_injective (Platform : FMetalPlatform) (F G : FPipelineFacets)
    (Desc : FMetalRenderPipelineDesc)
    (hFields : (PipelineFields Platform).Pairwise FieldsDisjoint)
    (hF : FacetsFit Platform F) (hG : FacetsFit Platform G) :
    (PipelineKey Platform F Desc = PipelineKey Platform G Desc ↔ SameFacets Platform F G)
      ∧ (¬ SameFacets Platform F G →
          PipelineKey Platform F Desc ≠ PipelineKey Platform G Desc) := by
  have hIff : PipelineKey Platform F Desc = PipelineKey Platform G Desc
      ↔ SameFacets Platform F G := by
    constructor
    · intro hK
      obtain ⟨f1, f2, f3, f4, f5, f6⟩ := pipelineKey_fields Platform F Desc hFields
      obtain ⟨g1, g2, g3, g4, g5, g6⟩ := pipelineKey_fields Platform G Desc hFields
      obtain ⟨a1, a2, a3, a4, a5, a6⟩ := hF
      obtain ⟨b1, b2, b3, b4, b5, b6⟩ := hG
      rw [hK] at f1 f2 f3 f4 f5 f6
      refine ⟨?_, ?_, ?_, ?_, ?_, ?_⟩
      · intro Index hI
        have e := (f1 Index hI).symm.trans (g1 Index hI)
        rwa [Nat.mod_eq_of_lt (a1 Index hI), Nat.mod_eq_of_lt (b1 Index hI)] at e
      · intro Index hI
        have e := (f2 Index hI).symm.trans (g2 Index hI)
        rwa [Nat.mod_eq_of_lt (a2 Index hI), Nat.mod_eq_of_lt (b2 Index hI)] at e
      · have e := f3.symm.trans g3
        rwa [Nat.mod_eq_of_lt a3, Nat.mod_eq_of_lt b3] at e
      · have e := f4.symm.trans g4
        rwa [Nat.mod_eq_of_lt a4, Nat.mod_eq_of_lt b4] at e
      · have e := f5.symm.trans g5
        rwa [Nat.mod_eq_of_lt a5, Nat.mod_eq_of_lt b5] at e
      · have e := f6.symm.trans g6
        rwa [Nat.mod_eq_of_lt a6, Nat.mod_eq_of_lt b6] at e
    · intro hS
      unfold PipelineKey
      rw [pipelineWrites_congr Platform F G hS]
  exact ⟨hIff, fun hN hK => hN (hIff.1 hK)⟩

theorem sampleMac_fields_disjoint : (PipelineFields SampleMac).Pairwise FieldsDisjoint := by
  decide

theorem sampleFacets_fit : FacetsFit SampleMac SampleFacets := by
  refine ⟨?_, ?_, by decide, by decide, by decide, by decide⟩
  · intro Index hI
    have h6 : Index < 6 := hI
    show Index + 1 < 2 ^ 5
    omega
  · intro Index _
    show 7 < 2 ^ 5
    decide

theorem otherFacets_fit : FacetsFit SampleMac OtherFacets := by
  refine ⟨?_, ?_, by decide, by decide, by decide, by decide⟩
  · intro Index hI
    have h6 : Index < 6 := hI
    show Index + 1 < 2 ^ 5
    omega
  · intro Index _
    show 7 < 2 ^ 5
    decide

theorem pipelineKey_injective_witness :
    (PipelineFields SampleMac).Pairwise FieldsDisjoint
      ∧ FacetsFit SampleMac SampleFacets ∧ FacetsFit SampleMac OtherFacets
      ∧ ¬ SameFacets SampleMac SampleFacets OtherFacets
      ∧ PipelineKey SampleMac SampleFacets SampleDesc
          ≠ PipelineKey SampleMac OtherFacets SampleDesc :=
  have hN : ¬ SameFacets SampleMac SampleFacets OtherFacets :=
    fun h => absurd h.2.2.2.2.1 (by decide)
  ⟨sampleMac_fields_disjoint, sampleFacets_fit, otherFacets_fit, hN,
    (pipelineKey_injective SampleMac SampleFacets OtherFacets SampleDesc
      sampleMac_fields_disjoint sampleFacets_fit otherFacets_fit).2 hN⟩

/-! ## Fixed-function state -/

theorem writeFields_hash_congr :
    ∀ (Writes : List ((Nat × Nat) × Nat)) (A B : FMetalRenderPipelineDesc),
      A.Hash = B.Hash → (WriteFields Writes A).Hash = (WriteFields Writes B).Hash
  | [], _, _, h => h
  | W :: Writes, A, B, h => by
    show (WriteFields Writes (A.SetHashValue W.1.1 W.1.2 W.2)).Hash
      = (WriteFields Writes (B.SetHashValue W.1.1 W.1.2 W.2)).Hash
    apply writeFields_hash_congr Writes
    show A.Hash % _ + _ + A.Hash / _ * _ = B.Hash % _ + _ + B.Hash / _ * _
    rw [h]

theorem writeFields_testBit_outside (Bit : Nat) :
    ∀ (Writes : List ((Nat × Nat) × Nat)) (Desc : FMetalRenderPipelineDesc),
      (∀ W ∈ Writes, ¬ (W.1.1 ≤ Bit ∧ Bit < W.1.1 + W.1.2)) →
      (WriteFields Writes Desc).Hash.testBit Bit = Desc.Hash.testBit Bit
  | [], _, _ => rfl
  | W :: Writes, Desc, h => by
    show (WriteFields Writes (Desc.SetHashValue W.1.1 W.1.2 W.2)).Hash.testBit Bit = _
    rw [writeFields_testBit_outside Bit Writes _
      (fun V hV => h V (List.mem_cons_of_mem _ hV)), setHashValue_testBit,
      if_neg (h W (List.mem_cons_self _ _))]

/-- The key after the loop of `SetBlendState` is the key after the writes of
the blend keys, one target after the other. -/
theorem blendTargets_hash (Platform : FMetalPlatform) (BlendState : FMetalBlendState) :
    ∀ (Remaining RenderTargetIndex : Nat) (Desc : FMetalRenderPipelineDesc),
      (SetBlendState.Targets Platform BlendState Remaining RenderTargetIndex Desc).Hash
        = (WriteFields (BlendWrites Platform BlendState RenderTargetIndex Remaining) Desc).Hash
  | 0, _, _ => rfl
  | Remaining + 1, RenderTargetIndex, Desc => by
    unfold SetBlendState.Targets
    rw [blendTargets_hash Platform BlendState Remaining (RenderTargetIndex + 1)]
    show _ = (WriteFields (BlendWrites Platform BlendState (RenderTargetIndex + 1) Remaining)
      (Desc.SetHashValue (Platform.BlendBitOffsets RenderTargetIndex)
        Platform.NumBits_BlendState (BlendState.Target RenderTargetIndex).BlendStateKey)).Hash
    apply writeFields_hash_congr
    cases (BlendState.Target RenderTargetIndex).BlendState <;> rfl

theorem blendWrites_fields (Platform : FMetalPlatform) (BlendState : FMetalBlendState) :
    (BlendWrites Platform BlendState 0 Platform.MaxMetalRenderTargets).map Prod.fst
      = BlendFields Platform := by
  simp only [BlendWrites, BlendFields, List.map_map]
  rfl

theorem blendWrites_mem (Platform : FMetalPlatform) (BlendState : FMetalBlendState)
    (W : (Nat × Nat) × Nat)
    (hW : W ∈ BlendWrites Platform BlendState 0 Platform.MaxMetalRenderTargets) :
    ∃ Index, Index < Platform.MaxMetalRenderTargets
      ∧ W = ((Platform.BlendBitOffsets Index, Platform.NumBits_BlendState),
          (BlendState.Target Index).BlendStateKey) := by
  unfold BlendWrites at hW
  obtain ⟨Index, hI, hE⟩ := List.mem_map.1 hW
  rw [List.mem_range'_1] at hI
  exact ⟨Index, by omega, hE.symm⟩

theorem mem_blendWrites (Platform : FMetalPlatform) (BlendState : FMetalBlendState)
    (Index : Nat) (hI : Index < Platform.MaxMetalRenderTargets) :
    ((Platform.BlendBitOffsets Index, Platform.NumBits_BlendState),
        (BlendState.Target Index).BlendStateKey)
      ∈ BlendWrites Platform BlendState 0 Platform.MaxMetalRenderTargets := by
  unfold BlendWrites
  exact List.mem_map.2 ⟨Index, List.mem_range'_1.2 ⟨Nat.zero_le _, by omega⟩, rfl⟩

theorem setBlendState_some (Platform : FMetalPlatform) (Cache : FMetalStateCache)
    (BlendState : FMetalBlendState) :
    (SetBlendState Platform Cache (some BlendState)).BlendState = some BlendState
      ∧ (SetBlendState Platform Cache (some BlendState)).PipelineDesc.Hash
          = (WriteFields (BlendWrites Platform BlendState 0 Platform.MaxMetalRenderTargets)
              Cache.PipelineDesc).Hash
      ∧ (SetBlendState Platform Cache (some BlendState)).CommandEncoder = Cache.CommandEncoder :=
  ⟨rfl, blendTargets_hash Platform BlendState Platform.MaxMetalRenderTargets 0
    Cache.PipelineDesc, rfl⟩

/-- C18: `SetBlendState` with a blend state `B` stores `B` and writes, for every
target below `MaxMetalRenderTargets` in turn, the blend key of the target into
the blend field of the target; with pairwise disjoint blend fields each blend
field then holds the key of its target (masked to the width), every bit of the
key outside the blend fields is unchanged, and so is every field that shares no
bit with a blend field.  `SetBlendState` with null stores null and leaves the
pipeline key (the whole pipeline descriptor) unchanged. -/
theorem setBlendState_effect (Platform : FMetalPlatform) (Cache : FMetalStateCache) :
    (∀ B : FMetalBlendState,
        (SetBlendState Platform Cache (some B)).BlendState = some B
        ∧ (SetBlendState Platform Cache (some B)).PipelineDesc.Hash
            = (WriteFields (BlendWrites Platform B 0 Platform.MaxMetalRenderTargets)
                Cache.PipelineDesc).Hash
        ∧ ((BlendFields Platform).Pairwise FieldsDisjoint →
            ∀ Index, Index < Platform.MaxMetalRenderTargets →
              GetHashValue (SetBlendState Platform Cache (some B)).PipelineDesc.Hash
                  (Platform.BlendBitOffsets Index) Platform.NumBits_BlendState
                = (B.Target Index).BlendStateKey % 2 ^ Platform.NumBits_BlendState)
        ∧ (∀ Bit, OutsideBlendFields Platform Bit →
            (SetBlendState Platform Cache (some B)).PipelineDesc.Hash.testBit Bit
              = Cache.PipelineDesc.Hash.testBit Bit)
        ∧ (∀ Offset NumBits,
            (∀ Index, Index < Platform.MaxMetalRenderTargets →
              FieldsDisjoint (Offset, NumBits)
                (Platform.BlendBitOffsets Index, Platform.NumBits_BlendState)) →
            GetHashValue (SetBlendState Platform Cache (some B)).PipelineDesc.Hash Offset NumBits
              = GetHashValue Cache.PipelineDesc.Hash Offset NumBits))
      ∧ (SetBlendState Platform Cache none).BlendState = none
      ∧ (SetBlendState Platform Cache none).PipelineDesc = Cache.PipelineDesc := by
  refine ⟨fun B => ?_, rfl, rfl⟩
  have hH := (setBlendState_some Platform Cache B).2.1
  refine ⟨rfl, hH, ?_, ?_, ?_⟩
  · intro hP Index hI
    rw [hH]
    exact writeFields_read _ Cache.PipelineDesc
      (by rw [blendWrites_fields]; exact hP) _ (mem_blendWrites Platform B Index hI)
  · intro Bit hOut
    rw [hH]
    apply writeFields_testBit_outside
    intro W hW
    obtain ⟨Index, hI, hE⟩ := blendWrites_mem Platform B W hW
    subst hE
    exact hOut Index hI
  · intro Offset NumBits hD
    rw [hH]
    apply writeFields_read_disjoint (Offset, NumBits)
    intro W hW
    obtain ⟨Index, hI, hE⟩ := blendWrites_mem Platform B W hW
    subst hE
    exact hD Index hI

/-- C19: `SetRasterizerState` with a rasterizer state stores it and issues, in
this order, front-face winding counter-clockwise, the cull mode (Front for
`CM_CCW`, Back for `CM_CW`, None for every other value), the depth bias without
clamp, and the triangle fill mode (Lines for `FM_Wireframe`, Fill for
`FM_Solid`, `FM_Point` and every other value); with null it stores null and
issues no driver call. -/
theorem setRasterizerState_effect (Cache : FMetalStateCache) :
    (∀ R : FMetalRasterizerState,
        (SetRasterizerState Cache (some R)).RasterizerState = some R
        ∧ (SetRasterizerState Cache (some R)).CommandEncoder.Calls
            = Cache.CommandEncoder.Calls
              ++ [FMetalCall.SetFrontFacingWinding MTLWinding.CounterClockwise,
                  FMetalCall.SetCullMode (TranslateCullMode R.CullMode),
                  FMetalCall.SetDepthBias R.DepthBias R.SlopeScaleDepthBias FLT_MAX,
                  FMetalCall.SetTriangleFillMode (TranslateFillMode R.FillMode)]
        ∧ (SetRasterizerState Cache (some R)).CommandEncoder.Mode = Cache.CommandEncoder.Mode)
      ∧ TranslateCullMode ERasterizerCullMode.CM_CCW = MTLCullMode.Front
      ∧ TranslateCullMode ERasterizerCullMode.CM_CW = MTLCullMode.Back
      ∧ (∀ CullMode, CullMode ≠ ERasterizerCullMode.CM_CCW →
          CullMode ≠ ERasterizerCullMode.CM_CW → TranslateCullMode CullMode = MTLCullMode.None)
      ∧ TranslateFillMode ERasterizerFillMode.FM_Wireframe = MTLTriangleFillMode.Lines
      ∧ TranslateFillMode ERasterizerFillMode.FM_Solid = MTLTriangleFillMode.Fill
      ∧ TranslateFillMode ERasterizerFillMode.FM_Point = MTLTriangleFillMode.Fill
      ∧ (∀ FillMode, FillMode ≠ ERasterizerFillMode.FM_Wireframe →
          TranslateFillMode FillMode = MTLTriangleFillMode.Fill)
      ∧ (SetRasterizerState Cache none).RasterizerState = none
      ∧ (SetRasterizerState Cache none).CommandEncoder = Cache.CommandEncoder := by
  refine ⟨fun R => ⟨rfl, ?_, rfl⟩, rfl, rfl, ?_, rfl, rfl, rfl, ?_, rfl, rfl⟩
  · simp [SetRasterizerState, FMetalCommandEncoder.Issue, List.append_assoc]
  · intro CullMode h1 h2
    cases CullMode
    · rfl
    · exact absurd rfl h2
    · exact absurd rfl h1
  · intro FillMode h1
    cases FillMode
    · rfl
    · exact absurd rfl h1
    · rfl

theorem setBlendState_effect_witness :
    (BlendFields SampleMac).Pairwise FieldsDisjoint
      ∧ GetHashValue (SetBlendState SampleMac IdleCache (some SampleBlendState)).PipelineDesc.Hash
          (SampleMac.BlendBitOffsets 5) SampleMac.NumBits_BlendState = 9
      ∧ GetHashValue (SetBlendState SampleMac IdleCache (some SampleBlendState)).PipelineDesc.Hash
          SampleMac.Offset_DepthFormat SampleMac.NumBits_DepthFormat
        = GetHashValue IdleCache.PipelineDesc.Hash
          SampleMac.Offset_DepthFormat SampleMac.NumBits_DepthFormat :=
  ⟨by decide,
    ((setBlendState_effect SampleMac IdleCache).1 SampleBlendState).2.2.1 (by decide) 5
      (by decide),
    ((setBlendState_effect SampleMac IdleCache).1 SampleBlendState).2.2.2.2
      SampleMac.Offset_DepthFormat SampleMac.NumBits_DepthFormat
      (fun Index hI => by
        have h6 : Index < 6 := hI
        show 60 + 3 ≤ 5 * Index ∨ 5 * Index + 5 ≤ 60
        omega)⟩

theorem setDepthStencilState_some (Cache : FMetalStateCache) (D : FMetalDepthStencilState) :
    (SetDepthStencilState Cache (some D)).DepthStencilState = some D
      ∧ (SetDepthStencilState Cache (some D)).CommandEncoder.Calls
          = Cache.CommandEncoder.Calls ++ [FMetalCall.SetDepthStencilState D.State]
      ∧ (SetDepthStencilState Cache (some D)).CommandEncoder.Mode = Cache.CommandEncoder.Mode :=
  ⟨rfl, rfl, rfl⟩

theorem setRasterizerState_some (Cache : FMetalStateCache) (R : FMetalRasterizerState) :
    (SetRasterizerState Cache (some R)).CommandEncoder.Calls
      = Cache.CommandEncoder.Calls
        ++ [FMetalCall.SetFrontFacingWinding MTLWinding.CounterClockwise,
            FMetalCall.SetCullMode (TranslateCullMode R.CullMode),
            FMetalCall.SetDepthBias R.DepthBias R.SlopeScaleDepthBias FLT_MAX,
            FMetalCall.SetTriangleFillMode (TranslateFillMode R.FillMode)] := by
  simp [SetRasterizerState, FMetalCommandEncoder.Issue, List.append_assoc]

theorem append_ne_self {α : Type} (Calls More : List α) (h : More ≠ []) :
    Calls ++ More ≠ Calls := by
  intro hE
  have hL := congrArg List.length hE
  rw [List.length_append] at hL
  have hM : More.length = 0 := by omega
  exact h (List.length_eq_zero.1 hM)

/-- C20, counterexample: the depth-stencil state and the rasterizer state of
the rendering cache are bound already, and setting the same objects again
issues one driver call for the depth-stencil state and four for the rasterizer
state. -/
theorem set_again_issues_calls :
    RenderingCache.DepthStencilState = some { State := 2 }
      ∧ (SetDepthStencilState RenderingCache (some { State := 2 })).CommandEncoder.Calls
          = RenderingCache.CommandEncoder.Calls ++ [FMetalCall.SetDepthStencilState 2]
      ∧ (SetDepthStencilState RenderingCache (some { State := 2 })).CommandEncoder.Calls
          ≠ RenderingCache.CommandEncoder.Calls
      ∧ RenderingCache.RasterizerState = some default
      ∧ (SetRasterizerState RenderingCache (some default)).CommandEncoder.Calls
          ≠ RenderingCache.CommandEncoder.Calls := by
  refine ⟨rfl, rfl, ?_, rfl, ?_⟩
  · rw [(setDepthStencilState_some RenderingCache { State := 2 }).2.1]
    exact append_ne_self _ _ (by simp)
  · rw [setRasterizerState_some RenderingCache default]
    exact append_ne_self _ _ (by simp)

/-- C20, amended: the setters apply the object on every call, changed or not.
With the depth-stencil state `D`, the rasterizer state `R` and the blend state
`B` bound already, `SetDepthStencilState(D)` issues the driver call for `D`,
`SetRasterizerState(R)` issues its four driver calls, and `SetBlendState(B)`
writes the blend key of every target into the pipeline key again; the bound
objects stay bound.  Only a null object issues no driver call and no write. -/
theorem set_applies_unconditionally (Platform : FMetalPlatform) (Cache : FMetalStateCache)
    (D : FMetalDepthStencilState) (R : FMetalRasterizerState) (B : FMetalBlendState)
    (hD : Cache.DepthStencilState = some D) (hR : Cache.RasterizerState = some R)
    (hB : Cache.BlendState = some B) :
    ((SetDepthStencilState Cache (some D)).CommandEncoder.Calls
        = Cache.CommandEncoder.Calls ++ [FMetalCall.SetDepthStencilState D.State]
      ∧ (SetDepthStencilState Cache (some D)).CommandEncoder.Calls ≠ Cache.CommandEncoder.Calls
      ∧ (SetDepthStencilState Cache (some D)).DepthStencilState = Cache.DepthStencilState)
    ∧ ((SetRasterizerState Cache (some R)).CommandEncoder.Calls
        = Cache.CommandEncoder.Calls
          ++ [FMetalCall.SetFrontFacingWinding MTLWinding.CounterClockwise,
              FMetalCall.SetCullMode (TranslateCullMode R.CullMode),
              FMetalCall.SetDepthBias R.DepthBias R.SlopeScaleDepthBias FLT_MAX,
              FMetalCall.SetTriangleFillMode (TranslateFillMode R.FillMode)]
      ∧ (SetRasterizerState Cache (some R)).CommandEncoder.Calls ≠ Cache.CommandEncoder.Calls
      ∧ (SetRasterizerState Cache (some R)).RasterizerState = Cache.RasterizerState)
    ∧ ((SetBlendState Platform Cache (some B)).PipelineDesc
        = SetBlendState.Targets Platform B Platform.MaxMetalRenderTargets 0 Cache.PipelineDesc
      ∧ (SetBlendState Platform Cache (some B)).PipelineDesc.Hash
        = (WriteFields (BlendWrites Platform B 0 Platform.MaxMetalRenderTargets)
            Cache.PipelineDesc).Hash
      ∧ (SetBlendState Platform Cache (some B)).BlendState = Cache.BlendState)
    ∧ ((SetDepthStencilState Cache none).CommandEncoder = Cache.CommandEncoder
      ∧ (SetRasterizerState Cache none).CommandEncoder = Cache.CommandEncoder
      ∧ (SetBlendState Platform Cache none).PipelineDesc = Cache.PipelineDesc
      ∧ (SetBlendState Platform Cache none).CommandEncoder = Cache.CommandEncoder) := by
  refine ⟨⟨rfl, ?_, hD.symm⟩, ⟨setRasterizerState_some Cache R, ?_, hR.symm⟩,
    ⟨rfl, (setBlendState_some Platform Cache B).2.1, hB.symm⟩, rfl, rfl, rfl, rfl⟩
  · rw [(setDepthStencilState_some Cache D).2.1]
    exact append_ne_self _ _ (by simp)
  · rw [setRasterizerState_some Cache R]
    exact append_ne_self _ _ (by simp)

theorem set_applies_unconditionally_witness :
    RenderingCache.DepthStencilState = some { State := 2 }
      ∧ RenderingCache.RasterizerState = some default
      ∧ RenderingCache.BlendState = some { Handle := 1, RenderTargetStates := [] }
      ∧ (SetDepthStencilState RenderingCache (some { State := 2 })).CommandEncoder.Calls
          = RenderingCache.CommandEncoder.Calls ++ [FMetalCall.SetDepthStencilState 2] :=
  ⟨rfl, rfl, rfl,
    (set_applies_unconditionally SampleMac RenderingCache { State := 2 } default
      { Handle := 1, RenderTargetStates := [] } rfl rfl rfl).1.1⟩

/-! ## Scalar state, vertex buffers and the compute shader -/

/-- C21 (as stated, refuted): inside a render pass `SetViewport` stores the new
viewport and the list of driver calls is what it was: no driver call is made. -/
theorem setViewport_issues_no_call :
    RenderingCache.Viewport ≠ SampleViewport
      ∧ (SetViewport RenderingCache SampleViewport).Viewport = SampleViewport
      ∧ (SetViewport RenderingCache SampleViewport).CommandEncoder.Calls
          = RenderingCache.CommandEncoder.Calls := by
  refine ⟨?_, rfl, rfl⟩
  intro h
  have hW := congrArg MTLViewport.width h
  exact absurd hW (by decide)

/-- C21 (amended): `SetViewport` stores the new viewport and makes no driver
call, whatever the stored value; `SetBlendFactor` stores the factor and issues
`SetBlendColor` with its four components, and `SetStencilRef` stores the
reference and issues `SetStencilReferenceValue`, on every call, also when the
value equals the one already stored. -/
theorem scalar_state_setters (Cache : FMetalStateCache) (InViewport : MTLViewport)
    (InBlendFactor : FLinearColor) (InStencilRef : Nat) :
    ((SetViewport Cache InViewport).Viewport = InViewport
      ∧ (SetViewport Cache InViewport).CommandEncoder = Cache.CommandEncoder)
    ∧ ((SetBlendFactor Cache InBlendFactor).BlendFactor = InBlendFactor
      ∧ (SetBlendFactor Cache InBlendFactor).CommandEncoder.Calls
          = Cache.CommandEncoder.Calls
            ++ [FMetalCall.SetBlendColor InBlendFactor.R InBlendFactor.G InBlendFactor.B
                InBlendFactor.A]
      ∧ (SetBlendFactor Cache Cache.BlendFactor).CommandEncoder.Calls
          = Cache.CommandEncoder.Calls
            ++ [FMetalCall.SetBlendColor Cache.BlendFactor.R Cache.BlendFactor.G
                Cache.BlendFactor.B Cache.BlendFactor.A])
    ∧ ((SetStencilRef Cache InStencilRef).StencilRef = InStencilRef
      ∧ (SetStencilRef Cache InStencilRef).CommandEncoder.Calls
          = Cache.CommandEncoder.Calls ++ [FMetalCall.SetStencilReferenceValue InStencilRef]
      ∧ (SetStencilRef Cache Cache.StencilRef).CommandEncoder.Calls
          = Cache.CommandEncoder.Calls
            ++ [FMetalCall.SetStencilReferenceValue Cache.StencilRef]) :=
  ⟨⟨rfl, rfl⟩, ⟨rfl, rfl, rfl⟩, ⟨rfl, rfl, rfl⟩⟩

/-- C22: `SetVertexBuffer` halts at its check exactly when
`Index >= MaxMetalStreams`; for a smaller index it returns with `Buffer` stored
in slot `Index`, with the stride of the slot `Stride` for a buffer and 0 for
null, with exactly one `SetShaderBuffer(vertex, Buffer, Offset, Index)` call
issued for a buffer and none for null, and with the buffer and stride of every
other slot unchanged. -/
theorem setVertexBuffer_effect (Platform : FMetalPlatform) (Cache : FMetalStateCache)
    (Index : Nat) (Buffer : Option Nat) (Stride Offset : Nat) :
    ((SetVertexBuffer Platform Cache Index Buffer Stride Offset).Halt.isSome = true
        ↔ Platform.MaxMetalStreams ≤ Index)
      ∧ (Platform.MaxMetalStreams ≤ Index →
          SetVertexBuffer Platform Cache Index Buffer Stride Offset
            = FMetalResult.fatal EFatal.CheckVertexStreamIndex Cache)
      ∧ (Index < Platform.MaxMetalStreams →
          ∃ Cache1, SetVertexBuffer Platform Cache Index Buffer Stride Offset
              = FMetalResult.returned Cache1
            ∧ Cache1.VertexBuffers Index = Buffer
            ∧ Cache1.VertexStrides Index = (if Buffer.isSome then Stride else 0)
            ∧ Cache1.CommandEncoder.Calls
                = Cache.CommandEncoder.Calls
                  ++ (match Buffer with
                      | some BufferObject =>
                        [FMetalCall.SetVertexShaderBuffer BufferObject Offset Index]
                      | none => [])
            ∧ Cache1.CommandEncoder.Mode = Cache.CommandEncoder.Mode
            ∧ ∀ Other, Other ≠ Index →
                Cache1.VertexBuffers Other = Cache.VertexBuffers Other
                  ∧ Cache1.VertexStrides Other = Cache.VertexStrides Other) := by
  by_cases hI : Index < Platform.MaxMetalStreams
  · have hN : ¬ Platform.MaxMetalStreams ≤ Index := by omega
    cases Buffer with
    | none =>
      have hE : SetVertexBuffer Platform Cache Index none Stride Offset
          = FMetalResult.returned
            { Cache with
              VertexBuffers := Function.update Cache.VertexBuffers Index none
              VertexStrides := Function.update Cache.VertexStrides Index 0 } := by
        simp [SetVertexBuffer, hI]
      rw [hE]
      refine ⟨⟨fun h => absurd h (by simp [FMetalResult.Halt]), fun h => absurd h hN⟩,
        fun h => absurd h hN, fun _ => ⟨_, rfl, ?_, ?_, ?_, rfl, ?_⟩⟩
      · simp
      · simp
      · simp
      · intro Other hO
        exact ⟨Function.update_noteq hO _ _, Function.update_noteq hO _ _⟩
    | some BufferObject =>
      have hE : SetVertexBuffer Platform Cache Index (some BufferObject) Stride Offset
          = FMetalResult.returned
            { Cache with
              VertexBuffers := Function.update Cache.VertexBuffers Index (some BufferObject)
              VertexStrides := Function.update Cache.VertexStrides Index Stride
              CommandEncoder :=
                Cache.CommandEncoder.Issue
                  (FMetalCall.SetVertexShaderBuffer BufferObject Offset Index) } := by
        simp [SetVertexBuffer, hI]
      rw [hE]
      refine ⟨⟨fun h => absurd h (by simp [FMetalResult.Halt]), fun h => absurd h hN⟩,
        fun h => absurd h hN, fun _ => ⟨_, rfl, ?_, ?_, rfl, rfl, ?_⟩⟩
      · simp
      · simp
      · intro Other hO
        exact ⟨Function.update_noteq hO _ _, Function.update_noteq hO _ _⟩
  · have hE : SetVertexBuffer Platform Cache Index Buffer Stride Offset
        = FMetalResult.fatal EFatal.CheckVertexStreamIndex Cache := by
      simp [SetVertexBuffer, hI]
    rw [hE]
    exact ⟨⟨fun _ => by omega, fun _ => rfl⟩, fun _ => rfl, fun h => absurd h hI⟩

/-- C23 (as stated, refuted): inside a render pass, so not in Compute mode,
`SetComputeShader` stores the shader and issues `SetComputePipelineState` with
its kernel; no check stops it. -/
theorem setComputeShader_unchecked :
    RenderingCache.CommandEncoder.Mode = EMetalEncoderMode.Render
      ∧ (SetComputeShader RenderingCache SampleComputeShader).ComputeShader
          = some SampleComputeShader
      ∧ (SetComputeShader RenderingCache SampleComputeShader).CommandEncoder.Calls
          = RenderingCache.CommandEncoder.Calls ++ [FMetalCall.SetComputePipelineState 9] :=
  ⟨by rfl, rfl, rfl⟩

/-- C23 (amended): `SetComputeShader` makes no check of its own: in every
encoder mode, Compute or not, it stores the shader, issues exactly one
`SetComputePipelineState` with the kernel of that shader, and changes nothing
else of the encoder. -/
theorem setComputeShader_effect (Cache : FMetalStateCache)
    (InComputeShader : FMetalComputeShader) :
    (SetComputeShader Cache InComputeShader).ComputeShader = some InComputeShader
      ∧ (SetComputeShader Cache InComputeShader).CommandEncoder.Calls
          = Cache.CommandEncoder.Calls
            ++ [FMetalCall.SetComputePipelineState InComputeShader.Kernel]
      ∧ (SetComputeShader Cache InComputeShader).CommandEncoder.Mode
          = Cache.CommandEncoder.Mode :=
  ⟨rfl, rfl, rfl⟩

/-! ## What the reuse predicate does not look at -/

/-- The answer of `NeedsToSetRenderTarget` is decided by the valid flag, the
encoder, the two counts, the two depth/stencil textures and, slot by slot, the
textures, mip indices, slice indices and the requested load action. -/
theorem needs_congr (Cache Cache2 : FMetalStateCache) (In In2 : FRHISetRenderTargetsInfo)
    (hV : Cache2.bHasValidRenderTarget = Cache.bHasValidRenderTarget)
    (hE : Cache2.CommandEncoder = Cache.CommandEncoder)
    (hN : Cache2.RenderTargetsInfo.NumColorRenderTargets
      = Cache.RenderTargetsInfo.NumColorRenderTargets)
    (hD : Cache2.RenderTargetsInfo.DepthStencilRenderTarget.Texture
      = Cache.RenderTargetsInfo.DepthStencilRenderTarget.Texture)
    (hS : ∀ Index, (Cache2.RenderTargetsInfo.Color Index).Texture
        = (Cache.RenderTargetsInfo.Color Index).Texture
      ∧ (Cache2.RenderTargetsInfo.Color Index).MipIndex
        = (Cache.RenderTargetsInfo.Color Index).MipIndex
      ∧ (Cache2.RenderTargetsInfo.Color Index).ArraySliceIndex
        = (Cache.RenderTargetsInfo.Color Index).ArraySliceIndex)
    (hN2 : In2.NumColorRenderTargets = In.NumColorRenderTargets)
    (hD2 : In2.DepthStencilRenderTarget.Texture = In.DepthStencilRenderTarget.Texture)
    (hI : ∀ Index, (In2.Color Index).Texture = (In.Color Index).Texture
      ∧ (In2.Color Index).MipIndex = (In.Color Index).MipIndex
      ∧ (In2.Color Index).ArraySliceIndex = (In.Color Index).ArraySliceIndex
      ∧ (In2.Color Index).LoadAction = (In.Color Index).LoadAction) :
    NeedsToSetRenderTarget Cache2 In2 = NeedsToSetRenderTarget Cache In := by
  have key : NeedsToSetRenderTarget Cache2 In2 = false
      ↔ NeedsToSetRenderTarget Cache In = false := by
    rw [needs_false_iff, needs_false_iff]
    unfold IsTrivialUnbind
    rw [hV, hE, hN, hD, hN2, hD2, (hI 0).1]
    constructor
    · rintro (⟨h1, h2, h3, h4, h5⟩ | h)
      · left
        refine ⟨h1, h2, h3, h4, fun Index hIndex => ?_⟩
        have h := h5 Index hIndex
        rw [(hI Index).1, (hI Index).2.1, (hI Index).2.2.1, (hI Index).2.2.2,
          (hS Index).1, (hS Index).2.1, (hS Index).2.2] at h
        exact h
      · exact Or.inr h
    · rintro (⟨h1, h2, h3, h4, h5⟩ | h)
      · left
        refine ⟨h1, h2, h3, h4, fun Index hIndex => ?_⟩
        have h := h5 Index hIndex
        rw [(hI Index).1, (hI Index).2.1, (hI Index).2.2.1, (hI Index).2.2.2,
          (hS Index).1, (hS Index).2.1, (hS Index).2.2]
        exact h
      · exact Or.inr h
  cases h1 : NeedsToSetRenderTarget Cache2 In2 with
  | false => exact (key.1 h1).symm
  | true =>
    cases h2 : NeedsToSetRenderTarget Cache In with
    | false => rw [key.2 h2] at h1; exact absurd h1 (by simp)
    | true => rfl

theorem sameExceptColorStore_slots {A B : FRHISetRenderTargetsInfo}
    (h : SameExceptColorStore A B) (Index : Nat) :
    (B.Color Index).Texture = (A.Color Index).Texture
      ∧ (B.Color Index).MipIndex = (A.Color Index).MipIndex
      ∧ (B.Color Index).ArraySliceIndex = (A.Color Index).ArraySliceIndex
      ∧ (B.Color Index).LoadAction = (A.Color Index).LoadAction := by
  have hE := h.2.2.2.2.2 Index
  rw [← hE]
  exact ⟨rfl, rfl, rfl, rfl⟩

/-- C25: `NeedsToSetRenderTarget` ignores the store actions of the colour slots,
requested and stored: for cache states that differ at most in the store actions
of the stored colour slots and requests that differ at most in the store
actions of their colour slots it gives the same answer. -/
theorem needs_ignores_color_store (Cache Cache2 : FMetalStateCache)
    (In In2 : FRHISetRenderTargetsInfo)
    (hCache : SameExceptStoredColorStore Cache Cache2)
    (hIn : SameExceptColorStore In In2) :
    NeedsToSetRenderTarget Cache2 In2 = NeedsToSetRenderTarget Cache In
      ∧ NeedsToSetRenderTarget Cache In2 = NeedsToSetRenderTarget Cache In
      ∧ NeedsToSetRenderTarget Cache2 In = NeedsToSetRenderTarget Cache In := by
  obtain ⟨hC1, hC2⟩ := hCache
  have hV : Cache2.bHasValidRenderTarget = Cache.bHasValidRenderTarget := by rw [hC1]
  have hE : Cache2.CommandEncoder = Cache.CommandEncoder := by rw [hC1]
  have hN := hC2.1.symm
  have hD := (congrArg FRHIDepthRenderTargetView.Texture hC2.2.1).symm
  have hS : ∀ Index, (Cache2.RenderTargetsInfo.Color Index).Texture
        = (Cache.RenderTargetsInfo.Color Index).Texture
      ∧ (Cache2.RenderTargetsInfo.Color Index).MipIndex
        = (Cache.RenderTargetsInfo.Color Index).MipIndex
      ∧ (Cache2.RenderTargetsInfo.Color Index).ArraySliceIndex
        = (Cache.RenderTargetsInfo.Color Index).ArraySliceIndex :=
    fun Index => ⟨(sameExceptColorStore_slots hC2 Index).1,
      (sameExceptColorStore_slots hC2 Index).2.1, (sameExceptColorStore_slots hC2 Index).2.2.1⟩
  have hN2 := hIn.1.symm
  have hD2 := (congrArg FRHIDepthRenderTargetView.Texture hIn.2.1).symm
  have hI := sameExceptColorStore_slots hIn
  exact ⟨needs_congr Cache Cache2 In In2 hV hE hN hD hS hN2 hD2 hI,
    needs_congr Cache Cache In In2 rfl rfl rfl rfl (fun _ => ⟨rfl, rfl, rfl⟩) hN2 hD2 hI,
    needs_congr Cache Cache2 In In hV hE hN hD hS rfl rfl (fun _ => ⟨rfl, rfl, rfl, rfl⟩)⟩

theorem needs_ignores_color_store_witness :
    SameExceptColorStore (ColorRequest [0]) NoStoreRequest
      ∧ ColorRequest [0] ≠ NoStoreRequest
      ∧ NeedsToSetRenderTarget RenderingCache NoStoreRequest
          = NeedsToSetRenderTarget RenderingCache (ColorRequest [0])
      ∧ NeedsToSetRenderTarget RenderingCache NoStoreRequest = false :=
  have hIn : SameExceptColorStore (ColorRequest [0]) NoStoreRequest :=
    ⟨rfl, rfl, rfl, rfl, rfl, fun Index => by
      match Index with
      | 0 => rfl
      | _ + 1 => rfl⟩
  ⟨hIn, by decide,
    (needs_ignores_color_store RenderingCache RenderingCache (ColorRequest [0]) NoStoreRequest
      ⟨rfl, rfl, rfl, rfl, rfl, rfl, fun _ => rfl⟩ hIn).2.1,
    by rfl⟩

/-- C26: of the depth/stencil slot `NeedsToSetRenderTarget` looks at the texture
only: two requests that differ at most in the load actions, store actions and
write-access flags of the depth/stencil slot get the same answer, so a request
that asks for depth load action Clear is reused whenever the same request with
depth load action Load is. -/
theorem needs_ignores_depth_actions (Cache : FMetalStateCache)
    (In In2 : FRHISetRenderTargetsInfo) (h : SameExceptDepthActions In In2) :
    NeedsToSetRenderTarget Cache In2 = NeedsToSetRenderTarget Cache In
      ∧ (NeedsToSetRenderTarget Cache
            { In with
              DepthStencilRenderTarget :=
                { In.DepthStencilRenderTarget with
                  DepthLoadAction := ERenderTargetLoadAction.ELoad } } = false →
          NeedsToSetRenderTarget Cache
            { In with
              DepthStencilRenderTarget :=
                { In.DepthStencilRenderTarget with
                  DepthLoadAction := ERenderTargetLoadAction.EClear } } = false) := by
  obtain ⟨h1, h2⟩ := h
  constructor
  · refine needs_congr Cache Cache In In2 rfl rfl rfl rfl (fun _ => ⟨rfl, rfl, rfl⟩) ?_
      h2.symm ?_
    · rw [h1]
    · intro Index
      rw [h1]
      exact ⟨rfl, rfl, rfl, rfl⟩
  · intro hL
    rw [← hL]
    exact needs_congr Cache Cache _ _ rfl rfl rfl rfl (fun _ => ⟨rfl, rfl, rfl⟩) rfl rfl
      (fun _ => ⟨rfl, rfl, rfl, rfl⟩)

theorem needs_ignores_depth_actions_witness :
    SameExceptDepthActions (ColorDepthRequest ERenderTargetLoadAction.ELoad)
        (ColorDepthRequest ERenderTargetLoadAction.EClear)
      ∧ NeedsToSetRenderTarget ColorDepthCache (ColorDepthRequest ERenderTargetLoadAction.EClear)
          = NeedsToSetRenderTarget ColorDepthCache
              (ColorDepthRequest ERenderTargetLoadAction.ELoad)
      ∧ NeedsToSetRenderTarget ColorDepthCache (ColorDepthRequest ERenderTargetLoadAction.EClear)
          = false :=
  ⟨⟨rfl, rfl⟩,
    (needs_ignores_depth_actions ColorDepthCache (ColorDepthRequest ERenderTargetLoadAction.ELoad)
      (ColorDepthRequest ERenderTargetLoadAction.EClear) ⟨rfl, rfl⟩).1,
    by rfl⟩

/-! ## The Halton sequence -/

theorem digitsValue_eq_sum (B : ℚ) : ∀ Digits : List Nat,
    ∑ k ∈ Finset.range Digits.length, (Digits.getD k 0 : ℚ) / B ^ (k + 1)
      = DigitsValue B Digits
  | [] => by simp [DigitsValue]
  | Digit :: Digits => by
    rw [List.length_cons, Finset.sum_range_succ']
    have hShift : ∀ k, (((Digit :: Digits).getD (k + 1) 0 : Nat) : ℚ) / B ^ (k + 1 + 1)
        = ((Digits.getD k 0 : Nat) : ℚ) / B ^ (k + 1) / B := by
      intro k
      rw [List.getD_cons_succ, pow_succ B (k + 1), div_div]
    simp only [hShift]
    rw [← Finset.sum_div, digitsValue_eq_sum B Digits]
    simp only [List.getD_cons_zero, zero_add, pow_one, DigitsValue]
    rw [add_div]
    ring

theorem digitsValue_bounds (b : Nat) (hb : 1 < b) : ∀ Digits : List Nat,
    (∀ d ∈ Digits, d < b) →
    0 ≤ DigitsValue (b : ℚ) Digits ∧ DigitsValue (b : ℚ) Digits < 1
  | [], _ => by simp [DigitsValue]
  | Digit :: Digits, h => by
    obtain ⟨h0, h1⟩ := digitsValue_bounds b hb Digits
      (fun d hd => h d (List.mem_cons_of_mem _ hd))
    have hB : (0 : ℚ) < (b : ℚ) := by exact_mod_cast (by omega : 0 < b)
    have hD : ((Digit : ℚ)) + 1 ≤ (b : ℚ) := by
      have := h Digit (List.mem_cons_self _ _)
      exact_mod_cast this
    have hN : (0 : ℚ) ≤ (Digit : ℚ) := Nat.cast_nonneg _
    show 0 ≤ ((Digit : ℚ) + DigitsValue (b : ℚ) Digits) / (b : ℚ)
      ∧ ((Digit : ℚ) + DigitsValue (b : ℚ) Digits) / (b : ℚ) < 1
    constructor
    · exact div_nonneg (by linarith) hB.le
    · rw [div_lt_one hB]
      linarith

/-- With more fuel than the index the loop ends, and it adds to `Result` the
digits of the index read behind the point, scaled by `Fraction * Base`. -/
theorem halton_loop (b : Nat) (hb : 1 < b) : ∀ (Fuel n : Nat), n < Fuel → ∀ Result Fraction : ℚ,
    TemporalHalton2.Loop (b : Int) (1 / ((b : Int) : ℚ)) Fuel (n : Int) Result Fraction
      = some (Result + Fraction * (b : ℚ) * DigitsValue (b : ℚ) (Nat.digits b n))
  | 0, n, h, _, _ => by omega
  | Fuel + 1, n, h, Result, Fraction => by
    unfold TemporalHalton2.Loop
    by_cases hn : n = 0
    · subst hn
      simp [DigitsValue]
    · have hpos : 0 < n := Nat.pos_of_ne_zero hn
      have hI : ((n : Int) > 0) := by exact_mod_cast hpos
      rw [if_pos hI]
      have hdiv : (n : Int).tdiv (b : Int) = ((n / b : Nat) : Int) := by
        rw [Int.tdiv_eq_ediv (Int.natCast_nonneg n) (Int.natCast_nonneg b)]
        exact (Int.natCast_div n b).symm
      have hmod : (n : Int).tmod (b : Int) = ((n % b : Nat) : Int) := by
        rw [Int.tmod_eq_emod (Int.natCast_nonneg n) (Int.natCast_nonneg b)]
        exact (Int.natCast_mod n b).symm
      have hlt : n / b < Fuel := by
        have : n / b < n := Nat.div_lt_self hpos hb
        omega
      rw [hdiv, hmod, halton_loop b hb Fuel (n / b) hlt, Nat.digits_def' hb hpos]
      have hB : ((b : Nat) : ℚ) ≠ 0 := by
        have : (0 : ℚ) < (b : ℚ) := by exact_mod_cast (by omega : 0 < b)
        exact ne_of_gt this
      simp only [DigitsValue, Int.cast_natCast]
      congr 1
      field_simp
      ring

/-- C30: for every `Base >= 2` and `Index >= 0` the loop of `TemporalHalton2`
ends (more fuel than `Index` is enough) and, in exact rational arithmetic, the
function returns the radical inverse of `Index` in base `Base`, the sum over
`k` of `d_k * Base^-(k+1)` for the digits `d_k` of `Index`, least significant
first; the result is 0 for `Index = 0` and lies in `[0, 1)`. -/
theorem temporalHalton2_radical_inverse (Index Base : Int) (hBase : 2 ≤ Base)
    (hIndex : 0 ≤ Index) :
    (∀ Fuel, Index.toNat < Fuel →
        TemporalHalton2 Fuel Index Base = some (RadicalInverse Base.toNat Index.toNat))
      ∧ RadicalInverse Base.toNat Index.toNat
          = ∑ k ∈ Finset.range (Nat.digits Base.toNat Index.toNat).length,
              ((Nat.digits Base.toNat Index.toNat).getD k 0 : ℚ)
                / ((Base.toNat : Nat) : ℚ) ^ (k + 1)
      ∧ (∀ Fuel, 0 < Fuel → TemporalHalton2 Fuel 0 Base = some 0)
      ∧ 0 ≤ RadicalInverse Base.toNat Index.toNat
      ∧ RadicalInverse Base.toNat Index.toNat < 1 := by
  obtain ⟨b, rfl⟩ := Int.eq_ofNat_of_zero_le (by omega : 0 ≤ Base)
  obtain ⟨n, rfl⟩ := Int.eq_ofNat_of_zero_le hIndex
  have hb : 1 < b := by omega
  have hR : ∀ m : Nat, RadicalInverse b m = DigitsValue (b : ℚ) (Nat.digits b m) :=
    fun m => digitsValue_eq_sum (b : ℚ) (Nat.digits b m)
  have hB : ((b : Nat) : ℚ) ≠ 0 := by
    have : (0 : ℚ) < (b : ℚ) := by exact_mod_cast (by omega : 0 < b)
    exact ne_of_gt this
  have hRun : ∀ (m Fuel : Nat), m < Fuel →
      TemporalHalton2 Fuel (m : Int) (b : Int) = some (RadicalInverse b m) := by
    intro m Fuel hF
    unfold TemporalHalton2
    simp only
    rw [halton_loop b hb Fuel m hF, hR]
    congr 1
    rw [Int.cast_natCast]
    field_simp
  have hBounds := digitsValue_bounds b hb (Nat.digits b n)
    (fun d hd => Nat.digits_lt_base hb hd)
  simp only [Int.toNat_ofNat]
  refine ⟨fun Fuel hF => hRun n Fuel hF, rfl, ?_, ?_, ?_⟩
  · intro Fuel hF
    have := hRun 0 Fuel hF
    rw [hR] at this
    simpa [DigitsValue] using this
  · rw [hR]; exact hBounds.1
  · rw [hR]; exact hBounds.2

theorem temporalHalton2_radical_inverse_witness :
    (2 : Int) ≤ 2 ∧ (0 : Int) ≤ 5
      ∧ TemporalHalton2 6 5 2 = some (RadicalInverse 2 5)
      ∧ RadicalInverse 2 5 < 1
      ∧ TemporalHalton2 6 5 2 = some (5 / 8)
      ∧ TemporalHalton2 2 5 2 = none :=
  ⟨by decide, by decide,
    (temporalHalton2_radical_inverse 5 2 (by decide) (by decide)).1 6 (by decide),
    (temporalHalton2_radical_inverse 5 2 (by decide) (by decide)).2.2.2.2,
    by norm_num [TemporalHalton2, TemporalHalton2.Loop, Int.tdiv, Int.tmod],
    by rfl⟩

/-! ## The pipeline descriptor through the colour loop -/

theorem setHashValue_hash_congr {A B : FMetalRenderPipelineDesc} (h : A.Hash = B.Hash)
    (Offset NumBits Value : Nat) :
    (A.SetHashValue Offset NumBits Value).Hash = (B.SetHashValue Offset NumBits Value).Hash := by
  show A.Hash % _ + _ + A.Hash / _ * _ = B.Hash % _ + _ + B.Hash / _ * _
  rw [h]

theorem writeFields_append : ∀ (Writes More : List ((Nat × Nat) × Nat))
    (Desc : FMetalRenderPipelineDesc),
    WriteFields (Writes ++ More) Desc = WriteFields More (WriteFields Writes Desc)
  | [], _, _ => rfl
  | W :: Writes, More, Desc => by
    show WriteFields (Writes ++ More) (Desc.SetHashValue W.1.1 W.1.2 W.2) = _
    rw [writeFields_append Writes More]
    rfl

/-- What a turn of the colour loop that goes on has done to the pipeline
descriptor and to the depth/stencil part of the render pass. -/
theorem colorTarget_next_desc (Platform : FMetalPlatform) (Index : Nat)
    (Cache Cache1 : FMetalStateCache) (Locals Locals1 : FPassLocals)
    (hE : SetRenderTargetsInfo.ColorTarget Platform Index Cache Locals
      = FLoopStep.next Cache1 Locals1) :
    Cache1.PipelineDesc.Hash
        = (Cache.PipelineDesc.SetHashValue (Platform.RTBitOffsets Index)
            Platform.NumBits_RenderTargetFormat
            (SlotFormatKey Cache Cache.RenderTargetsInfo Index)).Hash
      ∧ Cache1.PipelineDesc.SampleCount
          = (match BoundColorTexture Cache.RenderTargetsInfo Index with
             | some Texture => SurfaceSampleCount (Cache.Surface Texture)
             | none => Cache.PipelineDesc.SampleCount)
      ∧ Locals1.RenderPass.depthAttachment = Locals.RenderPass.depthAttachment
      ∧ Locals1.RenderPass.stencilAttachment = Locals.RenderPass.stencilAttachment := by
  cases hB : BoundColorTexture Cache.RenderTargetsInfo Index with
  | none =>
    unfold SetRenderTargetsInfo.ColorTarget at hE
    rw [hB] at hE
    simp only [FLoopStep.next.injEq] at hE
    obtain ⟨h1, h2⟩ := hE
    subst h1 h2
    refine ⟨?_, rfl, rfl, rfl⟩
    unfold SlotFormatKey
    rw [hB]
    rfl
  | some Texture =>
    obtain ⟨hF, hP, _, _⟩ := updateExtent_frame Platform Cache Locals.bFramebufferSizeSet
      (max ((Cache.Surface Texture).SizeX
        >>> (Cache.RenderTargetsInfo.Color Index).MipIndex) 1)
      (max ((Cache.Surface Texture).SizeY
        >>> (Cache.RenderTargetsInfo.Color Index).MipIndex) 1)
    unfold SetRenderTargetsInfo.ColorTarget at hE
    rw [hB] at hE
    simp only at hE
    rcases updateBackBuffer_spec Platform
      (SetRenderTargetsInfo.UpdateExtent Cache Locals.bFramebufferSizeSet
        (max ((Cache.Surface Texture).SizeX
          >>> (Cache.RenderTargetsInfo.Color Index).MipIndex) 1)
        (max ((Cache.Surface Texture).SizeY
          >>> (Cache.RenderTargetsInfo.Color Index).MipIndex) 1))
      Texture with
      ⟨Cache2, hEq, hInfo, hEnc, hBl, hDs, hRa, hBs, hPd, hFs, hVa, hSt, hCl, hSome, hUs⟩
        | ⟨hEq, hNo⟩
    · rw [hEq] at hE
      simp only at hE
      have hMS : (Cache2.Surface Texture).MSAATexture = (Cache.Surface Texture).MSAATexture :=
        ((static_fields (hSt Texture)).2.2.2.2.2.1).trans
          (static_fields (hF.static Texture)).2.2.2.2.2.1
      split at hE
      · exact absurd hE (by simp)
      · split at hE
        · exact absurd hE (by simp)
        · simp only [FLoopStep.next.injEq] at hE
          obtain ⟨h1, h2⟩ := hE
          subst h1 h2
          simp only [SlotFormatKey, hB]
          refine ⟨?_, ?_, ?_, ?_⟩
          · apply setHashValue_hash_congr
            show Cache2.PipelineDesc.Hash = Cache.PipelineDesc.Hash
            rw [hPd, hP]
          · show (match (Cache2.Surface Texture).MSAATexture with
                | some MSAATexture => MSAATexture.sampleCount
                | none => 1) = SurfaceSampleCount (Cache.Surface Texture)
            rw [hMS]
            rfl
          · show (SetRenderTargetsInfo.ArraySwitch _ _ _ _).RenderPass.depthAttachment = _
            rw [(arraySwitch_spec _ _ _ _).2.2.2.2]
          · show (SetRenderTargetsInfo.ArraySwitch _ _ _ _).RenderPass.stencilAttachment = _
            rw [(arraySwitch_spec _ _ _ _).2.2.2.2]
    · rw [hEq] at hE
      exact absurd hE (by simp)

theorem colorTarget_next_frame (Platform : FMetalPlatform) (Index : Nat)
    (Cache Cache1 : FMetalStateCache) (Locals Locals1 : FPassLocals)
    (hE : SetRenderTargetsInfo.ColorTarget Platform Index Cache Locals
      = FLoopStep.next Cache1 Locals1) :
    LoopFrame Platform Cache Cache1 := by
  cases hB : BoundColorTexture Cache.RenderTargetsInfo Index with
  | none => exact (colorTarget_next_unbound Platform Index _ _ _ _ hB hE).2.1
  | some T => exact (colorTarget_next_bound Platform Index _ _ _ _ T hB hE).frame

theorem formatWrites_succ (Platform : FMetalPlatform) (Cache : FMetalStateCache)
    (In : FRHISetRenderTargetsInfo) (k : Nat) :
    FormatWrites Platform Cache In (k + 1)
      = FormatWrites Platform Cache In k
        ++ [((Platform.RTBitOffsets k, Platform.NumBits_RenderTargetFormat),
            SlotFormatKey Cache In k)] := by
  unfold FormatWrites
  rw [List.range_succ, List.map_append]
  rfl

theorem descInvariant_step (Platform : FMetalPlatform) (Entry : FMetalStateCache)
    (k : Nat) (Cache : FMetalStateCache) (Locals : FPassLocals)
    (Cache1 : FMetalStateCache) (Locals1 : FPassLocals)
    (hI : DescInvariant Platform Entry k Cache Locals)
    (hE : SetRenderTargetsInfo.ColorTarget Platform k Cache Locals
      = FLoopStep.next Cache1 Locals1) :
    DescInvariant Platform Entry (k + 1) Cache1 Locals1 := by
  obtain ⟨hF, hS, hH, hD, hSt⟩ := hI
  obtain ⟨h1, h2, h3, h4⟩ := colorTarget_next_desc Platform k _ _ _ _ hE
  have hF1 := colorTarget_next_frame Platform k _ _ _ _ hE
  have hKey : SlotFormatKey Cache Cache.RenderTargetsInfo k
      = SlotFormatKey Entry Entry.RenderTargetsInfo k := by
    unfold SlotFormatKey
    rw [hF.info]
    cases hB : BoundColorTexture Entry.RenderTargetsInfo k with
    | none => rfl
    | some T => exact (static_fields (hF.static T)).2.1
  refine ⟨hF.trans hF1, ?_, ?_, h3.trans hD, h4.trans hSt⟩
  · rw [h2, hF.info]
    show _ = (match BoundColorTexture Entry.RenderTargetsInfo k with
      | some Texture => SurfaceSampleCount (Entry.Surface Texture)
      | none => ColorSampleCount Entry Entry.RenderTargetsInfo Entry.PipelineDesc.SampleCount k)
    cases hB : BoundColorTexture Entry.RenderTargetsInfo k with
    | none => exact hS
    | some T =>
      show SurfaceSampleCount (Cache.Surface T) = SurfaceSampleCount (Entry.Surface T)
      unfold SurfaceSampleCount
      rw [(static_fields (hF.static T)).2.2.2.2.2.1]
  · rw [h1, hKey, formatWrites_succ, writeFields_append]
    exact setHashValue_hash_congr hH _ _ _

/-! ## The depth/stencil block and the end of the build -/

theorem depthStencil_unbound (Platform : FMetalPlatform) (Cache : FMetalStateCache)
    (Locals : FPassLocals)
    (hT : Cache.RenderTargetsInfo.DepthStencilRenderTarget.Texture = none) :
    (SetRenderTargetsInfo.DepthStencil Platform Cache Locals).1.Textures = Cache.Textures
      ∧ (SetRenderTargetsInfo.DepthStencil Platform Cache Locals).1.PipelineDesc.Hash
          = Cache.PipelineDesc.Hash
      ∧ (SetRenderTargetsInfo.DepthStencil Platform Cache Locals).1.PipelineDesc.SampleCount
          = Cache.PipelineDesc.SampleCount
      ∧ (SetRenderTargetsInfo.DepthStencil Platform Cache Locals).2.2.DepthFormatKey = 0
      ∧ (SetRenderTargetsInfo.DepthStencil Platform Cache Locals).2.2.StencilFormatKey = 0
      ∧ (SetRenderTargetsInfo.DepthStencil Platform Cache Locals).2.1.RenderPass
          = Locals.RenderPass := by
  simp [SetRenderTargetsInfo.DepthStencil, hT]

theorem depthStencil_bound (Platform : FMetalPlatform) (Cache : FMetalStateCache)
    (Locals : FPassLocals) (T : Nat)
    (hT : Cache.RenderTargetsInfo.DepthStencilRenderTarget.Texture = some T) :
    (SetRenderTargetsInfo.DepthStencil Platform Cache Locals).1.Textures = Cache.Textures
      ∧ (SetRenderTargetsInfo.DepthStencil Platform Cache Locals).1.PipelineDesc.Hash
          = Cache.PipelineDesc.Hash
      ∧ (SetRenderTargetsInfo.DepthStencil Platform Cache Locals).1.PipelineDesc.SampleCount
          = DepthSampleCount (DepthStencilHalves Platform Cache T) (Cache.Surface T)
              Cache.PipelineDesc.SampleCount
      ∧ (SetRenderTargetsInfo.DepthStencil Platform Cache Locals).2.2.DepthFormatKey
          = (if (DepthStencilHalves Platform Cache T).1 then (Cache.Surface T).FormatKey else 0)
      ∧ (SetRenderTargetsInfo.DepthStencil Platform Cache Locals).2.2.StencilFormatKey
          = (if (DepthStencilHalves Platform Cache T).2 then (Cache.Surface T).FormatKey else 0)
      ∧ ((DepthStencilHalves Platform Cache T).1 = true →
          ∃ A, (SetRenderTargetsInfo.DepthStencil Platform Cache Locals).2.1.RenderPass.depthAttachment
              = some A
            ∧ A.texture = (Cache.Surface T).Texture
            ∧ A.loadAction
                = GetMetalRTLoadAction
                    Cache.RenderTargetsInfo.DepthStencilRenderTarget.DepthLoadAction
            ∧ A.storeAction
                = DepthStoreActionOf Platform Cache.RenderTargetsInfo.DepthStencilRenderTarget)
      ∧ ((DepthStencilHalves Platform Cache T).1 = false →
          (SetRenderTargetsInfo.DepthStencil Platform Cache Locals).2.1.RenderPass.depthAttachment
            = Locals.RenderPass.depthAttachment)
      ∧ ((DepthStencilHalves Platform Cache T).2 = true →
          ∃ A, (SetRenderTargetsInfo.DepthStencil Platform Cache
                Locals).2.1.RenderPass.stencilAttachment = some A
            ∧ A.texture = (Cache.Surface T).StencilTexture
            ∧ A.loadAction
                = GetMetalRTLoadAction
                    Cache.RenderTargetsInfo.DepthStencilRenderTarget.StencilLoadAction
            ∧ A.storeAction
                = StencilStoreActionOf Platform Cache.RenderTargetsInfo.DepthStencilRenderTarget)
      ∧ ((DepthStencilHalves Platform Cache T).2 = false →
          (SetRenderTargetsInfo.DepthStencil Platform Cache
              Locals).2.1.RenderPass.stencilAttachment
            = Locals.RenderPass.stencilAttachment) := by
  obtain ⟨_, hPd, _, hTex⟩ := updateExtent_frame Platform
    { Cache with
      PipelineDesc :=
        { Cache.PipelineDesc with
          depthAttachmentPixelFormat := MTLPixelFormat.Invalid
          stencilAttachmentPixelFormat := MTLPixelFormat.Invalid } }
    Locals.bFramebufferSizeSet (Cache.Surface T).SizeX (Cache.Surface T).SizeY
  unfold SetRenderTargetsInfo.DepthStencil DepthStencilHalves DepthSampleCount
    DepthStoreActionOf StencilStoreActionOf
  simp only [hT, FMetalStateCache.Surface, pixelFormatOf] at hPd hTex ⊢
  cases hX : (Cache.Textures T).Surface.Texture with
  | none =>
    simp [SetRenderTargetsInfo.ClassifyDepthStencil, hPd, hTex]
  | some X =>
    simp only
    cases hc : SetRenderTargetsInfo.ClassifyDepthStencil Platform X.pixelFormat with
    | mk hd hs =>
      cases hd <;> cases hs <;>
        cases hM : Platform.PLATFORM_MAC <;>
        cases hW :
          Cache.RenderTargetsInfo.DepthStencilRenderTarget.DepthStencilAccess.IsDepthWrite <;>
        cases hV :
          Cache.RenderTargetsInfo.DepthStencilRenderTarget.DepthStencilAccess.IsStencilWrite <;>
        simp [hPd, hTex]

theorem layeredCheck_pass (Platform : FMetalPlatform) (Locals Locals1 : FPassLocals)
    (h : SetRenderTargetsInfo.LayeredCheck Platform Locals = some Locals1) :
    Locals1.RenderPass.depthAttachment = Locals.RenderPass.depthAttachment
      ∧ Locals1.RenderPass.stencilAttachment = Locals.RenderPass.stencilAttachment := by
  unfold SetRenderTargetsInfo.LayeredCheck at h
  split at h
  · split at h
    · split at h
      · simp only [Option.some.injEq] at h
        rw [← h]
        exact ⟨rfl, rfl⟩
      · exact absurd h (by simp)
    · simp only [Option.some.injEq] at h
      rw [← h]
      exact ⟨rfl, rfl⟩
  · simp only [Option.some.injEq] at h
    rw [← h]
    exact ⟨rfl, rfl⟩

theorem commit_desc (Platform : FMetalPlatform) (Cache : FMetalStateCache)
    (Locals : FPassLocals) (Keys : FDepthStencilKeys) :
    (SetRenderTargetsInfo.Commit Platform Cache Locals Keys).PipelineDesc.SampleCount
        = Cache.PipelineDesc.SampleCount
      ∧ (SetRenderTargetsInfo.Commit Platform Cache Locals Keys).PipelineDesc.Hash
        = (WriteFields
            (CommitWrites Platform Keys.DepthFormatKey Keys.StencilFormatKey
              Cache.PipelineDesc.SampleCount) Cache.PipelineDesc).Hash
      ∧ (SetRenderTargetsInfo.Commit Platform Cache Locals Keys).Textures = Cache.Textures
      ∧ LastRenderPass (SetRenderTargetsInfo.Commit Platform Cache Locals Keys)
        = some Locals.RenderPass := by
  refine ⟨rfl, rfl, rfl, ?_⟩
  unfold LastRenderPass
  rw [commit_last_call]

theorem surface_congr {A B : FMetalStateCache} (h : A.Textures = B.Textures) (T : Nat) :
    A.Surface T = B.Surface T := by
  show (A.Textures T).Surface = (B.Textures T).Surface
  rw [h]

theorem colorSampleCount_congr {A B : FMetalStateCache}
    (h : ∀ T, (A.Surface T).Static = (B.Surface T).Static) (In : FRHISetRenderTargetsInfo)
    (Start : Nat) : ∀ k, ColorSampleCount A In Start k = ColorSampleCount B In Start k
  | 0 => rfl
  | k + 1 => by
    show (match BoundColorTexture In k with
      | some Texture => SurfaceSampleCount (A.Surface Texture)
      | none => ColorSampleCount A In Start k)
      = (match BoundColorTexture In k with
      | some Texture => SurfaceSampleCount (B.Surface Texture)
      | none => ColorSampleCount B In Start k)
    cases BoundColorTexture In k with
    | none => exact colorSampleCount_congr h In Start k
    | some T =>
      show SurfaceSampleCount (A.Surface T) = SurfaceSampleCount (B.Surface T)
      unfold SurfaceSampleCount
      rw [(static_fields (h T)).2.2.2.2.2.1]

theorem formatWrites_congr {A B : FMetalStateCache}
    (h : ∀ T, (A.Surface T).Static = (B.Surface T).Static) (Platform : FMetalPlatform)
    (In : FRHISetRenderTargetsInfo) (k : Nat) :
    FormatWrites Platform A In k = FormatWrites Platform B In k := by
  have hK : SlotFormatKey A In = SlotFormatKey B In := by
    funext Index
    unfold SlotFormatKey
    cases BoundColorTexture In Index with
    | none => rfl
    | some T => exact (static_fields (h T)).2.1
  unfold FormatWrites
  rw [hK]

/-- What a completed build leaves: the textures are those the colour loop
left, the surfaces are as before apart from their driver texture handles, the
sample count and the pipeline key are as the colour loop, the depth/stencil
block and the three last writes make them, and the last driver call begins a
render pass. -/
theorem built_desc (Platform : FMetalPlatform) (Cache Cache1 : FMetalStateCache)
    (In : FRHISetRenderTargetsInfo) (QueryBuffer : Option Nat)
    (hB : SetRenderTargetsInfo Platform Cache In QueryBuffer
      = FSetRenderTargetsResult.built Cache1) :
    (∀ T, (Cache1.Surface T).Static = (Cache.Surface T).Static)
      ∧ Cache1.PipelineDesc.SampleCount = BuiltSampleCount Platform Cache1 In
      ∧ Cache1.PipelineDesc.Hash
          = (WriteFields
              (FormatWrites Platform Cache1 In Platform.MaxMetalRenderTargets
                ++ CommitWrites Platform (DepthKeyOf Platform Cache1 In)
                    (StencilKeyOf Platform Cache1 In) Cache1.PipelineDesc.SampleCount)
              Cache.PipelineDesc).Hash
      ∧ ∃ RenderPass, LastRenderPass Cache1 = some RenderPass
          ∧ (∀ T, In.DepthStencilRenderTarget.Texture = some T →
              ((DepthStencilHalves Platform Cache1 T).1 = true →
                ∃ A, RenderPass.depthAttachment = some A
                  ∧ A.texture = (Cache1.Surface T).Texture
                  ∧ A.loadAction = GetMetalRTLoadAction In.DepthStencilRenderTarget.DepthLoadAction
                  ∧ A.storeAction = DepthStoreActionOf Platform In.DepthStencilRenderTarget)
              ∧ ((DepthStencilHalves Platform Cache1 T).1 = false →
                  RenderPass.depthAttachment = none)
              ∧ ((DepthStencilHalves Platform Cache1 T).2 = true →
                ∃ A, RenderPass.stencilAttachment = some A
                  ∧ A.texture = (Cache1.Surface T).StencilTexture
                  ∧ A.loadAction
                      = GetMetalRTLoadAction In.DepthStencilRenderTarget.StencilLoadAction
                  ∧ A.storeAction = StencilStoreActionOf Platform In.DepthStencilRenderTarget)
              ∧ ((DepthStencilHalves Platform Cache1 T).2 = false →
                  RenderPass.stencilAttachment = none))
          ∧ (In.DepthStencilRenderTarget.Texture = none →
              RenderPass.depthAttachment = none ∧ RenderPass.stencilAttachment = none) := by
  obtain ⟨_, hB1⟩ := setRenderTargetsInfo_built Platform Cache Cache1 In QueryBuffer hB
  obtain ⟨Cache2, Locals2, Locals3, hLoop, hLay, hC⟩ := build_built Platform _ _ In QueryBuffer hB1
  obtain ⟨hInfo, _, hTex, _, _, _⟩ := enter_spec Platform Cache In QueryBuffer
  have hI0 : DescInvariant Platform
      (SetRenderTargetsInfo.Enter Platform (ConditionalSwitchToRender Cache) In QueryBuffer).1 0
      (SetRenderTargetsInfo.Enter Platform (ConditionalSwitchToRender Cache) In QueryBuffer).1
      (SetRenderTargetsInfo.Enter Platform (ConditionalSwitchToRender Cache) In QueryBuffer).2 :=
    ⟨LoopFrame.refl _ _, rfl, rfl, rfl, rfl⟩
  have hI := colorTargets_invariant Platform
    (DescInvariant Platform
      (SetRenderTargetsInfo.Enter Platform (ConditionalSwitchToRender Cache) In QueryBuffer).1)
    (descInvariant_step Platform _) Platform.MaxMetalRenderTargets 0 _ _ _ _ hI0 hLoop
  obtain ⟨hF, hS, hH, hD, hSt⟩ := hI
  rw [Nat.zero_add, hInfo] at hS hH
  obtain ⟨hLd, hLs⟩ := layeredCheck_pass Platform _ _ hLay
  have hEnter : ∀ T, (SetRenderTargetsInfo.Enter Platform (ConditionalSwitchToRender Cache) In
      QueryBuffer).1.Surface T = Cache.Surface T := fun T => surface_congr hTex T
  have hStat2 : ∀ T, (Cache2.Surface T).Static = (Cache.Surface T).Static := by
    intro T
    rw [hF.static T, hEnter T]
  have hInfo2 : Cache2.RenderTargetsInfo = In := hF.info.trans hInfo
  have hEntryCount : (SetRenderTargetsInfo.Enter Platform (ConditionalSwitchToRender Cache) In
      QueryBuffer).1.PipelineDesc.SampleCount = 0 := rfl
  have hEntryHash : (SetRenderTargetsInfo.Enter Platform (ConditionalSwitchToRender Cache) In
      QueryBuffer).1.PipelineDesc.Hash = Cache.PipelineDesc.Hash := by
    show (ConditionalSwitchToRender Cache).PipelineDesc.Hash = Cache.PipelineDesc.Hash
    unfold ConditionalSwitchToRender SetHasValidRenderTarget
    simp only
    split <;> split <;> rfl
  obtain ⟨hc1, hc2, hc3, hc4⟩ := commit_desc Platform
    (SetRenderTargetsInfo.DepthStencil Platform Cache2 Locals3).1
    (SetRenderTargetsInfo.DepthStencil Platform Cache2 Locals3).2.1
    (SetRenderTargetsInfo.DepthStencil Platform Cache2 Locals3).2.2
  rw [← hC] at hc1 hc2 hc3 hc4
  have hEntryStat : ∀ T, ((SetRenderTargetsInfo.Enter Platform (ConditionalSwitchToRender Cache)
      In QueryBuffer).1.Surface T).Static = (Cache2.Surface T).Static :=
    fun T => (hF.static T).symm
  rw [colorSampleCount_congr hEntryStat, hEntryCount] at hS
  rw [formatWrites_congr hEntryStat] at hH
  cases hT : In.DepthStencilRenderTarget.Texture with
  | none =>
    have hT2 : Cache2.RenderTargetsInfo.DepthStencilRenderTarget.Texture = none := by
      rw [hInfo2]; exact hT
    obtain ⟨d1, d2, d3, d4, d5, d6⟩ := depthStencil_unbound Platform Cache2 Locals3 hT2
    have hTex1 : Cache1.Textures = Cache2.Textures := hc3.trans d1
    have hStat1 : ∀ T, (Cache1.Surface T).Static = (Cache2.Surface T).Static :=
      fun T => by rw [surface_congr hTex1 T]
    refine ⟨fun T => (hStat1 T).trans (hStat2 T), ?_, ?_, Locals3.RenderPass, ?_, ?_, ?_⟩
    · rw [hc1, d3, hS]
      unfold BuiltSampleCount
      rw [hT]
      exact (colorSampleCount_congr hStat1 In 0 _).symm
    · have hBase : (SetRenderTargetsInfo.DepthStencil Platform Cache2 Locals3).1.PipelineDesc.Hash
          = (WriteFields (FormatWrites Platform Cache1 In Platform.MaxMetalRenderTargets)
              Cache.PipelineDesc).Hash := by
        rw [d2, hH, formatWrites_congr hStat1]
        exact writeFields_hash_congr _ _ _ hEntryHash
      rw [hc2, d4, d5, writeFields_append, hc1]
      unfold DepthKeyOf StencilKeyOf
      rw [hT]
      exact writeFields_hash_congr _ _ _ hBase
    · rw [hc4, d6]
    · intro T hT'
      exact absurd hT' (by simp)
    · intro _
      rw [hLd, hLs]
      exact ⟨hD, hSt⟩
  | some D =>
    have hT2 : Cache2.RenderTargetsInfo.DepthStencilRenderTarget.Texture = some D := by
      rw [hInfo2]; exact hT
    obtain ⟨d1, d2, d3, d4, d5, a1, a2, a3, a4⟩ :=
      depthStencil_bound Platform Cache2 Locals3 D hT2
    have hTex1 : Cache1.Textures = Cache2.Textures := hc3.trans d1
    have hSurf1 : ∀ T, Cache1.Surface T = Cache2.Surface T := surface_congr hTex1
    have hStat1 : ∀ T, (Cache1.Surface T).Static = (Cache2.Surface T).Static :=
      fun T => by rw [hSurf1 T]
    have hHalves : DepthStencilHalves Platform Cache1 D = DepthStencilHalves Platform Cache2 D := by
      unfold DepthStencilHalves
      rw [hSurf1 D]
    rw [hInfo2] at a1 a3
    rw [hLd, hD] at a2
    rw [hLs, hSt] at a4
    refine ⟨fun T => (hStat1 T).trans (hStat2 T), ?_, ?_,
      (SetRenderTargetsInfo.DepthStencil Platform Cache2 Locals3).2.1.RenderPass, hc4, ?_, ?_⟩
    · rw [hc1, d3, hS]
      unfold BuiltSampleCount
      rw [hT]
      simp only
      rw [hHalves, hSurf1 D, colorSampleCount_congr hStat1 In 0 _]
    · have hBase : (SetRenderTargetsInfo.DepthStencil Platform Cache2 Locals3).1.PipelineDesc.Hash
          = (WriteFields (FormatWrites Platform Cache1 In Platform.MaxMetalRenderTargets)
              Cache.PipelineDesc).Hash := by
        rw [d2, hH, formatWrites_congr hStat1]
        exact writeFields_hash_congr _ _ _ hEntryHash
      rw [hc2, d4, d5, writeFields_append, hc1]
      unfold DepthKeyOf StencilKeyOf
      rw [hT]
      simp only
      rw [hHalves, hSurf1 D]
      exact writeFields_hash_congr _ _ _ hBase
    · intro T hT'
      have hTD : T = D := (Option.some.inj hT').symm
      subst hTD
      rw [hHalves, hSurf1 T]
      exact ⟨a1, a2, a3, a4⟩
    · intro hN
      exact absurd hN (by simp)

/-! ## The depth/stencil attachments of a new pass -/

/-- C24 (as stated, refuted): in a build that is not the Mac build, a pass is
built for a `Depth32Float` depth target asked read-only with store action
Store, and the depth attachment of the pass has store action Store, not
DontCare. -/
theorem read_only_depth_stored_off_mac :
    SampleIOS.PLATFORM_MAC = false
      ∧ ReadOnlyDepthRequest.DepthStencilRenderTarget.DepthStencilAccess.IsDepthWrite = false
      ∧ ReadOnlyDepthRequest.DepthStencilRenderTarget.DepthStoreAction
          = ERenderTargetStoreAction.EStore
      ∧ (SetRenderTargetsInfo SampleIOS IdleCache ReadOnlyDepthRequest none).IsBuilt = true
      ∧ LastDepthStoreAction
          (SetRenderTargetsInfo SampleIOS IdleCache ReadOnlyDepthRequest none).Cache
          = some MTLStoreAction.Store
      ∧ LastDepthStoreAction
          (SetRenderTargetsInfo SampleMac IdleCache ReadOnlyDepthRequest none).Cache
          = some MTLStoreAction.DontCare := by
  refine ⟨rfl, rfl, rfl, by rfl, by rfl, by rfl⟩

/-- C24 (amended): in a completed new-pass build the format of the depth/stencil
texture is classified into has-depth and has-stencil (`Depth32Float`: depth
only; `Stencil8`: stencil only; `Depth32Float_Stencil8` under `METAL_API_1_1`
and `Depth24Unorm_Stencil8` under `METAL_API_1_1` on the Mac: both; any other
format, and a surface without driver texture: neither); a depth attachment is
built exactly for has-depth and a stencil attachment exactly for has-stencil;
the load action of each is the translation of the requested one; the store
action of each is, in the Mac build, the translation of the requested one for
a writable access and DontCare for a read-only access, and in every other build
the translation of the requested one; depth and stencil are decided
independently. -/
theorem depth_stencil_attachments (Platform : FMetalPlatform)
    (Cache Cache1 : FMetalStateCache) (In : FRHISetRenderTargetsInfo)
    (QueryBuffer : Option Nat)
    (hB : SetRenderTargetsInfo Platform Cache In QueryBuffer
      = FSetRenderTargetsResult.built Cache1) :
    (∃ RenderPass, LastRenderPass Cache1 = some RenderPass
      ∧ (∀ T, In.DepthStencilRenderTarget.Texture = some T →
          ((DepthStencilHalves Platform Cache1 T).1 = true →
            ∃ A, RenderPass.depthAttachment = some A
              ∧ A.texture = (Cache1.Surface T).Texture
              ∧ A.loadAction = GetMetalRTLoadAction In.DepthStencilRenderTarget.DepthLoadAction
              ∧ A.storeAction = DepthStoreActionOf Platform In.DepthStencilRenderTarget)
          ∧ ((DepthStencilHalves Platform Cache1 T).1 = false →
              RenderPass.depthAttachment = none)
          ∧ ((DepthStencilHalves Platform Cache1 T).2 = true →
            ∃ A, RenderPass.stencilAttachment = some A
              ∧ A.texture = (Cache1.Surface T).StencilTexture
              ∧ A.loadAction
                  = GetMetalRTLoadAction In.DepthStencilRenderTarget.StencilLoadAction
              ∧ A.storeAction = StencilStoreActionOf Platform In.DepthStencilRenderTarget)
          ∧ ((DepthStencilHalves Platform Cache1 T).2 = false →
              RenderPass.stencilAttachment = none))
      ∧ (In.DepthStencilRenderTarget.Texture = none →
          RenderPass.depthAttachment = none ∧ RenderPass.stencilAttachment = none))
    ∧ (∀ T, DepthStencilHalves Platform Cache1 T
        = match (Cache1.Surface T).Texture with
          | some X =>
            match X.pixelFormat with
            | MTLPixelFormat.Depth32Float => (true, false)
            | MTLPixelFormat.Stencil8 => (false, true)
            | MTLPixelFormat.Depth32Float_Stencil8 =>
              (Platform.METAL_API_1_1, Platform.METAL_API_1_1)
            | MTLPixelFormat.Depth24Unorm_Stencil8 =>
              (Platform.METAL_API_1_1 && Platform.PLATFORM_MAC,
                Platform.METAL_API_1_1 && Platform.PLATFORM_MAC)
            | _ => (false, false)
          | none => (false, false))
    ∧ (∀ View : FRHIDepthRenderTargetView,
        DepthStoreActionOf Platform View
            = (if Platform.PLATFORM_MAC = true then
                (if View.DepthStencilAccess.IsDepthWrite = true then
                  GetMetalRTStoreAction View.DepthStoreAction
                 else MTLStoreAction.DontCare)
               else GetMetalRTStoreAction View.DepthStoreAction)
          ∧ StencilStoreActionOf Platform View
            = (if Platform.PLATFORM_MAC = true then
                (if View.DepthStencilAccess.IsStencilWrite = true then
                  GetMetalRTStoreAction View.StencilStoreAction
                 else MTLStoreAction.DontCare)
               else GetMetalRTStoreAction View.StencilStoreAction)) := by
  obtain ⟨_, _, _, RenderPass, h1, h2, h3⟩ := built_desc Platform Cache Cache1 In QueryBuffer hB
  refine ⟨⟨RenderPass, h1, h2, h3⟩, ?_, ?_⟩
  · intro T
    unfold DepthStencilHalves pixelFormatOf SetRenderTargetsInfo.ClassifyDepthStencil
    cases (Cache1.Surface T).Texture with
    | none => rfl
    | some X =>
      simp only
      cases X.pixelFormat <;> cases Platform.METAL_API_1_1 <;> cases Platform.PLATFORM_MAC <;> rfl
  · intro View
    unfold DepthStoreActionOf StencilStoreActionOf
    cases Platform.PLATFORM_MAC <;> cases View.DepthStencilAccess.IsDepthWrite <;>
      cases View.DepthStencilAccess.IsStencilWrite <;> simp

theorem depth_stencil_attachments_witness :
    (SetRenderTargetsInfo SampleMac IdleCache ReadOnlyDepthRequest none).IsBuilt = true
      ∧ DepthStoreActionOf SampleMac ReadOnlyDepthRequest.DepthStencilRenderTarget
          = MTLStoreAction.DontCare
      ∧ DepthStoreActionOf SampleIOS ReadOnlyDepthRequest.DepthStencilRenderTarget
          = MTLStoreAction.Store
      ∧ ∃ RenderPass,
          LastRenderPass (SetRenderTargetsInfo SampleMac IdleCache ReadOnlyDepthRequest none).Cache
            = some RenderPass :=
  ⟨by rfl, by rfl, by rfl,
    (depth_stencil_attachments SampleMac IdleCache
      (SetRenderTargetsInfo SampleMac IdleCache ReadOnlyDepthRequest none).Cache
      ReadOnlyDepthRequest none (by rfl)).1.imp (fun _ h => h.1)⟩

/-! ## The state an aborted build leaves -/

/-- C27 (the code at the failing input): inside the pass on colour target 0 the
request binds colour target 0 and, in slot 1, the back buffer, which has no
driver texture while the swap chain hands out no drawable.  The build is
aborted at slot 1; the stored bindings are the request, the sample count is
what it was and the four state objects are kept, but the valid flag is true,
set by slot 0, and the render encoder of the old pass is still active: the
next `NeedsToSetRenderTarget` for the same request answers false, and the next
`SetRenderTargetsInfo` reuses the old pass without a driver call. -/
theorem aborted_build_left_reusable :
    (SetRenderTargetsInfo SampleMac RenderingCache (ColorRequest [0, 3]) none).IsAborted = true
      ∧ (SetRenderTargetsInfo SampleMac RenderingCache (ColorRequest [0, 3])
          none).Cache.RenderTargetsInfo = ColorRequest [0, 3]
      ∧ (SetRenderTargetsInfo SampleMac RenderingCache (ColorRequest [0, 3])
          none).Cache.PipelineDesc.SampleCount = RenderingCache.PipelineDesc.SampleCount
      ∧ (SetRenderTargetsInfo SampleMac RenderingCache (ColorRequest [0, 3])
          none).Cache.BlendState = RenderingCache.BlendState
      ∧ (SetRenderTargetsInfo SampleMac RenderingCache (ColorRequest [0, 3])
          none).Cache.bHasValidRenderTarget = true
      ∧ ¬ IsTrivialUnbind (ColorRequest [0, 3])
      ∧ NeedsToSetRenderTarget
          (SetRenderTargetsInfo SampleMac RenderingCache (ColorRequest [0, 3]) none).Cache
          (ColorRequest [0, 3]) = false
      ∧ (SetRenderTargetsInfo SampleMac
          (SetRenderTargetsInfo SampleMac RenderingCache (ColorRequest [0, 3]) none).Cache
          (ColorRequest [0, 3]) none).IsReused = true
      ∧ (SetRenderTargetsInfo SampleMac
          (SetRenderTargetsInfo SampleMac RenderingCache (ColorRequest [0, 3]) none).Cache
          (ColorRequest [0, 3]) none).Cache.CommandEncoder = RenderingCache.CommandEncoder := by
  refine ⟨by rfl, by rfl, by rfl, by rfl, by rfl, ?_, by rfl, by rfl, by rfl⟩
  intro h
  exact absurd h.1 (by decide)

/-! ## The pipeline key and the sample count after a build -/

theorem builtFields_sublist (Platform : FMetalPlatform) :
    List.Sublist
      ((List.range Platform.MaxMetalRenderTargets).map
          (fun Index => (Platform.RTBitOffsets Index, Platform.NumBits_RenderTargetFormat))
        ++ [(Platform.Offset_DepthFormat, Platform.NumBits_DepthFormat),
            (Platform.Offset_StencilFormat, Platform.NumBits_StencilFormat),
            (Platform.Offset_SampleCount, Platform.NumBits_SampleCount)])
      (PipelineFields Platform) := by
  unfold PipelineFields
  apply List.Sublist.append (List.sublist_append_right _ _)
  exact List.Sublist.cons₂ _ (List.Sublist.cons₂ _ (List.Sublist.cons₂ _ (List.nil_sublist _)))

theorem builtWrites_fields (Platform : FMetalPlatform) (Cache : FMetalStateCache)
    (In : FRHISetRenderTargetsInfo) (d s c : Nat) :
    (FormatWrites Platform Cache In Platform.MaxMetalRenderTargets
        ++ CommitWrites Platform d s c).map Prod.fst
      = (List.range Platform.MaxMetalRenderTargets).map
          (fun Index => (Platform.RTBitOffsets Index, Platform.NumBits_RenderTargetFormat))
        ++ [(Platform.Offset_DepthFormat, Platform.NumBits_DepthFormat),
            (Platform.Offset_StencilFormat, Platform.NumBits_StencilFormat),
            (Platform.Offset_SampleCount, Platform.NumBits_SampleCount)] := by
  simp only [FormatWrites, CommitWrites, List.map_append, List.map_map, List.map_cons,
    List.map_nil]
  rfl

theorem slotFormatKey_congr {A B : FMetalStateCache}
    (h : ∀ T, (A.Surface T).Static = (B.Surface T).Static) (In : FRHISetRenderTargetsInfo)
    (Index : Nat) : SlotFormatKey A In Index = SlotFormatKey B In Index := by
  unfold SlotFormatKey
  cases BoundColorTexture In Index with
  | none => rfl
  | some T => exact (static_fields (h T)).2.1

/-- C28: after `SetRenderTargetsInfo` has completed a new-pass build, with the
fields of the key pairwise disjoint, for every slot below
`MaxMetalRenderTargets` the render-target format field of the slot holds the
format key of the bound surface (masked to the width of the field, so the key
itself when it fits) when the slot is below the requested count with a texture,
and 0 otherwise; the depth-format field holds the format key of the
depth/stencil surface when a depth/stencil texture is bound and its format has
a depth half, else 0, and the stencil-format field likewise for the stencil
half. -/
theorem format_fields_after_build (Platform : FMetalPlatform)
    (Cache Cache1 : FMetalStateCache) (In : FRHISetRenderTargetsInfo)
    (QueryBuffer : Option Nat)
    (hB : SetRenderTargetsInfo Platform Cache In QueryBuffer
      = FSetRenderTargetsResult.built Cache1)
    (hFields : (PipelineFields Platform).Pairwise FieldsDisjoint) :
    (∀ Index T, Index < Platform.MaxMetalRenderTargets →
        Index < In.NumColorRenderTargets → (In.Color Index).Texture = some T →
        GetHashValue Cache1.PipelineDesc.Hash (Platform.RTBitOffsets Index)
            Platform.NumBits_RenderTargetFormat
          = (Cache.Surface T).FormatKey % 2 ^ Platform.NumBits_RenderTargetFormat
        ∧ ((Cache.Surface T).FormatKey < 2 ^ Platform.NumBits_RenderTargetFormat →
            GetHashValue Cache1.PipelineDesc.Hash (Platform.RTBitOffsets Index)
                Platform.NumBits_RenderTargetFormat
              = (Cache.Surface T).FormatKey))
      ∧ (∀ Index, Index < Platform.MaxMetalRenderTargets →
          (In.NumColorRenderTargets ≤ Index ∨ (In.Color Index).Texture = none) →
          GetHashValue Cache1.PipelineDesc.Hash (Platform.RTBitOffsets Index)
              Platform.NumBits_RenderTargetFormat = 0)
      ∧ GetHashValue Cache1.PipelineDesc.Hash Platform.Offset_DepthFormat
            Platform.NumBits_DepthFormat
          = (match In.DepthStencilRenderTarget.Texture with
             | some D =>
               if (DepthStencilHalves Platform Cache1 D).1 then (Cache.Surface D).FormatKey
               else 0
             | none => 0) % 2 ^ Platform.NumBits_DepthFormat
      ∧ GetHashValue Cache1.PipelineDesc.Hash Platform.Offset_StencilFormat
            Platform.NumBits_StencilFormat
          = (match In.DepthStencilRenderTarget.Texture with
             | some D =>
               if (DepthStencilHalves Platform Cache1 D).2 then (Cache.Surface D).FormatKey
               else 0
             | none => 0) % 2 ^ Platform.NumBits_StencilFormat := by
  obtain ⟨hStat, _, hH, _⟩ := built_desc Platform Cache Cache1 In QueryBuffer hB
  have hP : ((FormatWrites Platform Cache1 In Platform.MaxMetalRenderTargets
      ++ CommitWrites Platform (DepthKeyOf Platform Cache1 In) (StencilKeyOf Platform Cache1 In)
          Cache1.PipelineDesc.SampleCount).map Prod.fst).Pairwise FieldsDisjoint := by
    rw [builtWrites_fields]
    exact List.Pairwise.sublist (builtFields_sublist Platform) hFields
  have hR := writeFields_read _ Cache.PipelineDesc hP
  rw [← hH] at hR
  have hSlot : ∀ Index, Index < Platform.MaxMetalRenderTargets →
      GetHashValue Cache1.PipelineDesc.Hash (Platform.RTBitOffsets Index)
          Platform.NumBits_RenderTargetFormat
        = SlotFormatKey Cache In Index % 2 ^ Platform.NumBits_RenderTargetFormat := by
    intro Index hI
    rw [← slotFormatKey_congr hStat In Index]
    exact hR ((Platform.RTBitOffsets Index, Platform.NumBits_RenderTargetFormat),
      SlotFormatKey Cache1 In Index) (by
        refine List.mem_append_left _ ?_
        unfold FormatWrites
        exact List.mem_map.2 ⟨Index, List.mem_range.2 hI, rfl⟩)
  have hDepth := hR ((Platform.Offset_DepthFormat, Platform.NumBits_DepthFormat),
    DepthKeyOf Platform Cache1 In) (by
      refine List.mem_append_right _ ?_
      simp [CommitWrites])
  have hStencil := hR ((Platform.Offset_StencilFormat, Platform.NumBits_StencilFormat),
    StencilKeyOf Platform Cache1 In) (by
      refine List.mem_append_right _ ?_
      simp [CommitWrites])
  refine ⟨?_, ?_, ?_, ?_⟩
  · intro Index T hI hN hT
    have hK : SlotFormatKey Cache In Index = (Cache.Surface T).FormatKey := by
      simp only [SlotFormatKey, BoundColorTexture, hN, if_true, hT]
    have h := hSlot Index hI
    rw [hK] at h
    exact ⟨h, fun hFit => by rw [h, Nat.mod_eq_of_lt hFit]⟩
  · intro Index hI hU
    have hK : SlotFormatKey Cache In Index = 0 := by
      unfold SlotFormatKey BoundColorTexture
      rcases hU with hU | hU
      · rw [if_neg (by omega)]
      · split_ifs
        · rw [hU]
        · rfl
    rw [hSlot Index hI, hK, Nat.zero_mod]
  · rw [hDepth]
    unfold DepthKeyOf
    cases In.DepthStencilRenderTarget.Texture with
    | none => rfl
    | some D =>
      simp only
      rw [(static_fields (hStat D)).2.1]
  · rw [hStencil]
    unfold StencilKeyOf
    cases In.DepthStencilRenderTarget.Texture with
    | none => rfl
    | some D =>
      simp only
      rw [(static_fields (hStat D)).2.1]

theorem format_fields_after_build_witness :
    (PipelineFields SampleMac).Pairwise FieldsDisjoint
      ∧ GetHashValue
          (SetRenderTargetsInfo SampleMac RenderingCache GapRequest none).Cache.PipelineDesc.Hash
          (SampleMac.RTBitOffsets 0) SampleMac.NumBits_RenderTargetFormat = 1
      ∧ GetHashValue
          (SetRenderTargetsInfo SampleMac RenderingCache GapRequest none).Cache.PipelineDesc.Hash
          (SampleMac.RTBitOffsets 1) SampleMac.NumBits_RenderTargetFormat = 0
      ∧ GetHashValue
          (SetRenderTargetsInfo SampleMac RenderingCache GapRequest none).Cache.PipelineDesc.Hash
          SampleMac.Offset_DepthFormat SampleMac.NumBits_DepthFormat = 2 :=
  have h := format_fields_after_build SampleMac RenderingCache
    (SetRenderTargetsInfo SampleMac RenderingCache GapRequest none).Cache GapRequest none
    (by rfl) sampleMac_fields_disjoint
  ⟨sampleMac_fields_disjoint, (h.1 0 0 (by decide) (by decide) (by rfl)).2 (by decide),
    h.2.1 1 (by decide) (Or.inr (by rfl)), h.2.2.1.trans (by rfl)⟩

theorem colorSampleCount_unbound (Cache : FMetalStateCache) (In : FRHISetRenderTargetsInfo)
    (Start : Nat) : ∀ k, (∀ j, j < k → BoundColorTexture In j = none) →
    ColorSampleCount Cache In Start k = Start
  | 0, _ => rfl
  | k + 1, h => by
    show (match BoundColorTexture In k with
      | some Texture => SurfaceSampleCount (Cache.Surface Texture)
      | none => ColorSampleCount Cache In Start k) = Start
    rw [h k (by omega)]
    exact colorSampleCount_unbound Cache In Start k (fun j hj => h j (by omega))

theorem colorSampleCount_highest (Cache : FMetalStateCache) (In : FRHISetRenderTargetsInfo)
    (Start i T : Nat) (hT : BoundColorTexture In i = some T) :
    ∀ k, i < k → (∀ j, i < j → j < k → BoundColorTexture In j = none) →
    ColorSampleCount Cache In Start k = SurfaceSampleCount (Cache.Surface T)
  | 0, h, _ => by omega
  | k + 1, h, hN => by
    show (match BoundColorTexture In k with
      | some Texture => SurfaceSampleCount (Cache.Surface Texture)
      | none => ColorSampleCount Cache In Start k) = _
    by_cases hk : k = i
    · subst hk
      rw [hT]
    · rw [hN k (by omega) (by omega)]
      exact colorSampleCount_highest Cache In Start i T hT k (by omega)
        (fun j h1 h2 => hN j h1 (by omega))

theorem depthSampleCount_of_pos (Halves : Bool × Bool) (Surface : FMetalSurface) (Count : Nat)
    (h : Count ≠ 0) : DepthSampleCount Halves Surface Count = Count := by
  unfold DepthSampleCount
  simp only [h, if_false]
  split_ifs <;> rfl

theorem halves_texture (Platform : FMetalPlatform) (Cache : FMetalStateCache) (T : Nat)
    (h : (DepthStencilHalves Platform Cache T).1 = true) :
    ∃ X, (Cache.Surface T).Texture = some X := by
  cases hX : (Cache.Surface T).Texture with
  | some X => exact ⟨X, rfl⟩
  | none =>
    unfold DepthStencilHalves at h
    rw [hX] at h
    exact absurd h (by simp [pixelFormatOf, SetRenderTargetsInfo.ClassifyDepthStencil])

/-- C29: after `SetRenderTargetsInfo` has completed a new-pass build, sample
counts of driver textures being at least 1, the pipeline sample count is decided
by the highest bound colour slot: the sample count of the multisample texture
of its surface when it has one, else 1; when no colour slot is bound it is the
sample count of the depth texture if a depth attachment was built, else that of
the stencil texture if a stencil attachment was built, else 0; and the
sample-count field of the key holds this count (masked to the width of the
field). -/
theorem sample_count_after_build (Platform : FMetalPlatform)
    (Cache Cache1 : FMetalStateCache) (In : FRHISetRenderTargetsInfo)
    (QueryBuffer : Option Nat)
    (hB : SetRenderTargetsInfo Platform Cache In QueryBuffer
      = FSetRenderTargetsResult.built Cache1)
    (hPos : PositiveSampleCounts Cache1 In) :
    (∀ Index T, Index < Platform.MaxMetalRenderTargets →
        BoundColorTexture In Index = some T →
        (∀ Higher, Index < Higher → Higher < Platform.MaxMetalRenderTargets →
          BoundColorTexture In Higher = none) →
        Cache1.PipelineDesc.SampleCount
          = (match (Cache.Surface T).MSAATexture with
             | some MSAATexture => MSAATexture.sampleCount
             | none => 1))
      ∧ ((∀ Index, Index < Platform.MaxMetalRenderTargets →
            BoundColorTexture In Index = none) →
          Cache1.PipelineDesc.SampleCount
            = (match In.DepthStencilRenderTarget.Texture with
               | some D =>
                 if (DepthStencilHalves Platform Cache1 D).1 = true then
                   sampleCountOf (Cache1.Surface D).Texture
                 else if (DepthStencilHalves Platform Cache1 D).2 = true then
                   sampleCountOf (Cache1.Surface D).StencilTexture
                 else 0
               | none => 0))
      ∧ GetHashValue Cache1.PipelineDesc.Hash Platform.Offset_SampleCount
            Platform.NumBits_SampleCount
          = Cache1.PipelineDesc.SampleCount % 2 ^ Platform.NumBits_SampleCount := by
  obtain ⟨hStat, hS, hH, _⟩ := built_desc Platform Cache Cache1 In QueryBuffer hB
  obtain ⟨hPosC, hPosD⟩ := hPos
  refine ⟨?_, ?_, ?_⟩
  · intro Index T hI hT hHigh
    have hC := colorSampleCount_highest Cache1 In 0 Index T hT Platform.MaxMetalRenderTargets hI
      hHigh
    have hNe : SurfaceSampleCount (Cache1.Surface T) ≠ 0 := by
      unfold SurfaceSampleCount
      cases hM : (Cache1.Surface T).MSAATexture with
      | none => simp
      | some X =>
        have := hPosC Index T X hT hM
        simp only
        omega
    have hEq : SurfaceSampleCount (Cache1.Surface T)
        = (match (Cache.Surface T).MSAATexture with
           | some MSAATexture => MSAATexture.sampleCount
           | none => 1) := by
      unfold SurfaceSampleCount
      rw [(static_fields (hStat T)).2.2.2.2.2.1]
    rw [hS, ← hEq]
    unfold BuiltSampleCount
    cases In.DepthStencilRenderTarget.Texture with
    | none => exact hC
    | some D =>
      simp only
      rw [hC]
      exact depthSampleCount_of_pos _ _ _ hNe
  · intro hNone
    have hC := colorSampleCount_unbound Cache1 In 0 Platform.MaxMetalRenderTargets hNone
    rw [hS]
    unfold BuiltSampleCount
    cases hD : In.DepthStencilRenderTarget.Texture with
    | none => exact hC
    | some D =>
      simp only
      rw [hC]
      unfold DepthSampleCount
      cases h1 : (DepthStencilHalves Platform Cache1 D).1 with
      | false =>
        cases h2 : (DepthStencilHalves Platform Cache1 D).2 <;> simp
      | true =>
        obtain ⟨X, hX⟩ := halves_texture Platform Cache1 D h1
        have hX0 : sampleCountOf (Cache1.Surface D).Texture ≠ 0 := by
          have := hPosD D X hD hX
          rw [hX]
          show X.sampleCount ≠ 0
          omega
        cases h2 : (DepthStencilHalves Platform Cache1 D).2 <;> simp [hX0]
  · have hLast : FormatWrites Platform Cache1 In Platform.MaxMetalRenderTargets
          ++ CommitWrites Platform (DepthKeyOf Platform Cache1 In)
              (StencilKeyOf Platform Cache1 In) Cache1.PipelineDesc.SampleCount
        = (FormatWrites Platform Cache1 In Platform.MaxMetalRenderTargets
            ++ [((Platform.Offset_DepthFormat, Platform.NumBits_DepthFormat),
                  DepthKeyOf Platform Cache1 In),
                ((Platform.Offset_StencilFormat, Platform.NumBits_StencilFormat),
                  StencilKeyOf Platform Cache1 In)])
          ++ [((Platform.Offset_SampleCount, Platform.NumBits_SampleCount),
                Cache1.PipelineDesc.SampleCount)] := by
      simp [CommitWrites]
    rw [hH, hLast, writeFields_append]
    exact setHashValue_read _ _ _ _

theorem sample_count_after_build_witness :
    PositiveSampleCounts
        (SetRenderTargetsInfo SampleMac RenderingCache (ColorRequest [4]) none).Cache
        (ColorRequest [4])
      ∧ (SetRenderTargetsInfo SampleMac RenderingCache (ColorRequest [4])
          none).Cache.PipelineDesc.SampleCount = 4
      ∧ GetHashValue
          (SetRenderTargetsInfo SampleMac RenderingCache (ColorRequest [4])
            none).Cache.PipelineDesc.Hash
          SampleMac.Offset_SampleCount SampleMac.NumBits_SampleCount = 4 :=
  have hPos : PositiveSampleCounts
      (SetRenderTargetsInfo SampleMac RenderingCache (ColorRequest [4]) none).Cache
      (ColorRequest [4]) :=
    ⟨fun Index T X hT hX => by
      match Index with
      | 0 =>
        have hT4 : T = 4 := (Option.some.inj hT).symm
        subst hT4
        have hX4 : X = { Handle := 24, pixelFormat := MTLPixelFormat.Color 80, sampleCount := 4 } :=
          (Option.some.inj hX).symm
        subst hX4
        decide
      | _ + 1 => exact absurd hT (by simp [BoundColorTexture, ColorRequest]),
    fun T X hT _ => absurd hT (by simp [ColorRequest])⟩
  have h := sample_count_after_build SampleMac RenderingCache
    (SetRenderTargetsInfo SampleMac RenderingCache (ColorRequest [4]) none).Cache
    (ColorRequest [4]) none (by rfl) hPos
  ⟨hPos, (h.1 0 4 (by decide) (by rfl) (fun Higher h1 _ => by
      match Higher with
      | 0 => omega
      | _ + 1 => simp [BoundColorTexture, ColorRequest])).trans (by rfl),
    h.2.2.trans (by rfl)⟩

/-! ## The stored bindings of a reachable state -/

theorem colorTarget_info (Platform : FMetalPlatform) (Index : Nat)
    (Cache : FMetalStateCache) (Locals : FPassLocals) :
    (SetRenderTargetsInfo.ColorTarget Platform Index Cache Locals).Cache.RenderTargetsInfo
      = Cache.RenderTargetsInfo := by
  cases hB : BoundColorTexture Cache.RenderTargetsInfo Index with
  | none =>
    obtain ⟨c, hE, hF, _, _⟩ := colorTarget_unbound Platform Index Cache Locals hB
    rw [hE]
    exact hF.info
  | some T =>
    obtain ⟨hF, _, _, _⟩ := updateExtent_frame Platform Cache Locals.bFramebufferSizeSet
      (max ((Cache.Surface T).SizeX >>> (Cache.RenderTargetsInfo.Color Index).MipIndex) 1)
      (max ((Cache.Surface T).SizeY >>> (Cache.RenderTargetsInfo.Color Index).MipIndex) 1)
    unfold SetRenderTargetsInfo.ColorTarget
    rw [hB]
    simp only
    rcases updateBackBuffer_spec Platform
      (SetRenderTargetsInfo.UpdateExtent Cache Locals.bFramebufferSizeSet
        (max ((Cache.Surface T).SizeX >>> (Cache.RenderTargetsInfo.Color Index).MipIndex) 1)
        (max ((Cache.Surface T).SizeY >>> (Cache.RenderTargetsInfo.Color Index).MipIndex) 1))
      T with
      ⟨Cache2, hEq, hInfo, _⟩ | ⟨hEq, _⟩
    · rw [hEq]
      simp only
      split
      · exact hInfo.trans hF.info
      · split
        · exact hInfo.trans hF.info
        · exact hInfo.trans hF.info
    · rw [hEq]
      exact hF.info

theorem colorTargets_info (Platform : FMetalPlatform) :
    ∀ (n i : Nat) (Cache : FMetalStateCache) (Locals : FPassLocals),
      (SetRenderTargetsInfo.ColorTargets Platform n i Cache Locals).Cache.RenderTargetsInfo
        = Cache.RenderTargetsInfo := by
  intro n
  induction n with
  | zero => intro i Cache Locals; rfl
  | succ n ih =>
    intro i Cache Locals
    have h := colorTarget_info Platform i Cache Locals
    simp only [SetRenderTargetsInfo.ColorTargets]
    cases hS : SetRenderTargetsInfo.ColorTarget Platform i Cache Locals with
    | next c l =>
      rw [hS] at h
      simp only
      rw [ih (i + 1) c l]
      exact h
    | abort c => rw [hS] at h; exact h
    | fatal r c => rw [hS] at h; exact h

theorem depthStencil_info (Platform : FMetalPlatform) (Cache : FMetalStateCache)
    (Locals : FPassLocals) :
    (SetRenderTargetsInfo.DepthStencil Platform Cache Locals).1.RenderTargetsInfo
      = Cache.RenderTargetsInfo := by
  unfold SetRenderTargetsInfo.DepthStencil
  simp only
  cases hT : Cache.RenderTargetsInfo.DepthStencilRenderTarget.Texture with
  | none => rfl
  | some T =>
    simp only
    have hU : ∀ (C : FMetalStateCache) (b : Bool) (w h : Nat),
        (SetRenderTargetsInfo.UpdateExtent C b w h).RenderTargetsInfo = C.RenderTargetsInfo := by
      intro C b w h
      cases b <;> rfl
    split_ifs <;> first | rfl | exact hU _ _ _ _

/-- The stored bindings after `SetRenderTargetsInfo`, however it ends: those
stored before, or the request, and then `NeedsToSetRenderTarget` has answered
true for it. -/
theorem setRenderTargetsInfo_info (Platform : FMetalPlatform) (Cache : FMetalStateCache)
    (In : FRHISetRenderTargetsInfo) (QueryBuffer : Option Nat) :
    (SetRenderTargetsInfo Platform Cache In QueryBuffer).Cache.RenderTargetsInfo
        = Cache.RenderTargetsInfo
      ∨ ((SetRenderTargetsInfo Platform Cache In QueryBuffer).Cache.RenderTargetsInfo = In
          ∧ NeedsToSetRenderTarget (ConditionalSwitchToRender Cache) In = true) := by
  have hSw : (ConditionalSwitchToRender Cache).RenderTargetsInfo = Cache.RenderTargetsInfo := by
    unfold ConditionalSwitchToRender SetHasValidRenderTarget
    simp only
    split <;> split <;> rfl
  unfold SetRenderTargetsInfo
  simp only
  split
  · rename_i hN
    right
    refine ⟨?_, hN⟩
    unfold SetRenderTargetsInfo.Build
    simp only
    have hL := colorTargets_info Platform Platform.MaxMetalRenderTargets 0
      (SetRenderTargetsInfo.Enter Platform (ConditionalSwitchToRender Cache) In QueryBuffer).1
      (SetRenderTargetsInfo.Enter Platform (ConditionalSwitchToRender Cache) In QueryBuffer).2
    have hEnter : (SetRenderTargetsInfo.Enter Platform (ConditionalSwitchToRender Cache) In
        QueryBuffer).1.RenderTargetsInfo = In := rfl
    rw [hEnter] at hL
    cases hS : SetRenderTargetsInfo.ColorTargets Platform Platform.MaxMetalRenderTargets 0
        (SetRenderTargetsInfo.Enter Platform (ConditionalSwitchToRender Cache) In QueryBuffer).1
        (SetRenderTargetsInfo.Enter Platform (ConditionalSwitchToRender Cache) In
          QueryBuffer).2 with
    | abort c => rw [hS] at hL; exact hL
    | fatal r c => rw [hS] at hL; exact hL
    | next c l =>
      rw [hS] at hL
      simp only
      cases hLC : SetRenderTargetsInfo.LayeredCheck Platform l with
      | none => exact hL
      | some l2 =>
        have hD := depthStencil_info Platform c l2
        simp only [FLoopStep.Cache] at hL
        simp only [FSetRenderTargetsResult.Cache, SetRenderTargetsInfo.Commit, hD, hL]
  · exact Or.inl hSw

/-- No function of the cache ever stores the trivial unbind: the constructor
stores a request without colour target, and `SetRenderTargetsInfo` stores a
request only after `NeedsToSetRenderTarget` has answered true for it, which it
never does for the trivial unbind. -/
theorem reachable_stored_not_unbind (Platform : FMetalPlatform) (Cache : FMetalStateCache)
    (h : Reachable Platform Cache) : ¬ IsTrivialUnbind Cache.RenderTargetsInfo := by
  induction h with
  | constructed E Desc Slots Textures Supply Acquired =>
    intro hU
    have h0 : (0 : Nat) = 1 := hU.1
    exact absurd h0 (by decide)
  | surroundings E Textures Supply Acquired _ ih => exact ih
  | setBlendFactor In _ ih => exact ih
  | setStencilRef In _ ih => exact ih
  | @setBlendState Cache In _ ih =>
    have hE : (SetBlendState Platform Cache In).RenderTargetsInfo = Cache.RenderTargetsInfo := by
      cases In <;> rfl
    rw [hE]; exact ih
  | @setDepthStencilState Cache In _ ih =>
    have hE : (SetDepthStencilState Cache In).RenderTargetsInfo = Cache.RenderTargetsInfo := by
      cases In <;> rfl
    rw [hE]; exact ih
  | @setRasterizerState Cache In _ ih =>
    have hE : (SetRasterizerState Cache In).RenderTargetsInfo = Cache.RenderTargetsInfo := by
      cases In <;> rfl
    rw [hE]; exact ih
  | setBoundShaderState In _ ih => exact ih
  | setComputeShader In _ ih => exact ih
  | @setRenderTargetsInfo Cache In QueryBuffer _ ih =>
    rcases setRenderTargetsInfo_info Platform Cache In QueryBuffer with hE | ⟨hE, hN⟩
    · rw [hE]; exact ih
    · rw [hE]
      intro hU
      rw [needs_false_of_unbind _ In hU] at hN
      exact absurd hN (by simp)
  | setHasValidRenderTarget In _ ih => exact ih
  | setViewport In _ ih => exact ih
  | @setVertexBuffer Cache Index Buffer Stride Offset _ ih =>
    have hE : (SetVertexBuffer Platform Cache Index Buffer Stride Offset).Cache.RenderTargetsInfo
        = Cache.RenderTargetsInfo := by
      unfold SetVertexBuffer
      split
      · cases Buffer <;> rfl
      · rfl
    rw [hE]; exact ih
  | setCurrentLayer In _ ih => exact ih
  | setPrimitiveTopology In _ ih => exact ih
  | @conditionalSwitchToRender Cache _ ih =>
    have hE : (ConditionalSwitchToRender Cache).RenderTargetsInfo = Cache.RenderTargetsInfo := by
      unfold ConditionalSwitchToRender SetHasValidRenderTarget
      simp only
      split <;> split <;> rfl
    rw [hE]; exact ih
  | @conditionalSwitchToCompute Cache _ ih =>
    have hE : (ConditionalSwitchToCompute Cache).RenderTargetsInfo = Cache.RenderTargetsInfo := by
      unfold ConditionalSwitchToCompute
      simp only
      split <;> split <;> rfl
    rw [hE]; exact ih
  | @conditionalSwitchToBlit Cache _ ih =>
    have hE : (ConditionalSwitchToBlit Cache).RenderTargetsInfo = Cache.RenderTargetsInfo := by
      unfold ConditionalSwitchToBlit
      simp only
      split <;> split <;> rfl
    rw [hE]; exact ih
  | @resetCurrentDrawable Cache _ ih =>
    have hE : (ResetCurrentDrawable Cache).RenderTargetsInfo = Cache.RenderTargetsInfo := by
      unfold ResetCurrentDrawable
      split <;> rfl
    rw [hE]; exact ih
  | @conditionalUpdateBackBuffer Cache Texture _ ih =>
    have hE : (ConditionalUpdateBackBuffer Platform Cache Texture).Cache.RenderTargetsInfo
        = Cache.RenderTargetsInfo := by
      rcases updateBackBuffer_spec Platform Cache Texture with ⟨c, hEq, hInfo, _⟩ | ⟨hEq, _⟩
      · rw [hEq]; exact hInfo
      · rw [hEq]; rfl
    rw [hE]; exact ih

/-- C2: for every state the cache can be in and every request with at least one
colour slot that is identical to the stored bindings except that colour slot 0
asks for load action Clear, `NeedsToSetRenderTarget` answers true. -/
theorem clear_at_slot0_forces_new_pass (Platform : FMetalPlatform) (Cache : FMetalStateCache)
    (In : FRHISetRenderTargetsInfo) (hR : Reachable Platform Cache)
    (hN : 1 ≤ In.NumColorRenderTargets)
    (hS : SameExceptClearAtSlot0 Cache.RenderTargetsInfo In) :
    NeedsToSetRenderTarget Cache In = true := by
  have hStored := reachable_stored_not_unbind Platform Cache hR
  have hU : ¬ IsTrivialUnbind In := by
    intro hU
    apply hStored
    obtain ⟨h1, h2, h3⟩ := hU
    refine ⟨hS.1 ▸ h1, ?_, hS.2.1 ▸ h3⟩
    rw [hS.2.2.1] at h2
    exact h2
  apply needs_true_of_clear Cache In hN _ hU
  rw [hS.2.2.1]

theorem clear_at_slot0_forces_new_pass_witness :
    Reachable SampleMac FirstPassCache
      ∧ FirstPassCache.RenderTargetsInfo = ColorRequest [0]
      ∧ FirstPassCache.bHasValidRenderTarget = true
      ∧ FirstPassCache.CommandEncoder.IsRenderCommandEncoderActive = true
      ∧ NeedsToSetRenderTarget FirstPassCache (ColorRequest [0]) = false
      ∧ NeedsToSetRenderTarget FirstPassCache ClearRequest = true :=
  have hR : Reachable SampleMac FirstPassCache :=
    Reachable.setRenderTargetsInfo (ColorRequest [0]) none
      (Reachable.setCurrentLayer 1
        (Reachable.constructed { Mode := EMetalEncoderMode.None, Calls := [] }
          IdleCache.PipelineDesc 8 SampleTextures [] 0))
  ⟨hR, by rfl, by rfl, by rfl, by rfl,
    clear_at_slot0_forces_new_pass SampleMac FirstPassCache ClearRequest hR (by decide)
      ⟨rfl, rfl, rfl, fun Index hI => by
        cases Index with
        | zero => exact absurd rfl hI
        | succ n => rfl⟩⟩

end MetalStateCache
